import Mathlib

/-!
# High bit-depth convolution (aom_dsp/x86/highbd_convolve_avx2.c)

A shallow embedding of the AVX2 high bit-depth sub-pixel filters.

* Sample memory is a map from sample addresses (units of `uint16_t`) to
  naturals; every access reads a sample modulo `2^16`.
* A vector register is a map from byte index to byte value.  The typed views
  `w16` / `d32` read 16-bit and 32-bit little-endian lanes, `s16` / `s32`
  give their two's complement value.
* The source picture is `const` in every function and is kept apart from the
  destination memory, which is threaded through the stores.
-/

namespace Aom

/-- Sample memory, addressed in units of `uint16_t`. -/
abbrev Mem := Int → Nat

/-- Vector register, byte index to byte value. -/
abbrev Reg := Nat → Nat

/-- Array of vector registers (`__m256i x[n]`). -/
abbrev RegArr := Nat → Reg

/-! ## Typed views of a register -/

/-- Unsigned 16-bit lane `k`. -/
def w16 (r : Reg) (k : Nat) : Nat := r (2 * k) % 256 + 256 * (r (2 * k + 1) % 256)

/-- Unsigned 32-bit lane `k`. -/
def d32 (r : Reg) (k : Nat) : Nat :=
  r (4 * k) % 256 + 256 * (r (4 * k + 1) % 256) + 65536 * (r (4 * k + 2) % 256)
    + 16777216 * (r (4 * k + 3) % 256)

/-- Two's complement value of a 16-bit pattern. -/
def s16 (x : Nat) : Int :=
  if x % 65536 < 32768 then ((x % 65536 : Nat) : Int) else ((x % 65536 : Nat) : Int) - 65536

/-- Two's complement value of a 32-bit pattern. -/
def s32 (x : Nat) : Int :=
  if x % 4294967296 < 2147483648 then ((x % 4294967296 : Nat) : Int)
  else ((x % 4294967296 : Nat) : Int) - 4294967296

/-- The 32-bit pattern of an integer (wrap-around). -/
def u32 (v : Int) : Nat := (v % 4294967296).toNat

/-- The 16-bit pattern of an integer (wrap-around). -/
def u16 (v : Int) : Nat := (v % 65536).toNat

/-- Register whose 16-bit lane `k` holds `f k` (truncated to 16 bits). -/
def ofW16 (f : Nat → Nat) : Reg := fun i => f (i / 2) / 256 ^ (i % 2) % 256

/-- Register whose 32-bit lane `k` holds `f k` (truncated to 32 bits). -/
def ofD32 (f : Nat → Nat) : Reg := fun i => f (i / 4) / 256 ^ (i % 4) % 256

/-- Keep the first `n` bytes, zero the rest. -/
def lowBytes (n : Nat) (r : Reg) : Reg := fun i => if i < n then r i else 0

/-! ## Loads and stores -/

/-- Unaligned load of `n` consecutive samples starting at `p`; the remaining
bytes of the register are zero. -/
def loadu (n : Nat) (m : Mem) (p : Int) : Reg :=
  fun i => if i < 2 * n then m (p + ((i / 2 : Nat) : Int)) / 256 ^ (i % 2) % 256 else 0

/-- Unaligned store of the first `n` 16-bit lanes of `r` to `p`. -/
def storeu (n : Nat) (m : Mem) (p : Int) (r : Reg) : Mem :=
  fun a => if p ≤ a ∧ a < p + (n : Int) then w16 r (a - p).toNat else m a

/-- The 256-bit load `_mm256_loadu_si256`. -/
def mm256_loadu_si256 (m : Mem) (p : Int) : Reg := loadu 16 m p
/-- The 128-bit load `_mm_loadu_si128`. -/
def mm_loadu_si128 (m : Mem) (p : Int) : Reg := loadu 8 m p
/-- The 64-bit load `_mm_loadl_epi64` (upper half zeroed). -/
def mm_loadl_epi64 (m : Mem) (p : Int) : Reg := loadu 4 m p
/-- The 256-bit store `_mm256_storeu_si256`. -/
def mm256_storeu_si256 (m : Mem) (p : Int) (r : Reg) : Mem := storeu 16 m p r
/-- The 128-bit store `_mm_storeu_si128`. -/
def mm_storeu_si128 (m : Mem) (p : Int) (r : Reg) : Mem := storeu 8 m p r
/-- The 64-bit store `_mm_storel_epi64`. -/
def mm_storel_epi64 (m : Mem) (p : Int) (r : Reg) : Mem := storeu 4 m p r

/-- The call `memcpy(dst, src, n * sizeof(uint16_t))`. -/
def memcpy (src : Mem) (s : Int) (m : Mem) (d : Int) (n : Nat) : Mem :=
  fun a => if d ≤ a ∧ a < d + (n : Int) then src (s + (a - d)) % 65536 else m a

/-! ## Vector instructions

Lane-wise instructions are given once; the 128-bit and the 256-bit form of
an instruction differ only in how many lanes are later observed. -/

/-- Unsigned saturation of a signed 32-bit value to 16 bits. -/
def satu16 (v : Int) : Nat := if v < 0 then 0 else if 65535 < v then 65535 else v.toNat

/-- Broadcast `_mm256_set1_epi16` / `_mm_set1_epi16`. -/
def mm_set1_epi16 (v : Int) : Reg := ofW16 (fun _ => u16 v)

/-- Broadcast `_mm256_set1_epi32` / `_mm_set1_epi32`. -/
def mm_set1_epi32 (v : Int) : Reg := ofD32 (fun _ => u32 v)

/-- Byte shuffle `_mm256_shuffle_epi8` / `_mm_shuffle_epi8`: within each 128-bit lane, byte
`i` is zero when bit 7 of the control byte is set, else the byte of `a`
selected by the low four control bits. -/
def mm_shuffle_epi8 (a b : Reg) : Reg :=
  fun i => if 128 ≤ b i % 256 then 0 else a (16 * (i / 16) + b i % 16)

/-- Cross-lane dword permutation `_mm256_permutevar8x32_epi32`. -/
def mm256_permutevar8x32_epi32 (a idx : Reg) : Reg :=
  fun i => a (4 * (d32 idx (i / 4) % 8) + i % 4)

/-- One 128-bit half selected by a 4-bit control of `_mm256_permute2x128_si256`. -/
def select128 (a b : Reg) (ctl : Nat) (i : Nat) : Nat :=
  if ctl / 8 % 2 = 1 then 0
  else if ctl % 4 = 0 then a i
  else if ctl % 4 = 1 then a (16 + i)
  else if ctl % 4 = 2 then b i
  else b (16 + i)

/-- The 128-bit lane permutation `_mm256_permute2x128_si256`. -/
def mm256_permute2x128_si256 (a b : Reg) (imm : Nat) : Reg :=
  fun i => if i < 16 then select128 a b (imm % 16) i else select128 a b (imm / 16 % 16) (i - 16)

/-- The cast `_mm256_castsi128_si256`; the upper half, which the instruction set leaves
unspecified, is taken as zero (it is always overwritten before use). -/
def mm256_castsi128_si256 (a : Reg) : Reg := lowBytes 16 a

/-- The cast `_mm256_castsi256_si128`: the low 128 bits. -/
def mm256_castsi256_si128 (a : Reg) : Reg := lowBytes 16 a

/-- The extraction `_mm256_extractf128_si256(a, 1)`: the high 128 bits. -/
def mm256_extractf128_si256_1 (a : Reg) : Reg := fun i => if i < 16 then a (i + 16) else 0

/-- The insertion `_mm256_insertf128_si256(a, b, 1)` / `_mm256_inserti128_si256(a, b, 1)`:
`b` replaces the high 128 bits of `a`. -/
def mm256_insertf128_si256_1 (a b : Reg) : Reg := fun i => if i < 16 then a i else b (i - 16)

/-- Interleave `_mm256_unpacklo_epi16` / `_mm_unpacklo_epi16`: the low four words of each
128-bit lane of `a` and `b`, interleaved. -/
def mm_unpacklo_epi16 (a b : Reg) : Reg :=
  fun i =>
    let w := i % 16 / 2
    let p := 16 * (i / 16) + 2 * (w / 2) + i % 2
    if w % 2 = 0 then a p else b p

/-- Interleave `_mm256_unpackhi_epi16` / `_mm_unpackhi_epi16`: the high four words of each
128-bit lane of `a` and `b`, interleaved. -/
def mm_unpackhi_epi16 (a b : Reg) : Reg :=
  fun i =>
    let w := i % 16 / 2
    let p := 16 * (i / 16) + 8 + 2 * (w / 2) + i % 2
    if w % 2 = 0 then a p else b p

/-- Multiply-add `_mm256_madd_epi16` / `_mm_madd_epi16`: signed 16-bit products, adjacent
pairs added into a 32-bit lane. -/
def mm_madd_epi16 (a b : Reg) : Reg :=
  ofD32 (fun k => u32 (s16 (w16 a (2 * k)) * s16 (w16 b (2 * k))
    + s16 (w16 a (2 * k + 1)) * s16 (w16 b (2 * k + 1))))

/-- Wrapping 32-bit addition `_mm256_add_epi32` / `_mm_add_epi32`. -/
def mm_add_epi32 (a b : Reg) : Reg := ofD32 (fun k => (d32 a k + d32 b k) % 4294967296)

/-- Signed 32-bit minimum `_mm256_min_epi32`. -/
def mm_min_epi32 (a b : Reg) : Reg :=
  ofD32 (fun k => if s32 (d32 a k) ≤ s32 (d32 b k) then d32 a k else d32 b k)

/-- Signed 32-bit maximum `_mm256_max_epi32`. -/
def mm_max_epi32 (a b : Reg) : Reg :=
  ofD32 (fun k => if s32 (d32 a k) ≤ s32 (d32 b k) then d32 b k else d32 a k)

/-- Arithmetic right shift `_mm256_srai_epi32` / `_mm_srai_epi32`. -/
def mm_srai_epi32 (a : Reg) (n : Nat) : Reg :=
  ofD32 (fun k => u32 (s32 (d32 a k) / 2 ^ n))

/-- The 128-bit pack `_mm_packus_epi32`: eight words, unsigned saturation. -/
def mm_packus_epi32 (a b : Reg) : Reg :=
  ofW16 (fun k => if k < 4 then satu16 (s32 (d32 a k)) else satu16 (s32 (d32 b (k - 4))))

/-- The 256-bit pack `_mm256_packus_epi32`: in each 128-bit lane, the four dwords of `a`
then the four dwords of `b`, unsigned saturation. -/
def mm256_packus_epi32 (a b : Reg) : Reg :=
  ofW16 (fun k =>
    if k % 8 < 4 then satu16 (s32 (d32 a (4 * (k / 8) + k % 8)))
    else satu16 (s32 (d32 b (4 * (k / 8) + (k % 8 - 4)))))

/-- Signed 16-bit minimum `_mm256_min_epi16` / `_mm_min_epi16`. -/
def mm_min_epi16 (a b : Reg) : Reg :=
  ofW16 (fun k => if s16 (w16 a k) ≤ s16 (w16 b k) then w16 a k else w16 b k)

/-- Unsigned rounding average `_mm256_avg_epu16` / `_mm_avg_epu16`. -/
def mm_avg_epu16 (a b : Reg) : Reg := ofW16 (fun k => (w16 a k + w16 b k + 1) / 2)

/-- Register array from a list of registers. -/
def regs (l : List Reg) : RegArr := fun j => l.getD j (fun _ => 0)

/-- Load of a `uint8_t[32]` table into a register. -/
def loadTable8 (l : List Nat) : Reg := fun i => l.getD i 0

/-- Load of a `uint32_t[8]` table into a register. -/
def loadTable32 (l : List Nat) : Reg := ofD32 (fun k => l.getD k 0)

/-- Load of eight `int16_t` filter taps (`_mm_loadu_si128` on the kernel). -/
def loadFilter (filter : Nat → Int) : Reg := ofW16 (fun k => if k < 8 then u16 (filter k) else 0)

/-! ## Copy -/

/-- Loop state of the row helpers: remaining width, source and destination
pointers, destination memory. -/
structure RowSt where
  width : Nat
  src : Int
  dst : Int
  mem : Mem

/-- One `while (width >= n) { p = load(src); store(dst, p); src += n; dst += n;
width -= n; }` loop of `convolve_copy_row`, for the chunk size `n + 1`. -/
def copy_chunks (n : Nat) (src : Mem) (st : RowSt) : RowSt :=
  if n + 1 ≤ st.width then
    copy_chunks n src
      { width := st.width - (n + 1), src := st.src + ((n + 1 : Nat) : Int),
        dst := st.dst + ((n + 1 : Nat) : Int),
        mem := storeu (n + 1) st.mem st.dst (loadu (n + 1) src st.src) }
  else st
termination_by st.width
decreasing_by simp_wf; omega

/-- The function `convolve_copy_row`: 16-, 8- and 4-sample chunks, then `memcpy` of the
tail. -/
def convolve_copy_row (src : Mem) (s : Int) (m : Mem) (d : Int) (width : Nat) : Mem :=
  let st := copy_chunks 15 src { width := width, src := s, dst := d, mem := m }
  let st := copy_chunks 7 src st
  let st := copy_chunks 3 src st
  if st.width ≠ 0 then memcpy src st.src st.mem st.dst st.width else st.mem

/-- Row loop of `aom_highbd_convolve_copy_avx2`:
`do { convolve_copy_row(src, dst, width); h -= 1; src += src_stride; dst += dst_stride; }
while (h > 0);`. -/
def copy_rows (src : Mem) (src_stride dst_stride : Int) (width : Nat)
    (h : Int) (s d : Int) (m : Mem) : Mem :=
  let m1 := convolve_copy_row src s m d width
  if 0 < h - 1 then copy_rows src src_stride dst_stride width (h - 1) (s + src_stride)
    (d + dst_stride) m1
  else m1
termination_by h.toNat
decreasing_by simp_wf; omega

/-- The function `aom_highbd_convolve_copy_avx2`.  `CONVERT_TO_SHORTPTR` is the identity on
sample addresses; the filter arguments and `bd` are accepted and unused. -/
def aom_highbd_convolve_copy_avx2 (srcm : Mem) (src : Int) (src_stride : Int)
    (dstm : Mem) (dst : Int) (dst_stride : Int)
    (_filter_x : Nat → Int) (_filter_x_stride : Int)
    (_filter_y : Nat → Int) (_filter_y_stride : Int)
    (width : Nat) (h : Int) (_bd : Nat) : Mem :=
  copy_rows srcm src_stride dst_stride width h src dst dstm

/-! ## Copy with averaging -/

/-- Modelled from the spec: the macro `ROUND_POWER_OF_TWO(value, n)` of aom_ports, which
is not part of the excerpt; the copy-average contract is round-half-up division,
`(value + (1 << (n - 1))) >> n`. -/
def ROUND_POWER_OF_TWO (value : Int) (n : Nat) : Int := (value + 2 ^ (n - 1)) / 2 ^ n

/-- One `while (width >= n) { p = load(src); u = load(dst); p = avg(p, u);
store(dst, p); src += n; dst += n; width -= n; }` loop of `convolve_avg_row`, for the
chunk size `n + 1`. -/
def avg_chunks (n : Nat) (src : Mem) (st : RowSt) : RowSt :=
  if n + 1 ≤ st.width then
    avg_chunks n src
      { width := st.width - (n + 1), src := st.src + ((n + 1 : Nat) : Int),
        dst := st.dst + ((n + 1 : Nat) : Int),
        mem := storeu (n + 1) st.mem st.dst
          (mm_avg_epu16 (loadu (n + 1) src st.src) (loadu (n + 1) st.mem st.dst)) }
  else st
termination_by st.width
decreasing_by simp_wf; omega

/-- The scalar tail `while (width) { dst[i] = ROUND_POWER_OF_TWO(dst[i] + src[i], 1);
i++; width--; }` of `convolve_avg_row`. -/
def avg_tail (src : Mem) (s d : Int) : Nat → Int → Mem → Mem
  | 0, _, m => m
  | width + 1, i, m =>
    avg_tail src s d width (i + 1)
      (fun a => if a = d + i
        then u16 (ROUND_POWER_OF_TWO (((m (d + i) % 65536 : Nat) : Int)
          + ((src (s + i) % 65536 : Nat) : Int)) 1)
        else m a)

/-- The function `convolve_avg_row`. -/
def convolve_avg_row (src : Mem) (s : Int) (m : Mem) (d : Int) (width : Nat) : Mem :=
  let st := avg_chunks 15 src { width := width, src := s, dst := d, mem := m }
  let st := avg_chunks 7 src st
  let st := avg_chunks 3 src st
  avg_tail src st.src st.dst st.width 0 st.mem

/-- Row loop of `aom_highbd_convolve_avg_avx2`. -/
def avg_rows (src : Mem) (src_stride dst_stride : Int) (width : Nat)
    (height : Int) (s d : Int) (m : Mem) : Mem :=
  let m1 := convolve_avg_row src s m d width
  if 0 < height - 1 then avg_rows src src_stride dst_stride width (height - 1) (s + src_stride)
    (d + dst_stride) m1
  else m1
termination_by height.toNat
decreasing_by simp_wf; omega

/-- The function `aom_highbd_convolve_avg_avx2`. -/
def aom_highbd_convolve_avg_avx2 (srcm : Mem) (src : Int) (src_stride : Int)
    (dstm : Mem) (dst : Int) (dst_stride : Int)
    (_filter_x : Nat → Int) (_filter_x_stride : Int)
    (_filter_y : Nat → Int) (_filter_y_stride : Int)
    (width : Nat) (height : Int) (_bd : Nat) : Mem :=
  avg_rows srcm src_stride dst_stride width height src dst dstm

/-! ## Row loops of the filters -/

/-- Assignment `x[j] = r`. -/
def setR (x : RegArr) (j : Nat) (r : Reg) : RegArr := fun i => if i = j then r else x i

/-- The pointer `&x[n]` used as an array. -/
def offR (x : RegArr) (n : Nat) : RegArr := fun j => x (j + n)

/-- Subtraction on `uint32_t`. -/
def sub32 (h n : Nat) : Nat := u32 ((h : Int) - (n : Int))

/-- Local variables of a filter row loop: the `signal` array, `res0`, `res1`, the two
moving pointers and the destination memory. -/
structure LoopSt where
  signal : RegArr
  res0 : Reg
  res1 : Reg
  src_ptr : Int
  dst_ptr : Int
  mem : Mem

/-- The loop `do { body; height -= k + 1; } while (height > k);` on a `uint32_t` height;
the result is the final state and the final value of `height`. -/
def do_rows (k : Nat) (body : LoopSt → LoopSt) (height : Nat) (st : LoopSt) : LoopSt × Nat :=
  if k < sub32 height (k + 1) then do_rows k body (sub32 height (k + 1)) (body st)
  else (body st, sub32 height (k + 1))
termination_by
  (if height % 4294967296 < k + 1 then height % 4294967296 + 4294967296
   else height % 4294967296)
decreasing_by
  simp_wf
  simp only [sub32, u32] at *
  split_ifs <;> omega

/-- The uninitialised locals at function entry (taken as zero). -/
def entrySt (src_ptr dst_ptr : Int) (m : Mem) : LoopSt :=
  { signal := fun _ _ => 0, res0 := fun _ => 0, res1 := fun _ => 0,
    src_ptr := src_ptr, dst_ptr := dst_ptr, mem := m }

/-! ## Horizontal filtering -/

/-- The constant `CONV8_ROUNDING_BITS`. -/
def CONV8_ROUNDING_BITS : Nat := 7

/-- The table `signal_pattern_0`. -/
def signal_pattern_0 : List Nat :=
  [0, 1, 2, 3, 2, 3, 4, 5, 4, 5, 6, 7, 6, 7, 8, 9,
   0, 1, 2, 3, 2, 3, 4, 5, 4, 5, 6, 7, 6, 7, 8, 9]

/-- The table `signal_pattern_1`. -/
def signal_pattern_1 : List Nat :=
  [4, 5, 6, 7, 6, 7, 8, 9, 8, 9, 10, 11, 10, 11, 12, 13,
   4, 5, 6, 7, 6, 7, 8, 9, 8, 9, 10, 11, 10, 11, 12, 13]

/-- The table `signal_pattern_2`. -/
def signal_pattern_2 : List Nat :=
  [6, 7, 8, 9, 8, 9, 10, 11, 10, 11, 12, 13, 12, 13, 14, 15,
   6, 7, 8, 9, 8, 9, 10, 11, 10, 11, 12, 13, 12, 13, 14, 15]

/-- The table `signal_index`. -/
def signal_index : List Nat := [2, 3, 4, 5, 2, 3, 4, 5]

/-- The enumeration `PixelPackFormat`. -/
inductive PixelPackFormat where
  | PACK_8x1
  | PACK_8x2
  | PACK_16x1

/-- The function type `WritePixels`: `y0`, `y1`, `mask`, destination memory, `dst`, `pitch`. -/
abbrev WritePixels := Reg → Reg → Reg → Mem → Int → Int → Mem

/-- The function `pack_pixels`; the result is `p[0..3]`. -/
def pack_pixels (s : Reg) : RegArr :=
  let idx := loadTable32 signal_index
  let sf0 := loadTable8 signal_pattern_0
  let sf1 := loadTable8 signal_pattern_1
  let c := mm256_permutevar8x32_epi32 s idx
  regs [mm_shuffle_epi8 s sf0, mm_shuffle_epi8 s sf1, mm_shuffle_epi8 c sf0,
        mm_shuffle_epi8 c sf1]

/-- The function `pack_16_pixels`; the result is `x[0..7]`. -/
def pack_16_pixels (s0 s1 : Reg) : RegArr :=
  let pp : RegArr := fun j => if j < 4 then pack_pixels s0 j else pack_pixels s1 (j - 4)
  let x0 := mm256_permute2x128_si256 (pp 0) (pp 4) 0x20
  let x1 := mm256_permute2x128_si256 (pp 1) (pp 5) 0x20
  let x2 := mm256_permute2x128_si256 (pp 2) (pp 6) 0x20
  let x3 := mm256_permute2x128_si256 (pp 3) (pp 7) 0x20
  regs [x0, x1, x2, x3, x2, x3,
        mm256_permute2x128_si256 (pp 0) (pp 4) 0x31,
        mm256_permute2x128_si256 (pp 1) (pp 5) 0x31]

/-- The function `pack_pixels_with_format`; `x` is the array being filled (`PACK_8x1` writes
`x[0..3]` only). -/
def pack_pixels_with_format (srcm : Mem) (src : Int) (fmt : PixelPackFormat)
    (stride : Int) (x : RegArr) : RegArr :=
  match fmt with
  | .PACK_8x1 =>
    let s0 := mm256_loadu_si256 srcm src
    let pp := pack_pixels s0
    let y := regs [mm256_permute2x128_si256 (pp 0) (pp 2) 0x30,
                   mm256_permute2x128_si256 (pp 1) (pp 3) 0x30,
                   mm256_permute2x128_si256 (pp 2) (pp 0) 0x30,
                   mm256_permute2x128_si256 (pp 3) (pp 1) 0x30]
    fun j => if j < 4 then y j else x j
  | .PACK_8x2 =>
    let s0 := mm256_loadu_si256 srcm src
    let s1 := mm256_loadu_si256 srcm (src + stride)
    pack_16_pixels s0 s1
  | .PACK_16x1 =>
    let s0 := mm256_loadu_si256 srcm src
    let s1 := mm256_loadu_si256 srcm (src + 8)
    pack_16_pixels s0 s1

/-- The function `pack_8x1_pixels`. -/
def pack_8x1_pixels (srcm : Mem) (src : Int) (pitch : Int) (x : RegArr) : RegArr :=
  pack_pixels_with_format srcm src .PACK_8x1 pitch x

/-- The function `pack_8x2_pixels`. -/
def pack_8x2_pixels (srcm : Mem) (src : Int) (pitch : Int) (x : RegArr) : RegArr :=
  pack_pixels_with_format srcm src .PACK_8x2 pitch x

/-- The function `pack_16x1_pixels`. -/
def pack_16x1_pixels (srcm : Mem) (src : Int) (pitch : Int) (x : RegArr) : RegArr :=
  pack_pixels_with_format srcm src .PACK_16x1 pitch x

/-- The function `pack_filters`; the result is `f[0..3]`. -/
def pack_filters (filter : Nat → Int) : RegArr :=
  let h := loadFilter filter
  let hh := mm256_insertf128_si256_1 (mm256_castsi128_si256 h) h
  let p0 := mm_set1_epi32 0x03020100
  let p1 := mm_set1_epi32 0x07060504
  let p2 := mm_set1_epi32 0x0b0a0908
  let p3 := mm_set1_epi32 0x0f0e0d0c
  regs [mm_shuffle_epi8 hh p0, mm_shuffle_epi8 hh p1, mm_shuffle_epi8 hh p2,
        mm_shuffle_epi8 hh p3]

/-- The function `filter_8x1_pixels`. -/
def filter_8x1_pixels (sig fil : RegArr) : Reg :=
  let a0 := mm_madd_epi16 (fil 0) (sig 0)
  let a1 := mm_madd_epi16 (fil 3) (sig 3)
  let a := mm_add_epi32 a0 a1
  let a0 := mm_madd_epi16 (fil 1) (sig 1)
  let a1 := mm_madd_epi16 (fil 2) (sig 2)
  let min := mm_min_epi32 a0 a1
  let a := mm_add_epi32 a min
  let max := mm_max_epi32 a0 a1
  let a := mm_add_epi32 a max
  let rounding := mm_set1_epi32 (2 ^ (CONV8_ROUNDING_BITS - 1))
  let a := mm_add_epi32 a rounding
  mm_srai_epi32 a CONV8_ROUNDING_BITS

/-- The function `write_8x1_pixels`. -/
def write_8x1_pixels : WritePixels := fun y _z mask m dst _pitch =>
  let a0 := mm256_castsi256_si128 y
  let a1 := mm256_extractf128_si256_1 y
  let res := mm_packus_epi32 a0 a1
  let res := mm_min_epi16 res (mm256_castsi256_si128 mask)
  mm_storeu_si128 m dst res

/-- The function `write_8x2_pixels`. -/
def write_8x2_pixels : WritePixels := fun y0 y1 mask m dst pitch =>
  let a := mm256_packus_epi32 y0 y1
  let a := mm_min_epi16 a mask
  let m := mm_storeu_si128 m dst (mm256_castsi256_si128 a)
  mm_storeu_si128 m (dst + pitch) (mm256_extractf128_si256_1 a)

/-- The function `write_16x1_pixels`. -/
def write_16x1_pixels : WritePixels := fun y0 y1 mask m dst _dst_pitch =>
  let a := mm256_packus_epi32 y0 y1
  let a := mm_min_epi16 a mask
  mm256_storeu_si256 m dst a

/-- Body of the row loop of `filter_block_width8_horiz`. -/
def filter_block_width8_horiz_body (srcm : Mem) (src_pitch : Int) (write_8x2 : WritePixels)
    (dst_pitch : Int) (ff : RegArr) (max : Reg) (st : LoopSt) : LoopSt :=
  let signal := pack_8x2_pixels srcm st.src_ptr src_pitch st.signal
  let res0 := filter_8x1_pixels signal ff
  let res1 := filter_8x1_pixels (offR signal 4) ff
  { signal := signal, res0 := res0, res1 := res1,
    src_ptr := st.src_ptr + 2 * src_pitch, dst_ptr := st.dst_ptr + 2 * dst_pitch,
    mem := write_8x2 res0 res1 max st.mem st.dst_ptr dst_pitch }

/-- The function `filter_block_width8_horiz`. -/
def filter_block_width8_horiz (srcm : Mem) (src_ptr : Int) (src_pitch : Int)
    (write_8x1 write_8x2 : WritePixels) (dstm : Mem) (dst_ptr : Int) (dst_pitch : Int)
    (height : Nat) (filter : Nat → Int) (bd : Nat) : Mem :=
  let max := mm_set1_epi16 (2 ^ bd - 1)
  let ff := pack_filters filter
  let src_ptr := src_ptr - 3
  let r := do_rows 1 (filter_block_width8_horiz_body srcm src_pitch write_8x2 dst_pitch ff max)
    height (entrySt src_ptr dst_ptr dstm)
  let st := r.1
  if 0 < r.2 then
    let signal := pack_8x1_pixels srcm st.src_ptr src_pitch st.signal
    let res0 := filter_8x1_pixels signal ff
    write_8x1 res0 st.res1 max st.mem st.dst_ptr dst_pitch
  else st.mem

/-- The function `aom_highbd_filter_block1d8_h8_avx2`. -/
def aom_highbd_filter_block1d8_h8_avx2 (srcm : Mem) (src : Int) (src_pitch : Int)
    (dstm : Mem) (dst : Int) (dst_pitch : Int) (height : Nat) (filter : Nat → Int)
    (bd : Nat) : Mem :=
  filter_block_width8_horiz srcm src src_pitch write_8x1_pixels write_8x2_pixels
    dstm dst dst_pitch height filter bd

/-- Body of the row loop of `filter_block_width16_horiz`. -/
def filter_block_width16_horiz_body (srcm : Mem) (src_pitch : Int) (write_16x1 : WritePixels)
    (dst_pitch : Int) (ff : RegArr) (max : Reg) (st : LoopSt) : LoopSt :=
  let signal := pack_16x1_pixels srcm st.src_ptr src_pitch st.signal
  let res0 := filter_8x1_pixels signal ff
  let res1 := filter_8x1_pixels (offR signal 4) ff
  { signal := signal, res0 := res0, res1 := res1,
    src_ptr := st.src_ptr + src_pitch, dst_ptr := st.dst_ptr + dst_pitch,
    mem := write_16x1 res0 res1 max st.mem st.dst_ptr dst_pitch }

/-- The function `filter_block_width16_horiz`. -/
def filter_block_width16_horiz (srcm : Mem) (src_ptr : Int) (src_pitch : Int)
    (write_16x1 : WritePixels) (dstm : Mem) (dst_ptr : Int) (dst_pitch : Int)
    (height : Nat) (filter : Nat → Int) (bd : Nat) : Mem :=
  let max := mm_set1_epi16 (2 ^ bd - 1)
  let ff := pack_filters filter
  let src_ptr := src_ptr - 3
  (do_rows 0 (filter_block_width16_horiz_body srcm src_pitch write_16x1 dst_pitch ff max)
    height (entrySt src_ptr dst_ptr dstm)).1.mem

/-- The function `aom_highbd_filter_block1d16_h8_avx2`. -/
def aom_highbd_filter_block1d16_h8_avx2 (srcm : Mem) (src : Int) (src_pitch : Int)
    (dstm : Mem) (dst : Int) (dst_pitch : Int) (height : Nat) (filter : Nat → Int)
    (bd : Nat) : Mem :=
  filter_block_width16_horiz srcm src src_pitch write_16x1_pixels dstm dst dst_pitch
    height filter bd

/-! ## 2-tap horizontal filtering -/

/-- The function `pack_2t_filter`. -/
def pack_2t_filter (filter : Nat → Int) : Reg :=
  let h := loadFilter filter
  let hh := mm256_insertf128_si256_1 (mm256_castsi128_si256 h) h
  let p := mm_set1_epi32 0x09080706
  mm_shuffle_epi8 hh p

/-- The function `pack_16_2t_pixels`; the result is `sig[0..1]`. -/
def pack_16_2t_pixels (s0 s1 : Reg) (sig : RegArr) : RegArr :=
  let idx := loadTable32 signal_index
  let sf2 := loadTable8 signal_pattern_2
  let x0 := mm_shuffle_epi8 s0 sf2
  let x1 := mm_shuffle_epi8 s1 sf2
  let r0 := mm256_permutevar8x32_epi32 s0 idx
  let r1 := mm256_permutevar8x32_epi32 s1 idx
  let r0 := mm_shuffle_epi8 r0 sf2
  let r1 := mm_shuffle_epi8 r1 sf2
  let sig := setR sig 0 (mm256_permute2x128_si256 x0 x1 0x20)
  setR sig 1 (mm256_permute2x128_si256 r0 r1 0x20)

/-- The function `pack_8x2_2t_pixels`. -/
def pack_8x2_2t_pixels (srcm : Mem) (src : Int) (pitch : Int) (sig : RegArr) : RegArr :=
  let r0 := mm256_loadu_si256 srcm src
  let r1 := mm256_loadu_si256 srcm (src + pitch)
  pack_16_2t_pixels r0 r1 sig

/-- The function `pack_16x1_2t_pixels`. -/
def pack_16x1_2t_pixels (srcm : Mem) (src : Int) (sig : RegArr) : RegArr :=
  let r0 := mm256_loadu_si256 srcm src
  let r1 := mm256_loadu_si256 srcm (src + 8)
  pack_16_2t_pixels r0 r1 sig

/-- The function `pack_8x1_2t_pixels`. -/
def pack_8x1_2t_pixels (srcm : Mem) (src : Int) (sig : RegArr) : RegArr :=
  let idx := loadTable32 signal_index
  let sf2 := loadTable8 signal_pattern_2
  let r0 := mm256_loadu_si256 srcm src
  let x0 := mm_shuffle_epi8 r0 sf2
  let r0 := mm256_permutevar8x32_epi32 r0 idx
  let r0 := mm_shuffle_epi8 r0 sf2
  setR sig 0 (mm256_permute2x128_si256 x0 r0 0x20)

/-- The function `filter_16_2t_pixels`; the result is `(y0, y1)`. -/
def filter_16_2t_pixels (sig : RegArr) (f : Reg) : Reg × Reg :=
  let rounding := mm_set1_epi32 (2 ^ (CONV8_ROUNDING_BITS - 1))
  let x0 := mm_madd_epi16 (sig 0) f
  let x1 := mm_madd_epi16 (sig 1) f
  let x0 := mm_add_epi32 x0 rounding
  let x1 := mm_add_epi32 x1 rounding
  (mm_srai_epi32 x0 CONV8_ROUNDING_BITS, mm_srai_epi32 x1 CONV8_ROUNDING_BITS)

/-- The function `filter_8x2_2t_pixels`. -/
def filter_8x2_2t_pixels (sig : RegArr) (f : Reg) : Reg × Reg := filter_16_2t_pixels sig f

/-- The function `filter_16x1_2t_pixels`. -/
def filter_16x1_2t_pixels (sig : RegArr) (f : Reg) : Reg × Reg := filter_16_2t_pixels sig f

/-- The function `filter_8x1_2t_pixels`. -/
def filter_8x1_2t_pixels (sig : RegArr) (f : Reg) : Reg :=
  let rounding := mm_set1_epi32 (2 ^ (CONV8_ROUNDING_BITS - 1))
  let x0 := mm_madd_epi16 (sig 0) f
  let x0 := mm_add_epi32 x0 rounding
  mm_srai_epi32 x0 CONV8_ROUNDING_BITS

/-- Body of the row loop of `filter_block_width8_2t_horiz`. -/
def filter_block_width8_2t_horiz_body (srcm : Mem) (src_pitch : Int)
    (write_8x2 : WritePixels) (dst_pitch : Int) (ff : Reg) (max : Reg) (st : LoopSt) :
    LoopSt :=
  let signal := pack_8x2_2t_pixels srcm st.src_ptr src_pitch st.signal
  let y := filter_8x2_2t_pixels signal ff
  { signal := signal, res0 := y.1, res1 := y.2,
    src_ptr := st.src_ptr + 2 * src_pitch, dst_ptr := st.dst_ptr + 2 * dst_pitch,
    mem := write_8x2 y.1 y.2 max st.mem st.dst_ptr dst_pitch }

/-- The function `filter_block_width8_2t_horiz`. -/
def filter_block_width8_2t_horiz (srcm : Mem) (src_ptr : Int) (src_pitch : Int)
    (write_8x1 write_8x2 : WritePixels) (dstm : Mem) (dst_ptr : Int) (dst_pitch : Int)
    (height : Nat) (filter : Nat → Int) (bd : Nat) : Mem :=
  let max := mm_set1_epi16 (2 ^ bd - 1)
  let ff := pack_2t_filter filter
  let src_ptr := src_ptr - 3
  let r := do_rows 1
    (filter_block_width8_2t_horiz_body srcm src_pitch write_8x2 dst_pitch ff max)
    height (entrySt src_ptr dst_ptr dstm)
  let st := r.1
  if 0 < r.2 then
    let signal := pack_8x1_2t_pixels srcm st.src_ptr st.signal
    let res0 := filter_8x1_2t_pixels signal ff
    write_8x1 res0 st.res1 max st.mem st.dst_ptr dst_pitch
  else st.mem

/-- The function `aom_highbd_filter_block1d8_h2_avx2`. -/
def aom_highbd_filter_block1d8_h2_avx2 (srcm : Mem) (src : Int) (src_pitch : Int)
    (dstm : Mem) (dst : Int) (dst_pitch : Int) (height : Nat) (filter : Nat → Int)
    (bd : Nat) : Mem :=
  filter_block_width8_2t_horiz srcm src src_pitch write_8x1_pixels write_8x2_pixels
    dstm dst dst_pitch height filter bd

/-- Body of the row loop of `filter_block_width16_2t_horiz`. -/
def filter_block_width16_2t_horiz_body (srcm : Mem) (src_pitch : Int)
    (write_16x1 : WritePixels) (dst_pitch : Int) (ff : Reg) (max : Reg) (st : LoopSt) :
    LoopSt :=
  let signal := pack_16x1_2t_pixels srcm st.src_ptr st.signal
  let y := filter_16x1_2t_pixels signal ff
  { signal := signal, res0 := y.1, res1 := y.2,
    src_ptr := st.src_ptr + src_pitch, dst_ptr := st.dst_ptr + dst_pitch,
    mem := write_16x1 y.1 y.2 max st.mem st.dst_ptr dst_pitch }

/-- The function `filter_block_width16_2t_horiz`. -/
def filter_block_width16_2t_horiz (srcm : Mem) (src_ptr : Int) (src_pitch : Int)
    (write_16x1 : WritePixels) (dstm : Mem) (dst_ptr : Int) (dst_pitch : Int)
    (height : Nat) (filter : Nat → Int) (bd : Nat) : Mem :=
  let max := mm_set1_epi16 (2 ^ bd - 1)
  let ff := pack_2t_filter filter
  let src_ptr := src_ptr - 3
  (do_rows 0 (filter_block_width16_2t_horiz_body srcm src_pitch write_16x1 dst_pitch ff max)
    height (entrySt src_ptr dst_ptr dstm)).1.mem

/-- The function `aom_highbd_filter_block1d16_h2_avx2`. -/
def aom_highbd_filter_block1d16_h2_avx2 (srcm : Mem) (src : Int) (src_pitch : Int)
    (dstm : Mem) (dst : Int) (dst_pitch : Int) (height : Nat) (filter : Nat → Int)
    (bd : Nat) : Mem :=
  filter_block_width16_2t_horiz srcm src src_pitch write_16x1_pixels dstm dst dst_pitch
    height filter bd

/-! ## Vertical filtering -/

/-- One 128-bit row load widened with `_mm256_castsi128_si256`. -/
def loadRow128 (srcm : Mem) (p : Int) : Reg := mm256_castsi128_si256 (mm_loadu_si128 srcm p)

/-- The function `pack_8x9_init`. -/
def pack_8x9_init (srcm : Mem) (src : Int) (pitch : Int) (sig : RegArr) : RegArr :=
  let s0 := loadRow128 srcm src
  let s1 := loadRow128 srcm (src + pitch)
  let s2 := loadRow128 srcm (src + 2 * pitch)
  let s3 := loadRow128 srcm (src + 3 * pitch)
  let s4 := loadRow128 srcm (src + 4 * pitch)
  let s5 := loadRow128 srcm (src + 5 * pitch)
  let s6 := loadRow128 srcm (src + 6 * pitch)
  let s0 := mm256_insertf128_si256_1 s0 (mm256_castsi256_si128 s1)
  let s1 := mm256_insertf128_si256_1 s1 (mm256_castsi256_si128 s2)
  let s2 := mm256_insertf128_si256_1 s2 (mm256_castsi256_si128 s3)
  let s3 := mm256_insertf128_si256_1 s3 (mm256_castsi256_si128 s4)
  let s4 := mm256_insertf128_si256_1 s4 (mm256_castsi256_si128 s5)
  let s5 := mm256_insertf128_si256_1 s5 (mm256_castsi256_si128 s6)
  let sig := setR sig 0 (mm_unpacklo_epi16 s0 s1)
  let sig := setR sig 4 (mm_unpackhi_epi16 s0 s1)
  let sig := setR sig 1 (mm_unpacklo_epi16 s2 s3)
  let sig := setR sig 5 (mm_unpackhi_epi16 s2 s3)
  let sig := setR sig 2 (mm_unpacklo_epi16 s4 s5)
  let sig := setR sig 6 (mm_unpackhi_epi16 s4 s5)
  setR sig 8 s6

/-- The function `pack_8x9_pixels`. -/
def pack_8x9_pixels (srcm : Mem) (src : Int) (pitch : Int) (sig : RegArr) : RegArr :=
  let s0 := loadRow128 srcm (src + 7 * pitch)
  let s1 := loadRow128 srcm (src + 8 * pitch)
  let s2 := mm256_insertf128_si256_1 (sig 8) (mm256_castsi256_si128 s0)
  let s3 := mm256_insertf128_si256_1 s0 (mm256_castsi256_si128 s1)
  let sig := setR sig 3 (mm_unpacklo_epi16 s2 s3)
  let sig := setR sig 7 (mm_unpackhi_epi16 s2 s3)
  setR sig 8 s1

/-- The function `filter_8x9_pixels`; the result is `(y0, y1)`. -/
def filter_8x9_pixels (sig f : RegArr) : Reg × Reg :=
  (filter_8x1_pixels sig f, filter_8x1_pixels (offR sig 4) f)

/-- The function `update_pixels`, applied to the pointer `&sig[base]`:
`for (i = 0; i < 3; ++i) { sig[i] = sig[i + 1]; sig[i + 4] = sig[i + 5]; }`. -/
def update_pixels (sig : RegArr) (base : Nat) : RegArr :=
  [0, 1, 2].foldl
    (fun sg i =>
      let sg := setR sg (base + i) (sg (base + i + 1))
      setR sg (base + i + 4) (sg (base + i + 5)))
    sig

/-- The function `write_8x1_pixels_ver`. -/
def write_8x1_pixels_ver : WritePixels := fun y0 y1 mask m dst _pitch =>
  let v0 := mm256_castsi256_si128 y0
  let v1 := mm256_castsi256_si128 y1
  let p := mm_packus_epi32 v0 v1
  let p := mm_min_epi16 p (mm256_castsi256_si128 mask)
  mm_storeu_si128 m dst p

/-- Body of the row loop of `filter_block_width8_vert`. -/
def filter_block_width8_vert_body (srcm : Mem) (src_pitch : Int) (write_8x2 : WritePixels)
    (dst_pitch : Int) (ff : RegArr) (max : Reg) (st : LoopSt) : LoopSt :=
  let signal := pack_8x9_pixels srcm st.src_ptr src_pitch st.signal
  let y := filter_8x9_pixels signal ff
  let m := write_8x2 y.1 y.2 max st.mem st.dst_ptr dst_pitch
  let signal := update_pixels signal 0
  { signal := signal, res0 := y.1, res1 := y.2,
    src_ptr := st.src_ptr + 2 * src_pitch, dst_ptr := st.dst_ptr + 2 * dst_pitch,
    mem := m }

/-- The function `filter_block_width8_vert`. -/
def filter_block_width8_vert (srcm : Mem) (src_ptr : Int) (src_pitch : Int)
    (write_8x1 write_8x2 : WritePixels) (dstm : Mem) (dst_ptr : Int) (dst_pitch : Int)
    (height : Nat) (filter : Nat → Int) (bd : Nat) : Mem :=
  let max := mm_set1_epi16 (2 ^ bd - 1)
  let ff := pack_filters filter
  let st0 := entrySt src_ptr dst_ptr dstm
  let st0 := { st0 with signal := pack_8x9_init srcm src_ptr src_pitch st0.signal }
  let r := do_rows 1 (filter_block_width8_vert_body srcm src_pitch write_8x2 dst_pitch ff max)
    height st0
  let st := r.1
  if 0 < r.2 then
    let signal := pack_8x9_pixels srcm st.src_ptr src_pitch st.signal
    let y := filter_8x9_pixels signal ff
    write_8x1 y.1 y.2 max st.mem st.dst_ptr dst_pitch
  else st.mem

/-- The function `aom_highbd_filter_block1d8_v8_avx2`. -/
def aom_highbd_filter_block1d8_v8_avx2 (srcm : Mem) (src : Int) (src_pitch : Int)
    (dstm : Mem) (dst : Int) (dst_pitch : Int) (height : Nat) (filter : Nat → Int)
    (bd : Nat) : Mem :=
  filter_block_width8_vert srcm src src_pitch write_8x1_pixels_ver write_8x2_pixels
    dstm dst dst_pitch height filter bd

/-- The function `pack_16x9_init`. -/
def pack_16x9_init (srcm : Mem) (src : Int) (pitch : Int) (sig : RegArr) : RegArr :=
  let s0 := mm256_loadu_si256 srcm src
  let s1 := mm256_loadu_si256 srcm (src + pitch)
  let s2 := mm256_loadu_si256 srcm (src + 2 * pitch)
  let s3 := mm256_loadu_si256 srcm (src + 3 * pitch)
  let s4 := mm256_loadu_si256 srcm (src + 4 * pitch)
  let s5 := mm256_loadu_si256 srcm (src + 5 * pitch)
  let s6 := mm256_loadu_si256 srcm (src + 6 * pitch)
  let u0 := mm256_permute2x128_si256 s0 s1 0x20
  let u1 := mm256_permute2x128_si256 s0 s1 0x31
  let u2 := mm256_permute2x128_si256 s1 s2 0x20
  let u3 := mm256_permute2x128_si256 s1 s2 0x31
  let sig := setR sig 0 (mm_unpacklo_epi16 u0 u2)
  let sig := setR sig 4 (mm_unpackhi_epi16 u0 u2)
  let sig := setR sig 8 (mm_unpacklo_epi16 u1 u3)
  let sig := setR sig 12 (mm_unpackhi_epi16 u1 u3)
  let u0 := mm256_permute2x128_si256 s2 s3 0x20
  let u1 := mm256_permute2x128_si256 s2 s3 0x31
  let u2 := mm256_permute2x128_si256 s3 s4 0x20
  let u3 := mm256_permute2x128_si256 s3 s4 0x31
  let sig := setR sig 1 (mm_unpacklo_epi16 u0 u2)
  let sig := setR sig 5 (mm_unpackhi_epi16 u0 u2)
  let sig := setR sig 9 (mm_unpacklo_epi16 u1 u3)
  let sig := setR sig 13 (mm_unpackhi_epi16 u1 u3)
  let u0 := mm256_permute2x128_si256 s4 s5 0x20
  let u1 := mm256_permute2x128_si256 s4 s5 0x31
  let u2 := mm256_permute2x128_si256 s5 s6 0x20
  let u3 := mm256_permute2x128_si256 s5 s6 0x31
  let sig := setR sig 2 (mm_unpacklo_epi16 u0 u2)
  let sig := setR sig 6 (mm_unpackhi_epi16 u0 u2)
  let sig := setR sig 10 (mm_unpacklo_epi16 u1 u3)
  let sig := setR sig 14 (mm_unpackhi_epi16 u1 u3)
  setR sig 16 s6

/-- The function `pack_16x9_pixels`. -/
def pack_16x9_pixels (srcm : Mem) (src : Int) (pitch : Int) (sig : RegArr) : RegArr :=
  let s7 := mm256_loadu_si256 srcm (src + 7 * pitch)
  let s8 := mm256_loadu_si256 srcm (src + 8 * pitch)
  let u0 := mm256_permute2x128_si256 (sig 16) s7 0x20
  let u1 := mm256_permute2x128_si256 (sig 16) s7 0x31
  let u2 := mm256_permute2x128_si256 s7 s8 0x20
  let u3 := mm256_permute2x128_si256 s7 s8 0x31
  let sig := setR sig 3 (mm_unpacklo_epi16 u0 u2)
  let sig := setR sig 7 (mm_unpackhi_epi16 u0 u2)
  let sig := setR sig 11 (mm_unpacklo_epi16 u1 u3)
  let sig := setR sig 15 (mm_unpackhi_epi16 u1 u3)
  setR sig 16 s8

/-- The function `filter_16x9_pixels`; the result is `(y0, y1)`. -/
def filter_16x9_pixels (sig f : RegArr) : Reg × Reg :=
  let res : RegArr := fun i => filter_8x1_pixels (offR sig (4 * i)) f
  let l0l1 := mm256_packus_epi32 (res 0) (res 1)
  let h0h1 := mm256_packus_epi32 (res 2) (res 3)
  (mm256_permute2x128_si256 l0l1 h0h1 0x20, mm256_permute2x128_si256 l0l1 h0h1 0x31)

/-- The function `write_16x2_pixels`. -/
def write_16x2_pixels : WritePixels := fun y0 y1 mask m dst pitch =>
  let p := mm_min_epi16 y0 mask
  let m := mm256_storeu_si256 m dst p
  let p := mm_min_epi16 y1 mask
  mm256_storeu_si256 m (dst + pitch) p

/-- The function `write_16x1_pixels_ver`. -/
def write_16x1_pixels_ver : WritePixels := fun y0 _y1 mask m dst _pitch =>
  let p := mm_min_epi16 y0 mask
  mm256_storeu_si256 m dst p

/-- The function `update_16x9_pixels`. -/
def update_16x9_pixels (sig : RegArr) : RegArr :=
  update_pixels (update_pixels sig 0) 8

/-- Body of the row loop of `filter_block_width16_vert`. -/
def filter_block_width16_vert_body (srcm : Mem) (src_pitch : Int) (write_16x2 : WritePixels)
    (dst_pitch : Int) (ff : RegArr) (max : Reg) (st : LoopSt) : LoopSt :=
  let signal := pack_16x9_pixels srcm st.src_ptr src_pitch st.signal
  let y := filter_16x9_pixels signal ff
  let m := write_16x2 y.1 y.2 max st.mem st.dst_ptr dst_pitch
  let signal := update_16x9_pixels signal
  { signal := signal, res0 := y.1, res1 := y.2,
    src_ptr := st.src_ptr + 2 * src_pitch, dst_ptr := st.dst_ptr + 2 * dst_pitch,
    mem := m }

/-- The function `filter_block_width16_vert`. -/
def filter_block_width16_vert (srcm : Mem) (src_ptr : Int) (src_pitch : Int)
    (write_16x1 write_16x2 : WritePixels) (dstm : Mem) (dst_ptr : Int) (dst_pitch : Int)
    (height : Nat) (filter : Nat → Int) (bd : Nat) : Mem :=
  let max := mm_set1_epi16 (2 ^ bd - 1)
  let ff := pack_filters filter
  let st0 := entrySt src_ptr dst_ptr dstm
  let st0 := { st0 with signal := pack_16x9_init srcm src_ptr src_pitch st0.signal }
  let r := do_rows 1
    (filter_block_width16_vert_body srcm src_pitch write_16x2 dst_pitch ff max) height st0
  let st := r.1
  if 0 < r.2 then
    let signal := pack_16x9_pixels srcm st.src_ptr src_pitch st.signal
    let y := filter_16x9_pixels signal ff
    write_16x1 y.1 y.2 max st.mem st.dst_ptr dst_pitch
  else st.mem

/-- The function `aom_highbd_filter_block1d16_v8_avx2`. -/
def aom_highbd_filter_block1d16_v8_avx2 (srcm : Mem) (src : Int) (src_pitch : Int)
    (dstm : Mem) (dst : Int) (dst_pitch : Int) (height : Nat) (filter : Nat → Int)
    (bd : Nat) : Mem :=
  filter_block_width16_vert srcm src src_pitch write_16x1_pixels_ver write_16x2_pixels
    dstm dst dst_pitch height filter bd

/-! ## 2-tap vertical filtering -/

/-- The function `pack_16x2_init`. -/
def pack_16x2_init (srcm : Mem) (src : Int) (sig : RegArr) : RegArr :=
  setR sig 2 (mm256_loadu_si256 srcm src)

/-- The function `pack_16x2_2t_pixels`. -/
def pack_16x2_2t_pixels (srcm : Mem) (src : Int) (pitch : Int) (sig : RegArr) : RegArr :=
  let u := mm256_loadu_si256 srcm (src + pitch)
  let sig := setR sig 0 (mm_unpacklo_epi16 (sig 2) u)
  let sig := setR sig 1 (mm_unpackhi_epi16 (sig 2) u)
  setR sig 2 u

/-- The function `filter_16x2_2t_pixels`. -/
def filter_16x2_2t_pixels (sig : RegArr) (f : Reg) : Reg × Reg := filter_16_2t_pixels sig f

/-- Body of the row loop of `filter_block_width16_2t_vert`. -/
def filter_block_width16_2t_vert_body (srcm : Mem) (src_pitch : Int)
    (write_16x1 : WritePixels) (dst_pitch : Int) (ff : Reg) (max : Reg) (st : LoopSt) :
    LoopSt :=
  let signal := pack_16x2_2t_pixels srcm st.src_ptr src_pitch st.signal
  let y := filter_16x2_2t_pixels signal ff
  { signal := signal, res0 := y.1, res1 := y.2,
    src_ptr := st.src_ptr + src_pitch, dst_ptr := st.dst_ptr + dst_pitch,
    mem := write_16x1 y.1 y.2 max st.mem st.dst_ptr dst_pitch }

/-- The function `filter_block_width16_2t_vert`. -/
def filter_block_width16_2t_vert (srcm : Mem) (src_ptr : Int) (src_pitch : Int)
    (write_16x1 : WritePixels) (dstm : Mem) (dst_ptr : Int) (dst_pitch : Int)
    (height : Nat) (filter : Nat → Int) (bd : Nat) : Mem :=
  let max := mm_set1_epi16 (2 ^ bd - 1)
  let ff := pack_2t_filter filter
  let st0 := entrySt src_ptr dst_ptr dstm
  let st0 := { st0 with signal := pack_16x2_init srcm src_ptr st0.signal }
  (do_rows 0 (filter_block_width16_2t_vert_body srcm src_pitch write_16x1 dst_pitch ff max)
    height st0).1.mem

/-- The function `aom_highbd_filter_block1d16_v2_avx2`. -/
def aom_highbd_filter_block1d16_v2_avx2 (srcm : Mem) (src : Int) (src_pitch : Int)
    (dstm : Mem) (dst : Int) (dst_pitch : Int) (height : Nat) (filter : Nat → Int)
    (bd : Nat) : Mem :=
  filter_block_width16_2t_vert srcm src src_pitch write_16x1_pixels dstm dst dst_pitch
    height filter bd

/-- The function `pack_8x1_2t_filter`. -/
def pack_8x1_2t_filter (filter : Nat → Int) : Reg :=
  let h := loadFilter filter
  let p := mm_set1_epi32 0x09080706
  mm_shuffle_epi8 h p

/-- The function `pack_8x2_init`. -/
def pack_8x2_init (srcm : Mem) (src : Int) (sig : RegArr) : RegArr :=
  setR sig 2 (mm_loadu_si128 srcm src)

/-- The function `pack_8x2_2t_pixels_ver`. -/
def pack_8x2_2t_pixels_ver (srcm : Mem) (src : Int) (pitch : Int) (sig : RegArr) : RegArr :=
  let u := mm_loadu_si128 srcm (src + pitch)
  let sig := setR sig 0 (mm_unpacklo_epi16 (sig 2) u)
  let sig := setR sig 1 (mm_unpackhi_epi16 (sig 2) u)
  setR sig 2 u

/-- The function `filter_8_2t_pixels`; the result is `(y0, y1)`. -/
def filter_8_2t_pixels (sig : RegArr) (f : Reg) : Reg × Reg :=
  let rounding := mm_set1_epi32 (2 ^ (CONV8_ROUNDING_BITS - 1))
  let x0 := mm_madd_epi16 (sig 0) f
  let x1 := mm_madd_epi16 (sig 1) f
  let x0 := mm_add_epi32 x0 rounding
  let x1 := mm_add_epi32 x1 rounding
  (mm_srai_epi32 x0 CONV8_ROUNDING_BITS, mm_srai_epi32 x1 CONV8_ROUNDING_BITS)

/-- The function type `Write8Pixels`: `y0`, `y1`, `mask`, destination memory, `dst`. -/
abbrev Write8Pixels := Reg → Reg → Reg → Mem → Int → Mem

/-- The function `write_8x1_2t_pixels_ver`. -/
def write_8x1_2t_pixels_ver : Write8Pixels := fun y0 y1 mask m dst =>
  let res := mm_packus_epi32 y0 y1
  let res := mm_min_epi16 res mask
  mm_storeu_si128 m dst res

/-- Body of the row loop of `filter_block_width8_2t_vert`. -/
def filter_block_width8_2t_vert_body (srcm : Mem) (src_pitch : Int)
    (write_8x1 : Write8Pixels) (dst_pitch : Int) (ff : Reg) (max : Reg) (st : LoopSt) :
    LoopSt :=
  let signal := pack_8x2_2t_pixels_ver srcm st.src_ptr src_pitch st.signal
  let y := filter_8_2t_pixels signal ff
  { signal := signal, res0 := y.1, res1 := y.2,
    src_ptr := st.src_ptr + src_pitch, dst_ptr := st.dst_ptr + dst_pitch,
    mem := write_8x1 y.1 y.2 max st.mem st.dst_ptr }

/-- The function `filter_block_width8_2t_vert`. -/
def filter_block_width8_2t_vert (srcm : Mem) (src_ptr : Int) (src_pitch : Int)
    (write_8x1 : Write8Pixels) (dstm : Mem) (dst_ptr : Int) (dst_pitch : Int)
    (height : Nat) (filter : Nat → Int) (bd : Nat) : Mem :=
  let max := mm_set1_epi16 (2 ^ bd - 1)
  let ff := pack_8x1_2t_filter filter
  let st0 := entrySt src_ptr dst_ptr dstm
  let st0 := { st0 with signal := pack_8x2_init srcm src_ptr st0.signal }
  (do_rows 0 (filter_block_width8_2t_vert_body srcm src_pitch write_8x1 dst_pitch ff max)
    height st0).1.mem

/-- The function `aom_highbd_filter_block1d8_v2_avx2`. -/
def aom_highbd_filter_block1d8_v2_avx2 (srcm : Mem) (src : Int) (src_pitch : Int)
    (dstm : Mem) (dst : Int) (dst_pitch : Int) (height : Nat) (filter : Nat → Int)
    (bd : Nat) : Mem :=
  filter_block_width8_2t_vert srcm src src_pitch write_8x1_2t_pixels_ver dstm dst dst_pitch
    height filter bd

/-! ## Writers that average with the destination -/

/-- The function `write_8x1_avg_pixels`. -/
def write_8x1_avg_pixels : WritePixels := fun y0 _y1 mask m dst _pitch =>
  let a0 := mm256_castsi256_si128 y0
  let a1 := mm256_extractf128_si256_1 y0
  let res := mm_packus_epi32 a0 a1
  let pix := mm_loadu_si128 m dst
  let res := mm_min_epi16 res (mm256_castsi256_si128 mask)
  let res := mm_avg_epu16 res pix
  mm_storeu_si128 m dst res

/-- The function `write_8x2_avg_pixels`. -/
def write_8x2_avg_pixels : WritePixels := fun y0 y1 mask m dst pitch =>
  let a := mm256_packus_epi32 y0 y1
  let pix0 := mm_loadu_si128 m dst
  let pix1 := mm_loadu_si128 m (dst + pitch)
  let pix := mm256_insertf128_si256_1 (mm256_castsi128_si256 pix0) pix1
  let a := mm_min_epi16 a mask
  let a := mm_avg_epu16 a pix
  let m := mm_storeu_si128 m dst (mm256_castsi256_si128 a)
  mm_storeu_si128 m (dst + pitch) (mm256_extractf128_si256_1 a)

/-- The function `write_16x1_avg_pixels`. -/
def write_16x1_avg_pixels : WritePixels := fun y0 y1 mask m dst _pitch =>
  let a := mm256_packus_epi32 y0 y1
  let pix := mm256_loadu_si256 m dst
  let a := mm_min_epi16 a mask
  let a := mm_avg_epu16 a pix
  mm256_storeu_si256 m dst a

/-- The function `write_8x1_avg_pixels_ver`. -/
def write_8x1_avg_pixels_ver : WritePixels := fun y0 y1 mask m dst _pitch =>
  let v0 := mm256_castsi256_si128 y0
  let v1 := mm256_castsi256_si128 y1
  let p := mm_packus_epi32 v0 v1
  let pix := mm_loadu_si128 m dst
  let p := mm_min_epi16 p (mm256_castsi256_si128 mask)
  let p := mm_avg_epu16 p pix
  mm_storeu_si128 m dst p

/-- The function `write_16x2_avg_pixels`. -/
def write_16x2_avg_pixels : WritePixels := fun y0 y1 mask m dst pitch =>
  let pix0 := mm256_loadu_si256 m dst
  let pix1 := mm256_loadu_si256 m (dst + pitch)
  let p := mm_min_epi16 y0 mask
  let p := mm_avg_epu16 p pix0
  let m := mm256_storeu_si256 m dst p
  let p := mm_min_epi16 y1 mask
  let p := mm_avg_epu16 p pix1
  mm256_storeu_si256 m (dst + pitch) p

/-- The function `write_16x1_avg_pixels_ver`. -/
def write_16x1_avg_pixels_ver : WritePixels := fun y0 _y1 mask m dst _pitch =>
  let p := mm_min_epi16 y0 mask
  let pix := mm256_loadu_si256 m dst
  let p := mm_avg_epu16 p pix
  mm256_storeu_si256 m dst p

/-- The function `write_8x1_2t_avg_pixels_ver`. -/
def write_8x1_2t_avg_pixels_ver : Write8Pixels := fun y0 y1 mask m dst =>
  let res := mm_packus_epi32 y0 y1
  let pix := mm_loadu_si128 m dst
  let res := mm_min_epi16 res mask
  let res := mm_avg_epu16 res pix
  mm_storeu_si128 m dst res

/-- The function `aom_highbd_filter_block1d8_h8_avg_avx2`. -/
def aom_highbd_filter_block1d8_h8_avg_avx2 (srcm : Mem) (src : Int) (src_pitch : Int)
    (dstm : Mem) (dst : Int) (dst_pitch : Int) (height : Nat) (filter : Nat → Int)
    (bd : Nat) : Mem :=
  filter_block_width8_horiz srcm src src_pitch write_8x1_avg_pixels write_8x2_avg_pixels
    dstm dst dst_pitch height filter bd

/-- The function `aom_highbd_filter_block1d16_h8_avg_avx2`. -/
def aom_highbd_filter_block1d16_h8_avg_avx2 (srcm : Mem) (src : Int) (src_pitch : Int)
    (dstm : Mem) (dst : Int) (dst_pitch : Int) (height : Nat) (filter : Nat → Int)
    (bd : Nat) : Mem :=
  filter_block_width16_horiz srcm src src_pitch write_16x1_avg_pixels dstm dst dst_pitch
    height filter bd

/-- The function `aom_highbd_filter_block1d8_v8_avg_avx2`. -/
def aom_highbd_filter_block1d8_v8_avg_avx2 (srcm : Mem) (src : Int) (src_pitch : Int)
    (dstm : Mem) (dst : Int) (dst_pitch : Int) (height : Nat) (filter : Nat → Int)
    (bd : Nat) : Mem :=
  filter_block_width8_vert srcm src src_pitch write_8x1_avg_pixels_ver write_8x2_avg_pixels
    dstm dst dst_pitch height filter bd

/-- The function `aom_highbd_filter_block1d16_v8_avg_avx2`. -/
def aom_highbd_filter_block1d16_v8_avg_avx2 (srcm : Mem) (src : Int) (src_pitch : Int)
    (dstm : Mem) (dst : Int) (dst_pitch : Int) (height : Nat) (filter : Nat → Int)
    (bd : Nat) : Mem :=
  filter_block_width16_vert srcm src src_pitch write_16x1_avg_pixels_ver
    write_16x2_avg_pixels dstm dst dst_pitch height filter bd

/-- The function `aom_highbd_filter_block1d8_h2_avg_avx2`. -/
def aom_highbd_filter_block1d8_h2_avg_avx2 (srcm : Mem) (src : Int) (src_pitch : Int)
    (dstm : Mem) (dst : Int) (dst_pitch : Int) (height : Nat) (filter : Nat → Int)
    (bd : Nat) : Mem :=
  filter_block_width8_2t_horiz srcm src src_pitch write_8x1_avg_pixels write_8x2_avg_pixels
    dstm dst dst_pitch height filter bd

/-- The function `aom_highbd_filter_block1d16_h2_avg_avx2`. -/
def aom_highbd_filter_block1d16_h2_avg_avx2 (srcm : Mem) (src : Int) (src_pitch : Int)
    (dstm : Mem) (dst : Int) (dst_pitch : Int) (height : Nat) (filter : Nat → Int)
    (bd : Nat) : Mem :=
  filter_block_width16_2t_horiz srcm src src_pitch write_16x1_avg_pixels dstm dst dst_pitch
    height filter bd

/-- The function `aom_highbd_filter_block1d16_v2_avg_avx2`. -/
def aom_highbd_filter_block1d16_v2_avg_avx2 (srcm : Mem) (src : Int) (src_pitch : Int)
    (dstm : Mem) (dst : Int) (dst_pitch : Int) (height : Nat) (filter : Nat → Int)
    (bd : Nat) : Mem :=
  filter_block_width16_2t_vert srcm src src_pitch write_16x1_avg_pixels dstm dst dst_pitch
    height filter bd

/-- The function `aom_highbd_filter_block1d8_v2_avg_avx2`. -/
def aom_highbd_filter_block1d8_v2_avg_avx2 (srcm : Mem) (src : Int) (src_pitch : Int)
    (dstm : Mem) (dst : Int) (dst_pitch : Int) (height : Nat) (filter : Nat → Int)
    (bd : Nat) : Mem :=
  filter_block_width8_2t_vert srcm src src_pitch write_8x1_2t_avg_pixels_ver dstm dst
    dst_pitch height filter bd

/-! ## Source samples loaded by the 8-tap horizontal filters

The same row loops as `filter_block_width8_horiz` and `filter_block_width16_horiz`, keeping
of each step only the `_mm256_loadu_si256` loads of `pack_pixels_with_format`: the result
counts, for every source address, how many times it is loaded. -/

/-- Record of one unaligned load of `n` samples at `p`: the counter of each of the
addresses `p .. p + n - 1` goes up by one. -/
def touch (n : Nat) (cnt : Mem) (p : Int) : Mem :=
  fun a => if p ≤ a ∧ a < p + (n : Int) then cnt a + 1 else cnt a

/-- Loads of `pack_pixels_with_format`: one 256-bit load (16 samples) at `src` for
`PACK_8x1`, two at `src` and `src + stride` for `PACK_8x2`, two at `src` and `src + 8` for
`PACK_16x1`. -/
def pack_pixels_with_format_loads (src : Int) (fmt : PixelPackFormat) (stride : Int)
    (cnt : Mem) : Mem :=
  match fmt with
  | .PACK_8x1 => touch 16 cnt src
  | .PACK_8x2 => touch 16 (touch 16 cnt src) (src + stride)
  | .PACK_16x1 => touch 16 (touch 16 cnt src) (src + 8)

/-- Loads of one step of the row loop of `filter_block_width8_horiz`
(`pack_8x2_pixels(src_ptr, src_pitch, signal); ...; src_ptr += src_pitch << 1;`); the
counters are kept in the field `mem`. -/
def filter_block_width8_horiz_loads_body (src_pitch : Int) (st : LoopSt) : LoopSt :=
  { st with
    src_ptr := st.src_ptr + 2 * src_pitch,
    mem := pack_pixels_with_format_loads st.src_ptr .PACK_8x2 src_pitch st.mem }

/-- Loads of `filter_block_width8_horiz`: `src_ptr -= 3`, the row loop of two-row steps on
the `uint32_t` height, and the `pack_8x1_pixels` of the tail `if (height > 0)`. -/
def filter_block_width8_horiz_loads (src_ptr : Int) (src_pitch : Int) (height : Nat) : Mem :=
  let src_ptr := src_ptr - 3
  let r := do_rows 1 (filter_block_width8_horiz_loads_body src_pitch) height
    (entrySt src_ptr 0 (fun _ => 0))
  let st := r.1
  if 0 < r.2 then pack_pixels_with_format_loads st.src_ptr .PACK_8x1 src_pitch st.mem
  else st.mem

/-- Loads of one step of the row loop of `filter_block_width16_horiz`
(`pack_16x1_pixels(src_ptr, src_pitch, signal); ...; src_ptr += src_pitch;`). -/
def filter_block_width16_horiz_loads_body (src_pitch : Int) (st : LoopSt) : LoopSt :=
  { st with
    src_ptr := st.src_ptr + src_pitch,
    mem := pack_pixels_with_format_loads st.src_ptr .PACK_16x1 src_pitch st.mem }

/-- Loads of `filter_block_width16_horiz`. -/
def filter_block_width16_horiz_loads (src_ptr : Int) (src_pitch : Int) (height : Nat) : Mem :=
  let src_ptr := src_ptr - 3
  (do_rows 0 (filter_block_width16_horiz_loads_body src_pitch) height
    (entrySt src_ptr 0 (fun _ => 0))).1.mem

/-! ## The generic decoder (`av1/decoder/generic_decoder.c`) -/

/-- The `int` that holds the exact result `v` of an operation: two's complement
wrap-around, which is what the compiled code gives where C leaves signed overflow
undefined. -/
def int32 (v : Int) : Int := s32 (u32 v)

/-- Left shift `a << n` of `int`s. -/
def shl (a n : Int) : Int := int32 (a * 2 ^ n.toNat)

/-- Arithmetic right shift `a >> n` of `int`s. -/
def sar (a n : Int) : Int := a / 2 ^ n.toNat

/-- Modelled from the spec: the macro `OD_MAXI(a, b)` of `av1/common/odintrin.h`, which is
not part of the excerpt; the larger of two `int`s, as its name and the clamp
`OD_MAXI(2, OD_MINI(254, ...))` of `generic_decode_` say. -/
def OD_MAXI (a b : Int) : Int := if a < b then b else a

/-- Modelled from the spec: the macro `OD_MINI(a, b)` of `av1/common/odintrin.h`, which is
not part of the excerpt; the smaller of two `int`s. -/
def OD_MINI (a b : Int) : Int := if b < a then b else a

/-- The functions that `generic_decode_` calls and that other files define; they are left
unspecified.  `R` is the state they work on: the entropy decoder `r` together with the
adaptive model `model` (`cdf = model->cdf[id]` is passed as the index `id`). -/
structure Callees (R : Type) where
  /-- The function `log_ex(ex_q16)`. -/
  log_ex : Int → Int
  /-- The call `aom_read_symbol_pvq(r, model->cdf[id], nsymbs)`: symbol and new state. -/
  aom_read_symbol_pvq : R → Int → Int → Int × R
  /-- The call `aom_laplace_decode_special(r, decay, max)`. -/
  aom_laplace_decode_special : R → Int → Int → Int × R
  /-- The call `aom_read_literal(r, bits)`. -/
  aom_read_literal : R → Int → Int × R
  /-- The call `generic_model_update(ex_q16, x, integration)`: the new `*ex_q16`. -/
  generic_model_update : Int → Int → Int → Int

/-- The local `shift` of `generic_decode_`: `OD_MAXI(0, (lg_q1 - 5) >> 1)`. -/
def generic_decode_shift (lg_q1 : Int) : Int := OD_MAXI 0 (sar (int32 (lg_q1 - 5)) 1)

/-- The local `xs` of `generic_decode_` once the escape `if (xs == 15)` is done, and the
state of the decoder at that point (`max != 0`). -/
def generic_decode_xs {R : Type} (E : Callees R) (GENERIC_TABLES : Int) (r : R) (max : Int)
    (ex_q16 : Int) : Int × R :=
  let lg_q1 := E.log_ex ex_q16
  let shift := generic_decode_shift lg_q1
  let id := OD_MINI (int32 (GENERIC_TABLES - 1)) lg_q1
  let ms := sar (int32 (max + sar (shl 1 shift) 1)) shift
  let s1 :=
    if max = -1 then E.aom_read_symbol_pvq r id 16
    else E.aom_read_symbol_pvq r id (OD_MINI (int32 (ms + 1)) 16)
  if s1.1 = 15 then
    let e := sar (int32 (sar (int32 (2 * ex_q16)) 8 + sar (shl 1 shift) 1)) shift
    let decay := OD_MAXI 2 (OD_MINI 254 (Int.tdiv (int32 (256 * e)) (int32 (e + 256))))
    let l := E.aom_laplace_decode_special s1.2 decay (if max = -1 then -1 else int32 (ms - 15))
    (int32 (s1.1 + l.1), l.2)
  else s1

/-- The local `lsb` of `generic_decode_` after the block `if (shift != 0)`, and the state of
the decoder. -/
def generic_decode_lsb {R : Type} (E : Callees R) (r : R) (shift xs : Int) : Int × R :=
  if shift ≠ 0 then
    let special : Int := if xs = 0 then 1 else 0
    let l := if 0 < int32 (shift - special) then E.aom_read_literal r (int32 (shift - special))
      else (0, r)
    (int32 (l.1 - shl (if special = 0 then 1 else 0) (int32 (shift - 1))), l.2)
  else (0, r)

/-- The function `generic_decode_`: the decoded `x`, the state of the decoder and model, and
the new `*ex_q16`. -/
def generic_decode_ {R : Type} (E : Callees R) (GENERIC_TABLES : Int) (r : R) (max : Int)
    (ex_q16 : Int) (integration : Int) : Int × R × Int :=
  if max = 0 then (0, r, ex_q16)
  else
    let shift := generic_decode_shift (E.log_ex ex_q16)
    let s := generic_decode_xs E GENERIC_TABLES r max ex_q16
    let l := generic_decode_lsb E s.2 shift s.1
    let x := int32 (shl s.1 shift + l.1)
    (x, l.2, E.generic_model_update ex_q16 x integration)

/-! ## Source rows loaded by the width-8 8-tap vertical filter

The row loop of `filter_block_width8_vert`, keeping of each step only the `_mm_loadu_si128`
loads (8 samples each) of `pack_8x9_init` and `pack_8x9_pixels`. -/

/-- Loads of `pack_8x9_init`: the rows `src`, `src + pitch`, ..., `src + 6 * pitch`. -/
def pack_8x9_init_loads (src : Int) (pitch : Int) (cnt : Mem) : Mem :=
  let cnt := touch 8 cnt src
  let cnt := touch 8 cnt (src + pitch)
  let cnt := touch 8 cnt (src + 2 * pitch)
  let cnt := touch 8 cnt (src + 3 * pitch)
  let cnt := touch 8 cnt (src + 4 * pitch)
  let cnt := touch 8 cnt (src + 5 * pitch)
  touch 8 cnt (src + 6 * pitch)

/-- Loads of `pack_8x9_pixels`: the rows `src + 7 * pitch` and `src + 8 * pitch`. -/
def pack_8x9_pixels_loads (src : Int) (pitch : Int) (cnt : Mem) : Mem :=
  touch 8 (touch 8 cnt (src + 7 * pitch)) (src + 8 * pitch)

/-- Loads of one step of the row loop of `filter_block_width8_vert`
(`pack_8x9_pixels(src_ptr, src_pitch, signal); ...; src_ptr += src_pitch << 1;`); the
counters are kept in the field `mem`. -/
def filter_block_width8_vert_loads_body (src_pitch : Int) (st : LoopSt) : LoopSt :=
  { st with
    src_ptr := st.src_ptr + 2 * src_pitch,
    mem := pack_8x9_pixels_loads st.src_ptr src_pitch st.mem }

/-- Loads of `filter_block_width8_vert`: `pack_8x9_init`, the row loop of two-row steps on
the `uint32_t` height, and the `pack_8x9_pixels` of the tail `if (height > 0)`. -/
def filter_block_width8_vert_loads (src_ptr : Int) (src_pitch : Int) (height : Nat) : Mem :=
  let st0 := entrySt src_ptr 0 (pack_8x9_init_loads src_ptr src_pitch (fun _ => 0))
  let r := do_rows 1 (filter_block_width8_vert_loads_body src_pitch) height st0
  let st := r.1
  if 0 < r.2 then pack_8x9_pixels_loads st.src_ptr src_pitch st.mem
  else st.mem

/-! ## Adaptation of a CDF (`av1/decoder/generic_decoder.c`) -/

/-- The assignment `a[i] = v` on an array of `uint16_t` (index to element). -/
def storeAt (a : Mem) (i : Int) (v : Nat) : Mem := fun j => if j = i then v else a j

/-- The loop `for (i = lo; i < hi; i++) body`, the body acting on the array. -/
def for_loop (lo hi : Int) (body : Int → Mem → Mem) (a : Mem) : Mem :=
  (List.range (hi - lo).toNat).foldl (fun c (k : Nat) => body (lo + (k : Int)) c) a

/-- The function `aom_decode_cdf_adapt_`: the decoded value, the state of the entropy
decoder and the adapted `cdf`.  The reader `aom_read_cdf_unscaled(r, cdf, n)` is defined in
another file and left unspecified (it takes the `cdf` as a pointer to constants).  The
sums are `int`s converted to `uint16_t` by the stores, which reduces them modulo `2^16`. -/
def aom_decode_cdf_adapt_ {R : Type} (aom_read_cdf_unscaled : R → Mem → Int → Int × R)
    (r : R) (cdf : Mem) (n : Int) (increment : Int) : Int × R × Mem :=
  let v := aom_read_cdf_unscaled r cdf n
  let val := v.1
  let cdf :=
    if 32767 < int32 ((cdf (n - 1) : Int) + increment) then
      for_loop 0 n (fun i c => storeAt c i (u16 (sar (c i : Int) 1 + i + 1))) cdf
    else cdf
  let cdf := for_loop val n (fun i c => storeAt c i (u16 ((c i : Int) + increment))) cdf
  (val, v.2, cdf)

/-! ## Constants of the motion search (`av1/encoder/mcomp.h`) -/

/-- The constant `MAX_MVSEARCH_STEPS`. -/
def MAX_MVSEARCH_STEPS : Int := 11

/-- The constant `MAX_FULL_PEL_VAL`, `((1 << (MAX_MVSEARCH_STEPS - 1)) - 1)`. -/
def MAX_FULL_PEL_VAL : Int := int32 (shl 1 (int32 (MAX_MVSEARCH_STEPS - 1)) - 1)

/-- The constant `MAX_FIRST_STEP`, `(1 << (MAX_MVSEARCH_STEPS - 1))`. -/
def MAX_FIRST_STEP : Int := shl 1 (int32 (MAX_MVSEARCH_STEPS - 1))

/-! ## First-use rescaling of a CDF (`av1/decoder/generic_decoder.c`) -/

/-- Signed 32-bit wrap-around of an integer. -/
def wrap32 (v : Int) : Int := (v + 2147483648) % 4294967296 - 2147483648

/-- Sum of the two products of the adjacent 16-bit lanes `2 * k`, `2 * k + 1`. -/
def pairProd (a b : Reg) (k : Nat) : Int :=
  s16 (w16 a (2 * k)) * s16 (w16 b (2 * k)) + s16 (w16 a (2 * k + 1)) * s16 (w16 b (2 * k + 1))

/-- Window of eight samples read as signed 16-bit values, `stride` apart, from `p`. -/
def tap (srcm : Mem) (p stride : Int) (k : Nat) : Int := s16 (srcm (p + (k : Int) * stride))

/-- The 32-bit lane value of the 8-tap filter for the window starting at `p`. -/
def conv8 (f : Nat → Int) (srcm : Mem) (p stride : Int) : Int :=
  wrap32 ((s16 (u16 (f 0)) * tap srcm p stride 0 + s16 (u16 (f 1)) * tap srcm p stride 1)
    + (s16 (u16 (f 2)) * tap srcm p stride 2 + s16 (u16 (f 3)) * tap srcm p stride 3)
    + (s16 (u16 (f 4)) * tap srcm p stride 4 + s16 (u16 (f 5)) * tap srcm p stride 5)
    + (s16 (u16 (f 6)) * tap srcm p stride 6 + s16 (u16 (f 7)) * tap srcm p stride 7) + 64) / 128

/-- Word-level effect of `_mm_min_epi16` against the mask word `mw`. -/
def clampWord (mw w : Nat) : Nat := if s16 w ≤ s16 mw then w else mw

/-- Combination of a new sample with the old destination sample: plain store. -/
def gPlain (new _old : Nat) : Nat := new

/-- Combination of a new sample with the old destination sample: rounding average. -/
def gAvg (new old : Nat) : Nat := (new + old % 65536 + 1) / 2

/-- A writer of one row of `n` samples: sample `c` becomes `g (px y0 y1 mask c) old`. -/
def IsWriter1 (W : WritePixels) (n : Nat) (px : Reg → Reg → Reg → Nat → Nat)
    (g : Nat → Nat → Nat) : Prop :=
  ∀ (y0 y1 mask : Reg) (m : Mem) (q pitch a : Int),
    W y0 y1 mask m q pitch a
      = if q ≤ a ∧ a < q + (n : Int) then g (px y0 y1 mask (a - q).toNat) (m a) else m a

/-- A writer of two rows of `n` samples, the second `pitch` after the first (and stored
last): sample `c` of row `i` becomes `g (px y0 y1 mask i c) old`. -/
def IsWriter2 (W : WritePixels) (n : Nat) (px : Reg → Reg → Reg → Nat → Nat → Nat)
    (g : Nat → Nat → Nat) : Prop :=
  ∀ (y0 y1 mask : Reg) (m : Mem) (q pitch a : Int),
    W y0 y1 mask m q pitch a
      = if q + pitch ≤ a ∧ a < q + pitch + (n : Int)
          then g (px y0 y1 mask 1 (a - (q + pitch)).toNat) (m a)
        else if q ≤ a ∧ a < q + (n : Int) then g (px y0 y1 mask 0 (a - q).toNat) (m a)
        else m a

/-- Word `c` of row `i` as computed by `write_8x2_pixels` / `write_8x2_avg_pixels`. -/
def px8x2 (y0 y1 mask : Reg) (i c : Nat) : Nat :=
  clampWord (w16 mask (8 * i + c))
    (satu16 (s32 (if c < 4 then d32 y0 (4 * i + c) else d32 y1 (4 * i + (c - 4)))))

/-- Word `c` as computed by `write_8x1_pixels` / `write_8x1_avg_pixels`. -/
def px8x1 (y0 _y1 mask : Reg) (c : Nat) : Nat :=
  clampWord (w16 mask c) (satu16 (s32 (d32 y0 c)))

/-- Word `c` as computed by `write_8x1_pixels_ver` / `write_8x1_avg_pixels_ver` and by the
2-tap vertical writers. -/
def px8x1v (y0 y1 mask : Reg) (c : Nat) : Nat :=
  clampWord (w16 mask c) (satu16 (s32 (if c < 4 then d32 y0 c else d32 y1 (c - 4))))

/-- Word `c` as computed by `write_16x1_pixels` / `write_16x1_avg_pixels`. -/
def px16x1 (y0 y1 mask : Reg) (c : Nat) : Nat :=
  clampWord (w16 mask c)
    (satu16 (s32 (if c % 8 < 4 then d32 y0 (4 * (c / 8) + c % 8)
      else d32 y1 (4 * (c / 8) + (c % 8 - 4)))))

/-- Word `c` of row `i` as computed by `write_16x2_pixels` / `write_16x2_avg_pixels`. -/
def px16x2 (y0 y1 mask : Reg) (i c : Nat) : Nat :=
  clampWord (w16 mask c) (w16 (if i = 0 then y0 else y1) c)

/-- Word `c` as computed by `write_16x1_pixels_ver` / `write_16x1_avg_pixels_ver`. -/
def px16x1v (y0 _y1 mask : Reg) (c : Nat) : Nat :=
  clampWord (w16 mask c) (w16 y0 c)

/-- Address of the first sample of row `r`. -/
def rowAddr (q pitch : Int) (r : Nat) : Int := q + (r : Int) * pitch

/-- The 16-bit word stored for the rounded 32-bit value `v` under the mask word `mw`:
unsigned saturation, then signed 16-bit minimum. -/
def outWord (mw : Nat) (v : Int) : Nat := clampWord mw (satu16 v)

/-- The 32-bit lane value of the 2-tap filter for the two samples at `p` and
`p + stride`. -/
def conv2 (f : Nat → Int) (srcm : Mem) (p stride : Int) : Int :=
  wrap32 (tap srcm p stride 0 * s16 (u16 (f 3)) + tap srcm p stride 1 * s16 (u16 (f 4)) + 64)
    / 128

/-- The window `pack_8x9_pixels` builds on top of a fresh `pack_8x9_init` at `p`. -/
def win8 (srcm : Mem) (p sp : Int) : RegArr :=
  pack_8x9_pixels srcm p sp (pack_8x9_init srcm p sp (fun _ _ => 0))

/-- The entries kept between two steps of the vertical loop agree with a fresh
`pack_8x9_init` at `p`. -/
def WinOK8 (srcm : Mem) (sp : Int) (sig : RegArr) (p : Int) : Prop :=
  ∀ j, j = 0 ∨ j = 1 ∨ j = 2 ∨ j = 4 ∨ j = 5 ∨ j = 6 ∨ j = 8 →
    sig j = pack_8x9_init srcm p sp (fun _ _ => 0) j

/-- The window `pack_16x9_pixels` builds on top of a fresh `pack_16x9_init` at `p`. -/
def win16 (srcm : Mem) (p sp : Int) : RegArr :=
  pack_16x9_pixels srcm p sp (pack_16x9_init srcm p sp (fun _ _ => 0))

/-- The entries kept between two steps of the width-16 vertical loop agree with a fresh
`pack_16x9_init` at `p`. -/
def WinOK16 (srcm : Mem) (sp : Int) (sig : RegArr) (p : Int) : Prop :=
  ∀ j, j = 0 ∨ j = 1 ∨ j = 2 ∨ j = 4 ∨ j = 5 ∨ j = 6 ∨ j = 8 ∨ j = 9 ∨ j = 10 ∨ j = 12 ∨ j = 13
      ∨ j = 14 ∨ j = 16 →
    sig j = pack_16x9_init srcm p sp (fun _ _ => 0) j

/-- The pass-through kernel `{0, 0, 0, 128, 0, 0, 0, 0}`. -/
def unitKernel : Nat → Int := fun k => if k = 3 then 128 else 0

/-- The 8-tap sum taken in the naive left-to-right order with the same wrapping 32-bit
additions, then the bias `1 << 6` and the arithmetic shift by 7. -/
def filter_8x1_naive (sig fil : RegArr) : Reg :=
  let a := mm_add_epi32 (mm_madd_epi16 (fil 0) (sig 0)) (mm_madd_epi16 (fil 1) (sig 1))
  let a := mm_add_epi32 a (mm_madd_epi16 (fil 2) (sig 2))
  let a := mm_add_epi32 a (mm_madd_epi16 (fil 3) (sig 3))
  let a := mm_add_epi32 a (mm_set1_epi32 (2 ^ (CONV8_ROUNDING_BITS - 1)))
  mm_srai_epi32 a CONV8_ROUNDING_BITS

/-- Relation between the states of two row loops that differ only in their scratch
registers. -/
def SamePtrs (s1 s2 : LoopSt) : Prop :=
  s1.mem = s2.mem ∧ s1.src_ptr = s2.src_ptr ∧ s1.dst_ptr = s2.dst_ptr

/-- Callees for examples: `log_ex` is constantly `lg`, the symbol reader returns `sym`, the
Laplace escape `esc`, `aom_read_literal` returns `lit`, and the expectation is not
adapted; the state is the unit. -/
def constCallees (lg sym esc lit : Int) : Callees Unit :=
  ⟨fun _ => lg, fun r _ _ => (sym, r), fun r _ _ => (esc, r), fun r _ => (lit, r),
    fun ex _ _ => ex⟩

/-- Example kernel with the two centre taps `64, 64` and zero outer taps. -/
def halfKernel : Nat → Int := fun k => if k = 3 then 64 else if k = 4 then 64 else 0

/-! ## Theorems -/

theorem w16_lt (r : Reg) (k : Nat) : w16 r k < 65536 := by
  unfold w16; omega

theorem d32_lt (r : Reg) (k : Nat) : d32 r k < 4294967296 := by
  unfold d32; omega

theorem w16_ofW16 (f : Nat → Nat) (k : Nat) : w16 (ofW16 f) k = f k % 65536 := by
  have h1 : 2 * k / 2 = k := by omega
  have h2 : (2 * k + 1) / 2 = k := by omega
  have h3 : 2 * k % 2 = 0 := by omega
  have h4 : (2 * k + 1) % 2 = 1 := by omega
  simp only [w16, ofW16, h1, h2, h3, h4, pow_zero, pow_one, Nat.div_one]
  omega

theorem d32_ofD32 (f : Nat → Nat) (k : Nat) : d32 (ofD32 f) k = f k % 4294967296 := by
  have h1 : 4 * k / 4 = k := by omega
  have h2 : (4 * k + 1) / 4 = k := by omega
  have h3 : (4 * k + 2) / 4 = k := by omega
  have h4 : (4 * k + 3) / 4 = k := by omega
  have g1 : 4 * k % 4 = 0 := by omega
  have g2 : (4 * k + 1) % 4 = 1 := by omega
  have g3 : (4 * k + 2) % 4 = 2 := by omega
  have g4 : (4 * k + 3) % 4 = 3 := by omega
  simp only [d32, ofD32, h1, h2, h3, h4, g1, g2, g3, g4, pow_zero, pow_one, Nat.div_one]
  norm_num
  omega

theorem w16_loadu (n : Nat) (m : Mem) (p : Int) (k : Nat) (h : k < n) :
    w16 (loadu n m p) k = m (p + k) % 65536 := by
  have h1 : 2 * k / 2 = k := by omega
  have h2 : (2 * k + 1) / 2 = k := by omega
  have h3 : 2 * k % 2 = 0 := by omega
  have h4 : (2 * k + 1) % 2 = 1 := by omega
  have h5 : 2 * k < 2 * n := by omega
  have h6 : 2 * k + 1 < 2 * n := by omega
  simp only [w16, loadu, h1, h2, h3, h4, h5, h6, pow_zero, pow_one, Nat.div_one, if_true]
  omega

theorem s32_u32 (v : Int) : s32 (u32 v) = wrap32 v := by
  unfold s32 u32 wrap32
  split_ifs <;> omega

theorem s32_mod (x : Nat) : s32 (x % 4294967296) = s32 x := by
  unfold s32; simp

theorem s16_u16 (v : Int) (h1 : -32768 ≤ v) (h2 : v < 32768) : s16 (u16 v) = v := by
  unfold s16 u16
  split_ifs <;> omega

theorem s32_bounds (x : Nat) : -2147483648 ≤ s32 x ∧ s32 x < 2147483648 := by
  unfold s32; split_ifs <;> omega

theorem wrap32_id (v : Int) (h1 : -2147483648 ≤ v) (h2 : v < 2147483648) : wrap32 v = v := by
  unfold wrap32; omega

theorem sd_madd (a b : Reg) (k : Nat) :
    s32 (d32 (mm_madd_epi16 a b) k) = wrap32 (pairProd a b k) := by
  simp only [mm_madd_epi16, d32_ofD32, s32_mod, s32_u32, pairProd]

theorem sd_add (a b : Reg) (k : Nat) :
    s32 (d32 (mm_add_epi32 a b) k) = wrap32 (s32 (d32 a k) + s32 (d32 b k)) := by
  simp only [mm_add_epi32, d32_ofD32, s32_mod]
  have ha := d32_lt a k
  have hb := d32_lt b k
  unfold s32 wrap32
  split_ifs <;> omega

theorem sd_min (a b : Reg) (k : Nat) :
    s32 (d32 (mm_min_epi32 a b) k) = min (s32 (d32 a k)) (s32 (d32 b k)) := by
  simp only [mm_min_epi32, d32_ofD32, s32_mod]
  split_ifs with h
  · exact (min_eq_left h).symm
  · exact (min_eq_right (le_of_lt (not_le.mp h))).symm

theorem sd_max (a b : Reg) (k : Nat) :
    s32 (d32 (mm_max_epi32 a b) k) = max (s32 (d32 a k)) (s32 (d32 b k)) := by
  simp only [mm_max_epi32, d32_ofD32, s32_mod]
  split_ifs with h
  · exact (max_eq_right h).symm
  · exact (max_eq_left (le_of_lt (not_le.mp h))).symm

theorem sd_srai7 (a : Reg) (k : Nat) :
    s32 (d32 (mm_srai_epi32 a 7) k) = s32 (d32 a k) / 128 := by
  simp only [mm_srai_epi32, d32_ofD32, s32_mod, s32_u32]
  have hb := s32_bounds (d32 a k)
  apply wrap32_id <;> norm_num <;> omega

theorem sd_set1 (v : Int) (k : Nat) : s32 (d32 (mm_set1_epi32 v) k) = wrap32 v := by
  simp only [mm_set1_epi32, d32_ofD32, s32_mod, s32_u32]

theorem filter_8x1_lane (sig fil : RegArr) (k : Nat) :
    s32 (d32 (filter_8x1_pixels sig fil) k)
      = wrap32 (pairProd (fil 0) (sig 0) k + pairProd (fil 1) (sig 1) k
          + pairProd (fil 2) (sig 2) k + pairProd (fil 3) (sig 3) k + 64) / 128 := by
  simp only [filter_8x1_pixels, CONV8_ROUNDING_BITS, sd_srai7, sd_add, sd_min, sd_max, sd_madd,
    sd_set1]
  generalize pairProd (fil 0) (sig 0) k = p0
  generalize pairProd (fil 1) (sig 1) k = p1
  generalize pairProd (fil 2) (sig 2) k = p2
  generalize pairProd (fil 3) (sig 3) k = p3
  congr 1
  rcases le_total (wrap32 p1) (wrap32 p2) with h | h
  · rw [min_eq_left h, max_eq_right h]; unfold wrap32; norm_num; omega
  · rw [min_eq_right h, max_eq_left h]; unfold wrap32; norm_num; omega

theorem s16_mod (x : Nat) : s16 (x % 65536) = s16 x := by
  unfold s16; simp

theorem u16_lt (v : Int) : u16 v < 65536 := by
  unfold u16; omega

theorem pack_filters_words (f : Nat → Int) (j i : Nat) (hj : j < 4) (hi : i < 8) :
    w16 (pack_filters f j) (2 * i) = u16 (f (2 * j))
    ∧ w16 (pack_filters f j) (2 * i + 1) = u16 (f (2 * j + 1)) := by
  have h0 := u16_lt (f (2 * j))
  have h1 := u16_lt (f (2 * j + 1))
  interval_cases j <;> interval_cases i <;>
    (simp [pack_filters, regs, w16, mm_shuffle_epi8, mm_set1_epi32, ofD32, u32,
      mm256_insertf128_si256_1, mm256_castsi128_si256, lowBytes, loadFilter, ofW16] at h0 h1 ⊢
     <;> omega)

theorem bytes_congr (r : Reg) {x1 x2 y1 y2 : Nat} (h1 : x1 = y1) (h2 : x2 = y2) :
    r x1 % 256 + 256 * (r x2 % 256) = r y1 % 256 + 256 * (r y2 % 256) := by
  subst h1 h2; rfl

theorem permute2x128_0x20 (a b : Reg) (k : Nat) :
    w16 (mm256_permute2x128_si256 a b 0x20) k = if k < 8 then w16 a k else w16 b (k - 8) := by
  simp only [w16, mm256_permute2x128_si256, select128]
  norm_num
  split_ifs with h1 h2 h3 <;> first | omega | exact bytes_congr _ (by omega) (by omega)

theorem permute2x128_0x31 (a b : Reg) (k : Nat) :
    w16 (mm256_permute2x128_si256 a b 0x31) k = if k < 8 then w16 a (k + 8) else w16 b k := by
  simp only [w16, mm256_permute2x128_si256, select128]
  norm_num
  split_ifs with h1 h2 h3 <;> first | omega | exact bytes_congr _ (by omega) (by omega)

theorem permute2x128_0x30 (a b : Reg) (k : Nat) :
    w16 (mm256_permute2x128_si256 a b 0x30) k = if k < 8 then w16 a k else w16 b k := by
  simp only [w16, mm256_permute2x128_si256, select128]
  norm_num
  split_ifs with h1 h2 h3 <;> first | omega | exact bytes_congr _ (by omega) (by omega)

theorem pack_pixels_words (s : Reg) (j k : Nat) (hj : j < 4) (hk : k < 16) :
    w16 (pack_pixels s j) k
      = w16 s ((if j < 2 then 8 * (k / 8) + 2 * j else 2 * j) + k % 8 / 2 + k % 2) := by
  interval_cases j <;> interval_cases k <;>
    simp [pack_pixels, regs, w16, mm_shuffle_epi8, loadTable8, loadTable32,
      signal_pattern_0, signal_pattern_1, signal_index, mm256_permutevar8x32_epi32,
      d32_ofD32]

theorem pack_16_words (s0 s1 : Reg) (j k : Nat) (hj : j < 8) (hk : k < 16) :
    w16 (pack_16_pixels s0 s1 j) k
      = w16 (if k < 8 then s0 else s1) (4 * (j / 4) + k / 2 % 4 + 2 * (j % 4) + k % 2) := by
  interval_cases j <;> interval_cases k <;>
    simp [pack_16_pixels, regs, permute2x128_0x20, permute2x128_0x31, pack_pixels_words]

theorem pack_8x2_words (srcm : Mem) (p pitch : Int) (x : RegArr) (j k : Nat) (hj : j < 8)
    (hk : k < 16) :
    w16 (pack_8x2_pixels srcm p pitch x j) k
      = srcm (p + ((k / 8 : Nat) : Int) * pitch
          + ((4 * (j / 4) + k / 2 % 4 + 2 * (j % 4) + k % 2 : Nat) : Int)) % 65536 := by
  simp only [pack_8x2_pixels, pack_pixels_with_format, pack_16_words _ _ _ _ hj hk,
    mm256_loadu_si256]
  by_cases h8 : k < 8
  · rw [if_pos h8, w16_loadu _ _ _ _ (by omega)]
    have e : k / 8 = 0 := by omega
    rw [e]; simp
  · rw [if_neg h8, w16_loadu _ _ _ _ (by omega)]
    have e : k / 8 = 1 := by omega
    rw [e]; simp

theorem pack_filters_word (f : Nat → Int) (j k : Nat) (hj : j < 4) (hk : k < 16) :
    w16 (pack_filters f j) k = u16 (f (2 * j + k % 2)) := by
  have h := pack_filters_words f j (k / 2) hj (by omega)
  rcases Nat.mod_two_eq_zero_or_one k with h0 | h1
  · have e : 2 * (k / 2) = k := by omega
    rw [e] at h
    rw [h0, h.1]; rfl
  · have e : 2 * (k / 2) + 1 = k := by omega
    rw [e] at h
    rw [h1, h.2]

theorem satu16_lt (v : Int) : satu16 v < 65536 := by
  unfold satu16; split_ifs <;> omega

theorem w16_min (a b : Reg) (k : Nat) :
    w16 (mm_min_epi16 a b) k = clampWord (w16 b k) (w16 a k) := by
  have ha := w16_lt a k
  have hb := w16_lt b k
  simp only [mm_min_epi16, w16_ofW16, clampWord]
  split_ifs <;> omega

theorem w16_avg (a b : Reg) (k : Nat) :
    w16 (mm_avg_epu16 a b) k = (w16 a k + w16 b k + 1) / 2 := by
  have ha := w16_lt a k
  have hb := w16_lt b k
  simp only [mm_avg_epu16, w16_ofW16]
  omega

theorem w16_set1 (v : Int) (k : Nat) : w16 (mm_set1_epi16 v) k = u16 v := by
  have h := u16_lt v
  simp only [mm_set1_epi16, w16_ofW16]
  omega

theorem w16_lowBytes (r : Reg) (k : Nat) (h : k < 8) : w16 (lowBytes 16 r) k = w16 r k := by
  have h1 : 2 * k < 16 := by omega
  have h2 : 2 * k + 1 < 16 := by omega
  simp only [w16, lowBytes, h1, h2, if_true]

theorem d32_lowBytes (r : Reg) (k : Nat) (h : k < 4) : d32 (lowBytes 16 r) k = d32 r k := by
  have h1 : 4 * k < 16 := by omega
  have h2 : 4 * k + 1 < 16 := by omega
  have h3 : 4 * k + 2 < 16 := by omega
  have h4 : 4 * k + 3 < 16 := by omega
  simp only [d32, lowBytes, h1, h2, h3, h4, if_true]

theorem w16_extract (r : Reg) (k : Nat) (h : k < 8) :
    w16 (mm256_extractf128_si256_1 r) k = w16 r (k + 8) := by
  have h1 : 2 * k < 16 := by omega
  have h2 : 2 * k + 1 < 16 := by omega
  simp only [w16, mm256_extractf128_si256_1, h1, h2, if_true]
  exact bytes_congr _ (by omega) (by omega)

theorem d32_extract (r : Reg) (k : Nat) (h : k < 4) :
    d32 (mm256_extractf128_si256_1 r) k = d32 r (k + 4) := by
  have h1 : 4 * k < 16 := by omega
  have h2 : 4 * k + 1 < 16 := by omega
  have h3 : 4 * k + 2 < 16 := by omega
  have h4 : 4 * k + 3 < 16 := by omega
  have e1 : 4 * k + 16 = 4 * (k + 4) := by omega
  have e2 : 4 * k + 1 + 16 = 4 * (k + 4) + 1 := by omega
  have e3 : 4 * k + 2 + 16 = 4 * (k + 4) + 2 := by omega
  have e4 : 4 * k + 3 + 16 = 4 * (k + 4) + 3 := by omega
  simp only [d32, mm256_extractf128_si256_1, h1, h2, h3, h4, if_true, e1, e2, e3, e4]

theorem w16_insert (a b : Reg) (k : Nat) :
    w16 (mm256_insertf128_si256_1 a b) k = if k < 8 then w16 a k else w16 b (k - 8) := by
  simp only [w16, mm256_insertf128_si256_1]
  split_ifs <;> first | omega | exact bytes_congr _ (by omega) (by omega)

theorem w16_packus128 (a b : Reg) (k : Nat) :
    w16 (mm_packus_epi32 a b) k
      = if k < 4 then satu16 (s32 (d32 a k)) else satu16 (s32 (d32 b (k - 4))) := by
  simp only [mm_packus_epi32, w16_ofW16]
  split_ifs
  · exact Nat.mod_eq_of_lt (satu16_lt _)
  · exact Nat.mod_eq_of_lt (satu16_lt _)

theorem w16_packus256 (a b : Reg) (k : Nat) :
    w16 (mm256_packus_epi32 a b) k
      = if k % 8 < 4 then satu16 (s32 (d32 a (4 * (k / 8) + k % 8)))
        else satu16 (s32 (d32 b (4 * (k / 8) + (k % 8 - 4)))) := by
  simp only [mm256_packus_epi32, w16_ofW16]
  split_ifs
  · exact Nat.mod_eq_of_lt (satu16_lt _)
  · exact Nat.mod_eq_of_lt (satu16_lt _)

/-- Unfolding of a store at one address. -/
theorem storeu_apply (n : Nat) (m : Mem) (p : Int) (r : Reg) (a : Int) :
    storeu n m p r a = if p ≤ a ∧ a < p + (n : Int) then w16 r (a - p).toNat else m a := rfl

theorem write_8x2_pixels_spec : IsWriter2 write_8x2_pixels 8 px8x2 gPlain := by
  intro y0 y1 mask m q pitch a
  simp only [write_8x2_pixels, mm_storeu_si128, storeu_apply, mm256_castsi256_si128, gPlain, px8x2]
  split_ifs with h1 h2 h3 h4 h5 h6 <;> first
    | omega
    | rfl
    | (have hk : (a - (q + pitch)).toNat < 8 := by omega
       rw [w16_extract _ _ hk, w16_min, w16_packus256]
       have e1 : ((a - (q + pitch)).toNat + 8) % 8 = (a - (q + pitch)).toNat := by omega
       have e2 : ((a - (q + pitch)).toNat + 8) / 8 = 1 := by omega
       have e3 : (a - (q + pitch)).toNat + 8 = 8 * 1 + (a - (q + pitch)).toNat := by omega
       simp only [e1, e2]
       rw [e3]
       split_ifs <;> rfl)
    | (have hk : (a - q).toNat < 8 := by omega
       rw [w16_lowBytes _ _ hk, w16_min, w16_packus256]
       have e1 : ((a - q).toNat) % 8 = (a - q).toNat := by omega
       have e2 : ((a - q).toNat) / 8 = 0 := by omega
       simp only [e1, e2]
       norm_num
       split_ifs <;> rfl)

theorem loadu_word_at (n : Nat) (m : Mem) (q a : Int) (h1 : q ≤ a) (h2 : a < q + (n : Int)) :
    w16 (loadu n m q) (a - q).toNat = m a % 65536 := by
  have hk : (a - q).toNat < n := by omega
  rw [w16_loadu _ _ _ _ hk]
  have e : q + ((a - q).toNat : Int) = a := by omega
  rw [e]

theorem write_8x2_avg_pixels_spec : IsWriter2 write_8x2_avg_pixels 8 px8x2 gAvg := by
  intro y0 y1 mask m q pitch a
  simp only [write_8x2_avg_pixels, mm_storeu_si128, storeu_apply, mm256_castsi256_si128,
    mm256_castsi128_si256, mm_loadu_si128, gAvg, px8x2]
  split_ifs with h1 h2 h3 h4 h5 h6 <;> first
    | omega
    | rfl
    | (have hk : (a - (q + pitch)).toNat < 8 := by omega
       rw [w16_extract _ _ hk, w16_avg, w16_min, w16_packus256, w16_insert]
       have e1 : ((a - (q + pitch)).toNat + 8) % 8 = (a - (q + pitch)).toNat := by omega
       have e2 : ((a - (q + pitch)).toNat + 8) / 8 = 1 := by omega
       have e3 : (a - (q + pitch)).toNat + 8 = 8 * 1 + (a - (q + pitch)).toNat := by omega
       have e4 : ¬ (a - (q + pitch)).toNat + 8 < 8 := by omega
       have e5 : (a - (q + pitch)).toNat + 8 - 8 = (a - (q + pitch)).toNat := by omega
       simp only [e1, e2, e4, e5, if_false]
       rw [loadu_word_at 8 m (q + pitch) a (by omega) (by omega), e3]
       split_ifs <;> rfl)
    | (have hk : (a - q).toNat < 8 := by omega
       rw [w16_lowBytes _ _ hk, w16_avg, w16_min, w16_packus256, w16_insert]
       have e1 : ((a - q).toNat) % 8 = (a - q).toNat := by omega
       have e2 : ((a - q).toNat) / 8 = 0 := by omega
       simp only [e1, e2, hk, if_true]
       rw [w16_lowBytes _ _ hk, loadu_word_at 8 m q a (by omega) (by omega)]
       norm_num
       split_ifs <;> rfl)

theorem write_8x1_pixels_spec : IsWriter1 write_8x1_pixels 8 px8x1 gPlain := by
  intro y0 y1 mask m q pitch a
  simp only [write_8x1_pixels, mm_storeu_si128, storeu_apply, mm256_castsi256_si128, gPlain,
    px8x1]
  by_cases h1 : q ≤ a ∧ a < q + ((8 : Nat) : Int)
  · rw [if_pos h1, if_pos h1]
    have hk : (a - q).toNat < 8 := by omega
    rw [w16_min, w16_packus128, w16_lowBytes _ _ hk]
    by_cases h2 : (a - q).toNat < 4
    · rw [if_pos h2, d32_lowBytes _ _ h2]
    · rw [if_neg h2, d32_extract _ _ (by omega)]
      have e : (a - q).toNat - 4 + 4 = (a - q).toNat := by omega
      rw [e]
  · rw [if_neg h1, if_neg h1]

theorem write_8x1_avg_pixels_spec : IsWriter1 write_8x1_avg_pixels 8 px8x1 gAvg := by
  intro y0 y1 mask m q pitch a
  simp only [write_8x1_avg_pixels, mm_storeu_si128, storeu_apply, mm256_castsi256_si128,
    mm_loadu_si128, gAvg, px8x1]
  by_cases h1 : q ≤ a ∧ a < q + ((8 : Nat) : Int)
  · rw [if_pos h1, if_pos h1]
    have hk : (a - q).toNat < 8 := by omega
    rw [w16_avg, w16_min, w16_packus128, w16_lowBytes _ _ hk,
      loadu_word_at 8 m q a h1.1 h1.2]
    by_cases h2 : (a - q).toNat < 4
    · rw [if_pos h2, d32_lowBytes _ _ h2]
    · rw [if_neg h2, d32_extract _ _ (by omega)]
      have e : (a - q).toNat - 4 + 4 = (a - q).toNat := by omega
      rw [e]
  · rw [if_neg h1, if_neg h1]

theorem write_8x1_pixels_ver_spec : IsWriter1 write_8x1_pixels_ver 8 px8x1v gPlain := by
  intro y0 y1 mask m q pitch a
  simp only [write_8x1_pixels_ver, mm_storeu_si128, storeu_apply, mm256_castsi256_si128, gPlain,
    px8x1v]
  by_cases h1 : q ≤ a ∧ a < q + ((8 : Nat) : Int)
  · rw [if_pos h1, if_pos h1]
    have hk : (a - q).toNat < 8 := by omega
    rw [w16_min, w16_packus128, w16_lowBytes _ _ hk]
    by_cases h2 : (a - q).toNat < 4
    · rw [if_pos h2, if_pos h2, d32_lowBytes _ _ h2]
    · rw [if_neg h2, if_neg h2, d32_lowBytes _ _ (by omega)]
  · rw [if_neg h1, if_neg h1]

theorem write_8x1_avg_pixels_ver_spec : IsWriter1 write_8x1_avg_pixels_ver 8 px8x1v gAvg := by
  intro y0 y1 mask m q pitch a
  simp only [write_8x1_avg_pixels_ver, mm_storeu_si128, storeu_apply, mm256_castsi256_si128,
    mm_loadu_si128, gAvg, px8x1v]
  by_cases h1 : q ≤ a ∧ a < q + ((8 : Nat) : Int)
  · rw [if_pos h1, if_pos h1]
    have hk : (a - q).toNat < 8 := by omega
    rw [w16_avg, w16_min, w16_packus128, w16_lowBytes _ _ hk,
      loadu_word_at 8 m q a h1.1 h1.2]
    by_cases h2 : (a - q).toNat < 4
    · rw [if_pos h2, if_pos h2, d32_lowBytes _ _ h2]
    · rw [if_neg h2, if_neg h2, d32_lowBytes _ _ (by omega)]
  · rw [if_neg h1, if_neg h1]

theorem write_16x1_pixels_spec : IsWriter1 write_16x1_pixels 16 px16x1 gPlain := by
  intro y0 y1 mask m q pitch a
  simp only [write_16x1_pixels, mm256_storeu_si256, storeu_apply, gPlain, px16x1]
  by_cases h1 : q ≤ a ∧ a < q + ((16 : Nat) : Int)
  · rw [if_pos h1, if_pos h1, w16_min, w16_packus256]
    by_cases h2 : (a - q).toNat % 8 < 4
    · rw [if_pos h2, if_pos h2]
    · rw [if_neg h2, if_neg h2]
  · rw [if_neg h1, if_neg h1]

theorem write_16x1_avg_pixels_spec : IsWriter1 write_16x1_avg_pixels 16 px16x1 gAvg := by
  intro y0 y1 mask m q pitch a
  simp only [write_16x1_avg_pixels, mm256_storeu_si256, storeu_apply, mm256_loadu_si256, gAvg,
    px16x1]
  by_cases h1 : q ≤ a ∧ a < q + ((16 : Nat) : Int)
  · rw [if_pos h1, if_pos h1, w16_avg, w16_min, w16_packus256,
      loadu_word_at 16 m q a h1.1 h1.2]
    by_cases h2 : (a - q).toNat % 8 < 4
    · rw [if_pos h2, if_pos h2]
    · rw [if_neg h2, if_neg h2]
  · rw [if_neg h1, if_neg h1]

theorem write_16x2_pixels_spec : IsWriter2 write_16x2_pixels 16 px16x2 gPlain := by
  intro y0 y1 mask m q pitch a
  simp only [write_16x2_pixels, mm256_storeu_si256, storeu_apply, gPlain, px16x2]
  by_cases h1 : q + pitch ≤ a ∧ a < q + pitch + ((16 : Nat) : Int)
  · rw [if_pos h1, if_pos h1, w16_min]; simp
  · rw [if_neg h1, if_neg h1]
    by_cases h2 : q ≤ a ∧ a < q + ((16 : Nat) : Int)
    · rw [if_pos h2, if_pos h2, w16_min]; simp
    · rw [if_neg h2, if_neg h2]

theorem write_16x2_avg_pixels_spec : IsWriter2 write_16x2_avg_pixels 16 px16x2 gAvg := by
  intro y0 y1 mask m q pitch a
  simp only [write_16x2_avg_pixels, mm256_storeu_si256, storeu_apply, mm256_loadu_si256, gAvg,
    px16x2]
  by_cases h1 : q + pitch ≤ a ∧ a < q + pitch + ((16 : Nat) : Int)
  · rw [if_pos h1, if_pos h1, w16_avg, w16_min, loadu_word_at 16 m (q + pitch) a h1.1 h1.2]
    simp
  · rw [if_neg h1, if_neg h1]
    by_cases h2 : q ≤ a ∧ a < q + ((16 : Nat) : Int)
    · rw [if_pos h2, if_pos h2, w16_avg, w16_min, loadu_word_at 16 m q a h2.1 h2.2]; simp
    · rw [if_neg h2, if_neg h2]

theorem write_16x1_pixels_ver_spec : IsWriter1 write_16x1_pixels_ver 16 px16x1v gPlain := by
  intro y0 y1 mask m q pitch a
  simp only [write_16x1_pixels_ver, mm256_storeu_si256, storeu_apply, gPlain, px16x1v]
  by_cases h1 : q ≤ a ∧ a < q + ((16 : Nat) : Int)
  · rw [if_pos h1, if_pos h1, w16_min]
  · rw [if_neg h1, if_neg h1]

theorem write_16x1_avg_pixels_ver_spec : IsWriter1 write_16x1_avg_pixels_ver 16 px16x1v gAvg := by
  intro y0 y1 mask m q pitch a
  simp only [write_16x1_avg_pixels_ver, mm256_storeu_si256, storeu_apply, mm256_loadu_si256,
    gAvg, px16x1v]
  by_cases h1 : q ≤ a ∧ a < q + ((16 : Nat) : Int)
  · rw [if_pos h1, if_pos h1, w16_avg, w16_min, loadu_word_at 16 m q a h1.1 h1.2]
  · rw [if_neg h1, if_neg h1]

theorem write_8x1_2t_pixels_ver_spec :
    IsWriter1 (fun y0 y1 mask m q _ => write_8x1_2t_pixels_ver y0 y1 mask m q) 8 px8x1v
      gPlain := by
  intro y0 y1 mask m q pitch a
  simp only [write_8x1_2t_pixels_ver, mm_storeu_si128, storeu_apply, gPlain, px8x1v]
  by_cases h1 : q ≤ a ∧ a < q + ((8 : Nat) : Int)
  · rw [if_pos h1, if_pos h1, w16_min, w16_packus128]
    by_cases h2 : (a - q).toNat < 4
    · rw [if_pos h2, if_pos h2]
    · rw [if_neg h2, if_neg h2]
  · rw [if_neg h1, if_neg h1]

theorem write_8x1_2t_avg_pixels_ver_spec :
    IsWriter1 (fun y0 y1 mask m q _ => write_8x1_2t_avg_pixels_ver y0 y1 mask m q) 8 px8x1v
      gAvg := by
  intro y0 y1 mask m q pitch a
  simp only [write_8x1_2t_avg_pixels_ver, mm_storeu_si128, storeu_apply, mm_loadu_si128, gAvg,
    px8x1v]
  by_cases h1 : q ≤ a ∧ a < q + ((8 : Nat) : Int)
  · rw [if_pos h1, if_pos h1, w16_avg, w16_min, w16_packus128,
      loadu_word_at 8 m q a h1.1 h1.2]
    by_cases h2 : (a - q).toNat < 4
    · rw [if_pos h2, if_pos h2]
    · rw [if_neg h2, if_neg h2]
  · rw [if_neg h1, if_neg h1]

theorem horiz8_lane (f : Nat → Int) (srcm : Mem) (p sp : Int) (x : RegArr) (hf k : Nat)
    (hhf : hf < 2) (hk : k < 8) :
    s32 (d32 (filter_8x1_pixels (offR (pack_8x2_pixels srcm p sp x) (4 * hf)) (pack_filters f)) k)
      = conv8 f srcm (p + ((k / 4 : Nat) : Int) * sp + ((4 * hf + k % 4 : Nat) : Int)) 1 := by
  rw [filter_8x1_lane]
  interval_cases hf <;> interval_cases k <;>
    simp [pairProd, offR, pack_filters_word, pack_8x2_words, s16_mod, conv8, tap, add_assoc]

theorem sub32_of_le (h n : Nat) (h1 : n ≤ h) (h2 : h < 4294967296) : sub32 h n = h - n := by
  unfold sub32 u32; omega

theorem do_rows_two (body : LoopSt → LoopSt) (h : Nat) (st : LoopSt) (h2 : 2 ≤ h)
    (hlt : h < 4294967296) : do_rows 1 body h st = (body^[h / 2] st, h % 2) := by
  induction h using Nat.strong_induction_on generalizing st with
  | _ h ih =>
    rw [do_rows]
    have e : sub32 h (1 + 1) = h - 2 := sub32_of_le h 2 h2 hlt
    rw [e]
    by_cases hc : 1 < h - 2
    · rw [if_pos hc, ih (h - 2) (by omega) (body st) (by omega) (by omega)]
      have e1 : h / 2 = (h - 2) / 2 + 1 := by omega
      have e2 : h % 2 = (h - 2) % 2 := by omega
      rw [e1, e2, Function.iterate_succ_apply]
    · rw [if_neg hc]
      have e1 : h / 2 = 1 := by omega
      have e2 : h % 2 = h - 2 := by omega
      rw [e1, e2, Function.iterate_one]

theorem do_rows_one (body : LoopSt → LoopSt) (h : Nat) (st : LoopSt) (h1 : 1 ≤ h)
    (hlt : h < 4294967296) : do_rows 0 body h st = (body^[h] st, 0) := by
  induction h using Nat.strong_induction_on generalizing st with
  | _ h ih =>
    rw [do_rows]
    have e : sub32 h (0 + 1) = h - 1 := sub32_of_le h 1 h1 hlt
    rw [e]
    by_cases hc : 0 < h - 1
    · rw [if_pos hc, ih (h - 1) (by omega) (body st) (by omega) (by omega)]
      have e1 : h = (h - 1) + 1 := by omega
      conv_rhs => rw [e1, Function.iterate_succ_apply]
    · rw [if_neg hc]
      have e1 : h = 1 := by omega
      subst e1
      rfl

theorem rowAddr_zero (q pitch : Int) : rowAddr q pitch 0 = q := by simp [rowAddr]

theorem rowAddr_succ (q pitch : Int) (r : Nat) :
    rowAddr q pitch (r + 1) = rowAddr q pitch r + pitch := by
  simp [rowAddr]; ring

theorem rowAddr_lt (q pitch : Int) (hp : 0 ≤ pitch) (r s : Nat) (h : r < s) :
    rowAddr q pitch r + pitch ≤ rowAddr q pitch s := by
  induction s with
  | zero => omega
  | succ s ih =>
    rw [rowAddr_succ]
    rcases Nat.lt_succ_iff_lt_or_eq.mp h with h1 | h1
    · have := ih h1; omega
    · subst h1; omega

/-- Result of a loop of `n` one-row steps. -/
theorem iterate_rows1 (body : LoopSt → LoopSt) (w : Nat) (dp : Int) (hw : (w : Int) ≤ dp)
    (g : Nat → Nat → Nat) (V : Nat → Nat → Nat) (Inv : Nat → LoopSt → Prop) (st0 : LoopSt)
    (h0 : Inv 0 st0)
    (hstep : ∀ k st, Inv k st → st.dst_ptr = rowAddr st0.dst_ptr dp k →
      Inv (k + 1) (body st) ∧ (body st).dst_ptr = st.dst_ptr + dp ∧
      ∀ a, (body st).mem a
        = if st.dst_ptr ≤ a ∧ a < st.dst_ptr + (w : Int)
            then g (V k (a - st.dst_ptr).toNat) (st.mem a) else st.mem a)
    (n : Nat) :
    Inv n (body^[n] st0) ∧ (body^[n] st0).dst_ptr = rowAddr st0.dst_ptr dp n
    ∧ (∀ a, rowAddr st0.dst_ptr dp n ≤ a → (body^[n] st0).mem a = st0.mem a)
    ∧ (∀ r c, r < n → c < w →
        (body^[n] st0).mem (rowAddr st0.dst_ptr dp r + (c : Int))
          = g (V r c) (st0.mem (rowAddr st0.dst_ptr dp r + (c : Int))))
    ∧ (∀ a, (∀ r c, r < n → c < w → a ≠ rowAddr st0.dst_ptr dp r + (c : Int)) →
        (body^[n] st0).mem a = st0.mem a) := by
  have hdp : 0 ≤ dp := by omega
  induction n with
  | zero =>
    refine ⟨h0, by simp [rowAddr], fun a _ => rfl, fun r c hr => by omega, fun a _ => rfl⟩
  | succ n ih =>
    obtain ⟨hI, hq, hfut, hrows, hframe⟩ := ih
    rw [Function.iterate_succ_apply']
    obtain ⟨hI2, hq2, hmem⟩ := hstep n _ hI hq
    refine ⟨hI2, by rw [hq2, hq, rowAddr_succ], ?_, ?_, ?_⟩
    · intro a ha
      rw [rowAddr_succ] at ha
      rw [hmem a, if_neg (by omega)]
      exact hfut a (by omega)
    · intro r c hr hc
      rw [hmem]
      rcases Nat.lt_succ_iff_lt_or_eq.mp hr with h1 | h1
      · have := rowAddr_lt st0.dst_ptr dp hdp r n h1
        rw [if_neg (by omega)]
        exact hrows r c h1 hc
      · subst h1
        rw [if_pos (by omega), hq]
        have e : (rowAddr st0.dst_ptr dp r + (c : Int) - rowAddr st0.dst_ptr dp r).toNat = c := by
          omega
        rw [e, hfut _ (by omega)]
    · intro a ha
      rw [hmem a]
      by_cases hc : (body^[n] st0).dst_ptr ≤ a ∧ a < (body^[n] st0).dst_ptr + (w : Int)
      · exfalso
        rw [hq] at hc
        exact ha n (a - rowAddr st0.dst_ptr dp n).toNat (by omega) (by omega) (by omega)
      · rw [if_neg hc]
        exact hframe a (fun r c hr hc2 => ha r c (by omega) hc2)

/-- Result of a loop of `n` two-row steps. -/
theorem iterate_rows2 (body : LoopSt → LoopSt) (w : Nat) (dp : Int) (hw : (w : Int) ≤ dp)
    (g : Nat → Nat → Nat) (V : Nat → Nat → Nat) (Inv : Nat → LoopSt → Prop) (st0 : LoopSt)
    (h0 : Inv 0 st0)
    (hstep : ∀ k st, Inv k st → st.dst_ptr = rowAddr st0.dst_ptr dp (2 * k) →
      Inv (k + 1) (body st) ∧ (body st).dst_ptr = st.dst_ptr + 2 * dp ∧
      ∀ a, (body st).mem a
        = if st.dst_ptr + dp ≤ a ∧ a < st.dst_ptr + dp + (w : Int)
            then g (V (2 * k + 1) (a - (st.dst_ptr + dp)).toNat) (st.mem a)
          else if st.dst_ptr ≤ a ∧ a < st.dst_ptr + (w : Int)
            then g (V (2 * k) (a - st.dst_ptr).toNat) (st.mem a) else st.mem a)
    (n : Nat) :
    Inv n (body^[n] st0) ∧ (body^[n] st0).dst_ptr = rowAddr st0.dst_ptr dp (2 * n)
    ∧ (∀ a, rowAddr st0.dst_ptr dp (2 * n) ≤ a → (body^[n] st0).mem a = st0.mem a)
    ∧ (∀ r c, r < 2 * n → c < w →
        (body^[n] st0).mem (rowAddr st0.dst_ptr dp r + (c : Int))
          = g (V r c) (st0.mem (rowAddr st0.dst_ptr dp r + (c : Int))))
    ∧ (∀ a, (∀ r c, r < 2 * n → c < w → a ≠ rowAddr st0.dst_ptr dp r + (c : Int)) →
        (body^[n] st0).mem a = st0.mem a) := by
  have hdp : 0 ≤ dp := by omega
  induction n with
  | zero =>
    refine ⟨h0, by simp [rowAddr], fun a _ => rfl, fun r c hr => by omega, fun a _ => rfl⟩
  | succ n ih =>
    obtain ⟨hI, hq, hfut, hrows, hframe⟩ := ih
    rw [Function.iterate_succ_apply']
    obtain ⟨hI2, hq2, hmem⟩ := hstep n _ hI hq
    have e2 : 2 * (n + 1) = 2 * n + 1 + 1 := by ring
    have hs1 : rowAddr st0.dst_ptr dp (2 * n + 1) = rowAddr st0.dst_ptr dp (2 * n) + dp :=
      rowAddr_succ _ _ _
    have hs2 : rowAddr st0.dst_ptr dp (2 * n + 1 + 1) = rowAddr st0.dst_ptr dp (2 * n) + dp + dp := by
      rw [rowAddr_succ, hs1]
    refine ⟨hI2, by rw [hq2, hq, e2, hs2]; ring, ?_, ?_, ?_⟩
    · intro a ha
      rw [e2, hs2] at ha
      rw [hmem a, if_neg (by omega), if_neg (by omega)]
      exact hfut a (by omega)
    · intro r c hr hc
      rw [hmem]
      by_cases h1 : r < 2 * n
      · have := rowAddr_lt st0.dst_ptr dp hdp r (2 * n) h1
        rw [if_neg (by omega), if_neg (by omega)]
        exact hrows r c h1 hc
      · by_cases h3 : r = 2 * n
        · subst h3
          rw [if_neg (by omega), if_pos (by omega), hq]
          have e : (rowAddr st0.dst_ptr dp (2 * n) + (c : Int)
              - rowAddr st0.dst_ptr dp (2 * n)).toNat = c := by omega
          rw [e, hfut _ (by omega)]
        · have h4 : r = 2 * n + 1 := by omega
          subst h4
          rw [if_pos (by omega), hq]
          have e : (rowAddr st0.dst_ptr dp (2 * n + 1) + (c : Int)
              - (rowAddr st0.dst_ptr dp (2 * n) + dp)).toNat = c := by omega
          rw [e, hfut _ (by omega)]
    · intro a ha
      rw [hmem a]
      by_cases hc : (body^[n] st0).dst_ptr + dp ≤ a ∧ a < (body^[n] st0).dst_ptr + dp + (w : Int)
      · exfalso
        rw [hq] at hc
        exact ha (2 * n + 1) (a - rowAddr st0.dst_ptr dp (2 * n + 1)).toNat (by omega)
          (by omega) (by omega)
      · rw [if_neg hc]
        by_cases hc2 : (body^[n] st0).dst_ptr ≤ a ∧ a < (body^[n] st0).dst_ptr + (w : Int)
        · exfalso
          rw [hq] at hc2
          exact ha (2 * n) (a - rowAddr st0.dst_ptr dp (2 * n)).toNat (by omega) (by omega)
            (by omega)
        · rw [if_neg hc2]
          exact hframe a (fun r c hr hc3 => ha r c (by omega) hc3)

theorem pack_8x1_words (srcm : Mem) (p pitch : Int) (x : RegArr) (j k : Nat) (hj : j < 4)
    (hk : k < 16) :
    w16 (pack_8x1_pixels srcm p pitch x j) k
      = srcm (p + ((k / 2 + 2 * j + k % 2 : Nat) : Int)) % 65536 := by
  interval_cases j <;> interval_cases k <;>
    simp [pack_8x1_pixels, pack_pixels_with_format, regs, permute2x128_0x30,
      pack_pixels_words, mm256_loadu_si256, w16_loadu]

theorem horiz8x1_lane (f : Nat → Int) (srcm : Mem) (p sp : Int) (x : RegArr) (k : Nat)
    (hk : k < 8) :
    s32 (d32 (filter_8x1_pixels (pack_8x1_pixels srcm p sp x) (pack_filters f)) k)
      = conv8 f srcm (p + (k : Int)) 1 := by
  rw [filter_8x1_lane]
  interval_cases k <;>
    simp [pairProd, pack_filters_word, pack_8x1_words, s16_mod, conv8, tap, add_assoc]

theorem horiz8_px2 (f : Nat → Int) (srcm : Mem) (p sp : Int) (x : RegArr) (max : Reg)
    (i c : Nat) (hi : i < 2) (hc : c < 8) :
    px8x2 (filter_8x1_pixels (pack_8x2_pixels srcm p sp x) (pack_filters f))
        (filter_8x1_pixels (offR (pack_8x2_pixels srcm p sp x) 4) (pack_filters f)) max i c
      = outWord (w16 max (8 * i + c)) (conv8 f srcm (p + (i : Int) * sp + (c : Int)) 1) := by
  have l0 := fun k hk => horiz8_lane f srcm p sp x 0 k (by omega) hk
  have l1 := fun k hk => horiz8_lane f srcm p sp x 1 k (by omega) hk
  simp only [Nat.mul_zero, Nat.mul_one, Nat.zero_add] at l0 l1
  have e0 : offR (pack_8x2_pixels srcm p sp x) 0 = pack_8x2_pixels srcm p sp x := rfl
  rw [e0] at l0
  unfold px8x2 outWord
  by_cases h4 : c < 4
  · rw [if_pos h4, l0 _ (by omega)]
    have e1 : (4 * i + c) / 4 = i := by omega
    have e2 : (4 * i + c) % 4 = c := by omega
    rw [e1, e2]
  · rw [if_neg h4, l1 _ (by omega)]
    have e1 : (4 * i + (c - 4)) / 4 = i := by omega
    have e2 : 4 + (4 * i + (c - 4)) % 4 = c := by omega
    rw [e1, e2]

theorem horiz8_px1 (f : Nat → Int) (srcm : Mem) (p sp : Int) (x : RegArr) (y1 max : Reg)
    (c : Nat) (hc : c < 8) :
    px8x1 (filter_8x1_pixels (pack_8x1_pixels srcm p sp x) (pack_filters f)) y1 max c
      = outWord (w16 max c) (conv8 f srcm (p + (c : Int)) 1) := by
  unfold px8x1 outWord
  rw [horiz8x1_lane _ _ _ _ _ _ hc]

/-- Rows written by `filter_block_width8_horiz`, for writers that combine with `g`. -/
theorem filter_block_width8_horiz_rows (W1 W2 : WritePixels) (g : Nat → Nat → Nat)
    (hW1 : IsWriter1 W1 8 px8x1 g) (hW2 : IsWriter2 W2 8 px8x2 g)
    (srcm : Mem) (p sp : Int) (dstm : Mem) (q dp : Int) (h : Nat) (f : Nat → Int) (bd : Nat)
    (hdp : 8 ≤ dp) (h2 : 2 ≤ h) (hlt : h < 4294967296) :
    (∀ r c : Nat, r < h → c < 8 →
      filter_block_width8_horiz srcm p sp W1 W2 dstm q dp h f bd (rowAddr q dp r + (c : Int))
        = g (outWord (u16 (2 ^ bd - 1)) (conv8 f srcm (rowAddr (p - 3) sp r + (c : Int)) 1))
            (dstm (rowAddr q dp r + (c : Int))))
    ∧ (∀ a, (∀ r c : Nat, r < h → c < 8 → a ≠ rowAddr q dp r + (c : Int)) →
      filter_block_width8_horiz srcm p sp W1 W2 dstm q dp h f bd a = dstm a) := by
  have hdp0 : 0 ≤ dp := by omega
  have key := iterate_rows2
    (filter_block_width8_horiz_body srcm sp W2 dp (pack_filters f) (mm_set1_epi16 (2 ^ bd - 1)))
    8 dp (by omega) g
    (fun r c => outWord (u16 (2 ^ bd - 1)) (conv8 f srcm (rowAddr (p - 3) sp r + (c : Int)) 1))
    (fun k st => st.src_ptr = rowAddr (p - 3) sp (2 * k))
    (entrySt (p - 3) q dstm) (by simp [entrySt, rowAddr])
    (by
      intro k st hI hq
      refine ⟨?_, rfl, ?_⟩
      · show st.src_ptr + 2 * sp = _
        rw [hI]; simp [rowAddr]; ring
      · intro a
        show W2 _ _ _ st.mem st.dst_ptr dp a = _
        rw [hW2]
        by_cases c1 : st.dst_ptr + dp ≤ a ∧ a < st.dst_ptr + dp + ((8 : Nat) : Int)
        · rw [if_pos c1, if_pos c1, horiz8_px2 _ _ _ _ _ _ _ _ (by omega) (by omega), w16_set1,
            hI]
          simp only [rowAddr_succ, Nat.cast_one, one_mul]
        · rw [if_neg c1, if_neg c1]
          by_cases c2 : st.dst_ptr ≤ a ∧ a < st.dst_ptr + ((8 : Nat) : Int)
          · rw [if_pos c2, if_pos c2, horiz8_px2 _ _ _ _ _ _ _ _ (by omega) (by omega),
              w16_set1, hI]
            simp only [Nat.cast_zero, zero_mul, add_zero]
          · rw [if_neg c2, if_neg c2])
    (h / 2)
  obtain ⟨hI, hq, hfut, hrows, hframe⟩ := key
  have eq0 : (entrySt (p - 3) q dstm).dst_ptr = q := rfl
  have em0 : (entrySt (p - 3) q dstm).mem = dstm := rfl
  simp only [eq0, em0] at hq hfut hrows hframe
  unfold filter_block_width8_horiz
  simp only [do_rows_two _ h _ h2 hlt]
  by_cases hodd : 0 < h % 2
  · simp only [if_pos hodd]
    have hh : h = 2 * (h / 2) + 1 := by omega
    constructor
    · intro r c hr hc
      rw [hW1, hq]
      by_cases hlast : r = 2 * (h / 2)
      · have e : (rowAddr q dp r + (c : Int) - rowAddr q dp (2 * (h / 2))).toNat = c := by
          rw [hlast]; omega
        rw [if_pos (by rw [hlast]; omega), e, horiz8_px1 _ _ _ _ _ _ _ _ hc, w16_set1, hI,
          ← hlast, hfut _ (by rw [hlast]; omega)]
      · have hr2 : r < 2 * (h / 2) := by omega
        have := rowAddr_lt q dp hdp0 r _ hr2
        rw [if_neg (by omega)]
        exact hrows r c hr2 hc
    · intro a ha
      rw [hW1, hq]
      by_cases c1 : rowAddr q dp (2 * (h / 2)) ≤ a ∧ a < rowAddr q dp (2 * (h / 2)) + ((8 : Nat) : Int)
      · exfalso
        exact ha (2 * (h / 2)) (a - rowAddr q dp (2 * (h / 2))).toNat (by omega) (by omega)
          (by omega)
      · rw [if_neg c1]
        exact hframe a (fun r c hr hc => ha r c (by omega) hc)
  · simp only [if_neg hodd]
    have hh : h = 2 * (h / 2) := by omega
    constructor
    · intro r c hr hc
      exact hrows r c (by omega) hc
    · intro a ha
      exact hframe a (fun r c hr hc => ha r c (by omega) hc)

theorem pack_16x1_words (srcm : Mem) (p pitch : Int) (x : RegArr) (j k : Nat) (hj : j < 8)
    (hk : k < 16) :
    w16 (pack_16x1_pixels srcm p pitch x j) k
      = srcm (p + ((8 * (k / 8) + 4 * (j / 4) + k / 2 % 4 + 2 * (j % 4) + k % 2 : Nat) : Int))
          % 65536 := by
  simp only [pack_16x1_pixels, pack_pixels_with_format, pack_16_words _ _ _ _ hj hk,
    mm256_loadu_si256]
  by_cases h8 : k < 8
  · rw [if_pos h8, w16_loadu _ _ _ _ (by omega)]
    have e : k / 8 = 0 := by omega
    rw [e]; simp
  · rw [if_neg h8, w16_loadu _ _ _ _ (by omega)]
    have e : k / 8 = 1 := by omega
    rw [e]; push_cast; ring_nf

theorem unpacklo_words (a b : Reg) (k : Nat) :
    w16 (mm_unpacklo_epi16 a b) k = w16 (if k % 2 = 0 then a else b) (8 * (k / 8) + k % 8 / 2) := by
  simp only [w16, mm_unpacklo_epi16]
  have e1 : 2 * k % 16 / 2 % 2 = k % 2 := by omega
  have e2 : (2 * k + 1) % 16 / 2 % 2 = k % 2 := by omega
  rw [e1, e2]
  split_ifs <;> exact bytes_congr _ (by omega) (by omega)

theorem unpackhi_words (a b : Reg) (k : Nat) :
    w16 (mm_unpackhi_epi16 a b) k
      = w16 (if k % 2 = 0 then a else b) (8 * (k / 8) + 4 + k % 8 / 2) := by
  simp only [w16, mm_unpackhi_epi16]
  have e1 : 2 * k % 16 / 2 % 2 = k % 2 := by omega
  have e2 : (2 * k + 1) % 16 / 2 % 2 = k % 2 := by omega
  rw [e1, e2]
  split_ifs <;> exact bytes_congr _ (by omega) (by omega)

/-- Final memory of a loop of one-row steps (`do ... while (height > 0)`). -/
theorem rows1_final (body : LoopSt → LoopSt) (w : Nat) (dp : Int) (hw : (w : Int) ≤ dp)
    (g : Nat → Nat → Nat) (V : Nat → Nat → Nat) (Inv : Nat → LoopSt → Prop) (st0 : LoopSt)
    (h0 : Inv 0 st0)
    (hstep : ∀ k st, Inv k st → st.dst_ptr = rowAddr st0.dst_ptr dp k →
      Inv (k + 1) (body st) ∧ (body st).dst_ptr = st.dst_ptr + dp ∧
      ∀ a, (body st).mem a
        = if st.dst_ptr ≤ a ∧ a < st.dst_ptr + (w : Int)
            then g (V k (a - st.dst_ptr).toNat) (st.mem a) else st.mem a)
    (h : Nat) (h1 : 1 ≤ h) (hlt : h < 4294967296) :
    (∀ r c : Nat, r < h → c < w →
        (do_rows 0 body h st0).1.mem (rowAddr st0.dst_ptr dp r + (c : Int))
          = g (V r c) (st0.mem (rowAddr st0.dst_ptr dp r + (c : Int))))
    ∧ (∀ a, (∀ r c : Nat, r < h → c < w → a ≠ rowAddr st0.dst_ptr dp r + (c : Int)) →
        (do_rows 0 body h st0).1.mem a = st0.mem a) := by
  rw [do_rows_one body h st0 h1 hlt]
  obtain ⟨_, _, _, hrows, hframe⟩ := iterate_rows1 body w dp hw g V Inv st0 h0 hstep h
  exact ⟨hrows, hframe⟩

/-- Final memory of a loop of two-row steps followed by the one-row tail for an odd
height. -/
theorem rows2_final (body : LoopSt → LoopSt) (tail : LoopSt → Mem) (w : Nat) (dp : Int)
    (hw : (w : Int) ≤ dp)
    (g : Nat → Nat → Nat) (V : Nat → Nat → Nat) (Inv : Nat → LoopSt → Prop) (st0 : LoopSt)
    (h0 : Inv 0 st0)
    (hstep : ∀ k st, Inv k st → st.dst_ptr = rowAddr st0.dst_ptr dp (2 * k) →
      Inv (k + 1) (body st) ∧ (body st).dst_ptr = st.dst_ptr + 2 * dp ∧
      ∀ a, (body st).mem a
        = if st.dst_ptr + dp ≤ a ∧ a < st.dst_ptr + dp + (w : Int)
            then g (V (2 * k + 1) (a - (st.dst_ptr + dp)).toNat) (st.mem a)
          else if st.dst_ptr ≤ a ∧ a < st.dst_ptr + (w : Int)
            then g (V (2 * k) (a - st.dst_ptr).toNat) (st.mem a) else st.mem a)
    (htail : ∀ k st, Inv k st → st.dst_ptr = rowAddr st0.dst_ptr dp (2 * k) →
      ∀ a, tail st a
        = if st.dst_ptr ≤ a ∧ a < st.dst_ptr + (w : Int)
            then g (V (2 * k) (a - st.dst_ptr).toNat) (st.mem a) else st.mem a)
    (h : Nat) (h2 : 2 ≤ h) (hlt : h < 4294967296) :
    (∀ r c : Nat, r < h → c < w →
        (if 0 < (do_rows 1 body h st0).2 then tail (do_rows 1 body h st0).1
          else (do_rows 1 body h st0).1.mem) (rowAddr st0.dst_ptr dp r + (c : Int))
          = g (V r c) (st0.mem (rowAddr st0.dst_ptr dp r + (c : Int))))
    ∧ (∀ a, (∀ r c : Nat, r < h → c < w → a ≠ rowAddr st0.dst_ptr dp r + (c : Int)) →
        (if 0 < (do_rows 1 body h st0).2 then tail (do_rows 1 body h st0).1
          else (do_rows 1 body h st0).1.mem) a = st0.mem a) := by
  have hdp0 : 0 ≤ dp := by omega
  obtain ⟨hI, hq, hfut, hrows, hframe⟩ :=
    iterate_rows2 body w dp hw g V Inv st0 h0 hstep (h / 2)
  have ht := htail (h / 2) _ hI hq
  rw [do_rows_two body h st0 h2 hlt]
  by_cases hodd : 0 < h % 2
  · simp only [if_pos hodd]
    have hh : h = 2 * (h / 2) + 1 := by omega
    constructor
    · intro r c hr hc
      rw [ht, hq]
      by_cases hlast : r = 2 * (h / 2)
      · have e : (rowAddr st0.dst_ptr dp r + (c : Int)
            - rowAddr st0.dst_ptr dp (2 * (h / 2))).toNat = c := by
          rw [hlast]; omega
        rw [if_pos (by rw [hlast]; omega), e, ← hlast, hfut _ (by rw [hlast]; omega)]
      · have hr2 : r < 2 * (h / 2) := by omega
        have := rowAddr_lt st0.dst_ptr dp hdp0 r _ hr2
        rw [if_neg (by omega)]
        exact hrows r c hr2 hc
    · intro a ha
      rw [ht, hq]
      by_cases c1 : rowAddr st0.dst_ptr dp (2 * (h / 2)) ≤ a
          ∧ a < rowAddr st0.dst_ptr dp (2 * (h / 2)) + (w : Int)
      · exfalso
        exact ha (2 * (h / 2)) (a - rowAddr st0.dst_ptr dp (2 * (h / 2))).toNat (by omega)
          (by omega) (by omega)
      · rw [if_neg c1]
        exact hframe a (fun r c hr hc => ha r c (by omega) hc)
  · simp only [if_neg hodd]
    have hh : h = 2 * (h / 2) := by omega
    constructor
    · intro r c hr hc
      exact hrows r c (by omega) hc
    · intro a ha
      exact hframe a (fun r c hr hc => ha r c (by omega) hc)

/-- Rows written by `filter_block_width8_horiz`, for writers that combine with `g`. -/
theorem filter_block_width8_horiz_rows2 (W1 W2 : WritePixels) (g : Nat → Nat → Nat)
    (hW1 : IsWriter1 W1 8 px8x1 g) (hW2 : IsWriter2 W2 8 px8x2 g)
    (srcm : Mem) (p sp : Int) (dstm : Mem) (q dp : Int) (h : Nat) (f : Nat → Int) (bd : Nat)
    (hdp : 8 ≤ dp) (h2 : 2 ≤ h) (hlt : h < 4294967296) :
    (∀ r c : Nat, r < h → c < 8 →
      filter_block_width8_horiz srcm p sp W1 W2 dstm q dp h f bd (rowAddr q dp r + (c : Int))
        = g (outWord (u16 (2 ^ bd - 1)) (conv8 f srcm (rowAddr (p - 3) sp r + (c : Int)) 1))
            (dstm (rowAddr q dp r + (c : Int))))
    ∧ (∀ a, (∀ r c : Nat, r < h → c < 8 → a ≠ rowAddr q dp r + (c : Int)) →
      filter_block_width8_horiz srcm p sp W1 W2 dstm q dp h f bd a = dstm a) := by
  exact rows2_final
    (filter_block_width8_horiz_body srcm sp W2 dp (pack_filters f) (mm_set1_epi16 (2 ^ bd - 1)))
    (fun st => W1 (filter_8x1_pixels (pack_8x1_pixels srcm st.src_ptr sp st.signal)
      (pack_filters f)) st.res1 (mm_set1_epi16 (2 ^ bd - 1)) st.mem st.dst_ptr dp)
    8 dp (by omega) g
    (fun r c => outWord (u16 (2 ^ bd - 1)) (conv8 f srcm (rowAddr (p - 3) sp r + (c : Int)) 1))
    (fun k st => st.src_ptr = rowAddr (p - 3) sp (2 * k))
    (entrySt (p - 3) q dstm) (by simp [entrySt, rowAddr])
    (by
      intro k st hI hq
      refine ⟨?_, rfl, ?_⟩
      · show st.src_ptr + 2 * sp = _
        rw [hI]; simp [rowAddr]; ring
      · intro a
        show W2 _ _ _ st.mem st.dst_ptr dp a = _
        rw [hW2]
        by_cases c1 : st.dst_ptr + dp ≤ a ∧ a < st.dst_ptr + dp + ((8 : Nat) : Int)
        · rw [if_pos c1, if_pos c1, horiz8_px2 _ _ _ _ _ _ _ _ (by omega) (by omega), w16_set1,
            hI]
          simp only [rowAddr_succ, Nat.cast_one, one_mul]
        · rw [if_neg c1, if_neg c1]
          by_cases c2 : st.dst_ptr ≤ a ∧ a < st.dst_ptr + ((8 : Nat) : Int)
          · rw [if_pos c2, if_pos c2, horiz8_px2 _ _ _ _ _ _ _ _ (by omega) (by omega),
              w16_set1, hI]
            simp only [Nat.cast_zero, zero_mul, add_zero]
          · rw [if_neg c2, if_neg c2])
    (by
      intro k st hI hq a
      show W1 _ _ _ st.mem st.dst_ptr dp a = _
      rw [hW1]
      by_cases c1 : st.dst_ptr ≤ a ∧ a < st.dst_ptr + ((8 : Nat) : Int)
      · rw [if_pos c1, if_pos c1, horiz8_px1 _ _ _ _ _ _ _ _ (by omega), w16_set1, hI]
      · rw [if_neg c1, if_neg c1])
    h h2 hlt

theorem horiz16_lane (f : Nat → Int) (srcm : Mem) (p sp : Int) (x : RegArr) (hf k : Nat)
    (hhf : hf < 2) (hk : k < 8) :
    s32 (d32 (filter_8x1_pixels (offR (pack_16x1_pixels srcm p sp x) (4 * hf)) (pack_filters f)) k)
      = conv8 f srcm (p + ((8 * (k / 4) + 4 * hf + k % 4 : Nat) : Int)) 1 := by
  rw [filter_8x1_lane]
  interval_cases hf <;> interval_cases k <;>
    simp [pairProd, offR, pack_filters_word, pack_16x1_words, s16_mod, conv8, tap, add_assoc]

theorem horiz16_px (f : Nat → Int) (srcm : Mem) (p sp : Int) (x : RegArr) (max : Reg)
    (c : Nat) (hc : c < 16) :
    px16x1 (filter_8x1_pixels (pack_16x1_pixels srcm p sp x) (pack_filters f))
        (filter_8x1_pixels (offR (pack_16x1_pixels srcm p sp x) 4) (pack_filters f)) max c
      = outWord (w16 max c) (conv8 f srcm (p + (c : Int)) 1) := by
  have l0 := fun k hk => horiz16_lane f srcm p sp x 0 k (by omega) hk
  have l1 := fun k hk => horiz16_lane f srcm p sp x 1 k (by omega) hk
  simp only [Nat.mul_zero, Nat.mul_one, Nat.add_zero] at l0 l1
  have e0 : offR (pack_16x1_pixels srcm p sp x) 0 = pack_16x1_pixels srcm p sp x := rfl
  rw [e0] at l0
  unfold px16x1 outWord
  by_cases h4 : c % 8 < 4
  · rw [if_pos h4, l0 _ (by omega)]
    have e1 : 8 * ((4 * (c / 8) + c % 8) / 4) + (4 * (c / 8) + c % 8) % 4 = c := by omega
    rw [e1]
  · rw [if_neg h4, l1 _ (by omega)]
    have e1 : 8 * ((4 * (c / 8) + (c % 8 - 4)) / 4) + 4 + (4 * (c / 8) + (c % 8 - 4)) % 4 = c := by
      omega
    rw [e1]

/-- Rows written by `filter_block_width16_horiz`, for a writer that combines with `g`. -/
theorem filter_block_width16_horiz_rows (W : WritePixels) (g : Nat → Nat → Nat)
    (hW : IsWriter1 W 16 px16x1 g)
    (srcm : Mem) (p sp : Int) (dstm : Mem) (q dp : Int) (h : Nat) (f : Nat → Int) (bd : Nat)
    (hdp : 16 ≤ dp) (h1 : 1 ≤ h) (hlt : h < 4294967296) :
    (∀ r c : Nat, r < h → c < 16 →
      filter_block_width16_horiz srcm p sp W dstm q dp h f bd (rowAddr q dp r + (c : Int))
        = g (outWord (u16 (2 ^ bd - 1)) (conv8 f srcm (rowAddr (p - 3) sp r + (c : Int)) 1))
            (dstm (rowAddr q dp r + (c : Int))))
    ∧ (∀ a, (∀ r c : Nat, r < h → c < 16 → a ≠ rowAddr q dp r + (c : Int)) →
      filter_block_width16_horiz srcm p sp W dstm q dp h f bd a = dstm a) := by
  exact rows1_final
    (filter_block_width16_horiz_body srcm sp W dp (pack_filters f) (mm_set1_epi16 (2 ^ bd - 1)))
    16 dp (by omega) g
    (fun r c => outWord (u16 (2 ^ bd - 1)) (conv8 f srcm (rowAddr (p - 3) sp r + (c : Int)) 1))
    (fun k st => st.src_ptr = rowAddr (p - 3) sp k)
    (entrySt (p - 3) q dstm) (by simp [entrySt, rowAddr])
    (by
      intro k st hI hq
      refine ⟨?_, rfl, ?_⟩
      · show st.src_ptr + sp = _
        rw [hI, rowAddr_succ]
      · intro a
        show W _ _ _ st.mem st.dst_ptr dp a = _
        rw [hW]
        by_cases c1 : st.dst_ptr ≤ a ∧ a < st.dst_ptr + ((16 : Nat) : Int)
        · rw [if_pos c1, if_pos c1, horiz16_px _ _ _ _ _ _ _ (by omega), w16_set1, hI]
        · rw [if_neg c1, if_neg c1])
    h h1 hlt

theorem pack_2t_filter_word (f : Nat → Int) (k : Nat) (hk : k < 16) :
    w16 (pack_2t_filter f) k = u16 (f (3 + k % 2)) := by
  have h3 := u16_lt (f 3)
  have h4 := u16_lt (f 4)
  interval_cases k <;>
    (simp [pack_2t_filter, w16, mm_shuffle_epi8, mm_set1_epi32, ofD32, u32,
      mm256_insertf128_si256_1, mm256_castsi128_si256, lowBytes, loadFilter, ofW16] at h3 h4 ⊢
     <;> omega)

theorem pack_16_2t_words (s0 s1 : Reg) (sig : RegArr) (j k : Nat) (hj : j < 2) (hk : k < 16) :
    w16 (pack_16_2t_pixels s0 s1 sig j) k
      = w16 (if k < 8 then s0 else s1) (4 * j + 3 + k % 8 / 2 + k % 2) := by
  interval_cases j <;> interval_cases k <;>
    (simp [pack_16_2t_pixels, setR, permute2x128_0x20]
     simp [w16, mm_shuffle_epi8, loadTable8,
      loadTable32, signal_pattern_2, signal_index, mm256_permutevar8x32_epi32, d32_ofD32])

theorem filter_2t_lane (a f : Reg) (k : Nat) :
    s32 (d32 (mm_srai_epi32 (mm_add_epi32 (mm_madd_epi16 a f) (mm_set1_epi32 (2 ^ (7 - 1)))) 7) k)
      = wrap32 (pairProd a f k + 64) / 128 := by
  simp only [sd_srai7, sd_add, sd_madd, sd_set1]
  congr 1
  unfold wrap32; norm_num; omega

theorem pack_8x2_2t_words (srcm : Mem) (p sp : Int) (sig : RegArr) (j k : Nat) (hj : j < 2)
    (hk : k < 16) :
    w16 (pack_8x2_2t_pixels srcm p sp sig j) k
      = srcm (p + ((k / 8 : Nat) : Int) * sp + ((4 * j + 3 + k % 8 / 2 + k % 2 : Nat) : Int))
          % 65536 := by
  simp only [pack_8x2_2t_pixels, pack_16_2t_words _ _ _ _ _ hj hk, mm256_loadu_si256]
  by_cases h8 : k < 8
  · rw [if_pos h8, w16_loadu _ _ _ _ (by omega)]
    have e : k / 8 = 0 := by omega
    rw [e]; simp
  · rw [if_neg h8, w16_loadu _ _ _ _ (by omega)]
    have e : k / 8 = 1 := by omega
    rw [e]; simp

theorem pack_16x1_2t_words (srcm : Mem) (p : Int) (sig : RegArr) (j k : Nat) (hj : j < 2)
    (hk : k < 16) :
    w16 (pack_16x1_2t_pixels srcm p sig j) k
      = srcm (p + ((8 * (k / 8) + 4 * j + 3 + k % 8 / 2 + k % 2 : Nat) : Int)) % 65536 := by
  simp only [pack_16x1_2t_pixels, pack_16_2t_words _ _ _ _ _ hj hk, mm256_loadu_si256]
  by_cases h8 : k < 8
  · rw [if_pos h8, w16_loadu _ _ _ _ (by omega)]
    have e : k / 8 = 0 := by omega
    rw [e]; simp
  · rw [if_neg h8, w16_loadu _ _ _ _ (by omega)]
    have e : k / 8 = 1 := by omega
    rw [e]; push_cast; ring_nf

theorem pack_8x1_2t_words (srcm : Mem) (p : Int) (sig : RegArr) (k : Nat) (hk : k < 16) :
    w16 (pack_8x1_2t_pixels srcm p sig 0) k
      = srcm (p + ((4 * (k / 8) + 3 + k % 8 / 2 + k % 2 : Nat) : Int)) % 65536 := by
  interval_cases k <;>
    (simp [pack_8x1_2t_pixels, setR, permute2x128_0x20]
     simp [w16, mm_shuffle_epi8, loadTable8, loadTable32, signal_pattern_2, signal_index,
       mm256_permutevar8x32_epi32, d32_ofD32, mm256_loadu_si256, loadu]
     try omega)

theorem horiz8_2t_lane (f : Nat → Int) (srcm : Mem) (p sp : Int) (x : RegArr) (j k : Nat)
    (hj : j < 2) (hk : k < 8) :
    s32 (d32 (mm_srai_epi32 (mm_add_epi32 (mm_madd_epi16 (pack_8x2_2t_pixels srcm p sp x j)
        (pack_2t_filter f)) (mm_set1_epi32 (2 ^ (7 - 1)))) 7) k)
      = conv2 f srcm (p + ((k / 4 : Nat) : Int) * sp + ((4 * j + 3 + k % 4 : Nat) : Int)) 1 := by
  rw [filter_2t_lane]
  interval_cases j <;> interval_cases k <;>
    simp [pairProd, pack_2t_filter_word, pack_8x2_2t_words, s16_mod, conv2, tap, add_assoc]

theorem horiz8_2t_px2 (f : Nat → Int) (srcm : Mem) (p sp : Int) (x : RegArr) (max : Reg)
    (i c : Nat) (hi : i < 2) (hc : c < 8) :
    px8x2 (filter_8x2_2t_pixels (pack_8x2_2t_pixels srcm p sp x) (pack_2t_filter f)).1
        (filter_8x2_2t_pixels (pack_8x2_2t_pixels srcm p sp x) (pack_2t_filter f)).2 max i c
      = outWord (w16 max (8 * i + c))
          (conv2 f srcm (p + (i : Int) * sp + ((c + 3 : Nat) : Int)) 1) := by
  have l0 := fun k hk => horiz8_2t_lane f srcm p sp x 0 k (by omega) hk
  have l1 := fun k hk => horiz8_2t_lane f srcm p sp x 1 k (by omega) hk
  simp only [Nat.mul_zero, Nat.mul_one, Nat.zero_add] at l0 l1
  unfold px8x2 outWord filter_8x2_2t_pixels filter_16_2t_pixels CONV8_ROUNDING_BITS
  by_cases h4 : c < 4
  · rw [if_pos h4, l0 _ (by omega)]
    have e1 : (4 * i + c) / 4 = i := by omega
    have e2 : 3 + (4 * i + c) % 4 = c + 3 := by omega
    rw [e1, e2]
  · rw [if_neg h4, l1 _ (by omega)]
    have e1 : (4 * i + (c - 4)) / 4 = i := by omega
    have e2 : 4 + 3 + (4 * i + (c - 4)) % 4 = c + 3 := by omega
    rw [e1, e2]

theorem horiz8_2t_px1 (f : Nat → Int) (srcm : Mem) (p : Int) (x : RegArr) (y1 max : Reg)
    (c : Nat) (hc : c < 8) :
    px8x1 (filter_8x1_2t_pixels (pack_8x1_2t_pixels srcm p x) (pack_2t_filter f)) y1 max c
      = outWord (w16 max c) (conv2 f srcm (p + ((c + 3 : Nat) : Int)) 1) := by
  unfold px8x1 outWord filter_8x1_2t_pixels CONV8_ROUNDING_BITS
  rw [filter_2t_lane]
  interval_cases c <;>
    simp [pairProd, pack_2t_filter_word, pack_8x1_2t_words, s16_mod, conv2, tap, add_assoc]

theorem horiz16_2t_lane (f : Nat → Int) (srcm : Mem) (p : Int) (x : RegArr) (j k : Nat)
    (hj : j < 2) (hk : k < 8) :
    s32 (d32 (mm_srai_epi32 (mm_add_epi32 (mm_madd_epi16 (pack_16x1_2t_pixels srcm p x j)
        (pack_2t_filter f)) (mm_set1_epi32 (2 ^ (7 - 1)))) 7) k)
      = conv2 f srcm (p + ((8 * (k / 4) + 4 * j + 3 + k % 4 : Nat) : Int)) 1 := by
  rw [filter_2t_lane]
  interval_cases j <;> interval_cases k <;>
    simp [pairProd, pack_2t_filter_word, pack_16x1_2t_words, s16_mod, conv2, tap, add_assoc]

theorem horiz16_2t_px (f : Nat → Int) (srcm : Mem) (p : Int) (x : RegArr) (max : Reg)
    (c : Nat) (hc : c < 16) :
    px16x1 (filter_16x1_2t_pixels (pack_16x1_2t_pixels srcm p x) (pack_2t_filter f)).1
        (filter_16x1_2t_pixels (pack_16x1_2t_pixels srcm p x) (pack_2t_filter f)).2 max c
      = outWord (w16 max c) (conv2 f srcm (p + ((c + 3 : Nat) : Int)) 1) := by
  have l0 := fun k hk => horiz16_2t_lane f srcm p x 0 k (by omega) hk
  have l1 := fun k hk => horiz16_2t_lane f srcm p x 1 k (by omega) hk
  simp only [Nat.mul_zero, Nat.mul_one, Nat.add_zero] at l0 l1
  unfold px16x1 outWord filter_16x1_2t_pixels filter_16_2t_pixels CONV8_ROUNDING_BITS
  by_cases h4 : c % 8 < 4
  · rw [if_pos h4, l0 _ (by omega)]
    have e1 : 8 * ((4 * (c / 8) + c % 8) / 4) + 3 + (4 * (c / 8) + c % 8) % 4 = c + 3 := by
      omega
    rw [e1]
  · rw [if_neg h4, l1 _ (by omega)]
    have e1 : 8 * ((4 * (c / 8) + (c % 8 - 4)) / 4) + 4 + 3 + (4 * (c / 8) + (c % 8 - 4)) % 4
        = c + 3 := by omega
    rw [e1]

theorem rowAddr_shift (p sp : Int) (r c : Nat) :
    rowAddr (p - 3) sp r + ((c + 3 : Nat) : Int) = rowAddr p sp r + (c : Int) := by
  simp only [rowAddr]; push_cast; ring

/-- Rows written by `filter_block_width8_2t_horiz`, for writers that combine with `g`. -/
theorem filter_block_width8_2t_horiz_rows (W1 W2 : WritePixels) (g : Nat → Nat → Nat)
    (hW1 : IsWriter1 W1 8 px8x1 g) (hW2 : IsWriter2 W2 8 px8x2 g)
    (srcm : Mem) (p sp : Int) (dstm : Mem) (q dp : Int) (h : Nat) (f : Nat → Int) (bd : Nat)
    (hdp : 8 ≤ dp) (h2 : 2 ≤ h) (hlt : h < 4294967296) :
    (∀ r c : Nat, r < h → c < 8 →
      filter_block_width8_2t_horiz srcm p sp W1 W2 dstm q dp h f bd (rowAddr q dp r + (c : Int))
        = g (outWord (u16 (2 ^ bd - 1)) (conv2 f srcm (rowAddr p sp r + (c : Int)) 1))
            (dstm (rowAddr q dp r + (c : Int))))
    ∧ (∀ a, (∀ r c : Nat, r < h → c < 8 → a ≠ rowAddr q dp r + (c : Int)) →
      filter_block_width8_2t_horiz srcm p sp W1 W2 dstm q dp h f bd a = dstm a) := by
  exact rows2_final
    (filter_block_width8_2t_horiz_body srcm sp W2 dp (pack_2t_filter f)
      (mm_set1_epi16 (2 ^ bd - 1)))
    (fun st => W1 (filter_8x1_2t_pixels (pack_8x1_2t_pixels srcm st.src_ptr st.signal)
      (pack_2t_filter f)) st.res1 (mm_set1_epi16 (2 ^ bd - 1)) st.mem st.dst_ptr dp)
    8 dp (by omega) g
    (fun r c => outWord (u16 (2 ^ bd - 1)) (conv2 f srcm (rowAddr p sp r + (c : Int)) 1))
    (fun k st => st.src_ptr = rowAddr (p - 3) sp (2 * k))
    (entrySt (p - 3) q dstm) (by simp [entrySt, rowAddr])
    (by
      intro k st hI hq
      refine ⟨?_, rfl, ?_⟩
      · show st.src_ptr + 2 * sp = _
        rw [hI]; simp [rowAddr]; ring
      · intro a
        show W2 _ _ _ st.mem st.dst_ptr dp a = _
        rw [hW2]
        by_cases c1 : st.dst_ptr + dp ≤ a ∧ a < st.dst_ptr + dp + ((8 : Nat) : Int)
        · rw [if_pos c1, if_pos c1, horiz8_2t_px2 _ _ _ _ _ _ _ _ (by omega) (by omega),
            w16_set1, hI]
          simp only [Nat.cast_one, one_mul, ← rowAddr_succ, rowAddr_shift]
        · rw [if_neg c1, if_neg c1]
          by_cases c2 : st.dst_ptr ≤ a ∧ a < st.dst_ptr + ((8 : Nat) : Int)
          · rw [if_pos c2, if_pos c2, horiz8_2t_px2 _ _ _ _ _ _ _ _ (by omega) (by omega),
              w16_set1, hI]
            simp only [Nat.cast_zero, zero_mul, add_zero, rowAddr_shift]
          · rw [if_neg c2, if_neg c2])
    (by
      intro k st hI hq a
      show W1 _ _ _ st.mem st.dst_ptr dp a = _
      rw [hW1]
      by_cases c1 : st.dst_ptr ≤ a ∧ a < st.dst_ptr + ((8 : Nat) : Int)
      · rw [if_pos c1, if_pos c1, horiz8_2t_px1 _ _ _ _ _ _ _ (by omega), w16_set1, hI,
          rowAddr_shift]
      · rw [if_neg c1, if_neg c1])
    h h2 hlt

/-- Rows written by `filter_block_width16_2t_horiz`, for a writer that combines with `g`. -/
theorem filter_block_width16_2t_horiz_rows (W : WritePixels) (g : Nat → Nat → Nat)
    (hW : IsWriter1 W 16 px16x1 g)
    (srcm : Mem) (p sp : Int) (dstm : Mem) (q dp : Int) (h : Nat) (f : Nat → Int) (bd : Nat)
    (hdp : 16 ≤ dp) (h1 : 1 ≤ h) (hlt : h < 4294967296) :
    (∀ r c : Nat, r < h → c < 16 →
      filter_block_width16_2t_horiz srcm p sp W dstm q dp h f bd (rowAddr q dp r + (c : Int))
        = g (outWord (u16 (2 ^ bd - 1)) (conv2 f srcm (rowAddr p sp r + (c : Int)) 1))
            (dstm (rowAddr q dp r + (c : Int))))
    ∧ (∀ a, (∀ r c : Nat, r < h → c < 16 → a ≠ rowAddr q dp r + (c : Int)) →
      filter_block_width16_2t_horiz srcm p sp W dstm q dp h f bd a = dstm a) := by
  exact rows1_final
    (filter_block_width16_2t_horiz_body srcm sp W dp (pack_2t_filter f)
      (mm_set1_epi16 (2 ^ bd - 1)))
    16 dp (by omega) g
    (fun r c => outWord (u16 (2 ^ bd - 1)) (conv2 f srcm (rowAddr p sp r + (c : Int)) 1))
    (fun k st => st.src_ptr = rowAddr (p - 3) sp k)
    (entrySt (p - 3) q dstm) (by simp [entrySt, rowAddr])
    (by
      intro k st hI hq
      refine ⟨?_, rfl, ?_⟩
      · show st.src_ptr + sp = _
        rw [hI, rowAddr_succ]
      · intro a
        show W _ _ _ st.mem st.dst_ptr dp a = _
        rw [hW]
        by_cases c1 : st.dst_ptr ≤ a ∧ a < st.dst_ptr + ((16 : Nat) : Int)
        · rw [if_pos c1, if_pos c1, horiz16_2t_px _ _ _ _ _ _ (by omega), w16_set1, hI,
            rowAddr_shift]
        · rw [if_neg c1, if_neg c1])
    h h1 hlt

theorem w16_loadRow128 (srcm : Mem) (p : Int) (k : Nat) (hk : k < 8) :
    w16 (loadRow128 srcm p) k = srcm (p + (k : Int)) % 65536 := by
  rw [loadRow128, mm256_castsi128_si256, w16_lowBytes _ _ hk, mm_loadu_si128,
    w16_loadu _ _ _ _ hk]

theorem win8_words (srcm : Mem) (p sp : Int) (j k : Nat) (hj : j < 8) (hk : k < 16) :
    w16 (win8 srcm p sp j) k
      = srcm (p + ((k / 8 : Nat) : Int) * sp + ((4 * (j / 4) + k % 8 / 2 : Nat) : Int)
          + ((2 * (j % 4) + k % 2 : Nat) : Int) * sp) % 65536 := by
  interval_cases j <;> interval_cases k <;>
    (simp [win8, pack_8x9_pixels, pack_8x9_init, setR, unpacklo_words, unpackhi_words,
      w16_insert, mm256_castsi256_si128, w16_lowBytes, w16_loadRow128]
     try ring_nf)

theorem pack_8x9_pixels_win (srcm : Mem) (p sp : Int) (sig : RegArr)
    (h : WinOK8 srcm sp sig p) (j : Nat) (hj : j < 9) :
    pack_8x9_pixels srcm p sp sig j = win8 srcm p sp j := by
  have h0 := h 0 (by simp)
  have h1 := h 1 (by simp)
  have h2 := h 2 (by simp)
  have h4 := h 4 (by simp)
  have h5 := h 5 (by simp)
  have h6 := h 6 (by simp)
  have h8 := h 8 (by simp)
  interval_cases j <;>
    simp [win8, pack_8x9_pixels, setR, h0, h1, h2, h4, h5, h6, h8]

theorem pack_8x9_init_ok (srcm : Mem) (p sp : Int) (sig : RegArr) :
    WinOK8 srcm sp (pack_8x9_init srcm p sp sig) p := by
  intro j hj
  rcases hj with h | h | h | h | h | h | h <;> subst h <;> simp [pack_8x9_init, setR]

theorem update_pixels_ok (srcm : Mem) (p sp : Int) (sig : RegArr)
    (h : WinOK8 srcm sp sig p) :
    WinOK8 srcm sp (update_pixels (pack_8x9_pixels srcm p sp sig) 0) (p + 2 * sp) := by
  have h0 := h 0 (by simp)
  have h1 := h 1 (by simp)
  have h2 := h 2 (by simp)
  have h4 := h 4 (by simp)
  have h5 := h 5 (by simp)
  have h6 := h 6 (by simp)
  have h8 := h 8 (by simp)
  have e1 : p + 2 * sp + sp = p + 3 * sp := by ring
  have e2 : p + 2 * sp + 2 * sp = p + 4 * sp := by ring
  have e3 : p + 2 * sp + 3 * sp = p + 5 * sp := by ring
  have e4 : p + 2 * sp + 4 * sp = p + 6 * sp := by ring
  have e5 : p + 2 * sp + 5 * sp = p + 7 * sp := by ring
  have e6 : p + 2 * sp + 6 * sp = p + 8 * sp := by ring
  intro j hj
  rcases hj with h | h | h | h | h | h | h <;> subst h <;>
    simp [update_pixels, pack_8x9_pixels, setR, h0, h1, h2, h4, h5, h6, h8, pack_8x9_init,
      e1, e2, e3, e4, e5, e6]

theorem filter_8x1_congr (sig sig2 fil : RegArr) (h : ∀ j, j < 4 → sig j = sig2 j) :
    filter_8x1_pixels sig fil = filter_8x1_pixels sig2 fil := by
  unfold filter_8x1_pixels
  rw [h 0 (by omega), h 1 (by omega), h 2 (by omega), h 3 (by omega)]

theorem vert8_lane (f : Nat → Int) (srcm : Mem) (p sp : Int) (hf k : Nat)
    (hhf : hf < 2) (hk : k < 8) :
    s32 (d32 (filter_8x1_pixels (offR (win8 srcm p sp) (4 * hf)) (pack_filters f)) k)
      = conv8 f srcm (p + ((k / 4 : Nat) : Int) * sp + ((4 * hf + k % 4 : Nat) : Int)) sp := by
  rw [filter_8x1_lane]
  interval_cases hf <;> interval_cases k <;>
    simp [pairProd, offR, pack_filters_word, win8_words, s16_mod, conv8, tap]

theorem vert8_px2 (f : Nat → Int) (srcm : Mem) (p sp : Int) (sig : RegArr) (max : Reg)
    (hw : WinOK8 srcm sp sig p) (i c : Nat) (hi : i < 2) (hc : c < 8) :
    px8x2 (filter_8x9_pixels (pack_8x9_pixels srcm p sp sig) (pack_filters f)).1
        (filter_8x9_pixels (pack_8x9_pixels srcm p sp sig) (pack_filters f)).2 max i c
      = outWord (w16 max (8 * i + c)) (conv8 f srcm (p + (i : Int) * sp + (c : Int)) sp) := by
  have ew0 : filter_8x1_pixels (pack_8x9_pixels srcm p sp sig) (pack_filters f)
      = filter_8x1_pixels (offR (win8 srcm p sp) (4 * 0)) (pack_filters f) :=
    filter_8x1_congr _ _ _ (fun j hj => pack_8x9_pixels_win srcm p sp sig hw j (by omega))
  have ew1 : filter_8x1_pixels (offR (pack_8x9_pixels srcm p sp sig) 4) (pack_filters f)
      = filter_8x1_pixels (offR (win8 srcm p sp) (4 * 1)) (pack_filters f) :=
    filter_8x1_congr _ _ _ (fun j hj => pack_8x9_pixels_win srcm p sp sig hw (j + 4) (by omega))
  unfold px8x2 outWord filter_8x9_pixels
  simp only [ew0, ew1]
  by_cases h4 : c < 4
  · rw [if_pos h4, vert8_lane _ _ _ _ _ _ (by omega) (by omega)]
    have e1 : (4 * i + c) / 4 = i := by omega
    have e2 : 4 * 0 + (4 * i + c) % 4 = c := by omega
    rw [e1, e2]
  · rw [if_neg h4, vert8_lane _ _ _ _ _ _ (by omega) (by omega)]
    have e1 : (4 * i + (c - 4)) / 4 = i := by omega
    have e2 : 4 * 1 + (4 * i + (c - 4)) % 4 = c := by omega
    rw [e1, e2]

theorem vert8_px1 (f : Nat → Int) (srcm : Mem) (p sp : Int) (sig : RegArr) (max : Reg)
    (hw : WinOK8 srcm sp sig p) (c : Nat) (hc : c < 8) :
    px8x1v (filter_8x9_pixels (pack_8x9_pixels srcm p sp sig) (pack_filters f)).1
        (filter_8x9_pixels (pack_8x9_pixels srcm p sp sig) (pack_filters f)).2 max c
      = outWord (w16 max c) (conv8 f srcm (p + (c : Int)) sp) := by
  have ew0 : filter_8x1_pixels (pack_8x9_pixels srcm p sp sig) (pack_filters f)
      = filter_8x1_pixels (offR (win8 srcm p sp) (4 * 0)) (pack_filters f) :=
    filter_8x1_congr _ _ _ (fun j hj => pack_8x9_pixels_win srcm p sp sig hw j (by omega))
  have ew1 : filter_8x1_pixels (offR (pack_8x9_pixels srcm p sp sig) 4) (pack_filters f)
      = filter_8x1_pixels (offR (win8 srcm p sp) (4 * 1)) (pack_filters f) :=
    filter_8x1_congr _ _ _ (fun j hj => pack_8x9_pixels_win srcm p sp sig hw (j + 4) (by omega))
  unfold px8x1v outWord filter_8x9_pixels
  simp only [ew0, ew1]
  by_cases h4 : c < 4
  · rw [if_pos h4, vert8_lane _ _ _ _ _ _ (by omega) (by omega)]
    have e1 : c / 4 = 0 := by omega
    have e2 : 4 * 0 + c % 4 = c := by omega
    rw [e1, e2]; simp
  · rw [if_neg h4, vert8_lane _ _ _ _ _ _ (by omega) (by omega)]
    have e1 : (c - 4) / 4 = 0 := by omega
    have e2 : 4 * 1 + (c - 4) % 4 = c := by omega
    rw [e1, e2]; simp

/-- Rows written by `filter_block_width8_vert`, for writers that combine with `g`. -/
theorem filter_block_width8_vert_rows (W1 W2 : WritePixels) (g : Nat → Nat → Nat)
    (hW1 : IsWriter1 W1 8 px8x1v g) (hW2 : IsWriter2 W2 8 px8x2 g)
    (srcm : Mem) (p sp : Int) (dstm : Mem) (q dp : Int) (h : Nat) (f : Nat → Int) (bd : Nat)
    (hdp : 8 ≤ dp) (h2 : 2 ≤ h) (hlt : h < 4294967296) :
    (∀ r c : Nat, r < h → c < 8 →
      filter_block_width8_vert srcm p sp W1 W2 dstm q dp h f bd (rowAddr q dp r + (c : Int))
        = g (outWord (u16 (2 ^ bd - 1)) (conv8 f srcm (rowAddr p sp r + (c : Int)) sp))
            (dstm (rowAddr q dp r + (c : Int))))
    ∧ (∀ a, (∀ r c : Nat, r < h → c < 8 → a ≠ rowAddr q dp r + (c : Int)) →
      filter_block_width8_vert srcm p sp W1 W2 dstm q dp h f bd a = dstm a) := by
  exact rows2_final
    (filter_block_width8_vert_body srcm sp W2 dp (pack_filters f) (mm_set1_epi16 (2 ^ bd - 1)))
    (fun st => W1
      (filter_8x9_pixels (pack_8x9_pixels srcm st.src_ptr sp st.signal) (pack_filters f)).1
      (filter_8x9_pixels (pack_8x9_pixels srcm st.src_ptr sp st.signal) (pack_filters f)).2
      (mm_set1_epi16 (2 ^ bd - 1)) st.mem st.dst_ptr dp)
    8 dp (by omega) g
    (fun r c => outWord (u16 (2 ^ bd - 1)) (conv8 f srcm (rowAddr p sp r + (c : Int)) sp))
    (fun k st => st.src_ptr = rowAddr p sp (2 * k) ∧ WinOK8 srcm sp st.signal st.src_ptr)
    { entrySt p q dstm with signal := pack_8x9_init srcm p sp (entrySt p q dstm).signal }
    ⟨by simp [entrySt, rowAddr], pack_8x9_init_ok srcm p sp _⟩
    (by
      intro k st hI hq
      obtain ⟨hI, hwin⟩ := hI
      refine ⟨⟨?_, ?_⟩, rfl, ?_⟩
      · show st.src_ptr + 2 * sp = _
        rw [hI]; simp [rowAddr]; ring
      · exact update_pixels_ok srcm st.src_ptr sp st.signal hwin
      · intro a
        show W2 _ _ _ st.mem st.dst_ptr dp a = _
        rw [hW2]
        by_cases c1 : st.dst_ptr + dp ≤ a ∧ a < st.dst_ptr + dp + ((8 : Nat) : Int)
        · rw [if_pos c1, if_pos c1, vert8_px2 _ _ _ _ _ _ hwin _ _ (by omega) (by omega),
            w16_set1, hI]
          simp only [rowAddr_succ, Nat.cast_one, one_mul]
        · rw [if_neg c1, if_neg c1]
          by_cases c2 : st.dst_ptr ≤ a ∧ a < st.dst_ptr + ((8 : Nat) : Int)
          · rw [if_pos c2, if_pos c2, vert8_px2 _ _ _ _ _ _ hwin _ _ (by omega) (by omega),
              w16_set1, hI]
            simp only [Nat.cast_zero, zero_mul, add_zero]
          · rw [if_neg c2, if_neg c2])
    (by
      intro k st hI hq a
      obtain ⟨hI, hwin⟩ := hI
      show W1 _ _ _ st.mem st.dst_ptr dp a = _
      rw [hW1]
      by_cases c1 : st.dst_ptr ≤ a ∧ a < st.dst_ptr + ((8 : Nat) : Int)
      · rw [if_pos c1, if_pos c1, vert8_px1 _ _ _ _ _ _ hwin _ (by omega), w16_set1, hI]
      · rw [if_neg c1, if_neg c1])
    h h2 hlt

set_option maxHeartbeats 1600000 in
theorem win16_words (srcm : Mem) (p sp : Int) (j k : Nat) (hj : j < 16) (hk : k < 16) :
    w16 (win16 srcm p sp j) k
      = srcm (p + ((k / 8 : Nat) : Int) * sp + ((4 * (j / 4) + k % 8 / 2 : Nat) : Int)
          + ((2 * (j % 4) + k % 2 : Nat) : Int) * sp) % 65536 := by
  interval_cases j <;> interval_cases k <;>
    (simp [win16, pack_16x9_pixels, pack_16x9_init, setR, unpacklo_words, unpackhi_words,
      permute2x128_0x20, permute2x128_0x31, mm256_loadu_si256, w16_loadu]
     try ring_nf)

theorem pack_16x9_pixels_win (srcm : Mem) (p sp : Int) (sig : RegArr)
    (h : WinOK16 srcm sp sig p) (j : Nat) (hj : j < 17) :
    pack_16x9_pixels srcm p sp sig j = win16 srcm p sp j := by
  have h0 := h 0 (by simp)
  have h1 := h 1 (by simp)
  have h2 := h 2 (by simp)
  have h4 := h 4 (by simp)
  have h5 := h 5 (by simp)
  have h6 := h 6 (by simp)
  have h8 := h 8 (by simp)
  have h9 := h 9 (by simp)
  have h10 := h 10 (by simp)
  have h12 := h 12 (by simp)
  have h13 := h 13 (by simp)
  have h14 := h 14 (by simp)
  have h16 := h 16 (by simp)
  interval_cases j <;>
    simp [win16, pack_16x9_pixels, setR, h0, h1, h2, h4, h5, h6, h8, h9, h10, h12, h13, h14,
      h16]

theorem pack_16x9_init_ok (srcm : Mem) (p sp : Int) (sig : RegArr) :
    WinOK16 srcm sp (pack_16x9_init srcm p sp sig) p := by
  intro j hj
  rcases hj with h | h | h | h | h | h | h | h | h | h | h | h | h <;> subst h <;>
    simp [pack_16x9_init, setR]

theorem update_16x9_pixels_ok (srcm : Mem) (p sp : Int) (sig : RegArr)
    (h : WinOK16 srcm sp sig p) :
    WinOK16 srcm sp (update_16x9_pixels (pack_16x9_pixels srcm p sp sig)) (p + 2 * sp) := by
  have h0 := h 0 (by simp)
  have h1 := h 1 (by simp)
  have h2 := h 2 (by simp)
  have h4 := h 4 (by simp)
  have h5 := h 5 (by simp)
  have h6 := h 6 (by simp)
  have h8 := h 8 (by simp)
  have h9 := h 9 (by simp)
  have h10 := h 10 (by simp)
  have h12 := h 12 (by simp)
  have h13 := h 13 (by simp)
  have h14 := h 14 (by simp)
  have h16 := h 16 (by simp)
  have e1 : p + 2 * sp + sp = p + 3 * sp := by ring
  have e2 : p + 2 * sp + 2 * sp = p + 4 * sp := by ring
  have e3 : p + 2 * sp + 3 * sp = p + 5 * sp := by ring
  have e4 : p + 2 * sp + 4 * sp = p + 6 * sp := by ring
  have e5 : p + 2 * sp + 5 * sp = p + 7 * sp := by ring
  have e6 : p + 2 * sp + 6 * sp = p + 8 * sp := by ring
  intro j hj
  rcases hj with h | h | h | h | h | h | h | h | h | h | h | h | h <;> subst h <;>
    simp [update_16x9_pixels, update_pixels, pack_16x9_pixels, setR, h0, h1, h2, h4, h5, h6,
      h8, h9, h10, h12, h13, h14, h16, pack_16x9_init, e1, e2, e3, e4, e5, e6]

theorem vert16_lane (f : Nat → Int) (srcm : Mem) (p sp : Int) (i k : Nat)
    (hi : i < 4) (hk : k < 8) :
    s32 (d32 (filter_8x1_pixels (offR (win16 srcm p sp) (4 * i)) (pack_filters f)) k)
      = conv8 f srcm (p + ((k / 4 : Nat) : Int) * sp + ((4 * i + k % 4 : Nat) : Int)) sp := by
  rw [filter_8x1_lane]
  interval_cases i <;> interval_cases k <;>
    simp [pairProd, offR, pack_filters_word, win16_words, s16_mod, conv8, tap]

theorem vert16_words (f : Nat → Int) (srcm : Mem) (p sp : Int) (sig : RegArr)
    (hw : WinOK16 srcm sp sig p) (i c : Nat) (hi : i < 2) (hc : c < 16) :
    w16 (if i = 0 then (filter_16x9_pixels (pack_16x9_pixels srcm p sp sig) (pack_filters f)).1
        else (filter_16x9_pixels (pack_16x9_pixels srcm p sp sig) (pack_filters f)).2) c
      = satu16 (conv8 f srcm (p + (i : Int) * sp + (c : Int)) sp) := by
  have ew : ∀ n, n < 4 →
      filter_8x1_pixels (offR (pack_16x9_pixels srcm p sp sig) (4 * n)) (pack_filters f)
        = filter_8x1_pixels (offR (win16 srcm p sp) (4 * n)) (pack_filters f) :=
    fun n hn => filter_8x1_congr _ _ _
      (fun j hj => pack_16x9_pixels_win srcm p sp sig hw (j + 4 * n) (by omega))
  have l0 := fun k hk => vert16_lane f srcm p sp 0 k (by omega) hk
  have l1 := fun k hk => vert16_lane f srcm p sp 1 k (by omega) hk
  have l2 := fun k hk => vert16_lane f srcm p sp 2 k (by omega) hk
  have l3 := fun k hk => vert16_lane f srcm p sp 3 k (by omega) hk
  norm_num at l0 l1 l2 l3
  unfold filter_16x9_pixels
  simp only [ew 0 (by omega), ew 1 (by omega), ew 2 (by omega), ew 3 (by omega)]
  interval_cases i <;> interval_cases c <;>
    simp [permute2x128_0x20, permute2x128_0x31, w16_packus256, l0, l1, l2, l3]

/-- Rows written by `filter_block_width16_vert`, for writers that combine with `g`. -/
theorem filter_block_width16_vert_rows (W1 W2 : WritePixels) (g : Nat → Nat → Nat)
    (hW1 : IsWriter1 W1 16 px16x1v g) (hW2 : IsWriter2 W2 16 px16x2 g)
    (srcm : Mem) (p sp : Int) (dstm : Mem) (q dp : Int) (h : Nat) (f : Nat → Int) (bd : Nat)
    (hdp : 16 ≤ dp) (h2 : 2 ≤ h) (hlt : h < 4294967296) :
    (∀ r c : Nat, r < h → c < 16 →
      filter_block_width16_vert srcm p sp W1 W2 dstm q dp h f bd (rowAddr q dp r + (c : Int))
        = g (outWord (u16 (2 ^ bd - 1)) (conv8 f srcm (rowAddr p sp r + (c : Int)) sp))
            (dstm (rowAddr q dp r + (c : Int))))
    ∧ (∀ a, (∀ r c : Nat, r < h → c < 16 → a ≠ rowAddr q dp r + (c : Int)) →
      filter_block_width16_vert srcm p sp W1 W2 dstm q dp h f bd a = dstm a) := by
  exact rows2_final
    (filter_block_width16_vert_body srcm sp W2 dp (pack_filters f) (mm_set1_epi16 (2 ^ bd - 1)))
    (fun st => W1
      (filter_16x9_pixels (pack_16x9_pixels srcm st.src_ptr sp st.signal) (pack_filters f)).1
      (filter_16x9_pixels (pack_16x9_pixels srcm st.src_ptr sp st.signal) (pack_filters f)).2
      (mm_set1_epi16 (2 ^ bd - 1)) st.mem st.dst_ptr dp)
    16 dp (by omega) g
    (fun r c => outWord (u16 (2 ^ bd - 1)) (conv8 f srcm (rowAddr p sp r + (c : Int)) sp))
    (fun k st => st.src_ptr = rowAddr p sp (2 * k) ∧ WinOK16 srcm sp st.signal st.src_ptr)
    { entrySt p q dstm with signal := pack_16x9_init srcm p sp (entrySt p q dstm).signal }
    ⟨by simp [entrySt, rowAddr], pack_16x9_init_ok srcm p sp _⟩
    (by
      intro k st hI hq
      obtain ⟨hI, hwin⟩ := hI
      refine ⟨⟨?_, ?_⟩, rfl, ?_⟩
      · show st.src_ptr + 2 * sp = _
        rw [hI]; simp [rowAddr]; ring
      · exact update_16x9_pixels_ok srcm st.src_ptr sp st.signal hwin
      · intro a
        show W2 _ _ _ st.mem st.dst_ptr dp a = _
        rw [hW2]
        by_cases c1 : st.dst_ptr + dp ≤ a ∧ a < st.dst_ptr + dp + ((16 : Nat) : Int)
        · have hv := vert16_words f srcm st.src_ptr sp st.signal hwin 1
            (a - (st.dst_ptr + dp)).toNat (by omega) (by omega)
          rw [if_pos c1, if_pos c1, px16x2, hv, w16_set1, hI]
          simp only [rowAddr_succ, Nat.cast_one, one_mul, outWord]
        · rw [if_neg c1, if_neg c1]
          by_cases c2 : st.dst_ptr ≤ a ∧ a < st.dst_ptr + ((16 : Nat) : Int)
          · have hv := vert16_words f srcm st.src_ptr sp st.signal hwin 0
              (a - st.dst_ptr).toNat (by omega) (by omega)
            rw [if_pos c2, if_pos c2, px16x2, hv, w16_set1, hI]
            simp only [Nat.cast_zero, zero_mul, add_zero, outWord]
          · rw [if_neg c2, if_neg c2])
    (by
      intro k st hI hq a
      obtain ⟨hI, hwin⟩ := hI
      show W1 _ _ _ st.mem st.dst_ptr dp a = _
      rw [hW1]
      by_cases c1 : st.dst_ptr ≤ a ∧ a < st.dst_ptr + ((16 : Nat) : Int)
      · have hv := vert16_words f srcm st.src_ptr sp st.signal hwin 0
          (a - st.dst_ptr).toNat (by omega) (by omega)
        simp only [if_true, Nat.cast_zero, zero_mul, add_zero] at hv
        rw [if_pos c1, if_pos c1, px16x1v, hv, w16_set1, hI]
        simp only [outWord]
      · rw [if_neg c1, if_neg c1])
    h h2 hlt

theorem pack_16x2_2t_words (srcm : Mem) (p sp : Int) (sig : RegArr)
    (h : sig 2 = mm256_loadu_si256 srcm p) (j k : Nat) (hj : j < 2) (hk : k < 16) :
    w16 (pack_16x2_2t_pixels srcm p sp sig j) k
      = srcm (p + ((8 * (k / 8) + 4 * j + k % 8 / 2 : Nat) : Int) + ((k % 2 : Nat) : Int) * sp)
          % 65536 := by
  interval_cases j <;> interval_cases k <;>
    (simp [pack_16x2_2t_pixels, setR, h, unpacklo_words, unpackhi_words, mm256_loadu_si256,
      w16_loadu]
     try ring_nf)

theorem vert16_2t_lane (f : Nat → Int) (srcm : Mem) (p sp : Int) (sig : RegArr)
    (h : sig 2 = mm256_loadu_si256 srcm p) (j k : Nat) (hj : j < 2) (hk : k < 8) :
    s32 (d32 (mm_srai_epi32 (mm_add_epi32 (mm_madd_epi16 (pack_16x2_2t_pixels srcm p sp sig j)
        (pack_2t_filter f)) (mm_set1_epi32 (2 ^ (7 - 1)))) 7) k)
      = conv2 f srcm (p + ((8 * (k / 4) + 4 * j + k % 4 : Nat) : Int)) sp := by
  rw [filter_2t_lane]
  have hwd := fun j k hj hk => pack_16x2_2t_words srcm p sp sig h j k hj hk
  interval_cases j <;> interval_cases k <;>
    simp [pairProd, pack_2t_filter_word, hwd, s16_mod, conv2, tap]

theorem vert16_2t_px (f : Nat → Int) (srcm : Mem) (p sp : Int) (sig : RegArr) (max : Reg)
    (h : sig 2 = mm256_loadu_si256 srcm p) (c : Nat) (hc : c < 16) :
    px16x1 (filter_16x2_2t_pixels (pack_16x2_2t_pixels srcm p sp sig) (pack_2t_filter f)).1
        (filter_16x2_2t_pixels (pack_16x2_2t_pixels srcm p sp sig) (pack_2t_filter f)).2 max c
      = outWord (w16 max c) (conv2 f srcm (p + (c : Int)) sp) := by
  have l0 := fun k hk => vert16_2t_lane f srcm p sp sig h 0 k (by omega) hk
  have l1 := fun k hk => vert16_2t_lane f srcm p sp sig h 1 k (by omega) hk
  simp only [Nat.mul_zero, Nat.mul_one, Nat.add_zero] at l0 l1
  unfold px16x1 outWord filter_16x2_2t_pixels filter_16_2t_pixels CONV8_ROUNDING_BITS
  by_cases h4 : c % 8 < 4
  · rw [if_pos h4, l0 _ (by omega)]
    have e1 : 8 * ((4 * (c / 8) + c % 8) / 4) + (4 * (c / 8) + c % 8) % 4 = c := by omega
    rw [e1]
  · rw [if_neg h4, l1 _ (by omega)]
    have e1 : 8 * ((4 * (c / 8) + (c % 8 - 4)) / 4) + 4 + (4 * (c / 8) + (c % 8 - 4)) % 4
        = c := by omega
    rw [e1]

/-- Rows written by `filter_block_width16_2t_vert`, for a writer that combines with `g`. -/
theorem filter_block_width16_2t_vert_rows (W : WritePixels) (g : Nat → Nat → Nat)
    (hW : IsWriter1 W 16 px16x1 g)
    (srcm : Mem) (p sp : Int) (dstm : Mem) (q dp : Int) (h : Nat) (f : Nat → Int) (bd : Nat)
    (hdp : 16 ≤ dp) (h1 : 1 ≤ h) (hlt : h < 4294967296) :
    (∀ r c : Nat, r < h → c < 16 →
      filter_block_width16_2t_vert srcm p sp W dstm q dp h f bd (rowAddr q dp r + (c : Int))
        = g (outWord (u16 (2 ^ bd - 1)) (conv2 f srcm (rowAddr p sp r + (c : Int)) sp))
            (dstm (rowAddr q dp r + (c : Int))))
    ∧ (∀ a, (∀ r c : Nat, r < h → c < 16 → a ≠ rowAddr q dp r + (c : Int)) →
      filter_block_width16_2t_vert srcm p sp W dstm q dp h f bd a = dstm a) := by
  exact rows1_final
    (filter_block_width16_2t_vert_body srcm sp W dp (pack_2t_filter f)
      (mm_set1_epi16 (2 ^ bd - 1)))
    16 dp (by omega) g
    (fun r c => outWord (u16 (2 ^ bd - 1)) (conv2 f srcm (rowAddr p sp r + (c : Int)) sp))
    (fun k st => st.src_ptr = rowAddr p sp k
      ∧ st.signal 2 = mm256_loadu_si256 srcm st.src_ptr)
    { entrySt p q dstm with signal := pack_16x2_init srcm p (entrySt p q dstm).signal }
    ⟨by simp [entrySt, rowAddr], by simp [pack_16x2_init, setR, entrySt]⟩
    (by
      intro k st hI hq
      obtain ⟨hI, hwin⟩ := hI
      refine ⟨⟨?_, ?_⟩, rfl, ?_⟩
      · show st.src_ptr + sp = _
        rw [hI, rowAddr_succ]
      · simp [filter_block_width16_2t_vert_body, pack_16x2_2t_pixels, setR]
      · intro a
        show W _ _ _ st.mem st.dst_ptr dp a = _
        rw [hW]
        by_cases c1 : st.dst_ptr ≤ a ∧ a < st.dst_ptr + ((16 : Nat) : Int)
        · rw [if_pos c1, if_pos c1, vert16_2t_px _ _ _ _ _ _ hwin _ (by omega), w16_set1, hI]
        · rw [if_neg c1, if_neg c1])
    h h1 hlt

theorem pack_8x1_2t_filter_word (f : Nat → Int) (k : Nat) (hk : k < 8) :
    w16 (pack_8x1_2t_filter f) k = u16 (f (3 + k % 2)) := by
  have h3 := u16_lt (f 3)
  have h4 := u16_lt (f 4)
  interval_cases k <;>
    (simp [pack_8x1_2t_filter, w16, mm_shuffle_epi8, mm_set1_epi32, ofD32, u32, loadFilter,
      ofW16] at h3 h4 ⊢
     <;> omega)

theorem pack_8x2_2t_ver_words (srcm : Mem) (p sp : Int) (sig : RegArr)
    (h : sig 2 = mm_loadu_si128 srcm p) (j k : Nat) (hj : j < 2) (hk : k < 8) :
    w16 (pack_8x2_2t_pixels_ver srcm p sp sig j) k
      = srcm (p + ((4 * j + k / 2 : Nat) : Int) + ((k % 2 : Nat) : Int) * sp) % 65536 := by
  interval_cases j <;> interval_cases k <;>
    (simp [pack_8x2_2t_pixels_ver, setR, h, unpacklo_words, unpackhi_words, mm_loadu_si128,
      w16_loadu]
     try ring_nf)

theorem vert8_2t_lane (f : Nat → Int) (srcm : Mem) (p sp : Int) (sig : RegArr)
    (h : sig 2 = mm_loadu_si128 srcm p) (j k : Nat) (hj : j < 2) (hk : k < 4) :
    s32 (d32 (mm_srai_epi32 (mm_add_epi32 (mm_madd_epi16 (pack_8x2_2t_pixels_ver srcm p sp sig j)
        (pack_8x1_2t_filter f)) (mm_set1_epi32 (2 ^ (7 - 1)))) 7) k)
      = conv2 f srcm (p + ((4 * j + k : Nat) : Int)) sp := by
  rw [filter_2t_lane]
  have hwd := fun j k hj hk => pack_8x2_2t_ver_words srcm p sp sig h j k hj hk
  interval_cases j <;> interval_cases k <;>
    simp [pairProd, pack_8x1_2t_filter_word, hwd, s16_mod, conv2, tap]

theorem vert8_2t_px (f : Nat → Int) (srcm : Mem) (p sp : Int) (sig : RegArr) (max : Reg)
    (h : sig 2 = mm_loadu_si128 srcm p) (c : Nat) (hc : c < 8) :
    px8x1v (filter_8_2t_pixels (pack_8x2_2t_pixels_ver srcm p sp sig) (pack_8x1_2t_filter f)).1
        (filter_8_2t_pixels (pack_8x2_2t_pixels_ver srcm p sp sig) (pack_8x1_2t_filter f)).2
        max c
      = outWord (w16 max c) (conv2 f srcm (p + (c : Int)) sp) := by
  have l0 := fun k hk => vert8_2t_lane f srcm p sp sig h 0 k (by omega) hk
  have l1 := fun k hk => vert8_2t_lane f srcm p sp sig h 1 k (by omega) hk
  simp only [Nat.mul_zero, Nat.mul_one, Nat.zero_add] at l0 l1
  unfold px8x1v outWord filter_8_2t_pixels CONV8_ROUNDING_BITS
  by_cases h4 : c < 4
  · rw [if_pos h4, l0 _ (by omega)]
  · rw [if_neg h4, l1 _ (by omega)]
    have e1 : 4 + (c - 4) = c := by omega
    rw [e1]

/-- Rows written by `filter_block_width8_2t_vert`, for a writer that combines with `g`. -/
theorem filter_block_width8_2t_vert_rows (W : Write8Pixels) (g : Nat → Nat → Nat)
    (hW : IsWriter1 (fun y0 y1 mask m q _ => W y0 y1 mask m q) 8 px8x1v g)
    (srcm : Mem) (p sp : Int) (dstm : Mem) (q dp : Int) (h : Nat) (f : Nat → Int) (bd : Nat)
    (hdp : 8 ≤ dp) (h1 : 1 ≤ h) (hlt : h < 4294967296) :
    (∀ r c : Nat, r < h → c < 8 →
      filter_block_width8_2t_vert srcm p sp W dstm q dp h f bd (rowAddr q dp r + (c : Int))
        = g (outWord (u16 (2 ^ bd - 1)) (conv2 f srcm (rowAddr p sp r + (c : Int)) sp))
            (dstm (rowAddr q dp r + (c : Int))))
    ∧ (∀ a, (∀ r c : Nat, r < h → c < 8 → a ≠ rowAddr q dp r + (c : Int)) →
      filter_block_width8_2t_vert srcm p sp W dstm q dp h f bd a = dstm a) := by
  exact rows1_final
    (filter_block_width8_2t_vert_body srcm sp W dp (pack_8x1_2t_filter f)
      (mm_set1_epi16 (2 ^ bd - 1)))
    8 dp (by omega) g
    (fun r c => outWord (u16 (2 ^ bd - 1)) (conv2 f srcm (rowAddr p sp r + (c : Int)) sp))
    (fun k st => st.src_ptr = rowAddr p sp k
      ∧ st.signal 2 = mm_loadu_si128 srcm st.src_ptr)
    { entrySt p q dstm with signal := pack_8x2_init srcm p (entrySt p q dstm).signal }
    ⟨by simp [entrySt, rowAddr], by simp [pack_8x2_init, setR, entrySt]⟩
    (by
      intro k st hI hq
      obtain ⟨hI, hwin⟩ := hI
      refine ⟨⟨?_, ?_⟩, rfl, ?_⟩
      · show st.src_ptr + sp = _
        rw [hI, rowAddr_succ]
      · simp [filter_block_width8_2t_vert_body, pack_8x2_2t_pixels_ver, setR]
      · intro a
        have hWa := hW
          (filter_8_2t_pixels (pack_8x2_2t_pixels_ver srcm st.src_ptr sp st.signal)
            (pack_8x1_2t_filter f)).1
          (filter_8_2t_pixels (pack_8x2_2t_pixels_ver srcm st.src_ptr sp st.signal)
            (pack_8x1_2t_filter f)).2
          (mm_set1_epi16 (2 ^ bd - 1)) st.mem st.dst_ptr dp a
        beta_reduce at hWa
        show W _ _ _ st.mem st.dst_ptr a = _
        rw [hWa]
        by_cases c1 : st.dst_ptr ≤ a ∧ a < st.dst_ptr + ((8 : Nat) : Int)
        · rw [if_pos c1, if_pos c1, vert8_2t_px _ _ _ _ _ _ hwin _ (by omega), w16_set1, hI]
        · rw [if_neg c1, if_neg c1])
    h h1 hlt

/-- Effect of one chunk loop of `convolve_copy_row`: the samples consumed are copied. -/
theorem copy_chunks_spec (n : Nat) (src : Mem) (st : RowSt) :
    (copy_chunks n src st).width ≤ st.width
    ∧ (copy_chunks n src st).src = st.src + ((st.width - (copy_chunks n src st).width : Nat) : Int)
    ∧ (copy_chunks n src st).dst = st.dst + ((st.width - (copy_chunks n src st).width : Nat) : Int)
    ∧ ∀ a, (copy_chunks n src st).mem a
        = if st.dst ≤ a ∧ a < st.dst + ((st.width - (copy_chunks n src st).width : Nat) : Int)
            then src (st.src + (a - st.dst)) % 65536 else st.mem a := by
  obtain ⟨w, hw⟩ : ∃ w, st.width = w := ⟨_, rfl⟩
  induction w using Nat.strong_induction_on generalizing st with
  | _ w ih =>
    rw [copy_chunks]
    by_cases hc : n + 1 ≤ st.width
    · simp only [if_pos hc]
      obtain ⟨h1, h2, h3, h4⟩ := ih (st.width - (n + 1)) (by omega)
        { width := st.width - (n + 1), src := st.src + ((n + 1 : Nat) : Int),
          dst := st.dst + ((n + 1 : Nat) : Int),
          mem := storeu (n + 1) st.mem st.dst (loadu (n + 1) src st.src) } rfl
      simp only at h1 h2 h3 h4
      subst hw
      refine ⟨by omega, by rw [h2]; omega, by rw [h3]; omega, ?_⟩
      intro a
      rw [h4 a]
      by_cases c1 : st.dst + ((n + 1 : Nat) : Int) ≤ a ∧ a < st.dst + ((n + 1 : Nat) : Int)
          + ((st.width - (n + 1) - (copy_chunks n src
            { width := st.width - (n + 1), src := st.src + ((n + 1 : Nat) : Int),
              dst := st.dst + ((n + 1 : Nat) : Int),
              mem := storeu (n + 1) st.mem st.dst (loadu (n + 1) src st.src) }).width : Nat) : Int)
      · rw [if_pos c1, if_pos (by omega)]
        congr 2; omega
      · rw [if_neg c1, storeu_apply]
        by_cases c2 : st.dst ≤ a ∧ a < st.dst + ((n + 1 : Nat) : Int)
        · rw [if_pos c2, if_pos (by omega), w16_loadu _ _ _ _ (by omega)]
          congr 2; omega
        · rw [if_neg c2, if_neg (by omega)]
    · simp only [if_neg hc]
      subst hw
      refine ⟨le_refl _, by simp, by simp, ?_⟩
      intro a
      rw [if_neg (by simp)]

/-- Effect of `convolve_copy_row`: exactly the `width` samples of the row are copied. -/
theorem convolve_copy_row_spec (src : Mem) (s : Int) (m : Mem) (d : Int) (width : Nat)
    (a : Int) :
    convolve_copy_row src s m d width a
      = if d ≤ a ∧ a < d + (width : Int) then src (s + (a - d)) % 65536 else m a := by
  unfold convolve_copy_row
  obtain ⟨a1, a2, a3, a4⟩ := copy_chunks_spec 15 src { width := width, src := s, dst := d, mem := m }
  generalize copy_chunks 15 src { width := width, src := s, dst := d, mem := m } = st1 at *
  obtain ⟨b1, b2, b3, b4⟩ := copy_chunks_spec 7 src st1
  generalize copy_chunks 7 src st1 = st2 at *
  obtain ⟨c1, c2, c3, c4⟩ := copy_chunks_spec 3 src st2
  generalize copy_chunks 3 src st2 = st3 at *
  simp only at a1 a2 a3 a4
  by_cases hz : st3.width ≠ 0
  · simp only [if_pos hz, memcpy]
    by_cases h1 : st3.dst ≤ a ∧ a < st3.dst + (st3.width : Int)
    · rw [if_pos h1, if_pos (by omega)]
      congr 2; omega
    · rw [if_neg h1, c4 a]
      by_cases h2 : st2.dst ≤ a ∧ a < st2.dst + ((st2.width - st3.width : Nat) : Int)
      · rw [if_pos h2, if_pos (by omega)]
        congr 2; omega
      · rw [if_neg h2, b4 a]
        by_cases h3 : st1.dst ≤ a ∧ a < st1.dst + ((st1.width - st2.width : Nat) : Int)
        · rw [if_pos h3, if_pos (by omega)]
          congr 2; omega
        · rw [if_neg h3, a4 a]
          by_cases h4 : d ≤ a ∧ a < d + ((width - st1.width : Nat) : Int)
          · rw [if_pos h4, if_pos (by omega)]
          · rw [if_neg h4, if_neg (by omega)]
  · simp only [if_neg hz]
    have hz0 : st3.width = 0 := by omega
    rw [c4 a]
    by_cases h2 : st2.dst ≤ a ∧ a < st2.dst + ((st2.width - st3.width : Nat) : Int)
    · rw [if_pos h2, if_pos (by omega)]
      congr 2; omega
    · rw [if_neg h2, b4 a]
      by_cases h3 : st1.dst ≤ a ∧ a < st1.dst + ((st1.width - st2.width : Nat) : Int)
      · rw [if_pos h3, if_pos (by omega)]
        congr 2; omega
      · rw [if_neg h3, a4 a]
        by_cases h4 : d ≤ a ∧ a < d + ((width - st1.width : Nat) : Int)
        · rw [if_pos h4, if_pos (by omega)]
        · rw [if_neg h4, if_neg (by omega)]

theorem rowAddr_shift_one (q pitch : Int) (r : Nat) :
    rowAddr (q + pitch) pitch r = rowAddr q pitch (r + 1) := by
  simp only [rowAddr]; push_cast; ring

/-- Rows of a block processed by a row loop `do { row; h -= 1; ... } while (h > 0)` whose
row function combines each source sample with the old destination sample by `G`. -/
theorem rows_loop_spec (G : Nat → Nat → Nat) (row : Int → Mem → Int → Mem)
    (loop : Int → Int → Int → Mem → Mem) (ss ds : Int) (width : Nat) (src : Mem)
    (hrow : ∀ s m d a, row s m d a
      = if d ≤ a ∧ a < d + (width : Int) then G (src (s + (a - d))) (m a) else m a)
    (hloop : ∀ h s d m, loop h s d m
      = if 0 < h - 1 then loop (h - 1) (s + ss) (d + ds) (row s m d) else row s m d)
    (hds : (width : Int) ≤ ds) (n : Nat) :
    ∀ s d m,
      (∀ r c : Nat, r < n + 1 → c < width →
        loop ((n : Int) + 1) s d m (rowAddr d ds r + (c : Int))
          = G (src (rowAddr s ss r + (c : Int))) (m (rowAddr d ds r + (c : Int))))
      ∧ (∀ a, (∀ r c : Nat, r < n + 1 → c < width → a ≠ rowAddr d ds r + (c : Int)) →
        loop ((n : Int) + 1) s d m a = m a) := by
  have hds0 : 0 ≤ ds := by omega
  induction n with
  | zero =>
    intro s d m
    rw [hloop]
    simp only [Nat.cast_zero, zero_add, sub_self, lt_self_iff_false, if_false]
    constructor
    · intro r c hr hc
      have hr0 : r = 0 := by omega
      subst hr0
      rw [hrow, rowAddr_zero, rowAddr_zero, if_pos (by omega)]
      congr 3; omega
    · intro a ha
      rw [hrow]
      by_cases c1 : d ≤ a ∧ a < d + (width : Int)
      · exfalso
        exact ha 0 (a - d).toNat (by omega) (by omega) (by rw [rowAddr_zero]; omega)
      · rw [if_neg c1]
  | succ n ih =>
    intro s d m
    rw [hloop]
    have e : ((n + 1 : Nat) : Int) + 1 - 1 = (n : Int) + 1 := by push_cast; ring
    rw [if_pos (by omega), e]
    obtain ⟨hrows, hframe⟩ := ih (s + ss) (d + ds) (row s m d)
    constructor
    · intro r c hr hc
      rcases Nat.eq_zero_or_pos r with h0 | hpos
      · subst h0
        rw [rowAddr_zero, rowAddr_zero, hframe]
        · rw [hrow, if_pos (by omega)]
          congr 3; omega
        · intro r2 c2 hr2 hc2
          have := rowAddr_lt (d + ds) ds hds0 0 (r2 + 1) (by omega)
          rw [rowAddr_zero] at this
          have h3 := rowAddr_succ (d + ds) ds r2
          omega
      · obtain ⟨r2, hr2⟩ : ∃ r2, r = r2 + 1 := ⟨r - 1, by omega⟩
        subst hr2
        have := hrows r2 c (by omega) hc
        rw [rowAddr_shift_one, rowAddr_shift_one] at this
        rw [this, hrow]
        have h3 := rowAddr_lt d ds hds0 0 (r2 + 1) (by omega)
        rw [rowAddr_zero] at h3
        rw [if_neg (by omega)]
    · intro a ha
      rw [hframe]
      · rw [hrow]
        by_cases c1 : d ≤ a ∧ a < d + (width : Int)
        · exfalso
          exact ha 0 (a - d).toNat (by omega) (by omega) (by rw [rowAddr_zero]; omega)
        · rw [if_neg c1]
      · intro r2 c2 hr2 hc2
        have := ha (r2 + 1) c2 (by omega) hc2
        rw [rowAddr_shift_one]
        exact this

/-- Effect of one chunk loop of `convolve_avg_row`. -/
theorem avg_chunks_spec (n : Nat) (src : Mem) (st : RowSt) :
    (avg_chunks n src st).width ≤ st.width
    ∧ (avg_chunks n src st).src = st.src + ((st.width - (avg_chunks n src st).width : Nat) : Int)
    ∧ (avg_chunks n src st).dst = st.dst + ((st.width - (avg_chunks n src st).width : Nat) : Int)
    ∧ ∀ a, (avg_chunks n src st).mem a
        = if st.dst ≤ a ∧ a < st.dst + ((st.width - (avg_chunks n src st).width : Nat) : Int)
            then gAvg (src (st.src + (a - st.dst)) % 65536) (st.mem a) else st.mem a := by
  obtain ⟨w, hw⟩ : ∃ w, st.width = w := ⟨_, rfl⟩
  induction w using Nat.strong_induction_on generalizing st with
  | _ w ih =>
    rw [avg_chunks]
    by_cases hc : n + 1 ≤ st.width
    · simp only [if_pos hc]
      obtain ⟨h1, h2, h3, h4⟩ := ih (st.width - (n + 1)) (by omega)
        { width := st.width - (n + 1), src := st.src + ((n + 1 : Nat) : Int),
          dst := st.dst + ((n + 1 : Nat) : Int),
          mem := storeu (n + 1) st.mem st.dst
            (mm_avg_epu16 (loadu (n + 1) src st.src) (loadu (n + 1) st.mem st.dst)) } rfl
      simp only at h1 h2 h3 h4
      subst hw
      refine ⟨by omega, by rw [h2]; omega, by rw [h3]; omega, ?_⟩
      intro a
      rw [h4 a]
      by_cases c1 : st.dst + ((n + 1 : Nat) : Int) ≤ a ∧ a < st.dst + ((n + 1 : Nat) : Int)
          + ((st.width - (n + 1) - (avg_chunks n src
            { width := st.width - (n + 1), src := st.src + ((n + 1 : Nat) : Int),
              dst := st.dst + ((n + 1 : Nat) : Int),
              mem := storeu (n + 1) st.mem st.dst
                (mm_avg_epu16 (loadu (n + 1) src st.src) (loadu (n + 1) st.mem st.dst)) }).width
              : Nat) : Int)
      · rw [if_pos c1, if_pos (by omega), storeu_apply, if_neg (by omega)]
        congr 3; omega
      · rw [if_neg c1, storeu_apply]
        by_cases c2 : st.dst ≤ a ∧ a < st.dst + ((n + 1 : Nat) : Int)
        · rw [if_pos c2, if_pos (by omega), w16_avg, w16_loadu _ _ _ _ (by omega),
            w16_loadu _ _ _ _ (by omega)]
          have e1 : st.src + (((a - st.dst).toNat : Nat) : Int) = st.src + (a - st.dst) := by
            omega
          have e2 : st.dst + (((a - st.dst).toNat : Nat) : Int) = a := by omega
          rw [e1, e2, gAvg]
        · rw [if_neg c2, if_neg (by omega)]
    · simp only [if_neg hc]
      subst hw
      refine ⟨le_refl _, by simp, by simp, ?_⟩
      intro a
      rw [if_neg (by simp)]

theorem round_avg (x y : Nat) (hx : x < 65536) (hy : y < 65536) :
    u16 (ROUND_POWER_OF_TWO ((x : Int) + (y : Int)) 1) = (x + y + 1) / 2 := by
  unfold u16 ROUND_POWER_OF_TWO
  norm_num
  omega

/-- Effect of the scalar tail of `convolve_avg_row`. -/
theorem avg_tail_spec (src : Mem) (s d : Int) (width : Nat) :
    ∀ (i : Int) (m : Mem) (a : Int), 0 ≤ i →
      avg_tail src s d width i m a
        = if d + i ≤ a ∧ a < d + i + (width : Int)
            then gAvg (src (s + (a - d)) % 65536) (m a) else m a := by
  induction width with
  | zero =>
    intro i m a _
    rw [avg_tail, if_neg (by omega)]
  | succ w ih =>
    intro i m a hi
    rw [avg_tail, ih (i + 1) _ a (by omega)]
    by_cases c2 : a = d + i
    · subst c2
      have e : s + (d + i - d) = s + i := by ring
      rw [if_neg (by omega), if_pos rfl, if_pos (by omega), gAvg,
        round_avg _ _ (Nat.mod_lt _ (by norm_num)) (Nat.mod_lt _ (by norm_num)), e]
      have := Nat.mod_lt (src (s + i)) (by norm_num : 65536 > 0)
      omega
    · simp only [if_neg c2]
      by_cases c1 : d + (i + 1) ≤ a ∧ a < d + (i + 1) + (w : Int)
      · rw [if_pos c1, if_pos (by omega)]
      · rw [if_neg c1, if_neg (by omega)]

/-- Effect of `convolve_avg_row`: each of the `width` samples of the row is averaged with
the source sample. -/
theorem convolve_avg_row_spec (src : Mem) (s : Int) (m : Mem) (d : Int) (width : Nat)
    (a : Int) :
    convolve_avg_row src s m d width a
      = if d ≤ a ∧ a < d + (width : Int) then gAvg (src (s + (a - d)) % 65536) (m a)
        else m a := by
  unfold convolve_avg_row
  obtain ⟨a1, a2, a3, a4⟩ := avg_chunks_spec 15 src { width := width, src := s, dst := d, mem := m }
  generalize avg_chunks 15 src { width := width, src := s, dst := d, mem := m } = st1 at *
  obtain ⟨b1, b2, b3, b4⟩ := avg_chunks_spec 7 src st1
  generalize avg_chunks 7 src st1 = st2 at *
  obtain ⟨c1, c2, c3, c4⟩ := avg_chunks_spec 3 src st2
  generalize avg_chunks 3 src st2 = st3 at *
  simp only at a1 a2 a3 a4
  rw [avg_tail_spec src st3.src st3.dst st3.width 0 st3.mem a (le_refl _)]
  by_cases h1 : st3.dst + 0 ≤ a ∧ a < st3.dst + 0 + (st3.width : Int)
  · rw [if_pos h1, if_pos (by omega), c4 a, if_neg (by omega), b4 a, if_neg (by omega), a4 a,
      if_neg (by omega)]
    congr 3; omega
  · rw [if_neg h1, c4 a]
    by_cases h2 : st2.dst ≤ a ∧ a < st2.dst + ((st2.width - st3.width : Nat) : Int)
    · rw [if_pos h2, if_pos (by omega), b4 a, if_neg (by omega), a4 a, if_neg (by omega)]
      congr 3; omega
    · rw [if_neg h2, b4 a]
      by_cases h3 : st1.dst ≤ a ∧ a < st1.dst + ((st1.width - st2.width : Nat) : Int)
      · rw [if_pos h3, if_pos (by omega), a4 a, if_neg (by omega)]
        congr 3; omega
      · rw [if_neg h3, a4 a]
        by_cases h4 : d ≤ a ∧ a < d + ((width - st1.width : Nat) : Int)
        · rw [if_pos h4, if_pos (by omega)]
        · rw [if_neg h4, if_neg (by omega)]

theorem copy_rows_unfold (src : Mem) (ss ds : Int) (width : Nat) (h s d : Int) (m : Mem) :
    copy_rows src ss ds width h s d m
      = if 0 < h - 1 then copy_rows src ss ds width (h - 1) (s + ss) (d + ds)
          (convolve_copy_row src s m d width)
        else convolve_copy_row src s m d width := by
  rw [copy_rows]

theorem avg_rows_unfold (src : Mem) (ss ds : Int) (width : Nat) (h s d : Int) (m : Mem) :
    avg_rows src ss ds width h s d m
      = if 0 < h - 1 then avg_rows src ss ds width (h - 1) (s + ss) (d + ds)
          (convolve_avg_row src s m d width)
        else convolve_avg_row src s m d width := by
  rw [avg_rows]

open Finset

theorem mul_tap_bound (a b : Int) (ha1 : -32768 ≤ a) (ha2 : a < 32768) (hb1 : 0 ≤ b)
    (hb2 : b < 4096) : -134217728 ≤ a * b ∧ a * b ≤ 134217728 := by
  constructor <;> nlinarith

theorem s16_small (x : Nat) (h : x < 32768) : s16 x = (x : Int) := by
  unfold s16
  have e : x % 65536 = x := Nat.mod_eq_of_lt (by omega)
  rw [e, if_pos h]

/-- Without overflow the 8-tap lane value is the rounded exact sum. -/
theorem conv8_exact (f : Nat → Int) (srcm : Mem) (p stride : Int)
    (hf : ∀ k, k < 8 → -32768 ≤ f k ∧ f k < 32768)
    (hs : ∀ a, srcm a < 4096) :
    conv8 f srcm p stride
      = (∑ k in range 8, f k * (srcm (p + (k : Int) * stride) : Int) + 64) / 128 := by
  have hsm : ∀ a, s16 (srcm a) = (srcm a : Int) := fun a => s16_small _ (by have := hs a; omega)
  have hfk : ∀ k, k < 8 → s16 (u16 (f k)) = f k := fun k hk => s16_u16 _ (hf k hk).1 (hf k hk).2
  have hb : ∀ k, k < 8 → ∀ a, -134217728 ≤ f k * (srcm a : Int) ∧ f k * (srcm a : Int) ≤ 134217728 :=
    fun k hk a => mul_tap_bound _ _ (hf k hk).1 (hf k hk).2 (by omega) (by have := hs a; omega)
  simp only [conv8, tap, hsm, hfk 0 (by omega), hfk 1 (by omega), hfk 2 (by omega),
    hfk 3 (by omega), hfk 4 (by omega), hfk 5 (by omega), hfk 6 (by omega), hfk 7 (by omega),
    sum_range_succ, sum_range_zero, zero_add]
  have b0 := hb 0 (by omega) (p + ((0 : Nat) : Int) * stride)
  have b1 := hb 1 (by omega) (p + ((1 : Nat) : Int) * stride)
  have b2 := hb 2 (by omega) (p + ((2 : Nat) : Int) * stride)
  have b3 := hb 3 (by omega) (p + ((3 : Nat) : Int) * stride)
  have b4 := hb 4 (by omega) (p + ((4 : Nat) : Int) * stride)
  have b5 := hb 5 (by omega) (p + ((5 : Nat) : Int) * stride)
  have b6 := hb 6 (by omega) (p + ((6 : Nat) : Int) * stride)
  have b7 := hb 7 (by omega) (p + ((7 : Nat) : Int) * stride)
  rw [wrap32_id _ (by omega) (by omega)]
  congr 1
  ring

/-- Without overflow the 2-tap lane value is the rounded exact sum of the two centre
products. -/
theorem conv2_exact (f : Nat → Int) (srcm : Mem) (p stride : Int)
    (hf : ∀ k, k < 8 → -32768 ≤ f k ∧ f k < 32768)
    (hs : ∀ a, srcm a < 4096) :
    conv2 f srcm p stride
      = (f 3 * (srcm p : Int) + f 4 * (srcm (p + stride) : Int) + 64) / 128 := by
  have hsm : ∀ a, s16 (srcm a) = (srcm a : Int) := fun a => s16_small _ (by have := hs a; omega)
  have hfk : ∀ k, k < 8 → s16 (u16 (f k)) = f k := fun k hk => s16_u16 _ (hf k hk).1 (hf k hk).2
  have hb : ∀ k, k < 8 → ∀ a, -134217728 ≤ f k * (srcm a : Int) ∧ f k * (srcm a : Int) ≤ 134217728 :=
    fun k hk a => mul_tap_bound _ _ (hf k hk).1 (hf k hk).2 (by omega) (by have := hs a; omega)
  simp only [conv2, tap, hsm, hfk 3 (by omega), hfk 4 (by omega), Nat.cast_zero, zero_mul,
    add_zero, Nat.cast_one, one_mul]
  have b3 := hb 3 (by omega) p
  have b4 := hb 4 (by omega) (p + stride)
  have e : (srcm p : Int) * f 3 + (srcm (p + stride) : Int) * f 4
      = f 3 * (srcm p : Int) + f 4 * (srcm (p + stride) : Int) := by ring
  rw [e, wrap32_id _ (by omega) (by omega)]

/-- For a value below `2^15` the stored word is the value clamped to the bit depth. -/
theorem outWord_clamp (bd : Nat) (hbd : bd = 8 ∨ bd = 10 ∨ bd = 12) (v : Int)
    (hv : v < 32768) :
    ((outWord (u16 (2 ^ bd - 1)) v : Nat) : Int) = min (max v 0) (2 ^ bd - 1) := by
  rcases hbd with h | h | h <;> subst h <;>
    (simp only [outWord, clampWord, satu16, s16, u16]
     norm_num
     split_ifs <;> omega)

/-- C1: after `aom_highbd_convolve_copy_avx2` every sample of the `width` x `h` rectangle of
the destination equals the source sample of the same row and column, for every width
(multiple of 4 or not), every height `h >= 1` and strides that may differ (the destination
stride being at least the width); the source is a `uint16_t` picture. -/
theorem convolve_copy_exact (srcm dstm : Mem) (src dst src_stride dst_stride : Int)
    (filter_x filter_y : Nat → Int) (filter_x_stride filter_y_stride : Int)
    (width : Nat) (h : Int) (bd : Nat)
    (hh : 1 ≤ h) (hds : (width : Int) ≤ dst_stride) (hsrc : ∀ a, srcm a < 65536) :
    ∀ r c : Nat, (r : Int) < h → c < width →
      aom_highbd_convolve_copy_avx2 srcm src src_stride dstm dst dst_stride filter_x
        filter_x_stride filter_y filter_y_stride width h bd
        (dst + (r : Int) * dst_stride + (c : Int))
      = srcm (src + (r : Int) * src_stride + (c : Int)) := by
  intro r c hr hc
  obtain ⟨n, hn⟩ : ∃ n : Nat, h = (n : Int) + 1 := ⟨(h - 1).toNat, by omega⟩
  subst hn
  have key := (rows_loop_spec (fun x _ => x % 65536) (fun s m d => convolve_copy_row srcm s m d width)
    (fun h s d m => copy_rows srcm src_stride dst_stride width h s d m) src_stride dst_stride
    width srcm (fun s m d a => convolve_copy_row_spec srcm s m d width a)
    (fun h s d m => copy_rows_unfold srcm src_stride dst_stride width h s d m) hds n src dst
    dstm).1 r c (by omega) hc
  simp only [rowAddr] at key
  unfold aom_highbd_convolve_copy_avx2
  rw [key]
  exact Nat.mod_eq_of_lt (hsrc _)

theorem convolve_copy_exact_witness :
    aom_highbd_convolve_copy_avx2 (fun _ => 7) 0 40 (fun _ => 0) 0 13 (fun _ => 0) 0
        (fun _ => 0) 0 13 3 8 (0 + ((2 : Nat) : Int) * 13 + ((12 : Nat) : Int))
      = (fun _ => 7 : Mem) (0 + ((2 : Nat) : Int) * 40 + ((12 : Nat) : Int)) :=
  convolve_copy_exact (fun _ => 7) (fun _ => 0) 0 0 40 13 (fun _ => 0) (fun _ => 0) 0 0 13 3 8
    (by decide) (by decide) (fun _ => (by decide : (7 : Nat) < 65536)) 2 12 (by decide)
    (by decide)

/-- C2: `aom_highbd_convolve_avg_avx2` sets every sample of the rectangle to
`(src + dst_old + 1) >> 1` computed without 16-bit wrap-around, whichever of the 16-, 8-,
4-lane paths or the scalar tail handles the column; source and destination are
`uint16_t` pictures and the destination stride is at least the width. -/
theorem convolve_avg_exact (srcm dstm : Mem) (src dst src_stride dst_stride : Int)
    (filter_x filter_y : Nat → Int) (filter_x_stride filter_y_stride : Int)
    (width : Nat) (height : Int) (bd : Nat)
    (hh : 1 ≤ height) (hds : (width : Int) ≤ dst_stride) (hsrc : ∀ a, srcm a < 65536)
    (hdst : ∀ a, dstm a < 65536) :
    ∀ r c : Nat, (r : Int) < height → c < width →
      aom_highbd_convolve_avg_avx2 srcm src src_stride dstm dst dst_stride filter_x
        filter_x_stride filter_y filter_y_stride width height bd
        (dst + (r : Int) * dst_stride + (c : Int))
      = (srcm (src + (r : Int) * src_stride + (c : Int))
          + dstm (dst + (r : Int) * dst_stride + (c : Int)) + 1) / 2 := by
  intro r c hr hc
  obtain ⟨n, hn⟩ : ∃ n : Nat, height = (n : Int) + 1 := ⟨(height - 1).toNat, by omega⟩
  subst hn
  have key := (rows_loop_spec (fun x y => gAvg (x % 65536) y)
    (fun s m d => convolve_avg_row srcm s m d width)
    (fun h s d m => avg_rows srcm src_stride dst_stride width h s d m) src_stride dst_stride
    width srcm (fun s m d a => convolve_avg_row_spec srcm s m d width a)
    (fun h s d m => avg_rows_unfold srcm src_stride dst_stride width h s d m) hds n src dst
    dstm).1 r c (by omega) hc
  simp only [rowAddr] at key
  unfold aom_highbd_convolve_avg_avx2
  rw [key, gAvg, Nat.mod_eq_of_lt (hsrc _), Nat.mod_eq_of_lt (hdst _)]

theorem convolve_avg_exact_witness :
    aom_highbd_convolve_avg_avx2 (fun _ => 65535) 0 40 (fun _ => 65535) 0 13 (fun _ => 0) 0
        (fun _ => 0) 0 13 3 8 (0 + ((2 : Nat) : Int) * 13 + ((12 : Nat) : Int))
      = ((fun _ => 65535 : Mem) (0 + ((2 : Nat) : Int) * 40 + ((12 : Nat) : Int))
          + (fun _ => 65535 : Mem) (0 + ((2 : Nat) : Int) * 13 + ((12 : Nat) : Int)) + 1) / 2 :=
  convolve_avg_exact (fun _ => 65535) (fun _ => 65535) 0 0 40 13 (fun _ => 0) (fun _ => 0) 0 0
    13 3 8 (by decide) (by decide) (fun _ => (by decide : (65535 : Nat) < 65536))
    (fun _ => (by decide : (65535 : Nat) < 65536)) 2 12 (by decide) (by decide)

theorem samples_lt_4096 (srcm : Mem) (bd : Nat) (hbd : bd = 8 ∨ bd = 10 ∨ bd = 12)
    (hs : ∀ a, srcm a < 2 ^ bd) : ∀ a, srcm a < 4096 := by
  intro a
  have := hs a
  rcases hbd with h | h | h <;> subst h <;> omega

/-- C3: `aom_highbd_filter_block1d8_h8_avx2` stores, for every row `r < height` and column
`c < 8`, the clamp to `[0, 2^bd - 1]` of `(sum_k f[k] * src[r][c - 3 + k] + 64) >> 7`: the
window of 3 samples before and 4 after the output position.  The destination rows do not
overlap (`dst_pitch >= 8`) and `height` is a `uint32_t`. -/
theorem filter_block1d8_h8_correct (srcm dstm : Mem) (src dst src_pitch dst_pitch : Int)
    (height : Nat) (filter : Nat → Int) (bd : Nat)
    (hh : 2 ≤ height) (hlt : height < 4294967296) (hdp : 8 ≤ dst_pitch)
    (hbd : bd = 8 ∨ bd = 10 ∨ bd = 12)
    (hf : ∀ k, k < 8 → -32768 ≤ filter k ∧ filter k < 32768)
    (hs : ∀ a, srcm a < 2 ^ bd)
    (hsum : ∀ r c : Nat, r < height → c < 8 →
      (∑ k in range 8, filter k
        * (srcm (src + (r : Int) * src_pitch + (c : Int) - 3 + (k : Int)) : Int) + 64) / 128
        < 32768) :
    ∀ r c : Nat, r < height → c < 8 →
      ((aom_highbd_filter_block1d8_h8_avx2 srcm src src_pitch dstm dst dst_pitch height filter bd
          (dst + (r : Int) * dst_pitch + (c : Int)) : Nat) : Int)
        = min (max ((∑ k in range 8, filter k
            * (srcm (src + (r : Int) * src_pitch + (c : Int) - 3 + (k : Int)) : Int) + 64) / 128)
            0) (2 ^ bd - 1) := by
  intro r c hr hc
  have key := (filter_block_width8_horiz_rows2 write_8x1_pixels write_8x2_pixels gPlain
    write_8x1_pixels_spec write_8x2_pixels_spec srcm src src_pitch dstm dst dst_pitch height
    filter bd hdp hh hlt).1 r c hr hc
  have e : conv8 filter srcm (rowAddr (src - 3) src_pitch r + (c : Int)) 1
      = (∑ k in range 8, filter k
        * (srcm (src + (r : Int) * src_pitch + (c : Int) - 3 + (k : Int)) : Int) + 64) / 128 := by
    rw [conv8_exact filter srcm _ 1 hf (samples_lt_4096 srcm bd hbd hs)]
    congr 2
    apply sum_congr rfl
    intro k _
    congr 3
    simp only [rowAddr]; ring
  simp only [rowAddr] at key e
  unfold aom_highbd_filter_block1d8_h8_avx2
  rw [key, gPlain, outWord_clamp bd hbd _ (by rw [e]; exact hsum r c hr hc), e]

theorem filter_block1d8_h8_correct_witness :
    ((aom_highbd_filter_block1d8_h8_avx2 (fun _ => 1) 0 20 (fun _ => 0) 0 8 3 unitKernel 8
        (0 + ((2 : Nat) : Int) * 8 + ((7 : Nat) : Int)) : Nat) : Int)
      = min (max ((∑ k in range 8, unitKernel k
          * (((fun _ => 1 : Mem) (0 + ((2 : Nat) : Int) * 20 + ((7 : Nat) : Int) - 3 + (k : Int))
            : Nat) : Int) + 64) / 128) 0) (2 ^ 8 - 1) :=
  filter_block1d8_h8_correct (fun _ => 1) (fun _ => 0) 0 0 20 8 3 unitKernel 8 (by decide)
    (by decide) (by decide) (Or.inl rfl)
    (fun k _ => by unfold unitKernel; split_ifs <;> decide)
    (fun _ => (by decide : (1 : Nat) < 2 ^ 8))
    (fun _ _ _ _ => by simp [sum_range_succ, unitKernel]) 2 7 (by decide) (by decide)

/-- C4: `aom_highbd_filter_block1d8_v8_avx2` stores, for every row `r < height` (even or
odd height) and column `c < 8`, the clamp to `[0, 2^bd - 1]` of
`(sum_k f[k] * src_ptr[(r + k) * pitch + c] + 64) >> 7`, `src_ptr` being the pointer it
receives; the sliding window gives what filtering each row from scratch gives.  The
destination rows do not overlap (`dst_pitch >= 8`) and `height` is a `uint32_t`. -/
theorem filter_block1d8_v8_correct (srcm dstm : Mem) (src_ptr dst src_pitch dst_pitch : Int)
    (height : Nat) (filter : Nat → Int) (bd : Nat)
    (hh : 2 ≤ height) (hlt : height < 4294967296) (hdp : 8 ≤ dst_pitch)
    (hbd : bd = 8 ∨ bd = 10 ∨ bd = 12)
    (hf : ∀ k, k < 8 → -32768 ≤ filter k ∧ filter k < 32768)
    (hs : ∀ a, srcm a < 2 ^ bd)
    (hsum : ∀ r c : Nat, r < height → c < 8 →
      (∑ k in range 8, filter k
        * (srcm (src_ptr + ((r : Int) + (k : Int)) * src_pitch + (c : Int)) : Int) + 64) / 128
        < 32768) :
    ∀ r c : Nat, r < height → c < 8 →
      ((aom_highbd_filter_block1d8_v8_avx2 srcm src_ptr src_pitch dstm dst dst_pitch height
          filter bd (dst + (r : Int) * dst_pitch + (c : Int)) : Nat) : Int)
        = min (max ((∑ k in range 8, filter k
            * (srcm (src_ptr + ((r : Int) + (k : Int)) * src_pitch + (c : Int)) : Int) + 64)
            / 128) 0) (2 ^ bd - 1) := by
  intro r c hr hc
  have key := (filter_block_width8_vert_rows write_8x1_pixels_ver write_8x2_pixels gPlain
    write_8x1_pixels_ver_spec write_8x2_pixels_spec srcm src_ptr src_pitch dstm dst dst_pitch
    height filter bd hdp hh hlt).1 r c hr hc
  have e : conv8 filter srcm (rowAddr src_ptr src_pitch r + (c : Int)) src_pitch
      = (∑ k in range 8, filter k
        * (srcm (src_ptr + ((r : Int) + (k : Int)) * src_pitch + (c : Int)) : Int) + 64)
          / 128 := by
    rw [conv8_exact filter srcm _ src_pitch hf (samples_lt_4096 srcm bd hbd hs)]
    congr 2
    apply sum_congr rfl
    intro k _
    congr 3
    simp only [rowAddr]; ring
  simp only [rowAddr] at key e
  unfold aom_highbd_filter_block1d8_v8_avx2
  rw [key, gPlain, outWord_clamp bd hbd _ (by rw [e]; exact hsum r c hr hc), e]

theorem filter_block1d8_v8_correct_witness :
    ((aom_highbd_filter_block1d8_v8_avx2 (fun _ => 1) 0 20 (fun _ => 0) 0 8 3 unitKernel 8
        (0 + ((2 : Nat) : Int) * 8 + ((7 : Nat) : Int)) : Nat) : Int)
      = min (max ((∑ k in range 8, unitKernel k
          * (((fun _ => 1 : Mem) (0 + (((2 : Nat) : Int) + (k : Int)) * 20 + ((7 : Nat) : Int))
            : Nat) : Int) + 64) / 128) 0) (2 ^ 8 - 1) :=
  filter_block1d8_v8_correct (fun _ => 1) (fun _ => 0) 0 0 20 8 3 unitKernel 8 (by decide)
    (by decide) (by decide) (Or.inl rfl)
    (fun k _ => by unfold unitKernel; split_ifs <;> decide)
    (fun _ => (by decide : (1 : Nat) < 2 ^ 8))
    (fun _ _ _ _ => by simp [sum_range_succ, unitKernel]) 2 7 (by decide) (by decide)

theorem filter_8x1_naive_lane (sig fil : RegArr) (k : Nat) :
    s32 (d32 (filter_8x1_naive sig fil) k)
      = wrap32 (pairProd (fil 0) (sig 0) k + pairProd (fil 1) (sig 1) k
          + pairProd (fil 2) (sig 2) k + pairProd (fil 3) (sig 3) k + 64) / 128 := by
  simp only [filter_8x1_naive, CONV8_ROUNDING_BITS, sd_srai7, sd_add, sd_madd, sd_set1]
  congr 1
  unfold wrap32; norm_num; omega

theorem d32_eq_of_s32_eq (a b : Reg) (k : Nat) (h : s32 (d32 a k) = s32 (d32 b k)) :
    d32 a k = d32 b k := by
  have ha := d32_lt a k
  have hb := d32_lt b k
  unfold s32 at h
  split_ifs at h <;> omega

/-- C5: when the exact sum `S` of the eight products of a lane satisfies that `S + 64` fits
a signed 32-bit integer, the lane of `filter_8x1_pixels` is `floor((S + 64) / 128)` (also
for negative `S`); and the addition order of the code (first plus last pair, then the
minimum, then the maximum of the inner pairs) gives, in every lane, the value of the naive
left-to-right 32-bit sum. -/
theorem filter_8x1_pixels_rounds (sig fil : RegArr) (k : Nat)
    (hfit : -2147483648 ≤ (∑ j in range 8,
        s16 (w16 (fil (j / 2)) (2 * k + j % 2)) * s16 (w16 (sig (j / 2)) (2 * k + j % 2))) + 64
      ∧ (∑ j in range 8,
        s16 (w16 (fil (j / 2)) (2 * k + j % 2)) * s16 (w16 (sig (j / 2)) (2 * k + j % 2))) + 64
        < 2147483648) :
    s32 (d32 (filter_8x1_pixels sig fil) k)
      = ((∑ j in range 8,
          s16 (w16 (fil (j / 2)) (2 * k + j % 2)) * s16 (w16 (sig (j / 2)) (2 * k + j % 2)))
          + 64) / 128
    ∧ ∀ i, d32 (filter_8x1_pixels sig fil) i = d32 (filter_8x1_naive sig fil) i := by
  constructor
  · have e : (∑ j in range 8,
        s16 (w16 (fil (j / 2)) (2 * k + j % 2)) * s16 (w16 (sig (j / 2)) (2 * k + j % 2)))
        = pairProd (fil 0) (sig 0) k + pairProd (fil 1) (sig 1) k
          + pairProd (fil 2) (sig 2) k + pairProd (fil 3) (sig 3) k := by
      simp only [sum_range_succ, sum_range_zero, pairProd]
      norm_num
      ring
    rw [e] at hfit ⊢
    rw [filter_8x1_lane, wrap32_id _ hfit.1 hfit.2]
  · intro i
    apply d32_eq_of_s32_eq
    rw [filter_8x1_lane, filter_8x1_naive_lane]

theorem filter_8x1_pixels_rounds_witness :
    s32 (d32 (filter_8x1_pixels (fun _ => mm_set1_epi16 (-1)) (fun _ => mm_set1_epi16 1)) 0)
      = ((∑ j in range 8,
          s16 (w16 ((fun _ => mm_set1_epi16 1 : RegArr) (j / 2)) (2 * 0 + j % 2))
            * s16 (w16 ((fun _ => mm_set1_epi16 (-1) : RegArr) (j / 2)) (2 * 0 + j % 2)))
          + 64) / 128 :=
  (filter_8x1_pixels_rounds (fun _ => mm_set1_epi16 (-1)) (fun _ => mm_set1_epi16 1) 0
    (by simp [sum_range_succ, w16_set1, s16, u16])).1

/-- C7: for each averaging 1-D filter, every `height >= 2`, source, kernel, `bd` and prior
destination content `dstm`, every stored sample is `(p + d + 1) >> 1`, where `d` is the old
sample of `dstm` at that position and `p` is the sample the non-averaging filter of the
same kind stores there for the same source, kernel and `bd`, run on any destination content
`dstm0` whatever: `p` is the 16-bit clamp at `2^bd - 1` of the rounded filter sum
(`outWord` of `conv8` or `conv2` on the source window), so it does not depend on `d` or on
`dstm0`.  The destination is a `uint16_t` picture whose rows do not overlap (`dst_pitch` at
least the block width). -/
theorem avg_filters_average (srcm dstm dstm0 : Mem) (src dst src_pitch dst_pitch : Int)
    (height : Nat) (filter : Nat → Int) (bd : Nat)
    (hh : 2 ≤ height) (hlt : height < 4294967296) (hd : ∀ a, dstm a < 65536)
    (r c : Nat) (hr : r < height) :
    (8 ≤ dst_pitch → c < 8 →
      (aom_highbd_filter_block1d8_h8_avg_avx2 srcm src src_pitch dstm dst dst_pitch height
            filter bd (dst + (r : Int) * dst_pitch + (c : Int))
          = (aom_highbd_filter_block1d8_h8_avx2 srcm src src_pitch dstm0 dst dst_pitch height
              filter bd (dst + (r : Int) * dst_pitch + (c : Int))
            + dstm (dst + (r : Int) * dst_pitch + (c : Int)) + 1) / 2
        ∧ aom_highbd_filter_block1d8_h8_avx2 srcm src src_pitch dstm0 dst dst_pitch height
            filter bd (dst + (r : Int) * dst_pitch + (c : Int))
          = outWord (u16 (2 ^ bd - 1))
              (conv8 filter srcm (src - 3 + (r : Int) * src_pitch + (c : Int)) 1))
      ∧ (aom_highbd_filter_block1d8_v8_avg_avx2 srcm src src_pitch dstm dst dst_pitch height
            filter bd (dst + (r : Int) * dst_pitch + (c : Int))
          = (aom_highbd_filter_block1d8_v8_avx2 srcm src src_pitch dstm0 dst dst_pitch height
              filter bd (dst + (r : Int) * dst_pitch + (c : Int))
            + dstm (dst + (r : Int) * dst_pitch + (c : Int)) + 1) / 2
        ∧ aom_highbd_filter_block1d8_v8_avx2 srcm src src_pitch dstm0 dst dst_pitch height
            filter bd (dst + (r : Int) * dst_pitch + (c : Int))
          = outWord (u16 (2 ^ bd - 1))
              (conv8 filter srcm (src + (r : Int) * src_pitch + (c : Int)) src_pitch))
      ∧ (aom_highbd_filter_block1d8_h2_avg_avx2 srcm src src_pitch dstm dst dst_pitch height
            filter bd (dst + (r : Int) * dst_pitch + (c : Int))
          = (aom_highbd_filter_block1d8_h2_avx2 srcm src src_pitch dstm0 dst dst_pitch height
              filter bd (dst + (r : Int) * dst_pitch + (c : Int))
            + dstm (dst + (r : Int) * dst_pitch + (c : Int)) + 1) / 2
        ∧ aom_highbd_filter_block1d8_h2_avx2 srcm src src_pitch dstm0 dst dst_pitch height
            filter bd (dst + (r : Int) * dst_pitch + (c : Int))
          = outWord (u16 (2 ^ bd - 1))
              (conv2 filter srcm (src + (r : Int) * src_pitch + (c : Int)) 1))
      ∧ (aom_highbd_filter_block1d8_v2_avg_avx2 srcm src src_pitch dstm dst dst_pitch height
            filter bd (dst + (r : Int) * dst_pitch + (c : Int))
          = (aom_highbd_filter_block1d8_v2_avx2 srcm src src_pitch dstm0 dst dst_pitch height
              filter bd (dst + (r : Int) * dst_pitch + (c : Int))
            + dstm (dst + (r : Int) * dst_pitch + (c : Int)) + 1) / 2
        ∧ aom_highbd_filter_block1d8_v2_avx2 srcm src src_pitch dstm0 dst dst_pitch height
            filter bd (dst + (r : Int) * dst_pitch + (c : Int))
          = outWord (u16 (2 ^ bd - 1))
              (conv2 filter srcm (src + (r : Int) * src_pitch + (c : Int)) src_pitch)))
    ∧ (16 ≤ dst_pitch → c < 16 →
      (aom_highbd_filter_block1d16_h8_avg_avx2 srcm src src_pitch dstm dst dst_pitch height
            filter bd (dst + (r : Int) * dst_pitch + (c : Int))
          = (aom_highbd_filter_block1d16_h8_avx2 srcm src src_pitch dstm0 dst dst_pitch height
              filter bd (dst + (r : Int) * dst_pitch + (c : Int))
            + dstm (dst + (r : Int) * dst_pitch + (c : Int)) + 1) / 2
        ∧ aom_highbd_filter_block1d16_h8_avx2 srcm src src_pitch dstm0 dst dst_pitch height
            filter bd (dst + (r : Int) * dst_pitch + (c : Int))
          = outWord (u16 (2 ^ bd - 1))
              (conv8 filter srcm (src - 3 + (r : Int) * src_pitch + (c : Int)) 1))
      ∧ (aom_highbd_filter_block1d16_v8_avg_avx2 srcm src src_pitch dstm dst dst_pitch height
            filter bd (dst + (r : Int) * dst_pitch + (c : Int))
          = (aom_highbd_filter_block1d16_v8_avx2 srcm src src_pitch dstm0 dst dst_pitch height
              filter bd (dst + (r : Int) * dst_pitch + (c : Int))
            + dstm (dst + (r : Int) * dst_pitch + (c : Int)) + 1) / 2
        ∧ aom_highbd_filter_block1d16_v8_avx2 srcm src src_pitch dstm0 dst dst_pitch height
            filter bd (dst + (r : Int) * dst_pitch + (c : Int))
          = outWord (u16 (2 ^ bd - 1))
              (conv8 filter srcm (src + (r : Int) * src_pitch + (c : Int)) src_pitch))
      ∧ (aom_highbd_filter_block1d16_h2_avg_avx2 srcm src src_pitch dstm dst dst_pitch height
            filter bd (dst + (r : Int) * dst_pitch + (c : Int))
          = (aom_highbd_filter_block1d16_h2_avx2 srcm src src_pitch dstm0 dst dst_pitch height
              filter bd (dst + (r : Int) * dst_pitch + (c : Int))
            + dstm (dst + (r : Int) * dst_pitch + (c : Int)) + 1) / 2
        ∧ aom_highbd_filter_block1d16_h2_avx2 srcm src src_pitch dstm0 dst dst_pitch height
            filter bd (dst + (r : Int) * dst_pitch + (c : Int))
          = outWord (u16 (2 ^ bd - 1))
              (conv2 filter srcm (src + (r : Int) * src_pitch + (c : Int)) 1))
      ∧ (aom_highbd_filter_block1d16_v2_avg_avx2 srcm src src_pitch dstm dst dst_pitch height
            filter bd (dst + (r : Int) * dst_pitch + (c : Int))
          = (aom_highbd_filter_block1d16_v2_avx2 srcm src src_pitch dstm0 dst dst_pitch height
              filter bd (dst + (r : Int) * dst_pitch + (c : Int))
            + dstm (dst + (r : Int) * dst_pitch + (c : Int)) + 1) / 2
        ∧ aom_highbd_filter_block1d16_v2_avx2 srcm src src_pitch dstm0 dst dst_pitch height
            filter bd (dst + (r : Int) * dst_pitch + (c : Int))
          = outWord (u16 (2 ^ bd - 1))
              (conv2 filter srcm (src + (r : Int) * src_pitch + (c : Int)) src_pitch))) := by
  have hm : dstm (dst + (r : Int) * dst_pitch + (c : Int)) % 65536
      = dstm (dst + (r : Int) * dst_pitch + (c : Int)) := Nat.mod_eq_of_lt (hd _)
  have h1 : 1 ≤ height := by omega
  constructor
  · intro hdp hc
    refine ⟨?_, ?_, ?_, ?_⟩
    · have ha := (filter_block_width8_horiz_rows2 write_8x1_avg_pixels write_8x2_avg_pixels gAvg
        write_8x1_avg_pixels_spec write_8x2_avg_pixels_spec srcm src src_pitch dstm dst
        dst_pitch height filter bd hdp hh hlt).1 r c hr hc
      have hp := (filter_block_width8_horiz_rows2 write_8x1_pixels write_8x2_pixels gPlain
        write_8x1_pixels_spec write_8x2_pixels_spec srcm src src_pitch dstm0 dst
        dst_pitch height filter bd hdp hh hlt).1 r c hr hc
      simp only [rowAddr] at ha hp
      unfold aom_highbd_filter_block1d8_h8_avg_avx2 aom_highbd_filter_block1d8_h8_avx2
      rw [ha, hp, gAvg, gPlain, hm]
      exact ⟨rfl, rfl⟩
    · have ha := (filter_block_width8_vert_rows write_8x1_avg_pixels_ver write_8x2_avg_pixels
        gAvg write_8x1_avg_pixels_ver_spec write_8x2_avg_pixels_spec srcm src src_pitch dstm dst
        dst_pitch height filter bd hdp hh hlt).1 r c hr hc
      have hp := (filter_block_width8_vert_rows write_8x1_pixels_ver write_8x2_pixels gPlain
        write_8x1_pixels_ver_spec write_8x2_pixels_spec srcm src src_pitch dstm0 dst
        dst_pitch height filter bd hdp hh hlt).1 r c hr hc
      simp only [rowAddr] at ha hp
      unfold aom_highbd_filter_block1d8_v8_avg_avx2 aom_highbd_filter_block1d8_v8_avx2
      rw [ha, hp, gAvg, gPlain, hm]
      exact ⟨rfl, rfl⟩
    · have ha := (filter_block_width8_2t_horiz_rows write_8x1_avg_pixels write_8x2_avg_pixels
        gAvg write_8x1_avg_pixels_spec write_8x2_avg_pixels_spec srcm src src_pitch dstm dst
        dst_pitch height filter bd hdp hh hlt).1 r c hr hc
      have hp := (filter_block_width8_2t_horiz_rows write_8x1_pixels write_8x2_pixels gPlain
        write_8x1_pixels_spec write_8x2_pixels_spec srcm src src_pitch dstm0 dst
        dst_pitch height filter bd hdp hh hlt).1 r c hr hc
      simp only [rowAddr] at ha hp
      unfold aom_highbd_filter_block1d8_h2_avg_avx2 aom_highbd_filter_block1d8_h2_avx2
      rw [ha, hp, gAvg, gPlain, hm]
      exact ⟨rfl, rfl⟩
    · have ha := (filter_block_width8_2t_vert_rows write_8x1_2t_avg_pixels_ver gAvg
        write_8x1_2t_avg_pixels_ver_spec srcm src src_pitch dstm dst
        dst_pitch height filter bd hdp h1 hlt).1 r c hr hc
      have hp := (filter_block_width8_2t_vert_rows write_8x1_2t_pixels_ver gPlain
        write_8x1_2t_pixels_ver_spec srcm src src_pitch dstm0 dst
        dst_pitch height filter bd hdp h1 hlt).1 r c hr hc
      simp only [rowAddr] at ha hp
      unfold aom_highbd_filter_block1d8_v2_avg_avx2 aom_highbd_filter_block1d8_v2_avx2
      rw [ha, hp, gAvg, gPlain, hm]
      exact ⟨rfl, rfl⟩
  · intro hdp hc
    refine ⟨?_, ?_, ?_, ?_⟩
    · have ha := (filter_block_width16_horiz_rows write_16x1_avg_pixels gAvg
        write_16x1_avg_pixels_spec srcm src src_pitch dstm dst
        dst_pitch height filter bd hdp h1 hlt).1 r c hr hc
      have hp := (filter_block_width16_horiz_rows write_16x1_pixels gPlain
        write_16x1_pixels_spec srcm src src_pitch dstm0 dst
        dst_pitch height filter bd hdp h1 hlt).1 r c hr hc
      simp only [rowAddr] at ha hp
      unfold aom_highbd_filter_block1d16_h8_avg_avx2 aom_highbd_filter_block1d16_h8_avx2
      rw [ha, hp, gAvg, gPlain, hm]
      exact ⟨rfl, rfl⟩
    · have ha := (filter_block_width16_vert_rows write_16x1_avg_pixels_ver
        write_16x2_avg_pixels gAvg write_16x1_avg_pixels_ver_spec write_16x2_avg_pixels_spec
        srcm src src_pitch dstm dst dst_pitch height filter bd hdp hh hlt).1 r c hr hc
      have hp := (filter_block_width16_vert_rows write_16x1_pixels_ver write_16x2_pixels gPlain
        write_16x1_pixels_ver_spec write_16x2_pixels_spec srcm src src_pitch dstm0 dst
        dst_pitch height filter bd hdp hh hlt).1 r c hr hc
      simp only [rowAddr] at ha hp
      unfold aom_highbd_filter_block1d16_v8_avg_avx2 aom_highbd_filter_block1d16_v8_avx2
      rw [ha, hp, gAvg, gPlain, hm]
      exact ⟨rfl, rfl⟩
    · have ha := (filter_block_width16_2t_horiz_rows write_16x1_avg_pixels gAvg
        write_16x1_avg_pixels_spec srcm src src_pitch dstm dst
        dst_pitch height filter bd hdp h1 hlt).1 r c hr hc
      have hp := (filter_block_width16_2t_horiz_rows write_16x1_pixels gPlain
        write_16x1_pixels_spec srcm src src_pitch dstm0 dst
        dst_pitch height filter bd hdp h1 hlt).1 r c hr hc
      simp only [rowAddr] at ha hp
      unfold aom_highbd_filter_block1d16_h2_avg_avx2 aom_highbd_filter_block1d16_h2_avx2
      rw [ha, hp, gAvg, gPlain, hm]
      exact ⟨rfl, rfl⟩
    · have ha := (filter_block_width16_2t_vert_rows write_16x1_avg_pixels gAvg
        write_16x1_avg_pixels_spec srcm src src_pitch dstm dst
        dst_pitch height filter bd hdp h1 hlt).1 r c hr hc
      have hp := (filter_block_width16_2t_vert_rows write_16x1_pixels gPlain
        write_16x1_pixels_spec srcm src src_pitch dstm0 dst
        dst_pitch height filter bd hdp h1 hlt).1 r c hr hc
      simp only [rowAddr] at ha hp
      unfold aom_highbd_filter_block1d16_v2_avg_avx2 aom_highbd_filter_block1d16_v2_avx2
      rw [ha, hp, gAvg, gPlain, hm]
      exact ⟨rfl, rfl⟩

theorem avg_filters_average_witness :
    aom_highbd_filter_block1d8_h8_avg_avx2 (fun _ => 9) 0 20 (fun _ => 100) 0 8 3 unitKernel
        8 (0 + ((2 : Nat) : Int) * 8 + ((7 : Nat) : Int))
      = (aom_highbd_filter_block1d8_h8_avx2 (fun _ => 9) 0 20 (fun _ => 7) 0 8 3 unitKernel
          8 (0 + ((2 : Nat) : Int) * 8 + ((7 : Nat) : Int))
        + (fun _ => 100 : Mem) (0 + ((2 : Nat) : Int) * 8 + ((7 : Nat) : Int)) + 1) / 2
    ∧ aom_highbd_filter_block1d8_h8_avx2 (fun _ => 9) 0 20 (fun _ => 7) 0 8 3 unitKernel
        8 (0 + ((2 : Nat) : Int) * 8 + ((7 : Nat) : Int))
      = outWord (u16 (2 ^ 8 - 1))
          (conv8 unitKernel (fun _ => 9)
            (0 - 3 + ((2 : Nat) : Int) * 20 + ((7 : Nat) : Int)) 1) := by
  have h := avg_filters_average (fun _ => 9) (fun _ => 100) (fun _ => 7) 0 0 20 8 3 unitKernel
    8 (by decide) (by decide) (fun _ => (by decide : (100 : Nat) < 65536)) 2 7 (by decide)
  have h4 := h.1
  have h5 := h4 (by decide) (by decide)
  exact h5.1

theorem do_rows_unfold (k : Nat) (body : LoopSt → LoopSt) (h : Nat) (st : LoopSt) :
    do_rows k body h st
      = if k < sub32 h (k + 1) then do_rows k body (sub32 h (k + 1)) (body st)
        else (body st, sub32 h (k + 1)) := by
  rw [do_rows]

/-- Two row loops whose bodies preserve a relation between their states end in related
states with the same final `height`. -/
theorem do_rows_rel (R : LoopSt → LoopSt → Prop) (k : Nat) (b1 b2 : LoopSt → LoopSt)
    (hstep : ∀ s1 s2, R s1 s2 → R (b1 s1) (b2 s2)) :
    ∀ (h : Nat) (s1 s2 : LoopSt), R s1 s2 →
      R (do_rows k b1 h s1).1 (do_rows k b2 h s2).1
      ∧ (do_rows k b1 h s1).2 = (do_rows k b2 h s2).2 := by
  intro h s1
  induction h, s1 using do_rows.induct k b1 with
  | case1 h s1 hc ih =>
    intro s2 hR
    rw [do_rows_unfold k b1 h s1, do_rows_unfold k b2 h s2, if_pos hc, if_pos hc]
    exact ih (b2 s2) (hstep s1 s2 hR)
  | case2 h s1 hc =>
    intro s2 hR
    rw [do_rows_unfold k b1 h s1, do_rows_unfold k b2 h s2, if_neg hc, if_neg hc]
    exact ⟨hstep s1 s2 hR, rfl⟩

theorem s16_u16_zero : s16 (u16 0) = 0 := by decide

/-- With zero outer taps the 8-tap lane value is the 2-tap lane value of the two centre
samples. -/
theorem conv8_eq_conv2 (f : Nat → Int) (srcm : Mem) (p stride : Int)
    (h0 : f 0 = 0) (h1 : f 1 = 0) (h2 : f 2 = 0) (h5 : f 5 = 0) (h6 : f 6 = 0) (h7 : f 7 = 0) :
    conv8 f srcm p stride = conv2 f srcm (p + 3 * stride) stride := by
  simp only [conv8, conv2, tap, h0, h1, h2, h5, h6, h7, s16_u16_zero, zero_mul, add_zero,
    zero_add, Nat.cast_zero, Nat.cast_one, one_mul, Nat.cast_ofNat]
  have e : p + 3 * stride + stride = p + 4 * stride := by ring
  rw [e, mul_comm (s16 (u16 (f 3))), mul_comm (s16 (u16 (f 4)))]

/-- C8: for a kernel whose outer taps are zero, the 2-tap horizontal filters leave the
destination memory exactly as the 8-tap horizontal filters do on the same arguments, for
widths 8 and 16 (and for every height, bit depth, source and pitch). -/
theorem h2_eq_h8_of_zero_outer_taps (srcm dstm : Mem) (src dst src_pitch dst_pitch : Int)
    (height : Nat) (filter : Nat → Int) (bd : Nat)
    (h0 : filter 0 = 0) (h1 : filter 1 = 0) (h2 : filter 2 = 0) (h5 : filter 5 = 0)
    (h6 : filter 6 = 0) (h7 : filter 7 = 0) :
    (∀ a, aom_highbd_filter_block1d8_h2_avx2 srcm src src_pitch dstm dst dst_pitch height
        filter bd a
      = aom_highbd_filter_block1d8_h8_avx2 srcm src src_pitch dstm dst dst_pitch height
        filter bd a)
    ∧ (∀ a, aom_highbd_filter_block1d16_h2_avx2 srcm src src_pitch dstm dst dst_pitch height
        filter bd a
      = aom_highbd_filter_block1d16_h8_avx2 srcm src src_pitch dstm dst dst_pitch height
        filter bd a) := by
  have hc : ∀ p : Int, ∀ c : Nat, conv8 filter srcm (p + (c : Int)) 1
      = conv2 filter srcm (p + ((c + 3 : Nat) : Int)) 1 := by
    intro p c
    rw [conv8_eq_conv2 filter srcm _ 1 h0 h1 h2 h5 h6 h7]
    congr 1; push_cast; ring
  constructor
  · intro a
    unfold aom_highbd_filter_block1d8_h2_avx2 aom_highbd_filter_block1d8_h8_avx2
      filter_block_width8_2t_horiz filter_block_width8_horiz
    obtain ⟨⟨hm, hsp, hdq⟩, hh⟩ := do_rows_rel SamePtrs 1
      (filter_block_width8_2t_horiz_body srcm src_pitch write_8x2_pixels dst_pitch
        (pack_2t_filter filter) (mm_set1_epi16 (2 ^ bd - 1)))
      (filter_block_width8_horiz_body srcm src_pitch write_8x2_pixels dst_pitch
        (pack_filters filter) (mm_set1_epi16 (2 ^ bd - 1)))
      (by
        intro s1 s2 hR
        obtain ⟨hm, hsp, hdq⟩ := hR
        refine ⟨?_, ?_, ?_⟩
        · funext b
          show write_8x2_pixels _ _ _ s1.mem s1.dst_ptr dst_pitch b
            = write_8x2_pixels _ _ _ s2.mem s2.dst_ptr dst_pitch b
          rw [write_8x2_pixels_spec, write_8x2_pixels_spec, hm, hsp, hdq]
          by_cases c1 : s2.dst_ptr + dst_pitch ≤ b ∧ b < s2.dst_ptr + dst_pitch + ((8 : Nat) : Int)
          · rw [if_pos c1, if_pos c1, horiz8_px2 _ _ _ _ _ _ _ _ (by omega) (by omega),
              horiz8_2t_px2 _ _ _ _ _ _ _ _ (by omega) (by omega), hc]
          · rw [if_neg c1, if_neg c1]
            by_cases c2 : s2.dst_ptr ≤ b ∧ b < s2.dst_ptr + ((8 : Nat) : Int)
            · rw [if_pos c2, if_pos c2, horiz8_px2 _ _ _ _ _ _ _ _ (by omega) (by omega),
                horiz8_2t_px2 _ _ _ _ _ _ _ _ (by omega) (by omega), hc]
            · rw [if_neg c2, if_neg c2]
        · show s1.src_ptr + 2 * src_pitch = s2.src_ptr + 2 * src_pitch
          rw [hsp]
        · show s1.dst_ptr + 2 * dst_pitch = s2.dst_ptr + 2 * dst_pitch
          rw [hdq])
      height (entrySt (src - 3) dst dstm) (entrySt (src - 3) dst dstm) ⟨rfl, rfl, rfl⟩
    simp only [hh, hm, hsp, hdq]
    by_cases hz : 0 < (do_rows 1 (filter_block_width8_horiz_body srcm src_pitch write_8x2_pixels
        dst_pitch (pack_filters filter) (mm_set1_epi16 (2 ^ bd - 1))) height
        (entrySt (src - 3) dst dstm)).2
    · rw [if_pos hz, if_pos hz, write_8x1_pixels_spec, write_8x1_pixels_spec]
      by_cases c1 : (do_rows 1 (filter_block_width8_horiz_body srcm src_pitch write_8x2_pixels
          dst_pitch (pack_filters filter) (mm_set1_epi16 (2 ^ bd - 1))) height
          (entrySt (src - 3) dst dstm)).1.dst_ptr ≤ a
          ∧ a < (do_rows 1 (filter_block_width8_horiz_body srcm src_pitch write_8x2_pixels
          dst_pitch (pack_filters filter) (mm_set1_epi16 (2 ^ bd - 1))) height
          (entrySt (src - 3) dst dstm)).1.dst_ptr + ((8 : Nat) : Int)
      · rw [if_pos c1, if_pos c1, horiz8_px1 _ _ _ _ _ _ _ _ (by omega),
          horiz8_2t_px1 _ _ _ _ _ _ _ (by omega), hc]
      · rw [if_neg c1, if_neg c1]
    · rw [if_neg hz, if_neg hz]
  · intro a
    unfold aom_highbd_filter_block1d16_h2_avx2 aom_highbd_filter_block1d16_h8_avx2
      filter_block_width16_2t_horiz filter_block_width16_horiz
    obtain ⟨⟨hm, _, _⟩, _⟩ := do_rows_rel SamePtrs 0
      (filter_block_width16_2t_horiz_body srcm src_pitch write_16x1_pixels dst_pitch
        (pack_2t_filter filter) (mm_set1_epi16 (2 ^ bd - 1)))
      (filter_block_width16_horiz_body srcm src_pitch write_16x1_pixels dst_pitch
        (pack_filters filter) (mm_set1_epi16 (2 ^ bd - 1)))
      (by
        intro s1 s2 hR
        obtain ⟨hm, hsp, hdq⟩ := hR
        refine ⟨?_, ?_, ?_⟩
        · funext b
          show write_16x1_pixels _ _ _ s1.mem s1.dst_ptr dst_pitch b
            = write_16x1_pixels _ _ _ s2.mem s2.dst_ptr dst_pitch b
          rw [write_16x1_pixels_spec, write_16x1_pixels_spec, hm, hsp, hdq]
          by_cases c1 : s2.dst_ptr ≤ b ∧ b < s2.dst_ptr + ((16 : Nat) : Int)
          · rw [if_pos c1, if_pos c1, horiz16_px _ _ _ _ _ _ _ (by omega),
              horiz16_2t_px _ _ _ _ _ _ (by omega), hc]
          · rw [if_neg c1, if_neg c1]
        · show s1.src_ptr + src_pitch = s2.src_ptr + src_pitch
          rw [hsp]
        · show s1.dst_ptr + dst_pitch = s2.dst_ptr + dst_pitch
          rw [hdq])
      height (entrySt (src - 3) dst dstm) (entrySt (src - 3) dst dstm) ⟨rfl, rfl, rfl⟩
    rw [hm]

theorem h2_eq_h8_of_zero_outer_taps_witness :
    aom_highbd_filter_block1d8_h2_avx2 (fun _ => 9) 0 20 (fun _ => 0) 0 8 2 unitKernel 8 3
      = aom_highbd_filter_block1d8_h8_avx2 (fun _ => 9) 0 20 (fun _ => 0) 0 8 2 unitKernel 8 3 :=
  (h2_eq_h8_of_zero_outer_taps (fun _ => 9) (fun _ => 0) 0 0 20 8 2 unitKernel 8 rfl rfl rfl
    rfl rfl rfl).1 3

theorem s16_u16_128 : s16 (u16 128) = 128 := by decide

theorem s16_bounds (x : Nat) : -32768 ≤ s16 x ∧ s16 x < 32768 := by
  unfold s16; split_ifs <;> omega

/-- With the pass-through kernel the 8-tap lane value is the fourth sample of the window,
whatever the other samples are. -/
theorem conv8_unit (srcm : Mem) (p stride : Int) :
    conv8 unitKernel srcm p stride = s16 (srcm (p + 3 * stride)) := by
  have hb := s16_bounds (srcm (p + 3 * stride))
  simp only [conv8, tap, unitKernel]
  norm_num [s16_u16_zero, s16_u16_128]
  rw [wrap32_id _ (by omega) (by omega)]
  omega

/-- With the pass-through kernel the 2-tap lane value is the first of the two samples. -/
theorem conv2_unit (srcm : Mem) (p stride : Int) :
    conv2 unitKernel srcm p stride = s16 (srcm p) := by
  have hb := s16_bounds (srcm p)
  simp only [conv2, tap, unitKernel]
  norm_num [s16_u16_zero, s16_u16_128]
  rw [wrap32_id _ (by omega) (by omega)]
  omega

/-- A sample inside the bit-depth range is stored unchanged. -/
theorem outWord_sample (bd : Nat) (hbd : bd = 8 ∨ bd = 10 ∨ bd = 12) (x : Nat)
    (hx : x < 2 ^ bd) : outWord (u16 (2 ^ bd - 1)) (s16 x) = x := by
  have h4 : x < 32768 := by rcases hbd with h | h | h <;> subst h <;> omega
  have hc := outWord_clamp bd hbd (s16 x) (by rw [s16_small x h4]; omega)
  rw [s16_small x h4] at hc ⊢
  have hx2 : (x : Int) < 2 ^ bd := by exact_mod_cast hx
  have : ((outWord (u16 (2 ^ bd - 1)) (x : Int) : Nat) : Int) = (x : Int) := by
    rw [hc, max_eq_left (by omega), min_eq_left (by omega)]
  exact_mod_cast this

/-- C9: with the pass-through kernel `{0, 0, 0, 128, 0, 0, 0, 0}`, `bd` in {8, 10, 12},
`height >= 2` and source samples in `[0, 2^bd)`, the filters reproduce the source sample:
the horizontal 8-tap and 2-tap filters give `dst[r][c] = src[r][c]`, the vertical 2-tap
filters `dst[r][c] = src_ptr[r][c]` and the vertical 8-tap filters
`dst[r][c] = src_ptr[r + 3][c]`.  The destination rows do not overlap (`dst_pitch` at least
the block width). -/
theorem unit_kernel_identity (srcm dstm : Mem) (src dst src_pitch dst_pitch : Int)
    (height : Nat) (bd : Nat)
    (hh : 2 ≤ height) (hlt : height < 4294967296) (hbd : bd = 8 ∨ bd = 10 ∨ bd = 12)
    (hs : ∀ a, srcm a < 2 ^ bd) (r c : Nat) (hr : r < height) :
    (8 ≤ dst_pitch → c < 8 →
      aom_highbd_filter_block1d8_h8_avx2 srcm src src_pitch dstm dst dst_pitch height unitKernel
          bd (dst + (r : Int) * dst_pitch + (c : Int))
        = srcm (src + (r : Int) * src_pitch + (c : Int))
      ∧ aom_highbd_filter_block1d8_h2_avx2 srcm src src_pitch dstm dst dst_pitch height
          unitKernel bd (dst + (r : Int) * dst_pitch + (c : Int))
        = srcm (src + (r : Int) * src_pitch + (c : Int))
      ∧ aom_highbd_filter_block1d8_v2_avx2 srcm src src_pitch dstm dst dst_pitch height
          unitKernel bd (dst + (r : Int) * dst_pitch + (c : Int))
        = srcm (src + (r : Int) * src_pitch + (c : Int))
      ∧ aom_highbd_filter_block1d8_v8_avx2 srcm src src_pitch dstm dst dst_pitch height
          unitKernel bd (dst + (r : Int) * dst_pitch + (c : Int))
        = srcm (src + ((r : Int) + 3) * src_pitch + (c : Int)))
    ∧ (16 ≤ dst_pitch → c < 16 →
      aom_highbd_filter_block1d16_h8_avx2 srcm src src_pitch dstm dst dst_pitch height
          unitKernel bd (dst + (r : Int) * dst_pitch + (c : Int))
        = srcm (src + (r : Int) * src_pitch + (c : Int))
      ∧ aom_highbd_filter_block1d16_h2_avx2 srcm src src_pitch dstm dst dst_pitch height
          unitKernel bd (dst + (r : Int) * dst_pitch + (c : Int))
        = srcm (src + (r : Int) * src_pitch + (c : Int))
      ∧ aom_highbd_filter_block1d16_v2_avx2 srcm src src_pitch dstm dst dst_pitch height
          unitKernel bd (dst + (r : Int) * dst_pitch + (c : Int))
        = srcm (src + (r : Int) * src_pitch + (c : Int))
      ∧ aom_highbd_filter_block1d16_v8_avx2 srcm src src_pitch dstm dst dst_pitch height
          unitKernel bd (dst + (r : Int) * dst_pitch + (c : Int))
        = srcm (src + ((r : Int) + 3) * src_pitch + (c : Int))) := by
  have h1 : 1 ≤ height := by omega
  have ow := fun a => outWord_sample bd hbd (srcm a) (hs a)
  have eh : src - 3 + (r : Int) * src_pitch + (c : Int) + 3 * 1
      = src + (r : Int) * src_pitch + (c : Int) := by ring
  have ev : src + (r : Int) * src_pitch + (c : Int) + 3 * src_pitch
      = src + ((r : Int) + 3) * src_pitch + (c : Int) := by ring
  constructor
  · intro hdp hc
    refine ⟨?_, ?_, ?_, ?_⟩
    · have hp := (filter_block_width8_horiz_rows2 write_8x1_pixels write_8x2_pixels gPlain
        write_8x1_pixels_spec write_8x2_pixels_spec srcm src src_pitch dstm dst
        dst_pitch height unitKernel bd hdp hh hlt).1 r c hr hc
      simp only [rowAddr] at hp
      unfold aom_highbd_filter_block1d8_h8_avx2
      rw [hp, gPlain, conv8_unit, ow, eh]
    · have hp := (filter_block_width8_2t_horiz_rows write_8x1_pixels write_8x2_pixels gPlain
        write_8x1_pixels_spec write_8x2_pixels_spec srcm src src_pitch dstm dst
        dst_pitch height unitKernel bd hdp hh hlt).1 r c hr hc
      simp only [rowAddr] at hp
      unfold aom_highbd_filter_block1d8_h2_avx2
      rw [hp, gPlain, conv2_unit, ow]
    · have hp := (filter_block_width8_2t_vert_rows write_8x1_2t_pixels_ver gPlain
        write_8x1_2t_pixels_ver_spec srcm src src_pitch dstm dst
        dst_pitch height unitKernel bd hdp h1 hlt).1 r c hr hc
      simp only [rowAddr] at hp
      unfold aom_highbd_filter_block1d8_v2_avx2
      rw [hp, gPlain, conv2_unit, ow]
    · have hp := (filter_block_width8_vert_rows write_8x1_pixels_ver write_8x2_pixels gPlain
        write_8x1_pixels_ver_spec write_8x2_pixels_spec srcm src src_pitch dstm dst
        dst_pitch height unitKernel bd hdp hh hlt).1 r c hr hc
      simp only [rowAddr] at hp
      unfold aom_highbd_filter_block1d8_v8_avx2
      rw [hp, gPlain, conv8_unit, ow, ev]
  · intro hdp hc
    refine ⟨?_, ?_, ?_, ?_⟩
    · have hp := (filter_block_width16_horiz_rows write_16x1_pixels gPlain
        write_16x1_pixels_spec srcm src src_pitch dstm dst
        dst_pitch height unitKernel bd hdp h1 hlt).1 r c hr hc
      simp only [rowAddr] at hp
      unfold aom_highbd_filter_block1d16_h8_avx2
      rw [hp, gPlain, conv8_unit, ow, eh]
    · have hp := (filter_block_width16_2t_horiz_rows write_16x1_pixels gPlain
        write_16x1_pixels_spec srcm src src_pitch dstm dst
        dst_pitch height unitKernel bd hdp h1 hlt).1 r c hr hc
      simp only [rowAddr] at hp
      unfold aom_highbd_filter_block1d16_h2_avx2
      rw [hp, gPlain, conv2_unit, ow]
    · have hp := (filter_block_width16_2t_vert_rows write_16x1_pixels gPlain
        write_16x1_pixels_spec srcm src src_pitch dstm dst
        dst_pitch height unitKernel bd hdp h1 hlt).1 r c hr hc
      simp only [rowAddr] at hp
      unfold aom_highbd_filter_block1d16_v2_avx2
      rw [hp, gPlain, conv2_unit, ow]
    · have hp := (filter_block_width16_vert_rows write_16x1_pixels_ver write_16x2_pixels gPlain
        write_16x1_pixels_ver_spec write_16x2_pixels_spec srcm src src_pitch dstm dst
        dst_pitch height unitKernel bd hdp hh hlt).1 r c hr hc
      simp only [rowAddr] at hp
      unfold aom_highbd_filter_block1d16_v8_avx2
      rw [hp, gPlain, conv8_unit, ow, ev]

theorem unit_kernel_identity_witness :
    aom_highbd_filter_block1d8_h8_avx2 (fun _ => 200) 0 20 (fun _ => 0) 0 8 3 unitKernel 8
        (0 + ((2 : Nat) : Int) * 8 + ((7 : Nat) : Int))
      = (fun _ => 200 : Mem) (0 + ((2 : Nat) : Int) * 20 + ((7 : Nat) : Int)) :=
  ((unit_kernel_identity (fun _ => 200) (fun _ => 0) 0 0 20 8 3 8 (by decide) (by decide)
    (Or.inl rfl) (fun _ => (by decide : (200 : Nat) < 2 ^ 8)) 2 7 (by decide)).1 (by decide)
    (by decide)).1

/-- C10: for `bd = 8`, an 8x8 block and the kernel `{0, 0, 0, 128, 0, 0, 0, 0}` in both
directions, the width-8 8-tap horizontal filter run over the 15 rows starting 3 rows above
the block into a temporary buffer, followed by the width-8 8-tap vertical filter over that
buffer for height 8, yields the 8x8 source samples of the block (all `<= 255`), whatever
the surrounding rows and columns and the previous content of the buffers hold. -/
theorem two_pass_unit_kernel_8x8 (srcm tmpm dstm : Mem) (src tmp dst : Int)
    (src_stride tmp_pitch dst_stride : Int)
    (htp : 8 ≤ tmp_pitch) (hdp : 8 ≤ dst_stride)
    (hblock : ∀ r c : Nat, r < 8 → c < 8 →
      srcm (src + (r : Int) * src_stride + (c : Int)) ≤ 255) :
    ∀ r c : Nat, r < 8 → c < 8 →
      aom_highbd_filter_block1d8_v8_avx2
          (aom_highbd_filter_block1d8_h8_avx2 srcm (src - 3 * src_stride) src_stride tmpm tmp
            tmp_pitch 15 unitKernel 8)
          tmp tmp_pitch dstm dst dst_stride 8 unitKernel 8
          (dst + (r : Int) * dst_stride + (c : Int))
        = srcm (src + (r : Int) * src_stride + (c : Int)) := by
  intro r c hr hc
  have hv := (filter_block_width8_vert_rows write_8x1_pixels_ver write_8x2_pixels gPlain
    write_8x1_pixels_ver_spec write_8x2_pixels_spec
    (aom_highbd_filter_block1d8_h8_avx2 srcm (src - 3 * src_stride) src_stride tmpm tmp
      tmp_pitch 15 unitKernel 8)
    tmp tmp_pitch dstm dst dst_stride 8 unitKernel 8 hdp (by decide) (by decide)).1 r c hr hc
  have hhz := (filter_block_width8_horiz_rows2 write_8x1_pixels write_8x2_pixels gPlain
    write_8x1_pixels_spec write_8x2_pixels_spec srcm (src - 3 * src_stride) src_stride tmpm
    tmp tmp_pitch 15 unitKernel 8 htp (by decide) (by decide)).1 (r + 3) c (by omega) hc
  simp only [rowAddr] at hv hhz
  have e1 : tmp + (r : Int) * tmp_pitch + (c : Int) + 3 * tmp_pitch
      = tmp + ((r + 3 : Nat) : Int) * tmp_pitch + (c : Int) := by push_cast; ring
  have e2 : src - 3 * src_stride - 3 + ((r + 3 : Nat) : Int) * src_stride + (c : Int) + 3 * 1
      = src + (r : Int) * src_stride + (c : Int) := by push_cast; ring
  unfold aom_highbd_filter_block1d8_v8_avx2
  rw [hv, gPlain, conv8_unit, e1]
  unfold aom_highbd_filter_block1d8_h8_avx2
  rw [hhz, gPlain, conv8_unit, e2]
  have hb := hblock r c hr hc
  have o1 := outWord_sample 8 (Or.inl rfl) (srcm (src + (r : Int) * src_stride + (c : Int)))
    (by norm_num; omega)
  rw [o1, o1]

theorem two_pass_unit_kernel_8x8_witness :
    aom_highbd_filter_block1d8_v8_avx2
        (aom_highbd_filter_block1d8_h8_avx2 (fun a => if 0 ≤ a then 255 else 60000)
          (100 - 3 * 40) 40 (fun _ => 5) 0 8 15 unitKernel 8)
        0 8 (fun _ => 0) 0 8 8 unitKernel 8 (0 + ((7 : Nat) : Int) * 8 + ((7 : Nat) : Int))
      = (fun a => if 0 ≤ a then 255 else 60000 : Mem)
          (100 + ((7 : Nat) : Int) * 40 + ((7 : Nat) : Int)) :=
  two_pass_unit_kernel_8x8 (fun a => if 0 ≤ a then 255 else 60000) (fun _ => 5) (fun _ => 0)
    100 0 0 40 8 8 (by decide) (by decide)
    (fun r c _ _ => by
      have h : (0 : Int) ≤ 100 + (r : Int) * 40 + (c : Int) := by positivity
      simp [h])
    7 7 (by decide) (by decide)

/-- C11: for every height of at least 2, columns 0..7 of the width-16 8-tap horizontal filter
equal the width-8 filter on the same source and columns 8..15 equal the width-8 filter on
`src + 8`, row for row (destination rows of either call do not overlap, `height` is a
`uint32_t`). -/
theorem h8_width16_eq_two_width8 (srcm dstm16 dstm8 : Mem)
    (src src_pitch dst16 dst_pitch16 dst8 dst_pitch8 : Int)
    (height : Nat) (filter : Nat → Int) (bd : Nat)
    (hh : 2 ≤ height) (hlt : height < 4294967296)
    (h16 : 16 ≤ dst_pitch16) (h8 : 8 ≤ dst_pitch8) :
    ∀ r c : Nat, r < height → c < 8 →
      aom_highbd_filter_block1d16_h8_avx2 srcm src src_pitch dstm16 dst16 dst_pitch16 height
          filter bd (dst16 + (r : Int) * dst_pitch16 + (c : Int))
        = aom_highbd_filter_block1d8_h8_avx2 srcm src src_pitch dstm8 dst8 dst_pitch8 height
          filter bd (dst8 + (r : Int) * dst_pitch8 + (c : Int))
      ∧ aom_highbd_filter_block1d16_h8_avx2 srcm src src_pitch dstm16 dst16 dst_pitch16 height
          filter bd (dst16 + (r : Int) * dst_pitch16 + 8 + (c : Int))
        = aom_highbd_filter_block1d8_h8_avx2 srcm (src + 8) src_pitch dstm8 dst8 dst_pitch8
          height filter bd (dst8 + (r : Int) * dst_pitch8 + (c : Int)) := by
  intro r c hr hc
  have k16 := (filter_block_width16_horiz_rows write_16x1_pixels gPlain write_16x1_pixels_spec
    srcm src src_pitch dstm16 dst16 dst_pitch16 height filter bd h16 (by omega) hlt).1
  have ka := (filter_block_width8_horiz_rows2 write_8x1_pixels write_8x2_pixels gPlain
    write_8x1_pixels_spec write_8x2_pixels_spec srcm src src_pitch dstm8 dst8 dst_pitch8 height
    filter bd h8 hh hlt).1 r c hr hc
  have kb := (filter_block_width8_horiz_rows2 write_8x1_pixels write_8x2_pixels gPlain
    write_8x1_pixels_spec write_8x2_pixels_spec srcm (src + 8) src_pitch dstm8 dst8 dst_pitch8
    height filter bd h8 hh hlt).1 r c hr hc
  have k0 := k16 r c hr (by omega)
  have k1 := k16 r (c + 8) hr (by omega)
  simp only [rowAddr, gPlain] at k0 k1 ka kb
  unfold aom_highbd_filter_block1d16_h8_avx2 aom_highbd_filter_block1d8_h8_avx2
  constructor
  · rw [k0, ka]
  · have e1 : dst16 + (r : Int) * dst_pitch16 + 8 + (c : Int)
        = dst16 + (r : Int) * dst_pitch16 + ((c + 8 : Nat) : Int) := by push_cast; ring
    have e2 : src - 3 + (r : Int) * src_pitch + ((c + 8 : Nat) : Int)
        = src + 8 - 3 + (r : Int) * src_pitch + (c : Int) := by push_cast; ring
    rw [e1, k1, kb, e2]

theorem h8_width16_eq_two_width8_witness :
    aom_highbd_filter_block1d16_h8_avx2 (fun _ => 9) 0 32 (fun _ => 0) 0 16 3
          unitKernel 8 (0 + ((2 : Nat) : Int) * 16 + ((7 : Nat) : Int))
        = aom_highbd_filter_block1d8_h8_avx2 (fun _ => 9) 0 32 (fun _ => 1) 0 8 3
          unitKernel 8 (0 + ((2 : Nat) : Int) * 8 + ((7 : Nat) : Int))
      ∧ aom_highbd_filter_block1d16_h8_avx2 (fun _ => 9) 0 32 (fun _ => 0) 0 16 3
          unitKernel 8 (0 + ((2 : Nat) : Int) * 16 + 8 + ((7 : Nat) : Int))
        = aom_highbd_filter_block1d8_h8_avx2 (fun _ => 9) (0 + 8) 32 (fun _ => 1) 0 8
          3 unitKernel 8 (0 + ((2 : Nat) : Int) * 8 + ((7 : Nat) : Int)) :=
  h8_width16_eq_two_width8 (fun _ => 9) (fun _ => 0) (fun _ => 1) 0 32 0 16 0 8 3 unitKernel 8
    (by decide) (by decide) (by decide) (by decide) 2 7 (by decide) (by decide)

/-- C12: for every height of at least 2, columns 0..7 of the width-16 8-tap vertical filter
equal the width-8 vertical filter on the same source and columns 8..15 equal the width-8
filter on `src + 8`, although the width-16 path packs to 16 bits in `filter_16x9_pixels`
before its writer clamps. -/
theorem v8_width16_eq_two_width8 (srcm dstm16 dstm8 : Mem)
    (src src_pitch dst16 dst_pitch16 dst8 dst_pitch8 : Int)
    (height : Nat) (filter : Nat → Int) (bd : Nat)
    (hh : 2 ≤ height) (hlt : height < 4294967296)
    (h16 : 16 ≤ dst_pitch16) (h8 : 8 ≤ dst_pitch8) :
    ∀ r c : Nat, r < height → c < 8 →
      aom_highbd_filter_block1d16_v8_avx2 srcm src src_pitch dstm16 dst16 dst_pitch16 height
          filter bd (dst16 + (r : Int) * dst_pitch16 + (c : Int))
        = aom_highbd_filter_block1d8_v8_avx2 srcm src src_pitch dstm8 dst8 dst_pitch8 height
          filter bd (dst8 + (r : Int) * dst_pitch8 + (c : Int))
      ∧ aom_highbd_filter_block1d16_v8_avx2 srcm src src_pitch dstm16 dst16 dst_pitch16 height
          filter bd (dst16 + (r : Int) * dst_pitch16 + 8 + (c : Int))
        = aom_highbd_filter_block1d8_v8_avx2 srcm (src + 8) src_pitch dstm8 dst8 dst_pitch8
          height filter bd (dst8 + (r : Int) * dst_pitch8 + (c : Int)) := by
  intro r c hr hc
  have k16 := (filter_block_width16_vert_rows write_16x1_pixels_ver write_16x2_pixels gPlain
    write_16x1_pixels_ver_spec write_16x2_pixels_spec
    srcm src src_pitch dstm16 dst16 dst_pitch16 height filter bd h16 hh hlt).1
  have ka := (filter_block_width8_vert_rows write_8x1_pixels_ver write_8x2_pixels gPlain
    write_8x1_pixels_ver_spec write_8x2_pixels_spec srcm src src_pitch dstm8 dst8 dst_pitch8
    height filter bd h8 hh hlt).1 r c hr hc
  have kb := (filter_block_width8_vert_rows write_8x1_pixels_ver write_8x2_pixels gPlain
    write_8x1_pixels_ver_spec write_8x2_pixels_spec srcm (src + 8) src_pitch dstm8 dst8
    dst_pitch8 height filter bd h8 hh hlt).1 r c hr hc
  have k0 := k16 r c hr (by omega)
  have k1 := k16 r (c + 8) hr (by omega)
  simp only [rowAddr, gPlain] at k0 k1 ka kb
  unfold aom_highbd_filter_block1d16_v8_avx2 aom_highbd_filter_block1d8_v8_avx2
  constructor
  · rw [k0, ka]
  · have e1 : dst16 + (r : Int) * dst_pitch16 + 8 + (c : Int)
        = dst16 + (r : Int) * dst_pitch16 + ((c + 8 : Nat) : Int) := by push_cast; ring
    have e2 : src + (r : Int) * src_pitch + ((c + 8 : Nat) : Int)
        = src + 8 + (r : Int) * src_pitch + (c : Int) := by push_cast; ring
    rw [e1, k1, kb, e2]

theorem v8_width16_eq_two_width8_witness :
    aom_highbd_filter_block1d16_v8_avx2 (fun _ => 9) 0 32 (fun _ => 0) 0 16 3
          unitKernel 8 (0 + ((2 : Nat) : Int) * 16 + ((7 : Nat) : Int))
        = aom_highbd_filter_block1d8_v8_avx2 (fun _ => 9) 0 32 (fun _ => 1) 0 8 3
          unitKernel 8 (0 + ((2 : Nat) : Int) * 8 + ((7 : Nat) : Int))
      ∧ aom_highbd_filter_block1d16_v8_avx2 (fun _ => 9) 0 32 (fun _ => 0) 0 16 3
          unitKernel 8 (0 + ((2 : Nat) : Int) * 16 + 8 + ((7 : Nat) : Int))
        = aom_highbd_filter_block1d8_v8_avx2 (fun _ => 9) (0 + 8) 32 (fun _ => 1) 0 8
          3 unitKernel 8 (0 + ((2 : Nat) : Int) * 8 + ((7 : Nat) : Int)) :=
  v8_width16_eq_two_width8 (fun _ => 9) (fun _ => 0) (fun _ => 1) 0 32 0 16 0 8 3 unitKernel 8
    (by decide) (by decide) (by decide) (by decide) 2 7 (by decide) (by decide)

/-- C13: row grouping does not change the output.  For the three 8-tap filters that process
two rows per step (width-8 horizontal, width-8 vertical, width-16 vertical) and heights
`2 <= h1 <= h2`, every sample of the first `h1` rows written by a height-`h2` call equals the
sample written by a height-`h1` call on the same source, kernel and bit depth; for an odd
`h1` the last row comes from the single-row tail of the shorter call and from a two-row step
of the taller one. -/
theorem row_grouping_invariant (srcm dstm1 dstm2 : Mem) (src src_pitch dst dst_pitch : Int)
    (h1 h2 : Nat) (filter : Nat → Int) (bd : Nat)
    (hh1 : 2 ≤ h1) (hle : h1 ≤ h2) (hlt : h2 < 4294967296) (r c : Nat) (hr : r < h1) :
    (8 ≤ dst_pitch → c < 8 →
      aom_highbd_filter_block1d8_h8_avx2 srcm src src_pitch dstm2 dst dst_pitch h2 filter bd
          (dst + (r : Int) * dst_pitch + (c : Int))
        = aom_highbd_filter_block1d8_h8_avx2 srcm src src_pitch dstm1 dst dst_pitch h1 filter bd
          (dst + (r : Int) * dst_pitch + (c : Int))
      ∧ aom_highbd_filter_block1d8_v8_avx2 srcm src src_pitch dstm2 dst dst_pitch h2 filter bd
          (dst + (r : Int) * dst_pitch + (c : Int))
        = aom_highbd_filter_block1d8_v8_avx2 srcm src src_pitch dstm1 dst dst_pitch h1 filter bd
          (dst + (r : Int) * dst_pitch + (c : Int)))
    ∧ (16 ≤ dst_pitch → c < 16 →
      aom_highbd_filter_block1d16_v8_avx2 srcm src src_pitch dstm2 dst dst_pitch h2 filter bd
          (dst + (r : Int) * dst_pitch + (c : Int))
        = aom_highbd_filter_block1d16_v8_avx2 srcm src src_pitch dstm1 dst dst_pitch h1 filter
          bd (dst + (r : Int) * dst_pitch + (c : Int))) := by
  refine ⟨fun hdp hc => ⟨?_, ?_⟩, fun hdp hc => ?_⟩
  · have a := (filter_block_width8_horiz_rows2 write_8x1_pixels write_8x2_pixels gPlain
      write_8x1_pixels_spec write_8x2_pixels_spec srcm src src_pitch dstm2 dst dst_pitch h2
      filter bd hdp (by omega) hlt).1 r c (by omega) hc
    have b := (filter_block_width8_horiz_rows2 write_8x1_pixels write_8x2_pixels gPlain
      write_8x1_pixels_spec write_8x2_pixels_spec srcm src src_pitch dstm1 dst dst_pitch h1
      filter bd hdp hh1 (by omega)).1 r c hr hc
    simp only [rowAddr, gPlain] at a b
    unfold aom_highbd_filter_block1d8_h8_avx2
    rw [a, b]
  · have a := (filter_block_width8_vert_rows write_8x1_pixels_ver write_8x2_pixels gPlain
      write_8x1_pixels_ver_spec write_8x2_pixels_spec srcm src src_pitch dstm2 dst dst_pitch h2
      filter bd hdp (by omega) hlt).1 r c (by omega) hc
    have b := (filter_block_width8_vert_rows write_8x1_pixels_ver write_8x2_pixels gPlain
      write_8x1_pixels_ver_spec write_8x2_pixels_spec srcm src src_pitch dstm1 dst dst_pitch h1
      filter bd hdp hh1 (by omega)).1 r c hr hc
    simp only [rowAddr, gPlain] at a b
    unfold aom_highbd_filter_block1d8_v8_avx2
    rw [a, b]
  · have a := (filter_block_width16_vert_rows write_16x1_pixels_ver write_16x2_pixels gPlain
      write_16x1_pixels_ver_spec write_16x2_pixels_spec srcm src src_pitch dstm2 dst dst_pitch
      h2 filter bd hdp (by omega) hlt).1 r c (by omega) hc
    have b := (filter_block_width16_vert_rows write_16x1_pixels_ver write_16x2_pixels gPlain
      write_16x1_pixels_ver_spec write_16x2_pixels_spec srcm src src_pitch dstm1 dst dst_pitch
      h1 filter bd hdp hh1 (by omega)).1 r c hr hc
    simp only [rowAddr, gPlain] at a b
    unfold aom_highbd_filter_block1d16_v8_avx2
    rw [a, b]

theorem row_grouping_invariant_witness :
    (aom_highbd_filter_block1d8_h8_avx2 (fun _ => 9) 0 32 (fun _ => 1) 0 16 6 unitKernel 8
          (0 + ((2 : Nat) : Int) * 16 + ((2 : Nat) : Int))
        = aom_highbd_filter_block1d8_h8_avx2 (fun _ => 9) 0 32 (fun _ => 0) 0 16 3 unitKernel 8
          (0 + ((2 : Nat) : Int) * 16 + ((2 : Nat) : Int))
      ∧ aom_highbd_filter_block1d8_v8_avx2 (fun _ => 9) 0 32 (fun _ => 1) 0 16 6 unitKernel 8
          (0 + ((2 : Nat) : Int) * 16 + ((2 : Nat) : Int))
        = aom_highbd_filter_block1d8_v8_avx2 (fun _ => 9) 0 32 (fun _ => 0) 0 16 3 unitKernel 8
          (0 + ((2 : Nat) : Int) * 16 + ((2 : Nat) : Int)))
    ∧ aom_highbd_filter_block1d16_v8_avx2 (fun _ => 9) 0 32 (fun _ => 1) 0 16 6 unitKernel 8
          (0 + ((2 : Nat) : Int) * 16 + ((2 : Nat) : Int))
        = aom_highbd_filter_block1d16_v8_avx2 (fun _ => 9) 0 32 (fun _ => 0) 0 16 3 unitKernel
          8 (0 + ((2 : Nat) : Int) * 16 + ((2 : Nat) : Int)) := by
  have h := row_grouping_invariant (fun _ => 9) (fun _ => 0) (fun _ => 1) 0 32 0 16 3 6
    unitKernel 8 (by decide) (by decide) (by decide) 2 2 (by decide)
  have ha := h.1 (by decide) (by decide)
  have hb := h.2 (by decide) (by decide)
  exact ⟨ha, hb⟩

/-- Rows written by the row loop and tail of `filter_block_width8_horiz`, started in any
state `st0`. -/
theorem horiz8_loop_from (W1 W2 : WritePixels) (g : Nat → Nat → Nat)
    (hW1 : IsWriter1 W1 8 px8x1 g) (hW2 : IsWriter2 W2 8 px8x2 g)
    (srcm : Mem) (sp dp : Int) (st0 : LoopSt) (h : Nat) (f : Nat → Int) (bd : Nat)
    (hdp : 8 ≤ dp) (h2 : 2 ≤ h) (hlt : h < 4294967296) :
    (∀ r c : Nat, r < h → c < 8 →
      (if 0 < (do_rows 1 (filter_block_width8_horiz_body srcm sp W2 dp (pack_filters f)
            (mm_set1_epi16 (2 ^ bd - 1))) h st0).2
        then W1 (filter_8x1_pixels (pack_8x1_pixels srcm
            (do_rows 1 (filter_block_width8_horiz_body srcm sp W2 dp (pack_filters f)
              (mm_set1_epi16 (2 ^ bd - 1))) h st0).1.src_ptr sp
            (do_rows 1 (filter_block_width8_horiz_body srcm sp W2 dp (pack_filters f)
              (mm_set1_epi16 (2 ^ bd - 1))) h st0).1.signal) (pack_filters f))
            (do_rows 1 (filter_block_width8_horiz_body srcm sp W2 dp (pack_filters f)
              (mm_set1_epi16 (2 ^ bd - 1))) h st0).1.res1
            (mm_set1_epi16 (2 ^ bd - 1))
            (do_rows 1 (filter_block_width8_horiz_body srcm sp W2 dp (pack_filters f)
              (mm_set1_epi16 (2 ^ bd - 1))) h st0).1.mem
            (do_rows 1 (filter_block_width8_horiz_body srcm sp W2 dp (pack_filters f)
              (mm_set1_epi16 (2 ^ bd - 1))) h st0).1.dst_ptr dp
        else (do_rows 1 (filter_block_width8_horiz_body srcm sp W2 dp (pack_filters f)
            (mm_set1_epi16 (2 ^ bd - 1))) h st0).1.mem) (rowAddr st0.dst_ptr dp r + (c : Int))
        = g (outWord (u16 (2 ^ bd - 1)) (conv8 f srcm (rowAddr st0.src_ptr sp r + (c : Int)) 1))
            (st0.mem (rowAddr st0.dst_ptr dp r + (c : Int))))
    ∧ (∀ a, (∀ r c : Nat, r < h → c < 8 → a ≠ rowAddr st0.dst_ptr dp r + (c : Int)) →
      (if 0 < (do_rows 1 (filter_block_width8_horiz_body srcm sp W2 dp (pack_filters f)
            (mm_set1_epi16 (2 ^ bd - 1))) h st0).2
        then W1 (filter_8x1_pixels (pack_8x1_pixels srcm
            (do_rows 1 (filter_block_width8_horiz_body srcm sp W2 dp (pack_filters f)
              (mm_set1_epi16 (2 ^ bd - 1))) h st0).1.src_ptr sp
            (do_rows 1 (filter_block_width8_horiz_body srcm sp W2 dp (pack_filters f)
              (mm_set1_epi16 (2 ^ bd - 1))) h st0).1.signal) (pack_filters f))
            (do_rows 1 (filter_block_width8_horiz_body srcm sp W2 dp (pack_filters f)
              (mm_set1_epi16 (2 ^ bd - 1))) h st0).1.res1
            (mm_set1_epi16 (2 ^ bd - 1))
            (do_rows 1 (filter_block_width8_horiz_body srcm sp W2 dp (pack_filters f)
              (mm_set1_epi16 (2 ^ bd - 1))) h st0).1.mem
            (do_rows 1 (filter_block_width8_horiz_body srcm sp W2 dp (pack_filters f)
              (mm_set1_epi16 (2 ^ bd - 1))) h st0).1.dst_ptr dp
        else (do_rows 1 (filter_block_width8_horiz_body srcm sp W2 dp (pack_filters f)
            (mm_set1_epi16 (2 ^ bd - 1))) h st0).1.mem) a = st0.mem a) := by
  exact rows2_final
    (filter_block_width8_horiz_body srcm sp W2 dp (pack_filters f) (mm_set1_epi16 (2 ^ bd - 1)))
    (fun st => W1 (filter_8x1_pixels (pack_8x1_pixels srcm st.src_ptr sp st.signal)
      (pack_filters f)) st.res1 (mm_set1_epi16 (2 ^ bd - 1)) st.mem st.dst_ptr dp)
    8 dp (by omega) g
    (fun r c => outWord (u16 (2 ^ bd - 1)) (conv8 f srcm (rowAddr st0.src_ptr sp r + (c : Int)) 1))
    (fun k st => st.src_ptr = rowAddr st0.src_ptr sp (2 * k))
    st0 (by simp [rowAddr])
    (by
      intro k st hI hq
      refine ⟨?_, rfl, ?_⟩
      · show st.src_ptr + 2 * sp = _
        rw [hI]; simp [rowAddr]; ring
      · intro a
        show W2 _ _ _ st.mem st.dst_ptr dp a = _
        rw [hW2]
        by_cases c1 : st.dst_ptr + dp ≤ a ∧ a < st.dst_ptr + dp + ((8 : Nat) : Int)
        · rw [if_pos c1, if_pos c1, horiz8_px2 _ _ _ _ _ _ _ _ (by omega) (by omega), w16_set1,
            hI]
          simp only [rowAddr_succ, Nat.cast_one, one_mul]
        · rw [if_neg c1, if_neg c1]
          by_cases c2 : st.dst_ptr ≤ a ∧ a < st.dst_ptr + ((8 : Nat) : Int)
          · rw [if_pos c2, if_pos c2, horiz8_px2 _ _ _ _ _ _ _ _ (by omega) (by omega),
              w16_set1, hI]
            simp only [Nat.cast_zero, zero_mul, add_zero]
          · rw [if_neg c2, if_neg c2])
    (by
      intro k st hI hq a
      show W1 _ _ _ st.mem st.dst_ptr dp a = _
      rw [hW1]
      by_cases c1 : st.dst_ptr ≤ a ∧ a < st.dst_ptr + ((8 : Nat) : Int)
      · rw [if_pos c1, if_pos c1, horiz8_px1 _ _ _ _ _ _ _ _ (by omega), w16_set1, hI]
      · rw [if_neg c1, if_neg c1])
    h h2 hlt

theorem sub32_one_two : sub32 1 2 = 4294967295 := by
  unfold sub32 u32; norm_num; rfl

/-- With `height = 1` the two-row step of `filter_block_width8_horiz` runs once, the
`uint32_t` height wraps to `4294967295` and the loop goes on: row 1 is written. -/
theorem horiz8_height_one_row_one (W1 W2 : WritePixels) (g : Nat → Nat → Nat)
    (hW1 : IsWriter1 W1 8 px8x1 g) (hW2 : IsWriter2 W2 8 px8x2 g)
    (srcm : Mem) (p sp : Int) (dstm : Mem) (q dp : Int) (f : Nat → Int) (bd : Nat)
    (hdp : 8 ≤ dp) (c : Nat) (hc : c < 8) :
    filter_block_width8_horiz srcm p sp W1 W2 dstm q dp 1 f bd (q + dp + (c : Int))
      = g (outWord (u16 (2 ^ bd - 1)) (conv8 f srcm (p - 3 + sp + (c : Int)) 1))
          (dstm (q + dp + (c : Int))) := by
  have hfr := (horiz8_loop_from W1 W2 g hW1 hW2 srcm sp dp
    (filter_block_width8_horiz_body srcm sp W2 dp (pack_filters f) (mm_set1_epi16 (2 ^ bd - 1))
      (entrySt (p - 3) q dstm)) 4294967295 f bd hdp (by decide) (by decide)).2
    (q + dp + (c : Int)) (by
      intro r c' _ hc'
      have e : (filter_block_width8_horiz_body srcm sp W2 dp (pack_filters f)
          (mm_set1_epi16 (2 ^ bd - 1)) (entrySt (p - 3) q dstm)).dst_ptr = q + 2 * dp := rfl
      rw [e]
      have h0 : 0 ≤ (r : Int) * dp := by positivity
      simp only [rowAddr]
      omega)
  have eu : do_rows 1 (filter_block_width8_horiz_body srcm sp W2 dp (pack_filters f)
        (mm_set1_epi16 (2 ^ bd - 1))) 1 (entrySt (p - 3) q dstm)
      = do_rows 1 (filter_block_width8_horiz_body srcm sp W2 dp (pack_filters f)
        (mm_set1_epi16 (2 ^ bd - 1))) 4294967295
        (filter_block_width8_horiz_body srcm sp W2 dp (pack_filters f)
          (mm_set1_epi16 (2 ^ bd - 1)) (entrySt (p - 3) q dstm)) := by
    rw [do_rows_unfold 1 _ 1, sub32_one_two, if_pos (by decide)]
  unfold filter_block_width8_horiz
  simp only [eu]
  rw [hfr]
  show W2 _ _ _ dstm q dp (q + dp + (c : Int)) = _
  rw [hW2, if_pos (by omega), horiz8_px2 _ _ _ _ _ _ _ _ (by omega) (by omega), w16_set1]
  have e1 : (q + dp + (c : Int) - (q + dp)).toNat = c := by
    have : q + dp + (c : Int) - (q + dp) = (c : Int) := by ring
    rw [this]; exact Int.toNat_natCast c
  rw [e1]
  simp only [entrySt, Nat.cast_one, one_mul]

/-- C14 (counterexample): with `height = 1`, pass-through kernel, source samples all `9`,
destination all `0` and pitch `8`, `filter_block_width8_horiz` also changes the first sample
of row 1 (address `dst + dst_pitch = 8`) from `0` to `9`: the two-row step runs before the
height is tested, and `height -= 2` wraps. -/
theorem horiz8_height_one_writes_row_one :
    filter_block_width8_horiz (fun _ => 9) 0 16 write_8x1_pixels write_8x2_pixels (fun _ => 0)
        0 8 1 unitKernel 8 8 = 9
    ∧ filter_block_width8_horiz (fun _ => 9) 0 16 write_8x1_pixels write_8x2_pixels (fun _ => 0)
        0 8 1 unitKernel 8 8 ≠ (fun _ => 0 : Mem) 8 := by
  have e := horiz8_height_one_row_one write_8x1_pixels write_8x2_pixels gPlain
    write_8x1_pixels_spec write_8x2_pixels_spec (fun _ => 9) 0 16 (fun _ => 0) 0 8 unitKernel 8
    (by decide) 0 (by decide)
  rw [gPlain, conv8_unit, outWord_sample 8 (Or.inl rfl) 9 (by decide)] at e
  have e8 : (0 : Int) + 8 + ((0 : Nat) : Int) = 8 := by decide
  rw [e8] at e
  exact ⟨e, by rw [e]; decide⟩

/-- C14 (amended): for `2 <= height < 2^32` and `dst_pitch >= 8`, `filter_block_width8_horiz`
with the plain writers ends its row loop after `height / 2` two-row steps with `height % 2`
rows left for the tail, leaves every destination sample outside rows `0 .. height - 1`
(8 samples each) unchanged, and overwrites every sample of those rows (the stored value
does not depend on the previous destination content). -/
theorem horiz8_writes_exactly_rows (srcm dstm : Mem) (src dst src_pitch dst_pitch : Int)
    (height : Nat) (filter : Nat → Int) (bd : Nat)
    (hh : 2 ≤ height) (hlt : height < 4294967296) (hdp : 8 ≤ dst_pitch) :
    do_rows 1 (filter_block_width8_horiz_body srcm src_pitch write_8x2_pixels dst_pitch
        (pack_filters filter) (mm_set1_epi16 (2 ^ bd - 1))) height (entrySt (src - 3) dst dstm)
      = ((filter_block_width8_horiz_body srcm src_pitch write_8x2_pixels dst_pitch
          (pack_filters filter) (mm_set1_epi16 (2 ^ bd - 1)))^[height / 2]
            (entrySt (src - 3) dst dstm), height % 2)
    ∧ (∀ a, (∀ r c : Nat, r < height → c < 8 → a ≠ dst + (r : Int) * dst_pitch + (c : Int)) →
      filter_block_width8_horiz srcm src src_pitch write_8x1_pixels write_8x2_pixels dstm dst
        dst_pitch height filter bd a = dstm a)
    ∧ (∀ (dstm2 : Mem) (r c : Nat), r < height → c < 8 →
      filter_block_width8_horiz srcm src src_pitch write_8x1_pixels write_8x2_pixels dstm dst
          dst_pitch height filter bd (dst + (r : Int) * dst_pitch + (c : Int))
        = filter_block_width8_horiz srcm src src_pitch write_8x1_pixels write_8x2_pixels dstm2
          dst dst_pitch height filter bd (dst + (r : Int) * dst_pitch + (c : Int))) := by
  have k := filter_block_width8_horiz_rows2 write_8x1_pixels write_8x2_pixels gPlain
    write_8x1_pixels_spec write_8x2_pixels_spec srcm src src_pitch dstm dst dst_pitch height
    filter bd hdp hh hlt
  simp only [rowAddr] at k
  refine ⟨do_rows_two _ height _ hh hlt, k.2, ?_⟩
  intro dstm2 r c hr hc
  have k2 := (filter_block_width8_horiz_rows2 write_8x1_pixels write_8x2_pixels gPlain
    write_8x1_pixels_spec write_8x2_pixels_spec srcm src src_pitch dstm2 dst dst_pitch height
    filter bd hdp hh hlt).1 r c hr hc
  simp only [rowAddr] at k2
  rw [k.1 r c hr hc, k2, gPlain, gPlain]

theorem horiz8_writes_exactly_rows_witness :
    do_rows 1 (filter_block_width8_horiz_body (fun _ => 9) 16 write_8x2_pixels 8
        (pack_filters unitKernel) (mm_set1_epi16 (2 ^ 8 - 1))) 3 (entrySt (0 - 3) 0 (fun _ => 0))
      = ((filter_block_width8_horiz_body (fun _ => 9) 16 write_8x2_pixels 8
          (pack_filters unitKernel) (mm_set1_epi16 (2 ^ 8 - 1)))^[3 / 2]
            (entrySt (0 - 3) 0 (fun _ => 0)), 3 % 2)
    ∧ filter_block_width8_horiz (fun _ => 9) 0 16 write_8x1_pixels write_8x2_pixels (fun _ => 0)
        0 8 3 unitKernel 8 24 = (fun _ => 0 : Mem) 24
    ∧ filter_block_width8_horiz (fun _ => 9) 0 16 write_8x1_pixels write_8x2_pixels (fun _ => 0)
          0 8 3 unitKernel 8 (0 + ((2 : Nat) : Int) * 8 + ((7 : Nat) : Int))
        = filter_block_width8_horiz (fun _ => 9) 0 16 write_8x1_pixels write_8x2_pixels
          (fun _ => 5) 0 8 3 unitKernel 8 (0 + ((2 : Nat) : Int) * 8 + ((7 : Nat) : Int)) := by
  have h := horiz8_writes_exactly_rows (fun _ => 9) (fun _ => 0) 0 0 16 8 3 unitKernel 8
    (by decide) (by decide) (by decide)
  have h1 := h.1
  have h2 := h.2.1 24 (fun r c hr hc => by omega)
  have h3 := h.2.2 (fun _ => 5) 2 7 (by decide) (by decide)
  exact ⟨h1, h2, h3⟩

/-- Value stored by the width-8 horizontal pass with the plain writers: the clamped rounded
sum (rounded sums below `2^15`). -/
theorem horiz8_plain_value (srcm dstm : Mem) (src dst src_pitch dst_pitch : Int)
    (height : Nat) (filter : Nat → Int) (bd : Nat)
    (hh : 2 ≤ height) (hlt : height < 4294967296) (hdp : 8 ≤ dst_pitch)
    (hbd : bd = 8 ∨ bd = 10 ∨ bd = 12)
    (hf : ∀ k, k < 8 → -32768 ≤ filter k ∧ filter k < 32768)
    (hs : ∀ a, srcm a < 2 ^ bd) (r c : Nat) (hr : r < height) (hc : c < 8)
    (hsum : (∑ k in range 8, filter k
        * (srcm (src + (r : Int) * src_pitch + (c : Int) - 3 + (k : Int)) : Int) + 64) / 128
        < 32768) :
    ((filter_block_width8_horiz srcm src src_pitch write_8x1_pixels write_8x2_pixels dstm dst
        dst_pitch height filter bd (dst + (r : Int) * dst_pitch + (c : Int)) : Nat) : Int)
      = min (max ((∑ k in range 8, filter k
          * (srcm (src + (r : Int) * src_pitch + (c : Int) - 3 + (k : Int)) : Int) + 64) / 128)
          0) (2 ^ bd - 1) := by
  have key := (filter_block_width8_horiz_rows2 write_8x1_pixels write_8x2_pixels gPlain
    write_8x1_pixels_spec write_8x2_pixels_spec srcm src src_pitch dstm dst dst_pitch height
    filter bd hdp hh hlt).1 r c hr hc
  have e : conv8 filter srcm (rowAddr (src - 3) src_pitch r + (c : Int)) 1
      = (∑ k in range 8, filter k
        * (srcm (src + (r : Int) * src_pitch + (c : Int) - 3 + (k : Int)) : Int) + 64) / 128 := by
    rw [conv8_exact filter srcm _ 1 hf (samples_lt_4096 srcm bd hbd hs)]
    congr 2
    apply sum_congr rfl
    intro k _
    congr 3
    simp only [rowAddr]; ring
  simp only [rowAddr] at key e
  rw [key, gPlain, outWord_clamp bd hbd _ (by rw [e]; exact hsum), e]

/-- Value stored by the width-16 horizontal pass with the plain writer: the clamped rounded
sum (rounded sums below `2^15`). -/
theorem horiz16_plain_value (srcm dstm : Mem) (src dst src_pitch dst_pitch : Int)
    (height : Nat) (filter : Nat → Int) (bd : Nat)
    (hh : 1 ≤ height) (hlt : height < 4294967296) (hdp : 16 ≤ dst_pitch)
    (hbd : bd = 8 ∨ bd = 10 ∨ bd = 12)
    (hf : ∀ k, k < 8 → -32768 ≤ filter k ∧ filter k < 32768)
    (hs : ∀ a, srcm a < 2 ^ bd) (r c : Nat) (hr : r < height) (hc : c < 16)
    (hsum : (∑ k in range 8, filter k
        * (srcm (src + (r : Int) * src_pitch + (c : Int) - 3 + (k : Int)) : Int) + 64) / 128
        < 32768) :
    ((filter_block_width16_horiz srcm src src_pitch write_16x1_pixels dstm dst
        dst_pitch height filter bd (dst + (r : Int) * dst_pitch + (c : Int)) : Nat) : Int)
      = min (max ((∑ k in range 8, filter k
          * (srcm (src + (r : Int) * src_pitch + (c : Int) - 3 + (k : Int)) : Int) + 64) / 128)
          0) (2 ^ bd - 1) := by
  have key := (filter_block_width16_horiz_rows write_16x1_pixels gPlain
    write_16x1_pixels_spec srcm src src_pitch dstm dst dst_pitch height
    filter bd hdp hh hlt).1 r c hr hc
  have e : conv8 filter srcm (rowAddr (src - 3) src_pitch r + (c : Int)) 1
      = (∑ k in range 8, filter k
        * (srcm (src + (r : Int) * src_pitch + (c : Int) - 3 + (k : Int)) : Int) + 64) / 128 := by
    rw [conv8_exact filter srcm _ 1 hf (samples_lt_4096 srcm bd hbd hs)]
    congr 2
    apply sum_congr rfl
    intro k _
    congr 3
    simp only [rowAddr]; ring
  simp only [rowAddr] at key e
  rw [key, gPlain, outWord_clamp bd hbd _ (by rw [e]; exact hsum), e]

/-- C15 (counterexample): for `bd = 8`, the kernel `{0, 0, 0, 256, 0, 0, 0, 0}` and source
samples all `200`, the rounded filter sum is `400 > 2^bd - 1`, and the horizontal pass
`filter_block_width8_horiz` (plain writers, height 2) stores `255` at the first sample, not
`400`: the horizontal pass clamps. -/
theorem horizontal_pass_clamps_to_255 :
    filter_block_width8_horiz (fun _ => 200) 0 16 write_8x1_pixels write_8x2_pixels
        (fun _ => 0) 0 8 2 (fun k => if k = 3 then 256 else 0) 8 0 = 255
    ∧ (∑ k in range 8, (fun k => if k = 3 then (256 : Int) else 0) k
        * (((fun _ => 200 : Mem) (0 - 3 + (k : Int)) : Nat) : Int) + 64) / 128 = 400 := by
  have e := horiz8_plain_value (fun _ => 200) (fun _ => 0) 0 0 16 8 2
    (fun k => if k = 3 then 256 else 0) 8 (by decide) (by decide) (by decide) (Or.inl rfl)
    (fun k _ => by dsimp only; split_ifs <;> decide)
    (fun _ => (by decide : (200 : Nat) < 2 ^ 8)) 0 0 (by decide) (by decide)
    (by simp [sum_range_succ])
  have s : (∑ k in range 8, (fun k => if k = 3 then (256 : Int) else 0) k
        * (((fun _ => 200 : Mem) (0 - 3 + (k : Int)) : Nat) : Int) + 64) / 128 = 400 := by
    simp [sum_range_succ]
  refine ⟨?_, s⟩
  have e2 : ((filter_block_width8_horiz (fun _ => 200) 0 16 write_8x1_pixels write_8x2_pixels
        (fun _ => 0) 0 8 2 (fun k => if k = 3 then 256 else 0) 8 0 : Nat) : Int) = 255 := by
    have a0 : (0 : Int) + ((0 : Nat) : Int) * 8 + ((0 : Nat) : Int) = 0 := by decide
    rw [a0] at e
    rw [e]
    simp [sum_range_succ]
  exact_mod_cast e2

/-- C15 (amended): the horizontal pass clamps.  For `bd` in {8, 10, 12}, taps of 16 bits,
samples below `2^bd` and a rounded sum below `2^15`, `filter_block_width8_horiz` and
`filter_block_width16_horiz` with the plain writers store
`min(max((sum_k f[k] * src[r][c - 3 + k] + 64) >> 7, 0), 2^bd - 1)`: a rounded sum above
`2^bd - 1` is stored as `2^bd - 1` and a negative one as `0`, so a later vertical pass
reads clamped samples. -/
theorem horizontal_pass_stores_clamped (srcm dstm : Mem) (src dst src_pitch dst_pitch : Int)
    (height : Nat) (filter : Nat → Int) (bd : Nat)
    (hh : 2 ≤ height) (hlt : height < 4294967296)
    (hbd : bd = 8 ∨ bd = 10 ∨ bd = 12)
    (hf : ∀ k, k < 8 → -32768 ≤ filter k ∧ filter k < 32768)
    (hs : ∀ a, srcm a < 2 ^ bd) (r c : Nat) (hr : r < height)
    (hsum : (∑ k in range 8, filter k
        * (srcm (src + (r : Int) * src_pitch + (c : Int) - 3 + (k : Int)) : Int) + 64) / 128
        < 32768) :
    (8 ≤ dst_pitch → c < 8 →
      ((filter_block_width8_horiz srcm src src_pitch write_8x1_pixels write_8x2_pixels dstm dst
          dst_pitch height filter bd (dst + (r : Int) * dst_pitch + (c : Int)) : Nat) : Int)
        = min (max ((∑ k in range 8, filter k
            * (srcm (src + (r : Int) * src_pitch + (c : Int) - 3 + (k : Int)) : Int) + 64) / 128)
            0) (2 ^ bd - 1))
    ∧ (16 ≤ dst_pitch → c < 16 →
      ((filter_block_width16_horiz srcm src src_pitch write_16x1_pixels dstm dst
          dst_pitch height filter bd (dst + (r : Int) * dst_pitch + (c : Int)) : Nat) : Int)
        = min (max ((∑ k in range 8, filter k
            * (srcm (src + (r : Int) * src_pitch + (c : Int) - 3 + (k : Int)) : Int) + 64) / 128)
            0) (2 ^ bd - 1)) :=
  ⟨fun hdp hc => horiz8_plain_value srcm dstm src dst src_pitch dst_pitch height filter bd hh
      hlt hdp hbd hf hs r c hr hc hsum,
   fun hdp hc => horiz16_plain_value srcm dstm src dst src_pitch dst_pitch height filter bd
      (by omega) hlt hdp hbd hf hs r c hr hc hsum⟩

theorem horizontal_pass_stores_clamped_witness :
    ((filter_block_width8_horiz (fun _ => 200) 0 32 write_8x1_pixels write_8x2_pixels
        (fun _ => 0) 0 16 3 (fun k => if k = 3 then 256 else 0) 8
        (0 + ((2 : Nat) : Int) * 16 + ((7 : Nat) : Int)) : Nat) : Int)
      = min (max ((∑ k in range 8, (fun k => if k = 3 then (256 : Int) else 0) k
          * (((fun _ => 200 : Mem)
              (0 + ((2 : Nat) : Int) * 32 + ((7 : Nat) : Int) - 3 + (k : Int)) : Nat) : Int)
          + 64) / 128) 0) (2 ^ 8 - 1)
    ∧ ((filter_block_width16_horiz (fun _ => 200) 0 32 write_16x1_pixels
        (fun _ => 0) 0 16 3 (fun k => if k = 3 then 256 else 0) 8
        (0 + ((2 : Nat) : Int) * 16 + ((7 : Nat) : Int)) : Nat) : Int)
      = min (max ((∑ k in range 8, (fun k => if k = 3 then (256 : Int) else 0) k
          * (((fun _ => 200 : Mem)
              (0 + ((2 : Nat) : Int) * 32 + ((7 : Nat) : Int) - 3 + (k : Int)) : Nat) : Int)
          + 64) / 128) 0) (2 ^ 8 - 1) := by
  have h := horizontal_pass_stores_clamped (fun _ => 200) (fun _ => 0) 0 0 32 16 3
    (fun k => if k = 3 then 256 else 0) 8 (by decide) (by decide) (Or.inl rfl)
    (fun k _ => by dsimp only; split_ifs <;> decide)
    (fun _ => (by decide : (200 : Nat) < 2 ^ 8)) 2 7 (by decide)
    (by simp [sum_range_succ])
  have h1 := h.1 (by decide) (by decide)
  have h2 := h.2 (by decide) (by decide)
  exact ⟨h1, h2⟩

/-- C16: for taps `f[0..7]` of 16 bits and samples `s[0..7]` in `[0, 4095]` held by the lane
`k` of the packed registers, no 32-bit operation of `filter_8x1_pixels` wraps: the four
multiply-adds, the three additions and the addition of the bias 64 have their exact integer
values, and the result is `floor((sum_j f[j] * s[j] + 64) / 128)`. -/
theorem filter_8x1_pixels_no_wrap (sig fil : RegArr) (f : Nat → Int) (s : Nat → Nat) (k : Nat)
    (hf : ∀ j, j < 8 → -32768 ≤ f j ∧ f j < 32768)
    (hs : ∀ j, j < 8 → s j < 4096)
    (hfil : ∀ i, i < 4 → w16 (fil i) (2 * k) = u16 (f (2 * i))
      ∧ w16 (fil i) (2 * k + 1) = u16 (f (2 * i + 1)))
    (hsig : ∀ i, i < 4 → w16 (sig i) (2 * k) = s (2 * i)
      ∧ w16 (sig i) (2 * k + 1) = s (2 * i + 1)) :
    (∀ i, i < 4 → s32 (d32 (mm_madd_epi16 (fil i) (sig i)) k)
        = f (2 * i) * (s (2 * i) : Int) + f (2 * i + 1) * (s (2 * i + 1) : Int))
    ∧ s32 (d32 (mm_add_epi32 (mm_madd_epi16 (fil 0) (sig 0)) (mm_madd_epi16 (fil 3) (sig 3))) k)
        = (f 0 * (s 0 : Int) + f 1 * (s 1 : Int)) + (f 6 * (s 6 : Int) + f 7 * (s 7 : Int))
    ∧ s32 (d32 (mm_add_epi32
          (mm_add_epi32 (mm_madd_epi16 (fil 0) (sig 0)) (mm_madd_epi16 (fil 3) (sig 3)))
          (mm_min_epi32 (mm_madd_epi16 (fil 1) (sig 1)) (mm_madd_epi16 (fil 2) (sig 2)))) k)
        = (f 0 * (s 0 : Int) + f 1 * (s 1 : Int)) + (f 6 * (s 6 : Int) + f 7 * (s 7 : Int))
          + min (f 2 * (s 2 : Int) + f 3 * (s 3 : Int)) (f 4 * (s 4 : Int) + f 5 * (s 5 : Int))
    ∧ s32 (d32 (mm_add_epi32 (mm_add_epi32
          (mm_add_epi32 (mm_madd_epi16 (fil 0) (sig 0)) (mm_madd_epi16 (fil 3) (sig 3)))
          (mm_min_epi32 (mm_madd_epi16 (fil 1) (sig 1)) (mm_madd_epi16 (fil 2) (sig 2))))
          (mm_max_epi32 (mm_madd_epi16 (fil 1) (sig 1)) (mm_madd_epi16 (fil 2) (sig 2)))) k)
        = (f 0 * (s 0 : Int) + f 1 * (s 1 : Int)) + (f 6 * (s 6 : Int) + f 7 * (s 7 : Int))
          + min (f 2 * (s 2 : Int) + f 3 * (s 3 : Int)) (f 4 * (s 4 : Int) + f 5 * (s 5 : Int))
          + max (f 2 * (s 2 : Int) + f 3 * (s 3 : Int)) (f 4 * (s 4 : Int) + f 5 * (s 5 : Int))
    ∧ s32 (d32 (mm_add_epi32 (mm_add_epi32 (mm_add_epi32
          (mm_add_epi32 (mm_madd_epi16 (fil 0) (sig 0)) (mm_madd_epi16 (fil 3) (sig 3)))
          (mm_min_epi32 (mm_madd_epi16 (fil 1) (sig 1)) (mm_madd_epi16 (fil 2) (sig 2))))
          (mm_max_epi32 (mm_madd_epi16 (fil 1) (sig 1)) (mm_madd_epi16 (fil 2) (sig 2))))
          (mm_set1_epi32 (2 ^ (CONV8_ROUNDING_BITS - 1)))) k)
        = (f 0 * (s 0 : Int) + f 1 * (s 1 : Int)) + (f 6 * (s 6 : Int) + f 7 * (s 7 : Int))
          + min (f 2 * (s 2 : Int) + f 3 * (s 3 : Int)) (f 4 * (s 4 : Int) + f 5 * (s 5 : Int))
          + max (f 2 * (s 2 : Int) + f 3 * (s 3 : Int)) (f 4 * (s 4 : Int) + f 5 * (s 5 : Int))
          + 64
    ∧ s32 (d32 (filter_8x1_pixels sig fil) k)
        = (∑ j in range 8, f j * (s j : Int) + 64) / 128 := by
  have hp : ∀ i, i < 4 → pairProd (fil i) (sig i) k
      = f (2 * i) * (s (2 * i) : Int) + f (2 * i + 1) * (s (2 * i + 1) : Int) := by
    intro i hi
    unfold pairProd
    rw [(hfil i hi).1, (hfil i hi).2, (hsig i hi).1, (hsig i hi).2,
      s16_u16 _ (hf (2 * i) (by omega)).1 (hf (2 * i) (by omega)).2,
      s16_u16 _ (hf (2 * i + 1) (by omega)).1 (hf (2 * i + 1) (by omega)).2,
      s16_small _ (by have := hs (2 * i) (by omega); omega),
      s16_small _ (by have := hs (2 * i + 1) (by omega); omega)]
  have hb : ∀ j, j < 8 → -134217728 ≤ f j * (s j : Int) ∧ f j * (s j : Int) ≤ 134217728 :=
    fun j hj => mul_tap_bound _ _ (hf j hj).1 (hf j hj).2 (by omega)
      (by have := hs j hj; omega)
  have p0 := hp 0 (by omega)
  have p1 := hp 1 (by omega)
  have p2 := hp 2 (by omega)
  have p3 := hp 3 (by omega)
  norm_num at p0 p1 p2 p3
  have b0 := hb 0 (by omega)
  have b1 := hb 1 (by omega)
  have b2 := hb 2 (by omega)
  have b3 := hb 3 (by omega)
  have b4 := hb 4 (by omega)
  have b5 := hb 5 (by omega)
  have b6 := hb 6 (by omega)
  have b7 := hb 7 (by omega)
  have m0 : s32 (d32 (mm_madd_epi16 (fil 0) (sig 0)) k) = f 0 * (s 0 : Int) + f 1 * (s 1 : Int) := by
    rw [sd_madd, p0, wrap32_id _ (by omega) (by omega)]
  have m1 : s32 (d32 (mm_madd_epi16 (fil 1) (sig 1)) k) = f 2 * (s 2 : Int) + f 3 * (s 3 : Int) := by
    rw [sd_madd, p1, wrap32_id _ (by omega) (by omega)]
  have m2 : s32 (d32 (mm_madd_epi16 (fil 2) (sig 2)) k) = f 4 * (s 4 : Int) + f 5 * (s 5 : Int) := by
    rw [sd_madd, p2, wrap32_id _ (by omega) (by omega)]
  have m3 : s32 (d32 (mm_madd_epi16 (fil 3) (sig 3)) k) = f 6 * (s 6 : Int) + f 7 * (s 7 : Int) := by
    rw [sd_madd, p3, wrap32_id _ (by omega) (by omega)]
  have a1 : s32 (d32 (mm_add_epi32 (mm_madd_epi16 (fil 0) (sig 0))
      (mm_madd_epi16 (fil 3) (sig 3))) k) = (f 0 * (s 0 : Int) + f 1 * (s 1 : Int)) + (f 6 * (s 6 : Int) + f 7 * (s 7 : Int)) := by
    rw [sd_add, m0, m3, wrap32_id _ (by omega) (by omega)]
  have a2 : s32 (d32 (mm_add_epi32
      (mm_add_epi32 (mm_madd_epi16 (fil 0) (sig 0)) (mm_madd_epi16 (fil 3) (sig 3)))
      (mm_min_epi32 (mm_madd_epi16 (fil 1) (sig 1)) (mm_madd_epi16 (fil 2) (sig 2)))) k)
      = (f 0 * (s 0 : Int) + f 1 * (s 1 : Int)) + (f 6 * (s 6 : Int) + f 7 * (s 7 : Int)) + min (f 2 * (s 2 : Int) + f 3 * (s 3 : Int)) (f 4 * (s 4 : Int) + f 5 * (s 5 : Int)) := by
    rw [sd_add, a1, sd_min, m1, m2, wrap32_id _ (by omega) (by omega)]
  have a3 : s32 (d32 (mm_add_epi32 (mm_add_epi32
      (mm_add_epi32 (mm_madd_epi16 (fil 0) (sig 0)) (mm_madd_epi16 (fil 3) (sig 3)))
      (mm_min_epi32 (mm_madd_epi16 (fil 1) (sig 1)) (mm_madd_epi16 (fil 2) (sig 2))))
      (mm_max_epi32 (mm_madd_epi16 (fil 1) (sig 1)) (mm_madd_epi16 (fil 2) (sig 2)))) k)
      = (f 0 * (s 0 : Int) + f 1 * (s 1 : Int)) + (f 6 * (s 6 : Int) + f 7 * (s 7 : Int)) + min (f 2 * (s 2 : Int) + f 3 * (s 3 : Int)) (f 4 * (s 4 : Int) + f 5 * (s 5 : Int)) + max (f 2 * (s 2 : Int) + f 3 * (s 3 : Int)) (f 4 * (s 4 : Int) + f 5 * (s 5 : Int)) := by
    rw [sd_add, a2, sd_max, m1, m2, wrap32_id _ (by omega) (by omega)]
  have a4 : s32 (d32 (mm_add_epi32 (mm_add_epi32 (mm_add_epi32
      (mm_add_epi32 (mm_madd_epi16 (fil 0) (sig 0)) (mm_madd_epi16 (fil 3) (sig 3)))
      (mm_min_epi32 (mm_madd_epi16 (fil 1) (sig 1)) (mm_madd_epi16 (fil 2) (sig 2))))
      (mm_max_epi32 (mm_madd_epi16 (fil 1) (sig 1)) (mm_madd_epi16 (fil 2) (sig 2))))
      (mm_set1_epi32 (2 ^ (CONV8_ROUNDING_BITS - 1)))) k)
      = (f 0 * (s 0 : Int) + f 1 * (s 1 : Int)) + (f 6 * (s 6 : Int) + f 7 * (s 7 : Int)) + min (f 2 * (s 2 : Int) + f 3 * (s 3 : Int)) (f 4 * (s 4 : Int) + f 5 * (s 5 : Int)) + max (f 2 * (s 2 : Int) + f 3 * (s 3 : Int)) (f 4 * (s 4 : Int) + f 5 * (s 5 : Int)) + 64 := by
    rw [sd_add, a3, sd_set1]
    have e64 : wrap32 (2 ^ (CONV8_ROUNDING_BITS - 1)) = 64 := by decide
    rw [e64, wrap32_id _ (by omega) (by omega)]
  refine ⟨?_, a1, a2, a3, a4, ?_⟩
  · intro i hi
    interval_cases i
    · simpa using m0
    · simpa using m1
    · simpa using m2
    · simpa using m3
  · have e : filter_8x1_pixels sig fil = mm_srai_epi32 (mm_add_epi32 (mm_add_epi32 (mm_add_epi32
        (mm_add_epi32 (mm_madd_epi16 (fil 0) (sig 0)) (mm_madd_epi16 (fil 3) (sig 3)))
        (mm_min_epi32 (mm_madd_epi16 (fil 1) (sig 1)) (mm_madd_epi16 (fil 2) (sig 2))))
        (mm_max_epi32 (mm_madd_epi16 (fil 1) (sig 1)) (mm_madd_epi16 (fil 2) (sig 2))))
        (mm_set1_epi32 (2 ^ (CONV8_ROUNDING_BITS - 1)))) CONV8_ROUNDING_BITS := rfl
    have e7 : CONV8_ROUNDING_BITS = 7 := rfl
    rw [e, e7, sd_srai7]
    rw [e7] at a4
    rw [a4]
    simp only [sum_range_succ, sum_range_zero]
    congr 1
    omega

theorem filter_8x1_pixels_no_wrap_witness :
    s32 (d32 (filter_8x1_pixels (fun _ => mm_set1_epi16 9) (fun _ => mm_set1_epi16 16)) 0)
      = (∑ j in range 8, (fun _ => 16 : Nat → Int) j * (((fun _ => 9 : Nat → Nat) j : Nat) : Int)
          + 64) / 128 := by
  have h := filter_8x1_pixels_no_wrap (fun _ => mm_set1_epi16 9) (fun _ => mm_set1_epi16 16)
    (fun _ => 16) (fun _ => 9) 0
    (fun _ _ => (by decide : (-32768 : Int) ≤ 16 ∧ (16 : Int) < 32768))
    (fun _ _ => (by decide : (9 : Nat) < 4096))
    (fun _ _ => ⟨w16_set1 16 _, w16_set1 16 _⟩)
    (fun _ _ => ⟨(w16_set1 9 _).trans (by decide : u16 9 = 9),
      (w16_set1 9 _).trans (by decide : u16 9 = 9)⟩)
  exact h.2.2.2.2.2

theorem touch_pos (n : Nat) (cnt : Mem) (p a : Int) :
    0 < touch n cnt p a ↔ (p ≤ a ∧ a < p + (n : Int)) ∨ 0 < cnt a := by
  unfold touch
  by_cases h : p ≤ a ∧ a < p + (n : Int)
  · rw [if_pos h]; simp [h]
  · rw [if_neg h]; simp [h]

/-- Loads after `n` two-row steps of `filter_block_width8_horiz`. -/
theorem loads8_iterate (sp p : Int) (n : Nat) :
    ((filter_block_width8_horiz_loads_body sp)^[n] (entrySt p 0 (fun _ => 0))).src_ptr
      = p + 2 * (n : Int) * sp
    ∧ ∀ a, 0 < ((filter_block_width8_horiz_loads_body sp)^[n] (entrySt p 0 (fun _ => 0))).mem a
      ↔ ∃ r : Nat, r < 2 * n ∧ p + (r : Int) * sp ≤ a ∧ a < p + (r : Int) * sp + 16 := by
  induction n with
  | zero =>
    refine ⟨by simp [entrySt], fun a => ?_⟩
    simp [entrySt]
  | succ n ih =>
    rw [Function.iterate_succ_apply']
    obtain ⟨hp, hm⟩ := ih
    constructor
    · show _ + 2 * sp = _
      rw [hp]; push_cast; ring
    · intro a
      show 0 < pack_pixels_with_format_loads _ .PACK_8x2 sp _ a ↔ _
      simp only [pack_pixels_with_format_loads]
      rw [touch_pos, touch_pos, hm, hp]
      simp only [Nat.cast_ofNat]
      constructor
      · rintro (h | h | ⟨r, hr, h1, h2⟩)
        · exact ⟨2 * n + 1, by omega, by push_cast; linarith [h.1], by push_cast; linarith [h.2]⟩
        · exact ⟨2 * n, by omega, by push_cast; linarith [h.1], by push_cast; linarith [h.2]⟩
        · exact ⟨r, by omega, h1, h2⟩
      · rintro ⟨r, hr, h1, h2⟩
        by_cases c1 : r = 2 * n + 1
        · subst c1
          left
          push_cast at h1 h2
          constructor <;> linarith
        · by_cases c2 : r = 2 * n
          · subst c2
            right; left
            push_cast at h1 h2
            constructor <;> linarith
          · right; right
            exact ⟨r, by omega, h1, h2⟩

/-- Loads after `n` one-row steps of `filter_block_width16_horiz`. -/
theorem loads16_iterate (sp p : Int) (n : Nat) :
    ((filter_block_width16_horiz_loads_body sp)^[n] (entrySt p 0 (fun _ => 0))).src_ptr
      = p + (n : Int) * sp
    ∧ ∀ a, 0 < ((filter_block_width16_horiz_loads_body sp)^[n] (entrySt p 0 (fun _ => 0))).mem a
      ↔ ∃ r : Nat, r < n ∧ p + (r : Int) * sp ≤ a ∧ a < p + (r : Int) * sp + 24 := by
  induction n with
  | zero =>
    refine ⟨by simp [entrySt], fun a => ?_⟩
    simp [entrySt]
  | succ n ih =>
    rw [Function.iterate_succ_apply']
    obtain ⟨hp, hm⟩ := ih
    constructor
    · show _ + sp = _
      rw [hp]; push_cast; ring
    · intro a
      show 0 < pack_pixels_with_format_loads _ .PACK_16x1 sp _ a ↔ _
      simp only [pack_pixels_with_format_loads]
      rw [touch_pos, touch_pos, hm, hp]
      simp only [Nat.cast_ofNat]
      constructor
      · rintro (h | h | ⟨r, hr, h1, h2⟩)
        · exact ⟨n, by omega, by linarith [h.1], by linarith [h.2]⟩
        · exact ⟨n, by omega, by linarith [h.1], by linarith [h.2]⟩
        · exact ⟨r, by omega, h1, h2⟩
      · rintro ⟨r, hr, h1, h2⟩
        by_cases c1 : r = n
        · subst c1
          by_cases c3 : a < p + (r : Int) * sp + 16
          · right; left
            constructor <;> omega
          · left
            constructor <;> omega
        · right; right
          exact ⟨r, by omega, h1, h2⟩

/-- Source samples loaded by `filter_block_width8_horiz`. -/
theorem loads8_spec (src sp : Int) (height : Nat) (hh : 2 ≤ height) (hlt : height < 4294967296)
    (a : Int) :
    0 < filter_block_width8_horiz_loads src sp height a
      ↔ ∃ r : Nat, r < height ∧ src + (r : Int) * sp - 3 ≤ a ∧ a ≤ src + (r : Int) * sp + 12 := by
  obtain ⟨hp, hm⟩ := loads8_iterate sp (src - 3) (height / 2)
  unfold filter_block_width8_horiz_loads
  simp only [do_rows_two _ height _ hh hlt]
  by_cases hodd : 0 < height % 2
  · rw [if_pos hodd]
    simp only [pack_pixels_with_format_loads]
    rw [touch_pos, hm, hp]
    simp only [Nat.cast_ofNat]
    have e : ((height / 2 : Nat) : Int) * 2 = (height : Int) - 1 := by omega
    constructor
    · rintro (h | ⟨r, hr, h1, h2⟩)
      · refine ⟨height - 1, by omega, ?_, ?_⟩
        · have : ((height - 1 : Nat) : Int) = 2 * ((height / 2 : Nat) : Int) := by omega
          rw [this]; linarith [h.1]
        · have : ((height - 1 : Nat) : Int) = 2 * ((height / 2 : Nat) : Int) := by omega
          rw [this]; linarith [h.2]
      · exact ⟨r, by omega, by linarith, by linarith⟩
    · rintro ⟨r, hr, h1, h2⟩
      by_cases c : r = height - 1
      · left
        have : (r : Int) = 2 * ((height / 2 : Nat) : Int) := by omega
        rw [this] at h1 h2
        constructor <;> linarith
      · right
        exact ⟨r, by omega, by linarith, by linarith⟩
  · rw [if_neg hodd, hm]
    constructor
    · rintro ⟨r, hr, h1, h2⟩
      exact ⟨r, by omega, by linarith, by linarith⟩
    · rintro ⟨r, hr, h1, h2⟩
      exact ⟨r, by omega, by linarith, by linarith⟩

/-- Source samples loaded by `filter_block_width16_horiz`. -/
theorem loads16_spec (src sp : Int) (height : Nat) (hh : 1 ≤ height)
    (hlt : height < 4294967296) (a : Int) :
    0 < filter_block_width16_horiz_loads src sp height a
      ↔ ∃ r : Nat, r < height ∧ src + (r : Int) * sp - 3 ≤ a ∧ a ≤ src + (r : Int) * sp + 20 := by
  obtain ⟨hp, hm⟩ := loads16_iterate sp (src - 3) height
  unfold filter_block_width16_horiz_loads
  simp only [do_rows_one _ height _ hh hlt]
  rw [hm]
  constructor
  · rintro ⟨r, hr, h1, h2⟩
    exact ⟨r, hr, by linarith, by linarith⟩
  · rintro ⟨r, hr, h1, h2⟩
    exact ⟨r, hr, by linarith, by linarith⟩

/-- C17 (counterexample): for width 8, `src = 0`, pitch 32 and height 2,
`filter_block_width8_horiz` loads the sample at address 12, column `width + 4` of row 0,
which lies in the window (columns `-3 .. width + 3`) of neither row. -/
theorem horiz8_loads_column_width_plus_4 :
    0 < filter_block_width8_horiz_loads 0 32 2 12
    ∧ ∀ r : Nat, r < 2 → ¬ ((0 : Int) + (r : Int) * 32 - 3 ≤ 12
        ∧ (12 : Int) ≤ 0 + (r : Int) * 32 + 8 + 3) := by
  constructor
  · rw [loads8_spec 0 32 2 (by decide) (by decide)]
    exact ⟨0, by decide, by decide, by decide⟩
  · intro r hr
    omega

/-- C17 (amended): for `2 <= height < 2^32` the loads of the 8-tap horizontal filters cover
exactly the columns `-3 .. width + 4` of the rows `0 .. height - 1`: a source sample is
loaded by `filter_block_width8_horiz` if and only if it is in columns `-3 .. 12` of one of
these rows, and by `filter_block_width16_horiz` if and only if it is in columns `-3 .. 20`;
the 256-bit loads reach one sample past the 3-before / 4-after window of the block. -/
theorem horiz_loads_window (src src_pitch : Int) (height : Nat)
    (hh : 2 ≤ height) (hlt : height < 4294967296) (a : Int) :
    (0 < filter_block_width8_horiz_loads src src_pitch height a
      ↔ ∃ r : Nat, r < height ∧ src + (r : Int) * src_pitch - 3 ≤ a
          ∧ a ≤ src + (r : Int) * src_pitch + 8 + 4)
    ∧ (0 < filter_block_width16_horiz_loads src src_pitch height a
      ↔ ∃ r : Nat, r < height ∧ src + (r : Int) * src_pitch - 3 ≤ a
          ∧ a ≤ src + (r : Int) * src_pitch + 16 + 4) := by
  constructor
  · rw [loads8_spec src src_pitch height hh hlt]
    constructor
    · rintro ⟨r, hr, h1, h2⟩
      exact ⟨r, hr, h1, by linarith⟩
    · rintro ⟨r, hr, h1, h2⟩
      exact ⟨r, hr, h1, by linarith⟩
  · rw [loads16_spec src src_pitch height (by omega) hlt]
    constructor
    · rintro ⟨r, hr, h1, h2⟩
      exact ⟨r, hr, h1, by linarith⟩
    · rintro ⟨r, hr, h1, h2⟩
      exact ⟨r, hr, h1, by linarith⟩

theorem horiz_loads_window_witness :
    (0 < filter_block_width8_horiz_loads 0 32 3 76
      ↔ ∃ r : Nat, r < 3 ∧ (0 : Int) + (r : Int) * 32 - 3 ≤ 76
          ∧ (76 : Int) ≤ 0 + (r : Int) * 32 + 8 + 4)
    ∧ (0 < filter_block_width16_horiz_loads 0 32 3 76
      ↔ ∃ r : Nat, r < 3 ∧ (0 : Int) + (r : Int) * 32 - 3 ≤ 76
          ∧ (76 : Int) ≤ 0 + (r : Int) * 32 + 16 + 4) :=
  horiz_loads_window 0 32 3 (by decide) (by decide) 76

/-- C18: `aom_highbd_convolve_copy_avx2` and `aom_highbd_convolve_avg_avx2` ignore their
filter and bit-depth parameters: two calls that agree on source, destination, strides,
width and height give the same destination whatever `filter_x`, `filter_x_stride`,
`filter_y`, `filter_y_stride` and `bd` are. -/
theorem copy_avg_ignore_filter_and_bd (srcm dstm : Mem) (src dst src_stride dst_stride : Int)
    (filter_x filter_y filter_x2 filter_y2 : Nat → Int)
    (filter_x_stride filter_y_stride filter_x_stride2 filter_y_stride2 : Int)
    (width : Nat) (h : Int) (bd bd2 : Nat) :
    aom_highbd_convolve_copy_avx2 srcm src src_stride dstm dst dst_stride filter_x
        filter_x_stride filter_y filter_y_stride width h bd
      = aom_highbd_convolve_copy_avx2 srcm src src_stride dstm dst dst_stride filter_x2
        filter_x_stride2 filter_y2 filter_y_stride2 width h bd2
    ∧ aom_highbd_convolve_avg_avx2 srcm src src_stride dstm dst dst_stride filter_x
        filter_x_stride filter_y filter_y_stride width h bd
      = aom_highbd_convolve_avg_avx2 srcm src src_stride dstm dst dst_stride filter_x2
        filter_x_stride2 filter_y2 filter_y_stride2 width h bd2 :=
  ⟨rfl, rfl⟩

/-- A sample in columns `width .. stride - 1` of a row is not in the rectangle of the first
`width` columns. -/
theorem outside_columns (dst ds : Int) (width r c r2 c2 : Nat) (hw : width ≤ c)
    (hc : (c : Int) < ds) (hc2 : c2 < width) :
    dst + (r : Int) * ds + (c : Int) ≠ dst + (r2 : Int) * ds + (c2 : Int) := by
  intro he
  have hds : 0 ≤ ds := by omega
  rcases Nat.lt_trichotomy r r2 with h | h | h
  · have := rowAddr_lt dst ds hds r r2 h
    simp only [rowAddr] at this
    omega
  · subst h
    omega
  · have := rowAddr_lt dst ds hds r2 r h
    simp only [rowAddr] at this
    omega

/-- C19: for `h >= 1` and `dst_stride >= width`, `aom_highbd_convolve_copy_avx2` and
`aom_highbd_convolve_avg_avx2` leave every destination sample other than
`dst[r * dst_stride + c]`, `0 <= r < h`, `0 <= c < width`, unchanged, in particular the
columns `width .. dst_stride - 1` of each row, for every width.  The functions return the
destination memory only: the source memory is an input that no store reaches. -/
theorem copy_avg_frame (srcm dstm : Mem) (src dst src_stride dst_stride : Int)
    (filter_x filter_y : Nat → Int) (filter_x_stride filter_y_stride : Int)
    (width : Nat) (h : Int) (bd : Nat)
    (hh : 1 ≤ h) (hds : (width : Int) ≤ dst_stride) :
    (∀ a, (∀ r c : Nat, (r : Int) < h → c < width → a ≠ dst + (r : Int) * dst_stride + (c : Int))
      → aom_highbd_convolve_copy_avx2 srcm src src_stride dstm dst dst_stride filter_x
          filter_x_stride filter_y filter_y_stride width h bd a = dstm a
        ∧ aom_highbd_convolve_avg_avx2 srcm src src_stride dstm dst dst_stride filter_x
          filter_x_stride filter_y filter_y_stride width h bd a = dstm a)
    ∧ (∀ r c : Nat, (r : Int) < h → width ≤ c → (c : Int) < dst_stride →
      aom_highbd_convolve_copy_avx2 srcm src src_stride dstm dst dst_stride filter_x
          filter_x_stride filter_y filter_y_stride width h bd
          (dst + (r : Int) * dst_stride + (c : Int))
        = dstm (dst + (r : Int) * dst_stride + (c : Int))
      ∧ aom_highbd_convolve_avg_avx2 srcm src src_stride dstm dst dst_stride filter_x
          filter_x_stride filter_y filter_y_stride width h bd
          (dst + (r : Int) * dst_stride + (c : Int))
        = dstm (dst + (r : Int) * dst_stride + (c : Int))) := by
  obtain ⟨n, hn⟩ : ∃ n : Nat, h = (n : Int) + 1 := ⟨(h - 1).toNat, by omega⟩
  subst hn
  have kc := (rows_loop_spec (fun x _ => x % 65536)
    (fun s m d => convolve_copy_row srcm s m d width)
    (fun h s d m => copy_rows srcm src_stride dst_stride width h s d m) src_stride dst_stride
    width srcm (fun s m d a => convolve_copy_row_spec srcm s m d width a)
    (fun h s d m => copy_rows_unfold srcm src_stride dst_stride width h s d m) hds n src dst
    dstm).2
  have ka := (rows_loop_spec (fun x y => gAvg (x % 65536) y)
    (fun s m d => convolve_avg_row srcm s m d width)
    (fun h s d m => avg_rows srcm src_stride dst_stride width h s d m) src_stride dst_stride
    width srcm (fun s m d a => convolve_avg_row_spec srcm s m d width a)
    (fun h s d m => avg_rows_unfold srcm src_stride dst_stride width h s d m) hds n src dst
    dstm).2
  simp only [rowAddr] at kc ka
  have main : ∀ a, (∀ r c : Nat, (r : Int) < (n : Int) + 1 → c < width →
        a ≠ dst + (r : Int) * dst_stride + (c : Int))
      → aom_highbd_convolve_copy_avx2 srcm src src_stride dstm dst dst_stride filter_x
          filter_x_stride filter_y filter_y_stride width ((n : Int) + 1) bd a = dstm a
        ∧ aom_highbd_convolve_avg_avx2 srcm src src_stride dstm dst dst_stride filter_x
          filter_x_stride filter_y filter_y_stride width ((n : Int) + 1) bd a = dstm a := by
    intro a ha
    have ha2 : ∀ r c : Nat, r < n + 1 → c < width →
        a ≠ dst + (r : Int) * dst_stride + (c : Int) :=
      fun r c hr hc => ha r c (by omega) hc
    unfold aom_highbd_convolve_copy_avx2 aom_highbd_convolve_avg_avx2
    exact ⟨kc a ha2, ka a ha2⟩
  refine ⟨main, ?_⟩
  intro r c _ hw hc
  exact main _ (fun r2 c2 _ hc2 => outside_columns dst dst_stride width r c r2 c2 hw hc hc2)

theorem copy_avg_frame_witness :
    (aom_highbd_convolve_copy_avx2 (fun _ => 7) 0 40 (fun _ => 5) 0 16 (fun _ => 0)
          0 (fun _ => 0) 0 13 3 8 100 = (fun _ => 5 : Mem) 100
        ∧ aom_highbd_convolve_avg_avx2 (fun _ => 7) 0 40 (fun _ => 5) 0 16 (fun _ => 0)
          0 (fun _ => 0) 0 13 3 8 100 = (fun _ => 5 : Mem) 100)
    ∧ (aom_highbd_convolve_copy_avx2 (fun _ => 7) 0 40 (fun _ => 5) 0 16 (fun _ => 0)
          0 (fun _ => 0) 0 13 3 8 (0 + ((2 : Nat) : Int) * 16 + ((14 : Nat) : Int))
        = (fun _ => 5 : Mem) (0 + ((2 : Nat) : Int) * 16 + ((14 : Nat) : Int))
      ∧ aom_highbd_convolve_avg_avx2 (fun _ => 7) 0 40 (fun _ => 5) 0 16 (fun _ => 0)
          0 (fun _ => 0) 0 13 3 8 (0 + ((2 : Nat) : Int) * 16 + ((14 : Nat) : Int))
        = (fun _ => 5 : Mem) (0 + ((2 : Nat) : Int) * 16 + ((14 : Nat) : Int))) := by
  have h := copy_avg_frame (fun _ => 7) (fun _ => 5) 0 0 40 16 (fun _ => 0) (fun _ => 0) 0 0
    13 3 8 (by decide) (by decide)
  have h1 := h.1 100 (fun r c hr hc => by omega)
  have h2 := h.2 2 14 (by decide) (by decide) (by decide)
  exact ⟨h1, h2⟩

theorem int32_id (v : Int) (h1 : -2147483648 ≤ v) (h2 : v < 2147483648) : int32 v = v := by
  unfold int32
  rw [s32_u32, wrap32_id v h1 h2]

theorem generic_decode_shift_nonneg (lg_q1 : Int) : 0 ≤ generic_decode_shift lg_q1 := by
  unfold generic_decode_shift OD_MAXI
  split_ifs <;> omega

theorem two_pow_le_of_mul_le (n : Nat) (y : Int) (hy : 1 ≤ y)
    (h : y * 2 ^ n ≤ 2147483648) : (2 : Int) ^ n ≤ 2147483648 := by
  have hp : (0 : Int) < 2 ^ n := by positivity
  nlinarith

theorem toNat_le_31 (S : Int) (h : (2 : Int) ^ S.toNat ≤ 2147483648) : S ≤ 31 := by
  by_contra hc
  have h32 : 32 ≤ S.toNat := by omega
  have : (2 : Int) ^ 32 ≤ 2 ^ S.toNat := pow_le_pow_right₀ (by norm_num) h32
  norm_num at this
  omega

/-- The local `lsb` of `generic_decode_` for `xs = 0`. -/
theorem generic_decode_lsb_zero {R : Type} (E : Callees R) (r : R) (S : Int)
    (hlit : ∀ r bits, 0 < bits → 0 ≤ (E.aom_read_literal r bits).1
      ∧ (E.aom_read_literal r bits).1 < 2 ^ bits.toNat)
    (h0 : 0 < S) (h31 : S ≤ 31) :
    0 ≤ (generic_decode_lsb E r S 0).1
      ∧ (generic_decode_lsb E r S 0).1 < 2 ^ (S.toNat - 1) := by
  have hS : S ≠ 0 := by omega
  have e1 : int32 (S - 1) = S - 1 := int32_id _ (by omega) (by omega)
  have hp : (2 : Int) ^ (S.toNat - 1) ≤ 2 ^ 30 := pow_le_pow_right₀ (by norm_num) (by omega)
  have hp0 : (0 : Int) < 2 ^ (S.toNat - 1) := by positivity
  norm_num at hp
  unfold generic_decode_lsb
  rw [if_pos hS]
  simp only [if_true, e1, shl, one_ne_zero, if_false, zero_mul]
  have z : int32 0 = 0 := by decide
  rw [z, sub_zero]
  by_cases hb : 0 < S - 1
  · rw [if_pos hb]
    have hl := hlit r (S - 1) hb
    have et : (S - 1).toNat = S.toNat - 1 := by omega
    rw [et] at hl
    rw [int32_id _ (by omega) (by omega)]
    exact hl
  · rw [if_neg hb]
    rw [z]
    exact ⟨le_refl 0, hp0⟩

/-- The local `lsb` of `generic_decode_` for `xs != 0`. -/
theorem generic_decode_lsb_pos {R : Type} (E : Callees R) (r : R) (S xs : Int)
    (hlit : ∀ r bits, 0 < bits → 0 ≤ (E.aom_read_literal r bits).1
      ∧ (E.aom_read_literal r bits).1 < 2 ^ bits.toNat)
    (h0 : 0 < S) (h30 : S ≤ 30) (hx : xs ≠ 0) :
    -(2 ^ (S.toNat - 1)) ≤ (generic_decode_lsb E r S xs).1
      ∧ (generic_decode_lsb E r S xs).1 < 2 ^ (S.toNat - 1) := by
  have hS : S ≠ 0 := by omega
  have e0 : int32 (S - 0) = S := by rw [sub_zero]; exact int32_id _ (by omega) (by omega)
  have e1 : int32 (S - 1) = S - 1 := int32_id _ (by omega) (by omega)
  have hp : (2 : Int) ^ (S.toNat - 1) ≤ 2 ^ 29 := pow_le_pow_right₀ (by norm_num) (by omega)
  have hp0 : (0 : Int) < 2 ^ (S.toNat - 1) := by positivity
  have h2 : (2 : Int) ^ S.toNat = 2 * 2 ^ (S.toNat - 1) := by
    have : S.toNat = (S.toNat - 1) + 1 := by omega
    conv_lhs => rw [this, pow_succ]
    ring
  norm_num at hp
  unfold generic_decode_lsb
  rw [if_pos hS]
  simp only [if_neg hx, e0, e1, shl, if_true, if_pos h0, one_mul]
  have hl := hlit r S h0
  rw [h2] at hl
  have et : (S - 1).toNat = S.toNat - 1 := by omega
  rw [et, int32_id (2 ^ (S.toNat - 1)) (by omega) (by omega),
    int32_id _ (by omega) (by omega)]
  omega

theorem int32_add15_nonneg (v : Int) (h0 : 0 ≤ v) (h1 : v ≤ 2147483632) :
    0 ≤ int32 (15 + v) := by
  rw [int32_id _ (by omega) (by omega)]; omega

/-- The local `xs` of `generic_decode_` is not negative. -/
theorem generic_decode_xs_nonneg {R : Type} (E : Callees R) (GENERIC_TABLES : Int) (r : R)
    (max ex_q16 : Int)
    (hsym : ∀ r id n, 0 ≤ (E.aom_read_symbol_pvq r id n).1)
    (hlap : ∀ r d m, 0 ≤ (E.aom_laplace_decode_special r d m).1
      ∧ (E.aom_laplace_decode_special r d m).1 ≤ 2147483632) :
    0 ≤ (generic_decode_xs E GENERIC_TABLES r max ex_q16).1 := by
  unfold generic_decode_xs
  simp only []
  split_ifs with h1 h2 h3
  · simp only [h2]
    exact int32_add15_nonneg _ (hlap _ _ _).1 (hlap _ _ _).2
  · exact hsym _ _ _
  · simp only [h3]
    exact int32_add15_nonneg _ (hlap _ _ _).1 (hlap _ _ _).2
  · exact hsym _ _ _

/-- The value `x = (xs << shift) + lsb` of `generic_decode_` from `shift`, `xs` and the state
`r` in which the low bits are read. -/
theorem generic_decode_value {R : Type} (E : Callees R) (r : R) (S xs : Int)
    (hlit : ∀ r bits, 0 < bits → 0 ≤ (E.aom_read_literal r bits).1
      ∧ (E.aom_read_literal r bits).1 < 2 ^ bits.toNat)
    (hS : 0 ≤ S) (hxs : 0 ≤ xs) (hno : (xs + 1) * 2 ^ S.toNat ≤ 2147483648) :
    0 ≤ int32 (shl xs S + (generic_decode_lsb E r S xs).1)
    ∧ (S = 0 → int32 (shl xs S + (generic_decode_lsb E r S xs).1) = xs)
    ∧ (0 < S → xs = 0 →
        int32 (shl xs S + (generic_decode_lsb E r S xs).1) < 2 ^ (S.toNat - 1))
    ∧ (0 < S → 1 ≤ xs →
        xs * 2 ^ S.toNat - 2 ^ (S.toNat - 1)
            ≤ int32 (shl xs S + (generic_decode_lsb E r S xs).1)
          ∧ int32 (shl xs S + (generic_decode_lsb E r S xs).1)
            < xs * 2 ^ S.toNat + 2 ^ (S.toNat - 1)) := by
  have hP : (2 : Int) ^ S.toNat ≤ 2147483648 :=
    two_pow_le_of_mul_le S.toNat (xs + 1) (by omega) hno
  have h31 : S ≤ 31 := toNat_le_31 S hP
  have hP0 : (0 : Int) < 2 ^ S.toNat := by positivity
  have hQ0 : 0 ≤ xs * 2 ^ S.toNat := by positivity
  have hQ : xs * 2 ^ S.toNat + 2 ^ S.toNat ≤ 2147483648 := by linarith
  have es : shl xs S = xs * 2 ^ S.toNat := by
    unfold shl
    exact int32_id _ (by omega) (by omega)
  rw [es]
  rcases eq_or_lt_of_le hS with h0 | h0
  · -- shift = 0
    have e0 : S = 0 := h0.symm
    subst e0
    have el : (generic_decode_lsb E r 0 xs).1 = 0 := by
      unfold generic_decode_lsb
      simp
    rw [el]
    simp only [Int.toNat_zero, pow_zero, mul_one, add_zero] at hQ ⊢
    rw [int32_id xs (by omega) (by omega)]
    exact ⟨hxs, fun _ => rfl, fun h => absurd h (lt_irrefl 0), fun h => absurd h (lt_irrefl 0)⟩
  · have h2 : (2 : Int) ^ S.toNat = 2 * 2 ^ (S.toNat - 1) := by
      have : S.toNat = (S.toNat - 1) + 1 := by omega
      conv_lhs => rw [this, pow_succ]
      ring
    have hp0 : (0 : Int) < 2 ^ (S.toNat - 1) := by positivity
    rcases eq_or_lt_of_le hxs with hx | hx
    · -- xs = 0
      have e0 : xs = 0 := hx.symm
      subst e0
      obtain ⟨l1, l2⟩ := generic_decode_lsb_zero E r S hlit h0 h31
      rw [zero_mul, zero_add, int32_id _ (by omega) (by omega)]
      exact ⟨l1, fun h => by omega, fun _ _ => l2, fun _ h => by omega⟩
    · -- xs >= 1
      have hge : 2 ^ S.toNat ≤ xs * 2 ^ S.toNat := by nlinarith
      have h30 : S ≤ 30 := by
        by_contra hc
        have e31 : S.toNat = 31 := by omega
        rw [e31] at hQ hge
        norm_num at hQ hge
        omega
      obtain ⟨l1, l2⟩ := generic_decode_lsb_pos E r S xs hlit h0 h30 (by omega)
      rw [int32_id _ (by omega) (by omega)]
      refine ⟨by omega, fun h => by omega, fun _ h => by omega, fun _ _ => ⟨by omega, by omega⟩⟩

/-- C20 (counterexample): with `log_ex` returning 29 (`shift = 12`), the symbol reader
returning 15, the Laplace escape returning 600000 and `aom_read_literal(12)` returning 1,
the three conditions of the claim hold, `xs = 600015`, `lsb = 1 - 2048`, and
`(xs << shift) + lsb` leaves the 32-bit `int`: the value returned is `-1837307903`. -/
theorem generic_decode_escape_overflows :
    (∀ r id n, 0 ≤ ((constCallees 29 15 600000 1).aom_read_symbol_pvq r id n).1)
    ∧ (∀ r d m, 0 ≤ ((constCallees 29 15 600000 1).aom_laplace_decode_special r d m).1)
    ∧ (∀ r bits, 0 < bits → 0 ≤ ((constCallees 29 15 600000 1).aom_read_literal r bits).1
      ∧ ((constCallees 29 15 600000 1).aom_read_literal r bits).1 < 2 ^ bits.toNat)
    ∧ generic_decode_shift ((constCallees 29 15 600000 1).log_ex 0) = 12
    ∧ (generic_decode_xs (constCallees 29 15 600000 1) 12 () (-1) 0).1 = 600015
    ∧ (generic_decode_ (constCallees 29 15 600000 1) 12 () (-1) 0 4).1 = -1837307903 := by
  exact ⟨fun _ _ _ => (by decide : (0 : Int) ≤ 15),
    fun _ _ _ => (by decide : (0 : Int) ≤ 600000),
    fun _ bits hb => ⟨(by decide : (0 : Int) ≤ 1),
      one_lt_pow₀ (by norm_num : (1 : Int) < 2) (by omega : bits.toNat ≠ 0)⟩,
    by decide, by decide, by decide⟩

/-- C20 (amended): `generic_decode_` decodes a one-sided variable as long as its `int`
arithmetic does not overflow.  Whenever the symbol reader returns `xs >= 0`, the Laplace
escape returns a value in `[0, 2^31 - 16]` (room for `15 +` its value),
`aom_read_literal(bits)` returns a value in `[0, 2^bits)` and `(xs + 1) << shift` does not
exceed `2^31`, the returned `x = (xs << shift) + lsb` is not negative; for `shift = 0` it
is `xs`, for `shift > 0` and `xs = 0` it lies in `[0, 2^(shift-1))`, and for `shift > 0`
and `xs >= 1` in `[xs * 2^shift - 2^(shift-1), xs * 2^shift + 2^(shift-1))`. -/
theorem generic_decode_one_sided {R : Type} (E : Callees R) (GENERIC_TABLES : Int) (r : R)
    (max ex_q16 integration : Int)
    (hsym : ∀ r id n, 0 ≤ (E.aom_read_symbol_pvq r id n).1)
    (hlap : ∀ r d m, 0 ≤ (E.aom_laplace_decode_special r d m).1
      ∧ (E.aom_laplace_decode_special r d m).1 ≤ 2147483632)
    (hlit : ∀ r bits, 0 < bits → 0 ≤ (E.aom_read_literal r bits).1
      ∧ (E.aom_read_literal r bits).1 < 2 ^ bits.toNat)
    (hno : ((generic_decode_xs E GENERIC_TABLES r max ex_q16).1 + 1)
      * 2 ^ (generic_decode_shift (E.log_ex ex_q16)).toNat ≤ 2147483648) :
    0 ≤ (generic_decode_ E GENERIC_TABLES r max ex_q16 integration).1
    ∧ (max ≠ 0 →
      (generic_decode_shift (E.log_ex ex_q16) = 0 →
        (generic_decode_ E GENERIC_TABLES r max ex_q16 integration).1
          = (generic_decode_xs E GENERIC_TABLES r max ex_q16).1)
      ∧ (0 < generic_decode_shift (E.log_ex ex_q16) →
        (generic_decode_xs E GENERIC_TABLES r max ex_q16).1 = 0 →
        (generic_decode_ E GENERIC_TABLES r max ex_q16 integration).1
          < 2 ^ ((generic_decode_shift (E.log_ex ex_q16)).toNat - 1))
      ∧ (0 < generic_decode_shift (E.log_ex ex_q16) →
        1 ≤ (generic_decode_xs E GENERIC_TABLES r max ex_q16).1 →
        (generic_decode_xs E GENERIC_TABLES r max ex_q16).1
              * 2 ^ (generic_decode_shift (E.log_ex ex_q16)).toNat
              - 2 ^ ((generic_decode_shift (E.log_ex ex_q16)).toNat - 1)
            ≤ (generic_decode_ E GENERIC_TABLES r max ex_q16 integration).1
          ∧ (generic_decode_ E GENERIC_TABLES r max ex_q16 integration).1
            < (generic_decode_xs E GENERIC_TABLES r max ex_q16).1
              * 2 ^ (generic_decode_shift (E.log_ex ex_q16)).toNat
              + 2 ^ ((generic_decode_shift (E.log_ex ex_q16)).toNat - 1))) := by
  by_cases hm : max = 0
  · refine ⟨?_, fun h => absurd hm h⟩
    unfold generic_decode_
    rw [if_pos hm]
  · have key := generic_decode_value E (generic_decode_xs E GENERIC_TABLES r max ex_q16).2
      (generic_decode_shift (E.log_ex ex_q16))
      (generic_decode_xs E GENERIC_TABLES r max ex_q16).1 hlit
      (generic_decode_shift_nonneg _)
      (generic_decode_xs_nonneg E GENERIC_TABLES r max ex_q16 hsym hlap) hno
    have ex : (generic_decode_ E GENERIC_TABLES r max ex_q16 integration).1
        = int32 (shl (generic_decode_xs E GENERIC_TABLES r max ex_q16).1
            (generic_decode_shift (E.log_ex ex_q16))
          + (generic_decode_lsb E (generic_decode_xs E GENERIC_TABLES r max ex_q16).2
              (generic_decode_shift (E.log_ex ex_q16))
              (generic_decode_xs E GENERIC_TABLES r max ex_q16).1).1) := by
      unfold generic_decode_
      rw [if_neg hm]
    rw [ex]
    exact ⟨key.1, fun _ => key.2⟩

theorem generic_decode_one_sided_witness :
    0 ≤ (generic_decode_ (constCallees 9 3 0 1) 12 () 100 0 4).1
    ∧ ((generic_decode_xs (constCallees 9 3 0 1) 12 () 100 0).1
            * 2 ^ (generic_decode_shift ((constCallees 9 3 0 1).log_ex 0)).toNat
            - 2 ^ ((generic_decode_shift ((constCallees 9 3 0 1).log_ex 0)).toNat - 1)
          ≤ (generic_decode_ (constCallees 9 3 0 1) 12 () 100 0 4).1
        ∧ (generic_decode_ (constCallees 9 3 0 1) 12 () 100 0 4).1
          < (generic_decode_xs (constCallees 9 3 0 1) 12 () 100 0).1
            * 2 ^ (generic_decode_shift ((constCallees 9 3 0 1).log_ex 0)).toNat
            + 2 ^ ((generic_decode_shift ((constCallees 9 3 0 1).log_ex 0)).toNat - 1)) := by
  have h := generic_decode_one_sided (constCallees 9 3 0 1) 12 () 100 0 4
    (fun _ _ _ => (by decide : (0 : Int) ≤ 3))
    (fun _ _ _ => (by decide : (0 : Int) ≤ 0 ∧ (0 : Int) ≤ 2147483632))
    (fun _ bits hb => ⟨(by decide : (0 : Int) ≤ 1),
      one_lt_pow₀ (by norm_num : (1 : Int) < 2) (by omega : bits.toNat ≠ 0)⟩)
    (by decide)
  have h2 := h.2 (by decide)
  have h3 := h2.2.2 (by decide) (by decide)
  exact ⟨h.1, h3⟩

/-- A loop whose step `i` rewrites only element `i` from its own old value. -/
theorem for_loop_pointwise (lo hi : Int) (g : Int → Nat → Nat) (a : Mem) (j : Int) :
    for_loop lo hi (fun i c => storeAt c i (g i (c i))) a j
      = if lo ≤ j ∧ j < hi then g j (a j) else a j := by
  have key : ∀ k : Nat,
      (List.range k).foldl (fun c (k : Nat) => (fun i c => storeAt c i (g i (c i)))
          (lo + (k : Int)) c) a j
        = if lo ≤ j ∧ j < lo + (k : Int) then g j (a j) else a j := by
    intro k
    induction k generalizing j with
    | zero =>
      have hn : ¬ (lo ≤ j ∧ j < lo + ((0 : Nat) : Int)) := by omega
      rw [List.range_zero, List.foldl_nil, if_neg hn]
    | succ k ih =>
      rw [List.range_succ, List.foldl_append, List.foldl_cons, List.foldl_nil]
      show storeAt _ _ _ j = _
      unfold storeAt at ih ⊢
      by_cases hj : j = lo + (k : Int)
      · have hlt : ¬ (lo ≤ lo + (k : Int) ∧ lo + (k : Int) < lo + (k : Int)) := by omega
        have hp : lo ≤ j ∧ j < lo + ((k + 1 : Nat) : Int) := by push_cast; omega
        rw [if_pos hj, ih (lo + (k : Int)), if_neg hlt, if_pos hp, hj]
      · rw [if_neg hj, ih j]
        by_cases h1 : lo ≤ j ∧ j < lo + (k : Int)
        · have hp : lo ≤ j ∧ j < lo + ((k + 1 : Nat) : Int) := by push_cast; omega
          rw [if_pos h1, if_pos hp]
        · have hp : ¬ (lo ≤ j ∧ j < lo + ((k + 1 : Nat) : Int)) := by push_cast; omega
          rw [if_neg h1, if_neg hp]
  unfold for_loop
  rw [key]
  by_cases h1 : lo ≤ j ∧ j < hi
  · have hp : lo ≤ j ∧ j < lo + (((hi - lo).toNat : Nat) : Int) := by omega
    rw [if_pos h1, if_pos hp]
  · have hp : ¬ (lo ≤ j ∧ j < lo + (((hi - lo).toNat : Nat) : Int)) := by omega
    rw [if_neg h1, if_neg hp]

theorem u16_small (v : Int) (h0 : 0 ≤ v) (h1 : v < 65536) : ((u16 v : Nat) : Int) = v := by
  unfold u16; omega

theorem sar_one (a : Int) : sar a 1 = a / 2 := by
  unfold sar; norm_num

/-- Element `i` of the array after the renormalisation loop of `aom_decode_cdf_adapt_`. -/
theorem cdf_halved_value (cdf : Mem) (n : Int) (hn : n ≤ 32768)
    (h16 : ∀ i, 0 ≤ i → i < n → cdf i < 65536) (i : Int) (h0 : 0 ≤ i) (hi : i < n) :
    ((for_loop 0 n (fun i c => storeAt c i (u16 (sar (c i : Int) 1 + i + 1))) cdf i : Nat) : Int)
      = (cdf i : Int) / 2 + i + 1 := by
  rw [for_loop_pointwise 0 n (fun i x => u16 (sar (x : Int) 1 + i + 1)) cdf i,
    if_pos ⟨h0, hi⟩, sar_one]
  have := h16 i h0 hi
  exact u16_small _ (by omega) (by omega)

/-- C22: with `MAX_MVSEARCH_STEPS = 11`, `MAX_FULL_PEL_VAL` is 1023 and `MAX_FIRST_STEP` is
`1024 = MAX_FULL_PEL_VAL + 1`; a full-pel motion vector component bounded by
`MAX_FULL_PEL_VAL` in magnitude lies in `[-1023, 1023]`. -/
theorem max_full_pel_val_range (v : Int) (hv : |v| ≤ MAX_FULL_PEL_VAL) :
    MAX_MVSEARCH_STEPS = 11 ∧ MAX_FULL_PEL_VAL = 1023 ∧ MAX_FIRST_STEP = 1024
      ∧ MAX_FIRST_STEP = MAX_FULL_PEL_VAL + 1 ∧ -1023 ≤ v ∧ v ≤ 1023 := by
  have e1 : MAX_FULL_PEL_VAL = 1023 := by decide
  have e2 : MAX_FIRST_STEP = 1024 := by decide
  rw [e1] at hv
  have := abs_le.mp hv
  exact ⟨rfl, e1, e2, by rw [e1, e2]; rfl, this.1, this.2⟩

theorem max_full_pel_val_range_witness :
    MAX_MVSEARCH_STEPS = 11 ∧ MAX_FULL_PEL_VAL = 1023 ∧ MAX_FIRST_STEP = 1024
      ∧ MAX_FIRST_STEP = MAX_FULL_PEL_VAL + 1 ∧ (-1023 : Int) ≤ -1023 ∧ (-1023 : Int) ≤ 1023 :=
  max_full_pel_val_range (-1023) (by decide)

theorem pack_8x9_init_loads_pos (p sp : Int) (a : Int) :
    0 < pack_8x9_init_loads p sp (fun _ => 0) a
      ↔ ∃ r : Nat, r < 7 ∧ p + (r : Int) * sp ≤ a ∧ a < p + (r : Int) * sp + 8 := by
  unfold pack_8x9_init_loads
  simp only [touch_pos, Nat.cast_ofNat, lt_self_iff_false, or_false]
  constructor
  · rintro (h | h | h | h | h | h | h)
    · exact ⟨6, by omega, by push_cast; linarith [h.1], by push_cast; linarith [h.2]⟩
    · exact ⟨5, by omega, by push_cast; linarith [h.1], by push_cast; linarith [h.2]⟩
    · exact ⟨4, by omega, by push_cast; linarith [h.1], by push_cast; linarith [h.2]⟩
    · exact ⟨3, by omega, by push_cast; linarith [h.1], by push_cast; linarith [h.2]⟩
    · exact ⟨2, by omega, by push_cast; linarith [h.1], by push_cast; linarith [h.2]⟩
    · exact ⟨1, by omega, by push_cast; linarith [h.1], by push_cast; linarith [h.2]⟩
    · exact ⟨0, by omega, by push_cast; linarith [h.1], by push_cast; linarith [h.2]⟩
  · rintro ⟨r, hr, h1, h2⟩
    interval_cases r
    · right; right; right; right; right; right
      push_cast at h1 h2
      constructor <;> linarith
    · right; right; right; right; right; left
      push_cast at h1 h2
      constructor <;> linarith
    · right; right; right; right; left
      push_cast at h1 h2
      constructor <;> linarith
    · right; right; right; left
      push_cast at h1 h2
      constructor <;> linarith
    · right; right; left
      push_cast at h1 h2
      constructor <;> linarith
    · right; left
      push_cast at h1 h2
      constructor <;> linarith
    · left
      push_cast at h1 h2
      constructor <;> linarith

/-- Loads after `n` two-row steps of `filter_block_width8_vert`. -/
theorem vloads8_iterate (sp p : Int) (n : Nat) :
    ((filter_block_width8_vert_loads_body sp)^[n]
        (entrySt p 0 (pack_8x9_init_loads p sp (fun _ => 0)))).src_ptr
      = p + 2 * (n : Int) * sp
    ∧ ∀ a, 0 < ((filter_block_width8_vert_loads_body sp)^[n]
        (entrySt p 0 (pack_8x9_init_loads p sp (fun _ => 0)))).mem a
      ↔ ∃ r : Nat, r < 7 + 2 * n ∧ p + (r : Int) * sp ≤ a ∧ a < p + (r : Int) * sp + 8 := by
  induction n with
  | zero =>
    refine ⟨by simp [entrySt], fun a => ?_⟩
    show 0 < pack_8x9_init_loads p sp (fun _ => 0) a ↔ _
    rw [pack_8x9_init_loads_pos]
  | succ n ih =>
    rw [Function.iterate_succ_apply']
    obtain ⟨hp, hm⟩ := ih
    constructor
    · show _ + 2 * sp = _
      rw [hp]; push_cast; ring
    · intro a
      show 0 < pack_8x9_pixels_loads _ sp _ a ↔ _
      simp only [pack_8x9_pixels_loads]
      rw [touch_pos, touch_pos, hm, hp]
      simp only [Nat.cast_ofNat]
      constructor
      · rintro (h | h | ⟨r, hr, h1, h2⟩)
        · exact ⟨2 * n + 8, by omega, by push_cast; linarith [h.1], by push_cast; linarith [h.2]⟩
        · exact ⟨2 * n + 7, by omega, by push_cast; linarith [h.1], by push_cast; linarith [h.2]⟩
        · exact ⟨r, by omega, h1, h2⟩
      · rintro ⟨r, hr, h1, h2⟩
        by_cases c1 : r = 2 * n + 8
        · subst c1
          left
          push_cast at h1 h2
          constructor <;> linarith
        · by_cases c2 : r = 2 * n + 7
          · subst c2
            right; left
            push_cast at h1 h2
            constructor <;> linarith
          · right; right
            exact ⟨r, by omega, h1, h2⟩

/-- Source samples loaded by `filter_block_width8_vert`. -/
theorem vloads8_spec (src sp : Int) (height : Nat) (hh : 2 ≤ height) (hlt : height < 4294967296)
    (a : Int) :
    0 < filter_block_width8_vert_loads src sp height a
      ↔ ∃ r : Nat, r < height + 7 + height % 2
          ∧ src + (r : Int) * sp ≤ a ∧ a < src + (r : Int) * sp + 8 := by
  obtain ⟨hp, hm⟩ := vloads8_iterate sp src (height / 2)
  unfold filter_block_width8_vert_loads
  simp only [do_rows_two _ height _ hh hlt]
  by_cases hodd : 0 < height % 2
  · rw [if_pos hodd]
    simp only [pack_8x9_pixels_loads]
    rw [touch_pos, touch_pos, hm, hp]
    simp only [Nat.cast_ofNat]
    have e : 2 * ((height / 2 : Nat) : Int) = (height : Int) - 1 := by omega
    rw [e]
    constructor
    · rintro (h | h | ⟨r, hr, h1, h2⟩)
      · refine ⟨height + 7, by omega, ?_, ?_⟩
        · push_cast; linarith [h.1]
        · push_cast; linarith [h.2]
      · refine ⟨height + 6, by omega, ?_, ?_⟩
        · push_cast; linarith [h.1]
        · push_cast; linarith [h.2]
      · exact ⟨r, by omega, h1, h2⟩
    · rintro ⟨r, hr, h1, h2⟩
      by_cases c1 : r = height + 7
      · subst c1
        left
        push_cast at h1 h2
        constructor <;> linarith
      · by_cases c2 : r = height + 6
        · subst c2
          right; left
          push_cast at h1 h2
          constructor <;> linarith
        · right; right
          exact ⟨r, by omega, h1, h2⟩
  · rw [if_neg hodd, hm]
    constructor
    · rintro ⟨r, hr, h1, h2⟩
      exact ⟨r, by omega, h1, h2⟩
    · rintro ⟨r, hr, h1, h2⟩
      exact ⟨r, by omega, h1, h2⟩

/-- C23 (counterexample): for height 3, `src_ptr = 0` and pitch 32,
`filter_block_width8_vert` loads the sample at address 320, the first sample of row
`height + 7 = 10`, which lies in none of the rows `0 .. height + 6`: the tail of an odd
height calls `pack_8x9_pixels`, which loads two rows. -/
theorem vert8_loads_row_height_plus_7 :
    0 < filter_block_width8_vert_loads 0 32 3 320
    ∧ (320 : Int) = 0 + (3 + 7) * 32
    ∧ ∀ r c : Nat, r ≤ 3 + 6 → c < 8 → (320 : Int) ≠ 0 + (r : Int) * 32 + (c : Int) := by
  refine ⟨?_, by decide, fun r c hr hc => by omega⟩
  rw [vloads8_spec 0 32 3 (by decide) (by decide)]
  exact ⟨10, by decide, by decide, by decide⟩

/-- C23 (amended): for `2 <= height < 2^32`, `filter_block_width8_vert` loads exactly the
samples in columns `0 .. 7` of the source rows `src_ptr[0] .. src_ptr[height + 6]` when the
height is even and of the rows `src_ptr[0] .. src_ptr[height + 7]` when it is odd: the
one-row tail of an odd height loads the pair of rows `height + 6`, `height + 7`, the second
of which only feeds the discarded second result. -/
theorem vert8_loads_rows (src src_pitch : Int) (height : Nat)
    (hh : 2 ≤ height) (hlt : height < 4294967296) (a : Int) :
    0 < filter_block_width8_vert_loads src src_pitch height a
      ↔ ∃ r : Nat, r ≤ height + 6 + height % 2
          ∧ src + (r : Int) * src_pitch ≤ a ∧ a ≤ src + (r : Int) * src_pitch + 7 := by
  rw [vloads8_spec src src_pitch height hh hlt]
  constructor
  · rintro ⟨r, hr, h1, h2⟩
    exact ⟨r, by omega, h1, by linarith⟩
  · rintro ⟨r, hr, h1, h2⟩
    exact ⟨r, by omega, h1, by linarith⟩

theorem vert8_loads_rows_witness :
    0 < filter_block_width8_vert_loads 0 32 4 327
      ↔ ∃ r : Nat, r ≤ 4 + 6 + 4 % 2
          ∧ (0 : Int) + (r : Int) * 32 ≤ 327 ∧ (327 : Int) ≤ 0 + (r : Int) * 32 + 7 :=
  vert8_loads_rows 0 32 4 (by decide) (by decide) 327

/-- The entries `pack_8x9_init` writes do not depend on the array it is given. -/
theorem pack_8x9_init_entries (srcm : Mem) (p sp : Int) (x y : RegArr) (j : Nat)
    (hj : j = 0 ∨ j = 1 ∨ j = 2 ∨ j = 4 ∨ j = 5 ∨ j = 6 ∨ j = 8) :
    pack_8x9_init srcm p sp x j = pack_8x9_init srcm p sp y j := by
  rcases hj with h | h | h | h | h | h | h <;> subst h <;> simp [pack_8x9_init, setR]

/-- The entries `pack_16x9_init` writes do not depend on the array it is given. -/
theorem pack_16x9_init_entries (srcm : Mem) (p sp : Int) (x y : RegArr) (j : Nat)
    (hj : j = 0 ∨ j = 1 ∨ j = 2 ∨ j = 4 ∨ j = 5 ∨ j = 6 ∨ j = 8 ∨ j = 9 ∨ j = 10 ∨ j = 12
      ∨ j = 13 ∨ j = 14 ∨ j = 16) :
    pack_16x9_init srcm p sp x j = pack_16x9_init srcm p sp y j := by
  rcases hj with h | h | h | h | h | h | h | h | h | h | h | h | h <;> subst h <;>
    simp [pack_16x9_init, setR]

/-- State of the width-8 vertical row loop after `k` steps. -/
theorem vert8_window_iterate (srcm : Mem) (src sp : Int) (W : WritePixels) (dp : Int)
    (ff : RegArr) (mx : Reg) (st0 : LoopSt) (h0 : st0.src_ptr = src)
    (hw : WinOK8 srcm sp st0.signal src) (k : Nat) :
    ((filter_block_width8_vert_body srcm sp W dp ff mx)^[k] st0).src_ptr
        = src + 2 * (k : Int) * sp
    ∧ WinOK8 srcm sp ((filter_block_width8_vert_body srcm sp W dp ff mx)^[k] st0).signal
        (src + 2 * (k : Int) * sp) := by
  induction k with
  | zero => simpa using ⟨h0, hw⟩
  | succ k ih =>
    rw [Function.iterate_succ_apply']
    obtain ⟨hp, hs⟩ := ih
    have e : src + 2 * ((k + 1 : Nat) : Int) * sp = src + 2 * (k : Int) * sp + 2 * sp := by
      push_cast; ring
    rw [e]
    constructor
    · show _ + 2 * sp = _
      rw [hp]
    · show WinOK8 srcm sp (update_pixels (pack_8x9_pixels srcm _ sp _) 0) _
      rw [hp]
      exact update_pixels_ok srcm _ sp _ hs

/-- State of the width-16 vertical row loop after `k` steps. -/
theorem vert16_window_iterate (srcm : Mem) (src sp : Int) (W : WritePixels) (dp : Int)
    (ff : RegArr) (mx : Reg) (st0 : LoopSt) (h0 : st0.src_ptr = src)
    (hw : WinOK16 srcm sp st0.signal src) (k : Nat) :
    ((filter_block_width16_vert_body srcm sp W dp ff mx)^[k] st0).src_ptr
        = src + 2 * (k : Int) * sp
    ∧ WinOK16 srcm sp ((filter_block_width16_vert_body srcm sp W dp ff mx)^[k] st0).signal
        (src + 2 * (k : Int) * sp) := by
  induction k with
  | zero => simpa using ⟨h0, hw⟩
  | succ k ih =>
    rw [Function.iterate_succ_apply']
    obtain ⟨hp, hs⟩ := ih
    have e : src + 2 * ((k + 1 : Nat) : Int) * sp = src + 2 * (k : Int) * sp + 2 * sp := by
      push_cast; ring
    rw [e]
    constructor
    · show _ + 2 * sp = _
      rw [hp]
    · show WinOK16 srcm sp (update_16x9_pixels (pack_16x9_pixels srcm _ sp _)) _
      rw [hp]
      exact update_16x9_pixels_ok srcm _ sp _ hs

/-- C26: sliding-window invariant of the 8-tap vertical filters.  After `k` steps of the row
loop (at the start of the step that produces the output rows `2k` and `2k + 1`), the source
pointer is `src_ptr + 2k * pitch` and the entries kept by `update_pixels` (`sig[0..2]`,
`sig[4..6]`, `sig[8]`; for width 16 also `sig[8..10]`, `sig[12..14]`, `sig[16]`) are the
registers `pack_8x9_init` / `pack_16x9_init` would load afresh from that pointer, whatever
writer, destination pitch, kernel and clamp the loop runs with. -/
theorem sliding_window_invariant (srcm dstm : Mem) (src dst src_pitch dst_pitch : Int)
    (W : WritePixels) (ff : RegArr) (mx : Reg) (x : RegArr) (k j : Nat) :
    (((filter_block_width8_vert_body srcm src_pitch W dst_pitch ff mx)^[k]
          { entrySt src dst dstm with
            signal := pack_8x9_init srcm src src_pitch (entrySt src dst dstm).signal }).src_ptr
        = src + 2 * (k : Int) * src_pitch
      ∧ (j = 0 ∨ j = 1 ∨ j = 2 ∨ j = 4 ∨ j = 5 ∨ j = 6 ∨ j = 8 →
        ((filter_block_width8_vert_body srcm src_pitch W dst_pitch ff mx)^[k]
            { entrySt src dst dstm with
              signal := pack_8x9_init srcm src src_pitch (entrySt src dst dstm).signal }).signal j
          = pack_8x9_init srcm (src + 2 * (k : Int) * src_pitch) src_pitch x j))
    ∧ (((filter_block_width16_vert_body srcm src_pitch W dst_pitch ff mx)^[k]
          { entrySt src dst dstm with
            signal := pack_16x9_init srcm src src_pitch (entrySt src dst dstm).signal }).src_ptr
        = src + 2 * (k : Int) * src_pitch
      ∧ (j = 0 ∨ j = 1 ∨ j = 2 ∨ j = 4 ∨ j = 5 ∨ j = 6 ∨ j = 8 ∨ j = 9 ∨ j = 10 ∨ j = 12
          ∨ j = 13 ∨ j = 14 ∨ j = 16 →
        ((filter_block_width16_vert_body srcm src_pitch W dst_pitch ff mx)^[k]
            { entrySt src dst dstm with
              signal := pack_16x9_init srcm src src_pitch (entrySt src dst dstm).signal }).signal j
          = pack_16x9_init srcm (src + 2 * (k : Int) * src_pitch) src_pitch x j)) := by
  obtain ⟨a1, a2⟩ := vert8_window_iterate srcm src src_pitch W dst_pitch ff mx
    { entrySt src dst dstm with
      signal := pack_8x9_init srcm src src_pitch (entrySt src dst dstm).signal } rfl
    (pack_8x9_init_ok srcm src src_pitch _) k
  obtain ⟨b1, b2⟩ := vert16_window_iterate srcm src src_pitch W dst_pitch ff mx
    { entrySt src dst dstm with
      signal := pack_16x9_init srcm src src_pitch (entrySt src dst dstm).signal } rfl
    (pack_16x9_init_ok srcm src src_pitch _) k
  refine ⟨⟨a1, fun hj => ?_⟩, ⟨b1, fun hj => ?_⟩⟩
  · rw [a2 j hj]
    exact pack_8x9_init_entries srcm _ src_pitch _ x j hj
  · rw [b2 j hj]
    exact pack_16x9_init_entries srcm _ src_pitch _ x j hj

theorem sliding_window_invariant_witness :
    ((filter_block_width8_vert_body (fun a => a.toNat % 200) 32 write_8x2_pixels 8
          (pack_filters unitKernel) (mm_set1_epi16 255))^[1]
        { entrySt 0 0 (fun _ => 0) with
          signal := pack_8x9_init (fun a => a.toNat % 200) 0 32
            (entrySt 0 0 (fun _ => 0)).signal }).signal 0
      = pack_8x9_init (fun a => a.toNat % 200) (0 + 2 * ((1 : Nat) : Int) * 32) 32
          (fun _ _ => 0) 0
    ∧ ((filter_block_width16_vert_body (fun a => a.toNat % 200) 32 write_8x2_pixels 8
          (pack_filters unitKernel) (mm_set1_epi16 255))^[1]
        { entrySt 0 0 (fun _ => 0) with
          signal := pack_16x9_init (fun a => a.toNat % 200) 0 32
            (entrySt 0 0 (fun _ => 0)).signal }).signal 0
      = pack_16x9_init (fun a => a.toNat % 200) (0 + 2 * ((1 : Nat) : Int) * 32) 32
          (fun _ _ => 0) 0 := by
  have h := sliding_window_invariant (fun a => a.toNat % 200) (fun _ => 0) 0 0 32 8
    write_8x2_pixels (pack_filters unitKernel) (mm_set1_epi16 255) (fun _ _ => 0) 1 0
  have h1 := h.1.2 (Or.inl rfl)
  have h2 := h.2.2 (Or.inl rfl)
  exact ⟨h1, h2⟩

/-- Clamped exact value of the 2-tap lane. -/
theorem conv2_clamp (f : Nat → Int) (srcm : Mem) (p stride : Int) (bd : Nat)
    (hbd : bd = 8 ∨ bd = 10 ∨ bd = 12)
    (hf : ∀ k, k < 8 → -32768 ≤ f k ∧ f k < 32768)
    (hs : ∀ a, srcm a < 2 ^ bd)
    (hsum : (f 3 * (srcm p : Int) + f 4 * (srcm (p + stride) : Int) + 64) / 128 < 32768) :
    ((outWord (u16 (2 ^ bd - 1)) (conv2 f srcm p stride) : Nat) : Int)
      = min (max ((f 3 * (srcm p : Int) + f 4 * (srcm (p + stride) : Int) + 64) / 128) 0)
          (2 ^ bd - 1) := by
  have e := conv2_exact f srcm p stride hf (samples_lt_4096 srcm bd hbd hs)
  rw [outWord_clamp bd hbd _ (by rw [e]; exact hsum), e]

/-- With zero outer taps the width-8 2-tap vertical filter at `src + 3 * pitch` gives the
memory of the 8-tap vertical filter at `src`. -/
theorem v2_eq_v8_width8 (srcm dstm : Mem) (src dst sp dp : Int) (height : Nat)
    (f : Nat → Int) (bd : Nat) (hh : 2 ≤ height) (hlt : height < 4294967296) (hdp : 8 ≤ dp)
    (h0 : f 0 = 0) (h1 : f 1 = 0) (h2 : f 2 = 0) (h5 : f 5 = 0) (h6 : f 6 = 0) (h7 : f 7 = 0)
    (a : Int) :
    aom_highbd_filter_block1d8_v2_avx2 srcm (src + 3 * sp) sp dstm dst dp height f bd a
      = aom_highbd_filter_block1d8_v8_avx2 srcm src sp dstm dst dp height f bd a := by
  have k2 := filter_block_width8_2t_vert_rows write_8x1_2t_pixels_ver gPlain
    write_8x1_2t_pixels_ver_spec srcm (src + 3 * sp) sp dstm dst dp height f bd hdp (by omega) hlt
  have k8 := filter_block_width8_vert_rows write_8x1_pixels_ver write_8x2_pixels gPlain
    write_8x1_pixels_ver_spec write_8x2_pixels_spec srcm src sp dstm dst dp height f bd hdp hh hlt
  unfold aom_highbd_filter_block1d8_v2_avx2 aom_highbd_filter_block1d8_v8_avx2
  by_cases hin : ∃ r c : Nat, r < height ∧ c < 8 ∧ a = rowAddr dst dp r + (c : Int)
  · obtain ⟨r, c, hr, hc, rfl⟩ := hin
    rw [k2.1 r c hr hc, k8.1 r c hr hc, gPlain, gPlain, conv8_eq_conv2 f srcm _ sp h0 h1 h2 h5 h6 h7]
    congr 2
    simp only [rowAddr]; ring
  · have hout : ∀ r c : Nat, r < height → c < 8 → a ≠ rowAddr dst dp r + (c : Int) :=
      fun r c hr hc he => hin ⟨r, c, hr, hc, he⟩
    rw [k2.2 a hout, k8.2 a hout]

/-- With zero outer taps the width-16 2-tap vertical filter at `src + 3 * pitch` gives the
memory of the 8-tap vertical filter at `src`. -/
theorem v2_eq_v8_width16 (srcm dstm : Mem) (src dst sp dp : Int) (height : Nat)
    (f : Nat → Int) (bd : Nat) (hh : 2 ≤ height) (hlt : height < 4294967296) (hdp : 16 ≤ dp)
    (h0 : f 0 = 0) (h1 : f 1 = 0) (h2 : f 2 = 0) (h5 : f 5 = 0) (h6 : f 6 = 0) (h7 : f 7 = 0)
    (a : Int) :
    aom_highbd_filter_block1d16_v2_avx2 srcm (src + 3 * sp) sp dstm dst dp height f bd a
      = aom_highbd_filter_block1d16_v8_avx2 srcm src sp dstm dst dp height f bd a := by
  have k2 := filter_block_width16_2t_vert_rows write_16x1_pixels gPlain
    write_16x1_pixels_spec srcm (src + 3 * sp) sp dstm dst dp height f bd hdp (by omega) hlt
  have k8 := filter_block_width16_vert_rows write_16x1_pixels_ver write_16x2_pixels gPlain
    write_16x1_pixels_ver_spec write_16x2_pixels_spec srcm src sp dstm dst dp height f bd hdp
    hh hlt
  unfold aom_highbd_filter_block1d16_v2_avx2 aom_highbd_filter_block1d16_v8_avx2
  by_cases hin : ∃ r c : Nat, r < height ∧ c < 16 ∧ a = rowAddr dst dp r + (c : Int)
  · obtain ⟨r, c, hr, hc, rfl⟩ := hin
    rw [k2.1 r c hr hc, k8.1 r c hr hc, gPlain, gPlain, conv8_eq_conv2 f srcm _ sp h0 h1 h2 h5 h6 h7]
    congr 2
    simp only [rowAddr]; ring
  · have hout : ∀ r c : Nat, r < height → c < 16 → a ≠ rowAddr dst dp r + (c : Int) :=
      fun r c hr hc he => hin ⟨r, c, hr, hc, he⟩
    rw [k2.2 a hout, k8.2 a hout]

/-- C24: for every height `>= 1`, `bd` in {8, 10, 12}, a kernel of 16-bit taps and source
samples in `[0, 2^bd)` with a rounded sum below `2^15`, the 2-tap vertical filters of
widths 8 and 16 store
`dst[r][c] = min(max((f[3]*src_ptr[r][c] + f[4]*src_ptr[r+1][c] + 64) >> 7, 0), 2^bd - 1)`;
and for a kernel with zero outer taps and a height `>= 2` the 2-tap vertical filter called
at `src_ptr + 3 * pitch` leaves the same memory as the 8-tap vertical filter called at
`src_ptr`.  The destination rows do not overlap and `height` is a `uint32_t`. -/
theorem two_tap_vertical_correct (srcm dstm : Mem) (src dst src_pitch dst_pitch : Int)
    (height : Nat) (filter : Nat → Int) (bd : Nat)
    (hh : 1 ≤ height) (hlt : height < 4294967296) :
    (bd = 8 ∨ bd = 10 ∨ bd = 12 → (∀ k, k < 8 → -32768 ≤ filter k ∧ filter k < 32768) →
      (∀ a, srcm a < 2 ^ bd) → ∀ r c : Nat, r < height →
      (filter 3 * (srcm (src + (r : Int) * src_pitch + (c : Int)) : Int)
        + filter 4 * (srcm (src + ((r : Int) + 1) * src_pitch + (c : Int)) : Int) + 64) / 128
        < 32768 →
      (8 ≤ dst_pitch → c < 8 →
        ((aom_highbd_filter_block1d8_v2_avx2 srcm src src_pitch dstm dst dst_pitch height filter
            bd (dst + (r : Int) * dst_pitch + (c : Int)) : Nat) : Int)
          = min (max ((filter 3 * (srcm (src + (r : Int) * src_pitch + (c : Int)) : Int)
              + filter 4 * (srcm (src + ((r : Int) + 1) * src_pitch + (c : Int)) : Int) + 64)
              / 128) 0) (2 ^ bd - 1))
      ∧ (16 ≤ dst_pitch → c < 16 →
        ((aom_highbd_filter_block1d16_v2_avx2 srcm src src_pitch dstm dst dst_pitch height
            filter bd (dst + (r : Int) * dst_pitch + (c : Int)) : Nat) : Int)
          = min (max ((filter 3 * (srcm (src + (r : Int) * src_pitch + (c : Int)) : Int)
              + filter 4 * (srcm (src + ((r : Int) + 1) * src_pitch + (c : Int)) : Int) + 64)
              / 128) 0) (2 ^ bd - 1)))
    ∧ (filter 0 = 0 → filter 1 = 0 → filter 2 = 0 → filter 5 = 0 → filter 6 = 0 →
      filter 7 = 0 → 2 ≤ height →
      (8 ≤ dst_pitch → ∀ a,
        aom_highbd_filter_block1d8_v2_avx2 srcm (src + 3 * src_pitch) src_pitch dstm dst
            dst_pitch height filter bd a
          = aom_highbd_filter_block1d8_v8_avx2 srcm src src_pitch dstm dst dst_pitch height
            filter bd a)
      ∧ (16 ≤ dst_pitch → ∀ a,
        aom_highbd_filter_block1d16_v2_avx2 srcm (src + 3 * src_pitch) src_pitch dstm dst
            dst_pitch height filter bd a
          = aom_highbd_filter_block1d16_v8_avx2 srcm src src_pitch dstm dst dst_pitch height
            filter bd a)) := by
  constructor
  · intro hbd hf hs r c hr hsum
    have ea : rowAddr src src_pitch r + (c : Int) = src + (r : Int) * src_pitch + (c : Int) := rfl
    have eb : src + (r : Int) * src_pitch + (c : Int) + src_pitch
        = src + ((r : Int) + 1) * src_pitch + (c : Int) := by ring
    have cl := conv2_clamp filter srcm (src + (r : Int) * src_pitch + (c : Int)) src_pitch bd
      hbd hf hs (by rw [eb]; exact hsum)
    rw [eb] at cl
    constructor
    · intro hdp hc
      have k := (filter_block_width8_2t_vert_rows write_8x1_2t_pixels_ver gPlain
        write_8x1_2t_pixels_ver_spec srcm src src_pitch dstm dst dst_pitch height filter bd hdp
        hh hlt).1 r c hr hc
      simp only [rowAddr] at k
      unfold aom_highbd_filter_block1d8_v2_avx2
      rw [k, gPlain, cl]
    · intro hdp hc
      have k := (filter_block_width16_2t_vert_rows write_16x1_pixels gPlain
        write_16x1_pixels_spec srcm src src_pitch dstm dst dst_pitch height filter bd hdp
        hh hlt).1 r c hr hc
      simp only [rowAddr] at k
      unfold aom_highbd_filter_block1d16_v2_avx2
      rw [k, gPlain, cl]
  · intro h0 h1 h2 h5 h6 h7 hh2
    exact ⟨fun hdp a => v2_eq_v8_width8 srcm dstm src dst src_pitch dst_pitch height filter bd
        hh2 hlt hdp h0 h1 h2 h5 h6 h7 a,
      fun hdp a => v2_eq_v8_width16 srcm dstm src dst src_pitch dst_pitch height filter bd
        hh2 hlt hdp h0 h1 h2 h5 h6 h7 a⟩

theorem two_tap_vertical_correct_witness :
    ((aom_highbd_filter_block1d8_v2_avx2 (fun _ => 200) 0 32 (fun _ => 0) 0 16 3 halfKernel
        8 (0 + ((2 : Nat) : Int) * 16 + ((7 : Nat) : Int)) : Nat) : Int)
      = min (max ((halfKernel 3
            * (((fun _ => 200 : Mem) (0 + ((2 : Nat) : Int) * 32 + ((7 : Nat) : Int)) : Nat) : Int)
          + halfKernel 4
            * (((fun _ => 200 : Mem) (0 + (((2 : Nat) : Int) + 1) * 32 + ((7 : Nat) : Int)) : Nat)
              : Int) + 64) / 128) 0) (2 ^ 8 - 1)
    ∧ aom_highbd_filter_block1d16_v2_avx2 (fun _ => 200) (0 + 3 * 32) 32 (fun _ => 0) 0 16 3
        halfKernel 8 5
      = aom_highbd_filter_block1d16_v8_avx2 (fun _ => 200) 0 32 (fun _ => 0) 0 16 3
        halfKernel 8 5 := by
  have h := two_tap_vertical_correct (fun _ => 200) (fun _ => 0) 0 0 32 16 3 halfKernel 8
    (by decide) (by decide)
  have h1 := h.1 (Or.inl rfl) (fun k _ => by unfold halfKernel; split_ifs <;> decide)
    (fun _ => (by decide : (200 : Nat) < 2 ^ 8)) 2 7 (by decide) (by decide)
  have h2 := h1.1 (by decide) (by decide)
  have h3 := h.2 rfl rfl rfl rfl rfl rfl (by decide)
  have h4 := h3.2 (by decide) 5
  exact ⟨h2, h4⟩

/-- Rows and frame of `aom_highbd_convolve_avg_avx2` for a height `n + 1`. -/
theorem avg_block_spec (srcm dstm : Mem) (src dst ss ds : Int) (fx fy : Nat → Int)
    (fxs fys : Int) (width : Nat) (n : Nat) (bd : Nat) (hds : (width : Int) ≤ ds) :
    (∀ r c : Nat, r < n + 1 → c < width →
      aom_highbd_convolve_avg_avx2 srcm src ss dstm dst ds fx fxs fy fys width ((n : Int) + 1) bd
          (dst + (r : Int) * ds + (c : Int))
        = gAvg (srcm (src + (r : Int) * ss + (c : Int)) % 65536)
            (dstm (dst + (r : Int) * ds + (c : Int))))
    ∧ (∀ a, (∀ r c : Nat, r < n + 1 → c < width → a ≠ dst + (r : Int) * ds + (c : Int)) →
      aom_highbd_convolve_avg_avx2 srcm src ss dstm dst ds fx fxs fy fys width ((n : Int) + 1) bd
          a = dstm a) := by
  have key := rows_loop_spec (fun x y => gAvg (x % 65536) y)
    (fun s m d => convolve_avg_row srcm s m d width)
    (fun h s d m => avg_rows srcm ss ds width h s d m) ss ds
    width srcm (fun s m d a => convolve_avg_row_spec srcm s m d width a)
    (fun h s d m => avg_rows_unfold srcm ss ds width h s d m) hds n src dst dstm
  simp only [rowAddr] at key
  unfold aom_highbd_convolve_avg_avx2
  exact key

/-- Rows and frame of `aom_highbd_convolve_copy_avx2` for a height `n + 1`. -/
theorem copy_block_spec (srcm dstm : Mem) (src dst ss ds : Int) (fx fy : Nat → Int)
    (fxs fys : Int) (width : Nat) (n : Nat) (bd : Nat) (hds : (width : Int) ≤ ds) :
    (∀ r c : Nat, r < n + 1 → c < width →
      aom_highbd_convolve_copy_avx2 srcm src ss dstm dst ds fx fxs fy fys width ((n : Int) + 1)
          bd (dst + (r : Int) * ds + (c : Int))
        = srcm (src + (r : Int) * ss + (c : Int)) % 65536)
    ∧ (∀ a, (∀ r c : Nat, r < n + 1 → c < width → a ≠ dst + (r : Int) * ds + (c : Int)) →
      aom_highbd_convolve_copy_avx2 srcm src ss dstm dst ds fx fxs fy fys width ((n : Int) + 1)
          bd a = dstm a) := by
  have key := rows_loop_spec (fun x _ => x % 65536)
    (fun s m d => convolve_copy_row srcm s m d width)
    (fun h s d m => copy_rows srcm ss ds width h s d m) ss ds
    width srcm (fun s m d a => convolve_copy_row_spec srcm s m d width a)
    (fun h s d m => copy_rows_unfold srcm ss ds width h s d m) hds n src dst dstm
  simp only [rowAddr] at key
  unfold aom_highbd_convolve_copy_avx2
  exact key

theorem gAvg_between (x y : Nat) (hy : y < 65536) :
    gAvg x y = (x + y + 1) / 2 ∧ min x y ≤ gAvg x y ∧ gAvg x y ≤ max x y
      ∧ gAvg x y = (y + x + 1) / 2 := by
  unfold gAvg
  rw [Nat.mod_eq_of_lt hy]
  refine ⟨rfl, ?_, ?_, ?_⟩
  · rcases Nat.le_total x y with h | h
    · rw [min_eq_left h]; omega
    · rw [min_eq_right h]; omega
  · rcases Nat.le_total x y with h | h
    · rw [max_eq_right h]; omega
    · rw [max_eq_left h]; omega
  · rw [Nat.add_comm y x]

/-- C28: for 16-bit samples `s` (source) and `d` (destination), the value
`r = (s + d + 1) >> 1` that `convolve_avg_row` stores at each of its `width` columns lies
between `min(s, d)` and `max(s, d)` and is symmetric: the same value is stored when the
roles of the two rows are exchanged.  Hence `aom_highbd_convolve_avg_avx2` on a destination
that already holds the source samples of the block leaves the destination unchanged. -/
theorem avg_between_and_symmetric (srcm dstm : Mem) (src dst src_stride dst_stride : Int)
    (filter_x filter_y : Nat → Int) (filter_x_stride filter_y_stride : Int)
    (width : Nat) (h : Int) (bd : Nat)
    (hsrc : ∀ a, srcm a < 65536) (hdst : ∀ a, dstm a < 65536) :
    (∀ c : Nat, c < width →
      convolve_avg_row srcm src dstm dst width (dst + (c : Int))
          = (srcm (src + (c : Int)) + dstm (dst + (c : Int)) + 1) / 2
      ∧ min (srcm (src + (c : Int))) (dstm (dst + (c : Int)))
          ≤ convolve_avg_row srcm src dstm dst width (dst + (c : Int))
      ∧ convolve_avg_row srcm src dstm dst width (dst + (c : Int))
          ≤ max (srcm (src + (c : Int))) (dstm (dst + (c : Int)))
      ∧ convolve_avg_row dstm dst srcm src width (src + (c : Int))
          = convolve_avg_row srcm src dstm dst width (dst + (c : Int)))
    ∧ (1 ≤ h → (width : Int) ≤ dst_stride →
      (∀ r c : Nat, (r : Int) < h → c < width →
        dstm (dst + (r : Int) * dst_stride + (c : Int))
          = srcm (src + (r : Int) * src_stride + (c : Int))) →
      ∀ a, aom_highbd_convolve_avg_avx2 srcm src src_stride dstm dst dst_stride filter_x
        filter_x_stride filter_y filter_y_stride width h bd a = dstm a) := by
  constructor
  · intro c hc
    have e1 : dst + (c : Int) - dst = (c : Int) := by ring
    have e2 : src + (c : Int) - src = (c : Int) := by ring
    have v1 : convolve_avg_row srcm src dstm dst width (dst + (c : Int))
        = gAvg (srcm (src + (c : Int))) (dstm (dst + (c : Int))) := by
      rw [convolve_avg_row_spec, if_pos (by omega), e1, Nat.mod_eq_of_lt (hsrc _)]
    have v2 : convolve_avg_row dstm dst srcm src width (src + (c : Int))
        = gAvg (dstm (dst + (c : Int))) (srcm (src + (c : Int))) := by
      rw [convolve_avg_row_spec, if_pos (by omega), e2, Nat.mod_eq_of_lt (hdst _)]
    obtain ⟨g1, g2, g3, _⟩ := gAvg_between (srcm (src + (c : Int))) (dstm (dst + (c : Int)))
      (hdst _)
    obtain ⟨k1, _, _, k4⟩ := gAvg_between (dstm (dst + (c : Int))) (srcm (src + (c : Int)))
      (hsrc _)
    rw [v1, v2]
    exact ⟨g1, g2, g3, by rw [k4, g1]⟩
  · intro hh hds hsame a
    obtain ⟨n, hn⟩ : ∃ n : Nat, h = (n : Int) + 1 := ⟨(h - 1).toNat, by omega⟩
    subst hn
    obtain ⟨rows, frame⟩ := avg_block_spec srcm dstm src dst src_stride dst_stride filter_x
      filter_y filter_x_stride filter_y_stride width n bd hds
    by_cases hin : ∃ r c : Nat, r < n + 1 ∧ c < width ∧ a = dst + (r : Int) * dst_stride + (c : Int)
    · obtain ⟨r, c, hr, hc, rfl⟩ := hin
      rw [rows r c hr hc, ← hsame r c (by omega) hc, Nat.mod_eq_of_lt (hdst _)]
      have hd := hdst (dst + (r : Int) * dst_stride + (c : Int))
      unfold gAvg
      omega
    · exact frame a (fun r c hr hc he => hin ⟨r, c, hr, hc, he⟩)

theorem avg_between_and_symmetric_witness :
    (convolve_avg_row (fun _ => 7) 0 (fun _ => 10) 100 13 (100 + ((12 : Nat) : Int))
          = ((fun _ => 7 : Mem) (0 + ((12 : Nat) : Int))
              + (fun _ => 10 : Mem) (100 + ((12 : Nat) : Int)) + 1) / 2
      ∧ min ((fun _ => 7 : Mem) (0 + ((12 : Nat) : Int)))
            ((fun _ => 10 : Mem) (100 + ((12 : Nat) : Int)))
          ≤ convolve_avg_row (fun _ => 7) 0 (fun _ => 10) 100 13 (100 + ((12 : Nat) : Int))
      ∧ convolve_avg_row (fun _ => 7) 0 (fun _ => 10) 100 13 (100 + ((12 : Nat) : Int))
          ≤ max ((fun _ => 7 : Mem) (0 + ((12 : Nat) : Int)))
            ((fun _ => 10 : Mem) (100 + ((12 : Nat) : Int)))
      ∧ convolve_avg_row (fun _ => 10) 100 (fun _ => 7) 0 13 (0 + ((12 : Nat) : Int))
          = convolve_avg_row (fun _ => 7) 0 (fun _ => 10) 100 13 (100 + ((12 : Nat) : Int)))
    ∧ aom_highbd_convolve_avg_avx2 (fun _ => 9) 0 40 (fun _ => 9) 0 13 (fun _ => 0) 0
        (fun _ => 0) 0 13 3 8 5 = (fun _ => 9 : Mem) 5 := by
  have h := avg_between_and_symmetric (fun _ => 7) (fun _ => 10) 0 100 40 13 (fun _ => 0)
    (fun _ => 0) 0 0 13 3 8 (fun _ => (by decide : (7 : Nat) < 65536))
    (fun _ => (by decide : (10 : Nat) < 65536))
  have h1 := h.1 12 (by decide)
  have g := avg_between_and_symmetric (fun _ => 9) (fun _ => 9) 0 0 40 13 (fun _ => 0)
    (fun _ => 0) 0 0 13 3 8 (fun _ => (by decide : (9 : Nat) < 65536))
    (fun _ => (by decide : (9 : Nat) < 65536))
  have g2 := g.2 (by decide) (by decide) (fun _ _ _ _ => rfl) 5
  exact ⟨h1, g2⟩

theorem copy_rows_le_one (src : Mem) (ss ds : Int) (width : Nat) (h s d : Int) (m : Mem)
    (hh : h ≤ 1) : copy_rows src ss ds width h s d m = convolve_copy_row src s m d width := by
  rw [copy_rows_unfold, if_neg (by omega)]

theorem avg_rows_le_one (src : Mem) (ss ds : Int) (width : Nat) (h s d : Int) (m : Mem)
    (hh : h ≤ 1) : avg_rows src ss ds width h s d m = convolve_avg_row src s m d width := by
  rw [avg_rows_unfold, if_neg (by omega)]

/-- C29: the row loops of `aom_highbd_convolve_copy_avx2` and `aom_highbd_convolve_avg_avx2`
end for every signed height `h` (above `INT_MIN`, so that `h -= 1` is an `int`) after
`max(h, 1)` rows: the call gives the memory of the call with height `max(h, 1)`; for
`h <= 0` that is the memory after one `convolve_copy_row` / `convolve_avg_row`, a full row
of `width` samples; and with `dst_stride >= width` exactly the rows `0 .. max(h, 1) - 1`
are written. -/
theorem copy_avg_rows_count (srcm dstm : Mem) (src dst src_stride dst_stride : Int)
    (filter_x filter_y : Nat → Int) (filter_x_stride filter_y_stride : Int)
    (width : Nat) (h : Int) (bd : Nat) (hmin : -2147483648 < h) :
    (aom_highbd_convolve_copy_avx2 srcm src src_stride dstm dst dst_stride filter_x
        filter_x_stride filter_y filter_y_stride width h bd
      = aom_highbd_convolve_copy_avx2 srcm src src_stride dstm dst dst_stride filter_x
        filter_x_stride filter_y filter_y_stride width (max h 1) bd
    ∧ aom_highbd_convolve_avg_avx2 srcm src src_stride dstm dst dst_stride filter_x
        filter_x_stride filter_y filter_y_stride width h bd
      = aom_highbd_convolve_avg_avx2 srcm src src_stride dstm dst dst_stride filter_x
        filter_x_stride filter_y filter_y_stride width (max h 1) bd)
    ∧ (h ≤ 0 →
      aom_highbd_convolve_copy_avx2 srcm src src_stride dstm dst dst_stride filter_x
          filter_x_stride filter_y filter_y_stride width h bd
        = convolve_copy_row srcm src dstm dst width
      ∧ aom_highbd_convolve_avg_avx2 srcm src src_stride dstm dst dst_stride filter_x
          filter_x_stride filter_y filter_y_stride width h bd
        = convolve_avg_row srcm src dstm dst width)
    ∧ ((width : Int) ≤ dst_stride →
      (∀ r c : Nat, (r : Int) < max h 1 → c < width →
        aom_highbd_convolve_copy_avx2 srcm src src_stride dstm dst dst_stride filter_x
            filter_x_stride filter_y filter_y_stride width h bd
            (dst + (r : Int) * dst_stride + (c : Int))
          = srcm (src + (r : Int) * src_stride + (c : Int)) % 65536
        ∧ aom_highbd_convolve_avg_avx2 srcm src src_stride dstm dst dst_stride filter_x
            filter_x_stride filter_y filter_y_stride width h bd
            (dst + (r : Int) * dst_stride + (c : Int))
          = (srcm (src + (r : Int) * src_stride + (c : Int)) % 65536
              + dstm (dst + (r : Int) * dst_stride + (c : Int)) % 65536 + 1) / 2)
      ∧ (∀ a, (∀ r c : Nat, (r : Int) < max h 1 → c < width →
            a ≠ dst + (r : Int) * dst_stride + (c : Int)) →
        aom_highbd_convolve_copy_avx2 srcm src src_stride dstm dst dst_stride filter_x
            filter_x_stride filter_y filter_y_stride width h bd a = dstm a
        ∧ aom_highbd_convolve_avg_avx2 srcm src src_stride dstm dst dst_stride filter_x
            filter_x_stride filter_y filter_y_stride width h bd a = dstm a)) := by
  have hmax : (aom_highbd_convolve_copy_avx2 srcm src src_stride dstm dst dst_stride filter_x
        filter_x_stride filter_y filter_y_stride width h bd
      = aom_highbd_convolve_copy_avx2 srcm src src_stride dstm dst dst_stride filter_x
        filter_x_stride filter_y filter_y_stride width (max h 1) bd
    ∧ aom_highbd_convolve_avg_avx2 srcm src src_stride dstm dst dst_stride filter_x
        filter_x_stride filter_y filter_y_stride width h bd
      = aom_highbd_convolve_avg_avx2 srcm src src_stride dstm dst dst_stride filter_x
        filter_x_stride filter_y filter_y_stride width (max h 1) bd) := by
    rcases le_or_lt h 1 with h1 | h1
    · rw [max_eq_right h1]
      unfold aom_highbd_convolve_copy_avx2 aom_highbd_convolve_avg_avx2
      rw [copy_rows_le_one _ _ _ _ h _ _ _ h1, copy_rows_le_one _ _ _ _ 1 _ _ _ (le_refl 1),
        avg_rows_le_one _ _ _ _ h _ _ _ h1, avg_rows_le_one _ _ _ _ 1 _ _ _ (le_refl 1)]
      exact ⟨rfl, rfl⟩
    · rw [max_eq_left (le_of_lt h1)]
      exact ⟨rfl, rfl⟩
  refine ⟨hmax, ?_, ?_⟩
  · intro h0
    unfold aom_highbd_convolve_copy_avx2 aom_highbd_convolve_avg_avx2
    rw [copy_rows_le_one _ _ _ _ h _ _ _ (by omega), avg_rows_le_one _ _ _ _ h _ _ _ (by omega)]
    exact ⟨rfl, rfl⟩
  · intro hds
    rw [hmax.1, hmax.2]
    obtain ⟨n, hn⟩ : ∃ n : Nat, max h 1 = (n : Int) + 1 :=
      ⟨(max h 1 - 1).toNat, by have := le_max_right h 1; omega⟩
    rw [hn]
    obtain ⟨cr, cf⟩ := copy_block_spec srcm dstm src dst src_stride dst_stride filter_x
      filter_y filter_x_stride filter_y_stride width n bd hds
    obtain ⟨ar, af⟩ := avg_block_spec srcm dstm src dst src_stride dst_stride filter_x
      filter_y filter_x_stride filter_y_stride width n bd hds
    constructor
    · intro r c hr hc
      exact ⟨cr r c (by omega) hc, by rw [ar r c (by omega) hc, gAvg]⟩
    · intro a ha
      have ha2 : ∀ r c : Nat, r < n + 1 → c < width →
          a ≠ dst + (r : Int) * dst_stride + (c : Int) := fun r c hr hc => ha r c (by omega) hc
      exact ⟨cf a ha2, af a ha2⟩

theorem copy_avg_rows_count_witness :
    aom_highbd_convolve_copy_avx2 (fun _ => 7) 0 40 (fun _ => 5) 0 16 (fun _ => 0) 0
        (fun _ => 0) 0 13 (-4) 8
      = convolve_copy_row (fun _ => 7) 0 (fun _ => 5) 0 13
    ∧ aom_highbd_convolve_avg_avx2 (fun _ => 7) 0 40 (fun _ => 5) 0 16 (fun _ => 0) 0
        (fun _ => 0) 0 13 (-4) 8
      = convolve_avg_row (fun _ => 7) 0 (fun _ => 5) 0 13 := by
  have h := copy_avg_rows_count (fun _ => 7) (fun _ => 5) 0 0 40 16 (fun _ => 0) (fun _ => 0)
    0 0 13 (-4) 8 (by decide)
  exact h.2.1 (by decide)

/-- A flat window filtered by a kernel whose taps sum to 128 gives the flat value. -/
theorem conv8_flat (f : Nat → Int) (srcm : Mem) (p stride : Int) (v : Nat)
    (hf : ∀ k, k < 8 → -32768 ≤ f k ∧ f k < 32768) (hs : ∀ a, srcm a < 4096)
    (hsum : ∑ k in range 8, f k = 128)
    (hflat : ∀ k : Nat, k < 8 → srcm (p + (k : Int) * stride) = v) :
    conv8 f srcm p stride = (v : Int) := by
  rw [conv8_exact f srcm p stride hf hs]
  have e : ∑ k in range 8, f k * (srcm (p + (k : Int) * stride) : Int) = 128 * (v : Int) := by
    rw [← hsum, sum_mul]
    apply sum_congr rfl
    intro k hk
    rw [hflat k (mem_range.mp hk)]
  rw [e]
  omega

/-- Two equal samples filtered by centre taps that sum to 128 give the sample. -/
theorem conv2_flat (f : Nat → Int) (srcm : Mem) (p stride : Int) (v : Nat)
    (hf : ∀ k, k < 8 → -32768 ≤ f k ∧ f k < 32768) (hs : ∀ a, srcm a < 4096)
    (hsum : f 3 + f 4 = 128) (h0 : srcm p = v) (h1 : srcm (p + stride) = v) :
    conv2 f srcm p stride = (v : Int) := by
  rw [conv2_exact f srcm p stride hf hs, h0, h1]
  have e : f 3 * (v : Int) + f 4 * (v : Int) = 128 * (v : Int) := by rw [← add_mul, hsum]
  rw [e]
  omega

theorem outWord_nat (bd : Nat) (hbd : bd = 8 ∨ bd = 10 ∨ bd = 12) (v : Nat) (hv : v < 2 ^ bd) :
    outWord (u16 (2 ^ bd - 1)) (v : Int) = v := by
  have h4 : v < 32768 := by rcases hbd with h | h | h <;> subst h <;> omega
  have e := outWord_sample bd hbd v hv
  rw [s16_small v h4] at e
  exact e

/-- Exact lane value of `filter_8x1_pixels` for 16-bit taps and samples below 4096. -/
theorem filter_8x1_pixels_exact (sig fil : RegArr) (f : Nat → Int) (s : Nat → Nat) (k : Nat)
    (hf : ∀ j, j < 8 → -32768 ≤ f j ∧ f j < 32768)
    (hs : ∀ j, j < 8 → s j < 4096)
    (hfil : ∀ i, i < 4 → w16 (fil i) (2 * k) = u16 (f (2 * i))
      ∧ w16 (fil i) (2 * k + 1) = u16 (f (2 * i + 1)))
    (hsig : ∀ i, i < 4 → w16 (sig i) (2 * k) = s (2 * i)
      ∧ w16 (sig i) (2 * k + 1) = s (2 * i + 1)) :
    s32 (d32 (filter_8x1_pixels sig fil) k)
      = (∑ j in range 8, f j * (s j : Int) + 64) / 128 := by
  have hp : ∀ i, i < 4 → pairProd (fil i) (sig i) k
      = f (2 * i) * (s (2 * i) : Int) + f (2 * i + 1) * (s (2 * i + 1) : Int) := by
    intro i hi
    unfold pairProd
    rw [(hfil i hi).1, (hfil i hi).2, (hsig i hi).1, (hsig i hi).2,
      s16_u16 _ (hf (2 * i) (by omega)).1 (hf (2 * i) (by omega)).2,
      s16_u16 _ (hf (2 * i + 1) (by omega)).1 (hf (2 * i + 1) (by omega)).2,
      s16_small _ (by have := hs (2 * i) (by omega); omega),
      s16_small _ (by have := hs (2 * i + 1) (by omega); omega)]
  have hb : ∀ j, j < 8 → -134217728 ≤ f j * (s j : Int) ∧ f j * (s j : Int) ≤ 134217728 :=
    fun j hj => mul_tap_bound _ _ (hf j hj).1 (hf j hj).2 (by omega)
      (by have := hs j hj; omega)
  have p0 := hp 0 (by omega)
  have p1 := hp 1 (by omega)
  have p2 := hp 2 (by omega)
  have p3 := hp 3 (by omega)
  norm_num at p0 p1 p2 p3
  have b0 := hb 0 (by omega)
  have b1 := hb 1 (by omega)
  have b2 := hb 2 (by omega)
  have b3 := hb 3 (by omega)
  have b4 := hb 4 (by omega)
  have b5 := hb 5 (by omega)
  have b6 := hb 6 (by omega)
  have b7 := hb 7 (by omega)
  rw [filter_8x1_lane, p0, p1, p2, p3, wrap32_id _ (by omega) (by omega)]
  simp only [sum_range_succ, sum_range_zero]
  congr 1
  omega

/-- C30: flat regions are preserved.  For `bd` in {8, 10, 12}, a kernel of 16-bit taps,
source samples in `[0, 2^bd)` and a value `v` in `[0, 2^bd)`: when the eight taps sum to 128
and the eight samples of a window equal `v`, the lane of `filter_8x1_pixels` is `v` and the
8-tap filters (horizontal and vertical, widths 8 and 16) store `v` at that position; when
`filter[3] + filter[4] = 128` and the two centre samples equal `v`, the 2-tap filters store
`v`.  The destination rows do not overlap and `2 <= height < 2^32`. -/
theorem flat_regions_preserved (srcm dstm : Mem) (src dst src_pitch dst_pitch : Int)
    (height : Nat) (filter : Nat → Int) (bd : Nat) (v : Nat)
    (hbd : bd = 8 ∨ bd = 10 ∨ bd = 12)
    (hf : ∀ k, k < 8 → -32768 ≤ filter k ∧ filter k < 32768)
    (hs : ∀ a, srcm a < 2 ^ bd) (hv : v < 2 ^ bd)
    (hh : 2 ≤ height) (hlt : height < 4294967296) (r c : Nat) (hr : r < height) :
    (∑ k in range 8, filter k = 128 →
      (∀ (sig fil : RegArr) (k : Nat),
        (∀ i, i < 4 → w16 (fil i) (2 * k) = u16 (filter (2 * i))
          ∧ w16 (fil i) (2 * k + 1) = u16 (filter (2 * i + 1))) →
        (∀ i, i < 4 → w16 (sig i) (2 * k) = v ∧ w16 (sig i) (2 * k + 1) = v) →
        s32 (d32 (filter_8x1_pixels sig fil) k) = (v : Int))
      ∧ ((∀ k : Nat, k < 8 →
          srcm (src + (r : Int) * src_pitch + (c : Int) - 3 + (k : Int)) = v) →
        (8 ≤ dst_pitch → c < 8 →
          aom_highbd_filter_block1d8_h8_avx2 srcm src src_pitch dstm dst dst_pitch height
            filter bd (dst + (r : Int) * dst_pitch + (c : Int)) = v)
        ∧ (16 ≤ dst_pitch → c < 16 →
          aom_highbd_filter_block1d16_h8_avx2 srcm src src_pitch dstm dst dst_pitch height
            filter bd (dst + (r : Int) * dst_pitch + (c : Int)) = v))
      ∧ ((∀ k : Nat, k < 8 →
          srcm (src + ((r : Int) + (k : Int)) * src_pitch + (c : Int)) = v) →
        (8 ≤ dst_pitch → c < 8 →
          aom_highbd_filter_block1d8_v8_avx2 srcm src src_pitch dstm dst dst_pitch height
            filter bd (dst + (r : Int) * dst_pitch + (c : Int)) = v)
        ∧ (16 ≤ dst_pitch → c < 16 →
          aom_highbd_filter_block1d16_v8_avx2 srcm src src_pitch dstm dst dst_pitch height
            filter bd (dst + (r : Int) * dst_pitch + (c : Int)) = v)))
    ∧ (filter 3 + filter 4 = 128 → srcm (src + (r : Int) * src_pitch + (c : Int)) = v →
      (srcm (src + (r : Int) * src_pitch + (c : Int) + 1) = v →
        (8 ≤ dst_pitch → c < 8 →
          aom_highbd_filter_block1d8_h2_avx2 srcm src src_pitch dstm dst dst_pitch height
            filter bd (dst + (r : Int) * dst_pitch + (c : Int)) = v)
        ∧ (16 ≤ dst_pitch → c < 16 →
          aom_highbd_filter_block1d16_h2_avx2 srcm src src_pitch dstm dst dst_pitch height
            filter bd (dst + (r : Int) * dst_pitch + (c : Int)) = v))
      ∧ (srcm (src + (r : Int) * src_pitch + (c : Int) + src_pitch) = v →
        (8 ≤ dst_pitch → c < 8 →
          aom_highbd_filter_block1d8_v2_avx2 srcm src src_pitch dstm dst dst_pitch height
            filter bd (dst + (r : Int) * dst_pitch + (c : Int)) = v)
        ∧ (16 ≤ dst_pitch → c < 16 →
          aom_highbd_filter_block1d16_v2_avx2 srcm src src_pitch dstm dst dst_pitch height
            filter bd (dst + (r : Int) * dst_pitch + (c : Int)) = v))) := by
  have hs4 := samples_lt_4096 srcm bd hbd hs
  have hv4 : v < 4096 := by rcases hbd with h | h | h <;> subst h <;> omega
  have ow := outWord_nat bd hbd v hv
  have h1 : 1 ≤ height := by omega
  constructor
  · intro hsum
    refine ⟨?_, ?_, ?_⟩
    · intro sig fil k hfil hsig
      rw [filter_8x1_pixels_exact sig fil filter (fun _ => v) k hf (fun _ _ => hv4) hfil hsig]
      have e : ∑ j in range 8, filter j * (((fun _ => v : Nat → Nat) j : Nat) : Int)
          = 128 * (v : Int) := by
        rw [← hsum, sum_mul]
      rw [e]
      omega
    · intro hflat
      have cv : conv8 filter srcm (src - 3 + (r : Int) * src_pitch + (c : Int)) 1 = (v : Int) := by
        apply conv8_flat filter srcm _ 1 v hf hs4 hsum
        intro k hk
        rw [← hflat k hk]
        congr 1
        ring
      constructor
      · intro hdp hc
        have k := (filter_block_width8_horiz_rows2 write_8x1_pixels write_8x2_pixels gPlain
          write_8x1_pixels_spec write_8x2_pixels_spec srcm src src_pitch dstm dst dst_pitch
          height filter bd hdp hh hlt).1 r c hr hc
        simp only [rowAddr] at k
        unfold aom_highbd_filter_block1d8_h8_avx2
        rw [k, gPlain, cv, ow]
      · intro hdp hc
        have k := (filter_block_width16_horiz_rows write_16x1_pixels gPlain
          write_16x1_pixels_spec srcm src src_pitch dstm dst dst_pitch
          height filter bd hdp h1 hlt).1 r c hr hc
        simp only [rowAddr] at k
        unfold aom_highbd_filter_block1d16_h8_avx2
        rw [k, gPlain, cv, ow]
    · intro hflat
      have cv : conv8 filter srcm (src + (r : Int) * src_pitch + (c : Int)) src_pitch
          = (v : Int) := by
        apply conv8_flat filter srcm _ src_pitch v hf hs4 hsum
        intro k hk
        rw [← hflat k hk]
        congr 1
        ring
      constructor
      · intro hdp hc
        have k := (filter_block_width8_vert_rows write_8x1_pixels_ver write_8x2_pixels gPlain
          write_8x1_pixels_ver_spec write_8x2_pixels_spec srcm src src_pitch dstm dst dst_pitch
          height filter bd hdp hh hlt).1 r c hr hc
        simp only [rowAddr] at k
        unfold aom_highbd_filter_block1d8_v8_avx2
        rw [k, gPlain, cv, ow]
      · intro hdp hc
        have k := (filter_block_width16_vert_rows write_16x1_pixels_ver write_16x2_pixels gPlain
          write_16x1_pixels_ver_spec write_16x2_pixels_spec srcm src src_pitch dstm dst
          dst_pitch height filter bd hdp hh hlt).1 r c hr hc
        simp only [rowAddr] at k
        unfold aom_highbd_filter_block1d16_v8_avx2
        rw [k, gPlain, cv, ow]
  · intro hsum h0
    constructor
    · intro hn
      have cv := conv2_flat filter srcm (src + (r : Int) * src_pitch + (c : Int)) 1 v hf hs4
        hsum h0 hn
      constructor
      · intro hdp hc
        have k := (filter_block_width8_2t_horiz_rows write_8x1_pixels write_8x2_pixels gPlain
          write_8x1_pixels_spec write_8x2_pixels_spec srcm src src_pitch dstm dst dst_pitch
          height filter bd hdp hh hlt).1 r c hr hc
        simp only [rowAddr] at k
        unfold aom_highbd_filter_block1d8_h2_avx2
        rw [k, gPlain, cv, ow]
      · intro hdp hc
        have k := (filter_block_width16_2t_horiz_rows write_16x1_pixels gPlain
          write_16x1_pixels_spec srcm src src_pitch dstm dst dst_pitch
          height filter bd hdp h1 hlt).1 r c hr hc
        simp only [rowAddr] at k
        unfold aom_highbd_filter_block1d16_h2_avx2
        rw [k, gPlain, cv, ow]
    · intro hn
      have cv := conv2_flat filter srcm (src + (r : Int) * src_pitch + (c : Int)) src_pitch v hf
        hs4 hsum h0 hn
      constructor
      · intro hdp hc
        have k := (filter_block_width8_2t_vert_rows write_8x1_2t_pixels_ver gPlain
          write_8x1_2t_pixels_ver_spec srcm src src_pitch dstm dst dst_pitch height filter bd
          hdp h1 hlt).1 r c hr hc
        simp only [rowAddr] at k
        unfold aom_highbd_filter_block1d8_v2_avx2
        rw [k, gPlain, cv, ow]
      · intro hdp hc
        have k := (filter_block_width16_2t_vert_rows write_16x1_pixels gPlain
          write_16x1_pixels_spec srcm src src_pitch dstm dst dst_pitch height filter bd
          hdp h1 hlt).1 r c hr hc
        simp only [rowAddr] at k
        unfold aom_highbd_filter_block1d16_v2_avx2
        rw [k, gPlain, cv, ow]

theorem flat_regions_preserved_witness :
    aom_highbd_filter_block1d8_h8_avx2 (fun _ => 200) 0 32 (fun _ => 0) 0 16 3 halfKernel 8
        (0 + ((2 : Nat) : Int) * 16 + ((7 : Nat) : Int)) = 200
    ∧ aom_highbd_filter_block1d16_v2_avx2 (fun _ => 200) 0 32 (fun _ => 0) 0 16 3 halfKernel 8
        (0 + ((2 : Nat) : Int) * 16 + ((7 : Nat) : Int)) = 200 := by
  have h := flat_regions_preserved (fun _ => 200) (fun _ => 0) 0 0 32 16 3 halfKernel 8 200
    (Or.inl rfl) (fun k _ => by unfold halfKernel; split_ifs <;> decide)
    (fun _ => (by decide : (200 : Nat) < 2 ^ 8)) (by decide) (by decide) (by decide) 2 7
    (by decide)
  have h1 := h.1 (by simp [sum_range_succ, halfKernel])
  have h2 := (h1.2.1 (fun _ _ => rfl)).1 (by decide) (by decide)
  have h3 := h.2 (by decide) rfl
  have h4 := (h3.2 rfl).2 (by decide) (by decide)
  exact ⟨h2, h4⟩

/-- Element `i` of the array returned by `aom_decode_cdf_adapt_`, from the array left by
the renormalisation block (run or skipped). -/
theorem cdf_adapt_final_entry {R : Type} (aom_read_cdf_unscaled : R → Mem → Int → Int × R)
    (r : R) (cdf : Mem) (n increment : Int) (i : Int) :
    (aom_decode_cdf_adapt_ aom_read_cdf_unscaled r cdf n increment).2.2 i
      = if (aom_read_cdf_unscaled r cdf n).1 ≤ i ∧ i < n then
          u16 (((if 32767 < int32 ((cdf (n - 1) : Int) + increment) then
              for_loop 0 n (fun i c => storeAt c i (u16 (sar (c i : Int) 1 + i + 1))) cdf
            else cdf) i : Nat) + increment)
        else (if 32767 < int32 ((cdf (n - 1) : Int) + increment) then
              for_loop 0 n (fun i c => storeAt c i (u16 (sar (c i : Int) 1 + i + 1))) cdf
            else cdf) i := by
  unfold aom_decode_cdf_adapt_
  simp only []
  rw [for_loop_pointwise (aom_read_cdf_unscaled r cdf n).1 n
    (fun _ x => u16 ((x : Int) + increment))]

/-- Bound facts of C31 on an array `H` left by the renormalisation block and the array `F`
after the increments. -/
theorem cdf_total_core (cdf H F : Mem) (n increment val : Int)
    (hn1 : 1 ≤ n) (hn : n ≤ 16) (hi0 : 0 ≤ increment) (hi1 : increment ≤ 16368)
    (hmono : ∀ i j, 0 ≤ i → i ≤ j → j < n → cdf i ≤ cdf j)
    (hlast : cdf (n - 1) ≤ 32767)
    (hv : ∀ i, 0 ≤ i → i < n → ((H i : Nat) : Int)
      = if 32767 < (cdf (n - 1) : Int) + increment then (cdf i : Int) / 2 + i + 1
        else (cdf i : Int))
    (hf : ∀ i, F i = if val ≤ i ∧ i < n then u16 ((H i : Nat) + increment) else H i)
    (i : Int) (h0 : 0 ≤ i) (hi : i < n) :
    ((F i : Nat) : Int)
        = (if 32767 < (cdf (n - 1) : Int) + increment then (cdf i : Int) / 2 + i + 1
            else (cdf i : Int)) + (if val ≤ i then increment else 0)
      ∧ F i ≤ 32767 := by
  have hle : (cdf i : Int) ≤ (cdf (n - 1) : Int) := by
    exact_mod_cast hmono i (n - 1) h0 (by omega) (by omega)
  have hl : (cdf (n - 1) : Int) ≤ 32767 := by exact_mod_cast hlast
  have e := hv i h0 hi
  have hH : ((H i : Nat) : Int) + (if val ≤ i then increment else 0) ≤ 32767 := by
    rw [e]; split_ifs <;> omega
  have hH0 : (0 : Int) ≤ ((H i : Nat) : Int) := Int.natCast_nonneg _
  have hF : ((F i : Nat) : Int) = ((H i : Nat) : Int) + (if val ≤ i then increment else 0) := by
    rw [hf i]
    by_cases hval : val ≤ i
    · rw [if_pos ⟨hval, hi⟩, if_pos hval]
      rw [if_pos hval] at hH
      exact u16_small _ (by omega) (by omega)
    · rw [if_neg (fun h => hval h.1), if_neg hval, add_zero]
  constructor
  · rw [hF, e]
  · have : ((F i : Nat) : Int) ≤ 32767 := by rw [hF]; exact hH
    exact_mod_cast this

/-- C31: in `aom_decode_cdf_adapt_` with `n <= 16`, `0 <= increment <= 16368`, a decoded
value in `[0, n)` and a non-decreasing `cdf` with `cdf[n-1] <= 32767` on entry, every entry
`i` in `[0, n)` of the array returned is the exact sum (the renormalised
`(cdf[i] >> 1) + i + 1` when `cdf[n-1] + increment > 32767`, else `cdf[i]`, plus `increment`
from index `val` on) with no reduction modulo `2^16`, and is at most 32767; in particular
`cdf[n-1] <= 32767` after the call. -/
theorem cdf_adapt_total_within_15_bits {R : Type}
    (aom_read_cdf_unscaled : R → Mem → Int → Int × R)
    (r : R) (cdf : Mem) (n increment : Int)
    (hn : n ≤ 16) (hi0 : 0 ≤ increment) (hi1 : increment ≤ 16368)
    (hval0 : 0 ≤ (aom_read_cdf_unscaled r cdf n).1)
    (hval1 : (aom_read_cdf_unscaled r cdf n).1 < n)
    (hmono : ∀ i j, 0 ≤ i → i ≤ j → j < n → cdf i ≤ cdf j)
    (hlast : cdf (n - 1) ≤ 32767) :
    (aom_decode_cdf_adapt_ aom_read_cdf_unscaled r cdf n increment).2.2 (n - 1) ≤ 32767
    ∧ ∀ i, 0 ≤ i → i < n →
      (((aom_decode_cdf_adapt_ aom_read_cdf_unscaled r cdf n increment).2.2 i : Nat) : Int)
          = (if 32767 < (cdf (n - 1) : Int) + increment then (cdf i : Int) / 2 + i + 1
              else (cdf i : Int))
            + (if (aom_read_cdf_unscaled r cdf n).1 ≤ i then increment else 0)
        ∧ (aom_decode_cdf_adapt_ aom_read_cdf_unscaled r cdf n increment).2.2 i ≤ 32767 := by
  have hn1 : 1 ≤ n := by omega
  have hl : (cdf (n - 1) : Int) ≤ 32767 := by exact_mod_cast hlast
  have h16 : ∀ i, 0 ≤ i → i < n → cdf i < 65536 := fun i h0 hi =>
    lt_of_le_of_lt (le_trans (hmono i (n - 1) h0 (by omega) (by omega)) hlast) (by decide)
  have e32 : int32 ((cdf (n - 1) : Int) + increment) = (cdf (n - 1) : Int) + increment :=
    int32_id _ (by omega) (by omega)
  have hv : ∀ i, 0 ≤ i → i < n →
      (((if 32767 < int32 ((cdf (n - 1) : Int) + increment) then
          for_loop 0 n (fun i c => storeAt c i (u16 (sar (c i : Int) 1 + i + 1))) cdf
        else cdf) i : Nat) : Int)
      = if 32767 < (cdf (n - 1) : Int) + increment then (cdf i : Int) / 2 + i + 1
        else (cdf i : Int) := by
    intro i h0 hi
    rw [e32]
    by_cases hb : 32767 < (cdf (n - 1) : Int) + increment
    · rw [if_pos hb, if_pos hb]
      exact cdf_halved_value cdf n (by omega) h16 i h0 hi
    · rw [if_neg hb, if_neg hb]
  have core := cdf_total_core cdf _ _ n increment (aom_read_cdf_unscaled r cdf n).1
    hn1 hn hi0 hi1 hmono hlast hv
    (cdf_adapt_final_entry aom_read_cdf_unscaled r cdf n increment)
  exact ⟨(core (n - 1) (by omega) (by omega)).2, core⟩

theorem cdf_adapt_total_within_15_bits_witness :
    (aom_decode_cdf_adapt_ (fun (r : Unit) _ _ => (1, r)) ()
        (fun i => if i = 0 then 20000 else 32767) 2 16368).2.2 (2 - 1) ≤ 32767
    ∧ (((aom_decode_cdf_adapt_ (fun (r : Unit) _ _ => (1, r)) ()
        (fun i => if i = 0 then 20000 else 32767) 2 16368).2.2 1 : Nat) : Int) = 32753 := by
  have h := cdf_adapt_total_within_15_bits (fun (r : Unit) _ _ => (1, r)) ()
    (fun i => if i = 0 then 20000 else 32767) 2 16368 (by decide) (by decide) (by decide)
    (by decide) (by decide)
    (fun i j h0 hij hj => by
      have hi : i = 0 ∨ i = 1 := by omega
      have hj2 : j = 0 ∨ j = 1 := by omega
      rcases hi with hi | hi <;> rcases hj2 with hj2 | hj2 <;> subst hi <;> subst hj2 <;>
        first | decide | omega)
    (by decide)
  have h1 := (h.2 1 (by decide) (by decide)).1
  exact ⟨h.1, h1.trans (by decide)⟩

/-- C32: with `max == 0`, `generic_decode_` returns 0 at once: whatever the callees are,
the value is 0, the state of the entropy decoder and of the model is the one passed in, and
`*ex_q16` is the one passed in, for every `*ex_q16` and `integration`. -/
theorem generic_decode_max_zero {R : Type} (E : Callees R) (GENERIC_TABLES : Int) (r : R)
    (ex_q16 integration : Int) :
    generic_decode_ E GENERIC_TABLES r 0 ex_q16 integration = (0, r, ex_q16) := by
  unfold generic_decode_
  rw [if_pos rfl]

/-- The two 16-bit words of the 32-bit lane `i` of `x[j]` after `pack_8x1_pixels`. -/
theorem pack_8x1_lane_words (srcm : Mem) (p pitch : Int) (x : RegArr) (i j : Nat)
    (hi : i < 8) (hj : j < 4) :
    w16 (pack_8x1_pixels srcm p pitch x j) (2 * i)
        = srcm (p + ((i + 2 * j : Nat) : Int)) % 65536
    ∧ w16 (pack_8x1_pixels srcm p pitch x j) (2 * i + 1)
        = srcm (p + ((i + 2 * j + 1 : Nat) : Int)) % 65536 := by
  have e0 : 2 * i / 2 + 2 * j + 2 * i % 2 = i + 2 * j := by omega
  have e1 : (2 * i + 1) / 2 + 2 * j + (2 * i + 1) % 2 = i + 2 * j + 1 := by omega
  rw [pack_8x1_words srcm p pitch x j (2 * i) hj (by omega),
    pack_8x1_words srcm p pitch x j (2 * i + 1) hj (by omega), e0, e1]
  exact ⟨rfl, rfl⟩

/-- The two 16-bit words of the 32-bit lane `i` of `f[j]` after `pack_filters`. -/
theorem pack_filters_lane_words (filter : Nat → Int) (i j : Nat) (hi : i < 8) (hj : j < 4) :
    w16 (pack_filters filter j) (2 * i) = u16 (filter (2 * j))
    ∧ w16 (pack_filters filter j) (2 * i + 1) = u16 (filter (2 * j + 1)) := by
  have e0 : 2 * i % 2 = 0 := by omega
  have e1 : (2 * i + 1) % 2 = 1 := by omega
  rw [pack_filters_word filter j (2 * i) hj (by omega),
    pack_filters_word filter j (2 * i + 1) hj (by omega), e0, e1]
  exact ⟨rfl, rfl⟩

/-- Lane `i` of `filter_8x1_pixels` on the registers of `pack_8x1_pixels` and
`pack_filters` reads the samples `p + i .. p + i + 7` only. -/
theorem horiz8x1_lane_congr (f : Nat → Int) (srcm srcm2 : Mem) (p sp : Int) (x : RegArr)
    (i : Nat) (hi : i < 8)
    (h : ∀ t : Nat, t < 15 → srcm2 (p + (t : Int)) = srcm (p + (t : Int))) :
    s32 (d32 (filter_8x1_pixels (pack_8x1_pixels srcm2 p sp x) (pack_filters f)) i)
      = s32 (d32 (filter_8x1_pixels (pack_8x1_pixels srcm p sp x) (pack_filters f)) i) := by
  rw [horiz8x1_lane f srcm2 p sp x i hi, horiz8x1_lane f srcm p sp x i hi]
  have key : ∀ k : Nat, k < 8 → tap srcm2 (p + (i : Int)) 1 k = tap srcm (p + (i : Int)) 1 k := by
    intro k hk
    unfold tap
    have e : p + (i : Int) + (k : Int) * 1 = p + ((i + k : Nat) : Int) := by push_cast; ring
    rw [e, h (i + k) (by omega)]
  unfold conv8
  rw [key 0 (by norm_num), key 1 (by norm_num), key 2 (by norm_num), key 3 (by norm_num),
    key 4 (by norm_num), key 5 (by norm_num), key 6 (by norm_num), key 7 (by norm_num)]

/-- C34: for the 16 samples `s[t] = src[t]` loaded by `pack_8x1_pixels`, the 32-bit lane `i`
(`0 <= i < 8`) of `x[j]` (`j < 4`) holds the words `s[i+2j]` and `s[i+2j+1]`, and every
lane of `f[j]` after `pack_filters` holds the words `filter[2j]` and `filter[2j+1]`; hence
for 16-bit taps and samples below `2^12` lane `i` of `filter_8x1_pixels(x, f)` is the dot
product of the kernel with the window `s[i..i+7]`, rounded as `(dot + 64) >> 7`.  The
256-bit load covers `s[15]`, but neither the registers `x[0..3]` nor the lanes of the
result change when `s[15]` does. -/
theorem loader_layout (filter : Nat → Int) (srcm : Mem) (p pitch : Int) (x : RegArr) :
    (∀ i j, i < 8 → j < 4 →
      w16 (pack_8x1_pixels srcm p pitch x j) (2 * i)
          = srcm (p + ((i + 2 * j : Nat) : Int)) % 65536
      ∧ w16 (pack_8x1_pixels srcm p pitch x j) (2 * i + 1)
          = srcm (p + ((i + 2 * j + 1 : Nat) : Int)) % 65536
      ∧ w16 (pack_filters filter j) (2 * i) = u16 (filter (2 * j))
      ∧ w16 (pack_filters filter j) (2 * i + 1) = u16 (filter (2 * j + 1)))
    ∧ (∀ i, i < 8 → (∀ k, k < 8 → -32768 ≤ filter k ∧ filter k < 32768) →
        (∀ t : Nat, t < 15 → srcm (p + (t : Int)) < 4096) →
        s32 (d32 (filter_8x1_pixels (pack_8x1_pixels srcm p pitch x) (pack_filters filter)) i)
          = (∑ k in range 8, filter k * (srcm (p + ((i + k : Nat) : Int)) : Int) + 64) / 128)
    ∧ 0 < pack_pixels_with_format_loads p .PACK_8x1 pitch (fun _ => 0) (p + 15)
    ∧ (∀ srcm2 : Mem, (∀ t : Nat, t < 15 → srcm2 (p + (t : Int)) = srcm (p + (t : Int))) →
        (∀ j k, j < 4 → k < 16 →
          w16 (pack_8x1_pixels srcm2 p pitch x j) k = w16 (pack_8x1_pixels srcm p pitch x j) k)
        ∧ ∀ i, i < 8 →
          s32 (d32 (filter_8x1_pixels (pack_8x1_pixels srcm2 p pitch x) (pack_filters filter)) i)
            = s32 (d32 (filter_8x1_pixels (pack_8x1_pixels srcm p pitch x)
                (pack_filters filter)) i)) := by
  refine ⟨?_, ?_, ?_, ?_⟩
  · intro i j hi hj
    exact ⟨(pack_8x1_lane_words srcm p pitch x i j hi hj).1,
      (pack_8x1_lane_words srcm p pitch x i j hi hj).2,
      (pack_filters_lane_words filter i j hi hj).1,
      (pack_filters_lane_words filter i j hi hj).2⟩
  · intro i hi hf hs
    have hmod : ∀ t : Nat, t < 15 → srcm (p + (t : Int)) % 65536 = srcm (p + (t : Int)) :=
      fun t ht => Nat.mod_eq_of_lt (lt_trans (hs t ht) (by norm_num))
    rw [filter_8x1_pixels_exact _ _ filter (fun k => srcm (p + ((i + k : Nat) : Int))) i hf
      (fun k hk => hs (i + k) (by omega))
      (fun j hj => pack_filters_lane_words filter i j hi hj)
      (fun j hj => by
        have w := pack_8x1_lane_words srcm p pitch x i j hi hj
        rw [hmod (i + 2 * j) (by omega)] at w
        rw [hmod (i + 2 * j + 1) (by omega)] at w
        exact ⟨w.1, w.2⟩)]
  · unfold pack_pixels_with_format_loads
    rw [touch_pos]
    left
    constructor
    · omega
    · norm_num
  · intro srcm2 h
    constructor
    · intro j k hj hk
      rw [pack_8x1_words srcm2 p pitch x j k hj hk, pack_8x1_words srcm p pitch x j k hj hk,
        h (k / 2 + 2 * j + k % 2) (by omega)]
    · intro i hi
      exact horiz8x1_lane_congr filter srcm srcm2 p pitch x i hi h

theorem loader_layout_witness :
    w16 (pack_8x1_pixels (fun a => a.toNat) 0 0 (fun _ _ => 0) 1) (2 * 3)
        = (fun a => a.toNat : Mem) (0 + ((3 + 2 * 1 : Nat) : Int)) % 65536
    ∧ s32 (d32 (filter_8x1_pixels (pack_8x1_pixels (fun a => a.toNat) 0 0 (fun _ _ => 0))
        (pack_filters unitKernel)) 3)
      = (∑ k in range 8,
          unitKernel k * ((fun a => a.toNat : Mem) (0 + ((3 + k : Nat) : Int)) : Int) + 64) / 128
    ∧ 0 < pack_pixels_with_format_loads 0 .PACK_8x1 0 (fun _ => 0) (0 + 15) := by
  have h := loader_layout unitKernel (fun a => a.toNat) 0 0 (fun _ _ => 0)
  have h1 := (h.1 3 1 (by decide) (by decide)).1
  have h2 := h.2.1 3 (by decide)
    (fun k _ => by unfold unitKernel; split_ifs <;> decide)
    (fun t ht => by
      show (0 + (t : Int)).toNat < 4096
      omega)
  exact ⟨h1, h2, h.2.2.1⟩

end Aom
